import Mathlib

/-!
# UWB dual-antenna two-way-ranging firmware: codec, range arithmetic, tag and anchor engines,
telemetry and rotator

Shallow embedding of `Firmware/Core/Src/apps` (shared_functions.c, application_pdoa.c,
application_twr_tag.c, application_twr_pdoa_tag.c, application_twr_anchor.c) and of the serial
output functions of `Firmware/Core/Src/platform/uart_stdio.c`.

Conventions.
* A byte (`uint8_t`) is a `Fin 256`.
* `uint32_t` / `uint64_t` values are natural numbers; every C operation that can wrap is
  written with an explicit reduction modulo `2 ^ 32` / `2 ^ 64`.
* A pointer into a byte array is the list of bytes from the pointed-to element to the end
  of the array; reading past the end yields `none`.  A parameter declared as an array of five
  bytes is a function on `Fin 5`.
* `double` and `float` are IEEE-754 binary64 and binary32 in the default rounding mode, as on
  the ARM target.  A value is the exact non-negative fraction it denotes; every floating-point
  operation rounds its exact result to the format (round to nearest, ties to even).  A result
  is `none` where the C value is an infinity or a NaN, or where the C standard leaves the
  behaviour undefined (conversion of an out-of-range value to an integer type).
* One iteration of a main loop is a function from the variables and the answers of the
  hardware to the new variables and the list of outward actions.  The interrupt callbacks are
  separate transitions that run between iterations.
* A run of an engine is a list of steps, each an iteration or one of the two interrupt
  callbacks.  What a run shows of the sequence numbers (frames transmitted, frames accepted) is
  read off the outward actions of its iterations.
* The serial output of a function is the list of its calls of `stdio_write` and
  `stdio_write_binary`.  A write of bytes into an array records the bytes that fall past the
  end of the array next to the content of the array.
* Where an iteration reaches a call that writes past the end of an array, the behaviour of the
  program is undefined from that call on: the outward actions of the iteration end with the
  mark `undefined_behaviour`, its variables are those before the call, and nothing is derived
  about the program after such an iteration.  This concerns the telemetry build of the tag,
  whose receive blocks call `transmit_cir` for every frame that has passed validation.
-/

namespace UWB

/-! ## Machine integers -/

/-- A `uint8_t`. -/
abbrev Byte := Fin 256

/-- Conversion to `uint8_t`: keep the low eight bits. -/
def to_uint8 (x : Nat) : Byte := ⟨x % 256, Nat.mod_lt _ (by decide)⟩

/-- Conversion to `uint32_t`: reduce modulo `2 ^ 32`. -/
def to_uint32 (x : Int) : Nat := (x % 2 ^ 32).toNat

/-- Conversion to `int32_t`: the two's-complement value of the low 32 bits. -/
def to_int32 (x : Int) : Int := (x + 2 ^ 31) % 2 ^ 32 - 2 ^ 31

/-- Bitwise exclusive or of two `int32_t` values (on their 32-bit patterns). -/
def xor_int32 (a b : Int) : Int := to_int32 (Nat.xor (to_uint32 a) (to_uint32 b) : Nat)

/-- Left shift of a `uint32_t`. -/
def shl_u32 (x k : Nat) : Nat := (x <<< k) % 2 ^ 32

/-- Addition of `uint32_t` values. -/
def add_u32 (a b : Nat) : Nat := (a + b) % 2 ^ 32

/-- Subtraction of `uint32_t` values. -/
def sub_u32 (a b : Nat) : Nat := (a % 2 ^ 32 + (2 ^ 32 - b % 2 ^ 32)) % 2 ^ 32

/-- Addition of `uint64_t` values. -/
def add_u64 (a b : Nat) : Nat := (a + b) % 2 ^ 64

/-- Subtraction of `uint64_t` values. -/
def sub_u64 (a b : Nat) : Nat := (a % 2 ^ 64 + (2 ^ 64 - b % 2 ^ 64)) % 2 ^ 64

/-- Multiplication of `uint64_t` values. -/
def mul_u64 (a b : Nat) : Nat := (a * b) % 2 ^ 64

/-- Left shift of a `uint64_t`. -/
def shl_u64 (x k : Nat) : Nat := (x <<< k) % 2 ^ 64

/-- Right shift of a `uint64_t`. -/
def shr_u64 (x k : Nat) : Nat := (x % 2 ^ 64) >>> k

/-! ## shared_functions.c -/

/-- The function `decode_24bit` of shared_functions.c.  `buffer` is the memory from the
pointer on; the three reads `buffer[0..2]` must be inside it. -/
def decode_24bit (buffer : List Byte) : Option Int :=
  match buffer with
  | b0 :: b1 :: b2 :: _ =>
    -- const int32_t m = 1u << 23;
    let m : Int := to_int32 (shl_u32 1 23)
    -- int32_t value = (uint32_t)buffer[0] + ((uint32_t)buffer[1] << 8) + ((uint32_t)buffer[2] << 16);
    let value : Int :=
      to_int32 (add_u32 (add_u32 b0.val (shl_u32 b1.val 8)) (shl_u32 b2.val 16) : Nat)
    -- value = (value ^ m) - m;
    some (to_int32 (xor_int32 value m - m))
  | _ => none

/-- The function `decode_40bit_timestamp` of shared_functions.c, on its five-byte array. -/
def decode_40bit_timestamp (buffer : Fin 5 → Byte) : Nat :=
  add_u64 (add_u64 (add_u64 (add_u64 (buffer 0).val (shl_u64 (buffer 1).val 8))
    (shl_u64 (buffer 2).val 16)) (shl_u64 (buffer 3).val 24)) (shl_u64 (buffer 4).val 32)

/-! ## application_twr_anchor.c: the times embedded in the final frame -/

/-- Assignment `field[i] = b` on a five-byte frame field. -/
def set_byte (field : Fin 5 → Byte) (i : Fin 5) (b : Byte) : Fin 5 → Byte :=
  fun j => if j = i then b else field j

/-- The initial content `{ 0, 0, 0, 0, 0 }` of both time fields of `final_frame`. -/
def zero_field : Fin 5 → Byte := fun _ => 0

/-- The four assignments of application_twr_anchor.c lines 253-256 (and 258-261) that embed
a 64-bit time `T` in a five-byte field of `final_frame`.  Index 4 is not assigned. -/
def embed_time (field : Fin 5 → Byte) (T : Nat) : Fin 5 → Byte :=
  let f0 := set_byte field 0 (to_uint8 T)
  let f1 := set_byte f0 1 (to_uint8 (shr_u64 T 8))
  let f2 := set_byte f1 2 (to_uint8 (shr_u64 T 16))
  set_byte f2 3 (to_uint8 (shr_u64 T 32))

/-- The anchor's `round_tx_delay = 10llu*1000llu*US_TO_DWT_TIME`. -/
def anchor_round_tx_delay : Nat := mul_u64 (mul_u64 10 1000) 63898

/-- The times the anchor derives before sending the final frame
(application_twr_anchor.c lines 248-251). -/
structure anchor_times where
  tx_timestamp_final : Nat
  Tround1 : Nat
  Treply2 : Nat

/-- Lines 248-251 of application_twr_anchor.c. -/
def anchor_final_times (tx_timestamp_poll rx_timestamp_response : Nat) : anchor_times :=
  let tx_timestamp_final := add_u64 rx_timestamp_response anchor_round_tx_delay
  { tx_timestamp_final := tx_timestamp_final
    Tround1 := sub_u64 rx_timestamp_response tx_timestamp_poll
    Treply2 := sub_u64 tx_timestamp_final rx_timestamp_response }

/-! ## Floating point: `double` and `float` as exactly rounded fractions -/

/-- A non-negative fraction `num / den` (not normalised).  A `double` or `float` value is
the fraction it denotes. -/
structure Frac where
  num : Nat
  den : Nat
deriving DecidableEq, Repr

/-- The rational number a fraction denotes. -/
def Frac.toRat (x : Frac) : ℚ := (x.num : ℚ) / (x.den : ℚ)

/-- A binary floating-point format: precision in bits and the exponent range of its
normal numbers. -/
structure FloatFormat where
  prec : Nat
  emin : Int
  emax : Int

/-- IEEE-754 binary32, the C type `float` of the target. -/
def binary32 : FloatFormat := ⟨24, -126, 127⟩

/-- IEEE-754 binary64, the C type `double` of the target. -/
def binary64 : FloatFormat := ⟨53, -1022, 1023⟩

/-- Number of halvings that bring `n` below 2; `fuel` bounds the recursion. -/
def log2Fuel : Nat → Nat → Nat
  | 0, _ => 0
  | fuel + 1, n => if n < 2 then 0 else log2Fuel fuel (n / 2) + 1

/-- Integer binary logarithm `floor (log2 n)` for `n ≥ 1`. -/
def ilog2 (n : Nat) : Nat := log2Fuel n n

/-- The fraction `x / 2 ^ e`. -/
def scaleDown (x : Frac) (e : Int) : Frac :=
  if 0 ≤ e then ⟨x.num, x.den * 2 ^ e.toNat⟩ else ⟨x.num * 2 ^ (-e).toNat, x.den⟩

/-- Binary exponent `floor (log2 (num / den))` of a positive fraction: the difference `k` of
the integer logarithms, or `k - 1` when `x / 2 ^ k` is below one. -/
def floorLog2 (x : Frac) : Int :=
  let k : Int := (ilog2 x.num : Int) - (ilog2 x.den : Int)
  if (scaleDown x k).den ≤ (scaleDown x k).num then k else k - 1

/-- The integer nearest to a fraction, ties to the even one. -/
def roundHalfEven (x : Frac) : Nat :=
  let q := x.num / x.den
  let r := x.num % x.den
  if 2 * r < x.den then q else if x.den < 2 * r then q + 1 else if q % 2 = 0 then q else q + 1

/-- The fraction `m * 2 ^ e`. -/
def dyadic (m : Nat) (e : Int) : Frac :=
  if 0 ≤ e then ⟨m * 2 ^ e.toNat, 1⟩ else ⟨m, 2 ^ (-e).toNat⟩

/-- Rounding of an exact non-negative result to format `F`: round to nearest, ties to even,
with gradual underflow below `2 ^ emin`.  The result is `none` when the C value is not a
finite number: a zero denominator (division by zero gives an infinity or a NaN) or a rounded
magnitude of `2 ^ (emax + 1)` or more (overflow to infinity). -/
def fp_round (F : FloatFormat) (x : Frac) : Option Frac :=
  if x.den = 0 then none
  else if x.num = 0 then some ⟨0, 1⟩
  else
    let e : Int := max (floorLog2 x) F.emin - ((F.prec : Int) - 1)
    let m := roundHalfEven (scaleDown x e)
    let r : Frac := dyadic m e
    if m = 0 then some ⟨0, 1⟩
    else if floorLog2 r ≤ F.emax then some r else none

/-- Conversion `(double)n` of a `uint64_t`. -/
def double_of_u64 (n : Nat) : Option Frac := fp_round binary64 ⟨n, 1⟩

/-- Division `a / b` of two `double` values. -/
def double_div (a b : Frac) : Option Frac := fp_round binary64 ⟨a.num * b.den, a.den * b.num⟩

/-- Multiplication `a * b` of two `double` values. -/
def double_mul (a b : Frac) : Option Frac := fp_round binary64 ⟨a.num * b.num, a.den * b.den⟩

/-- Conversion of a `double` to `float` (initialisation of a `float` object). -/
def float_of_double (a : Frac) : Option Frac := fp_round binary32 a

/-- The `double` constant written `299.792458` in the source. -/
def double_299_792458 : Option Frac := fp_round binary64 ⟨299792458, 1000000⟩

/-- Conversion `(uint32_t)a` of a finite non-negative `double`: the fractional part is
discarded; the behaviour is undefined (`none`) when the integral part is not below `2 ^ 32`. -/
def u32_of_double (a : Frac) : Option Nat :=
  if a.den = 0 then none
  else if a.num / a.den < 2 ^ 32 then some (a.num / a.den) else none

/-! ## The range computation of the tag (TWR_FINAL_STATE) -/

/-- The value `subtraction` of application_twr_pdoa_tag.c line 345 (application_twr_tag.c
line 309). -/
def range_subtraction (Treply1 Treply2 Tround1 Tround2 : Nat) : Nat :=
  sub_u64 (mul_u64 Tround1 Tround2) (mul_u64 Treply1 Treply2)

/-- The value `denominator` of application_twr_pdoa_tag.c line 346 (application_twr_tag.c
line 310). -/
def range_denominator (Treply1 Treply2 Tround1 Tround2 : Nat) : Nat :=
  add_u64 (add_u64 (add_u64 Tround1 Tround2) Treply1) Treply2

/-- The value `tprop_ns*299.792458`, a `double`, of line 351 (line 315 in the bare tag), with
`const float tprop_ns = ((double)subtraction) / (denominator << 6)`, as a function of the
two 64-bit integers `subtraction` and `denominator << 6`. -/
def tprop_product (subtraction denominator_shl6 : Nat) : Option Frac := do
  let n ← double_of_u64 subtraction
  let d ← double_of_u64 denominator_shl6
  let q ← double_div n d
  let tprop_ns ← float_of_double q
  let c ← double_299_792458
  double_mul tprop_ns c

/-- The `double` value `tprop_ns*299.792458` of a round with the given four times. -/
def range_product (Treply1 Treply2 Tround1 Tround2 : Nat) : Option Frac :=
  tprop_product (range_subtraction Treply1 Treply2 Tround1 Tround2)
    (shl_u64 (range_denominator Treply1 Treply2 Tround1 Tround2) 6)

/-- The value `dist_mm = (uint32_t)(tprop_ns*299.792458)`; `none` where the C expression has
no defined value. -/
def range_dist_mm (Treply1 Treply2 Tround1 Tround2 : Nat) : Option Nat :=
  (range_product Treply1 Treply2 Tround1 Tround2).bind u32_of_double

/-- The exact value `num / (den * 64) * 299.792458` that the specification writes for the
range, with `num` and `den` the unbounded integers `Tround1*Tround2 - Treply1*Treply2` and
`Tround1 + Tround2 + Treply1 + Treply2`. -/
def spec_range_exact (Treply1 Treply2 Tround1 Tround2 : Nat) : ℚ :=
  (((Tround1 : ℚ) * Tround2 - (Treply1 : ℚ) * Treply2)
      / (((Tround1 : ℚ) + Tround2 + Treply1 + Treply2) * 64))
    * (299792458 / 1000000)

/-- The exact value `subtraction / (denominator << 6) * 299.792458` of the two 64-bit integers
the code divides (both reduced modulo `2 ^ 64` as in the code). -/
def range_exact (Treply1 Treply2 Tround1 Tround2 : Nat) : ℚ :=
  ((range_subtraction Treply1 Treply2 Tround1 Tround2 : ℚ)
      / (shl_u64 (range_denominator Treply1 Treply2 Tround1 Tround2) 6 : ℚ))
    * (299792458 / 1000000)

/-! ## Frames -/

/-- Modelled from the spec: `twr_base_frame_t` is declared in application_config.h, which is
not among the sources.  The layout follows section 3 of the specification and the order of
the initialisers of `sync_frame`, `response_frame` and `poll_frame`: frame control (2 bytes),
sequence number (1), PAN id (2), destination address (2), source address (2), function code
(1), without padding. -/
structure twr_base_frame_t where
  frame_control : Byte × Byte
  sequence_number : Byte
  pan_id : Byte × Byte
  destination : Byte × Byte
  source : Byte × Byte
  twr_function_code : Byte
deriving DecidableEq

/-- Modelled from the spec: `sizeof(twr_base_frame_t)`, ten bytes. -/
def sizeof_twr_base_frame_t : Nat := 10

/-- Modelled from the spec: `sizeof(twr_final_frame_t)`, the base frame followed by the two
five-byte fields `poll_resp_round_time` and `resp_final_reply_time`. -/
def sizeof_twr_final_frame_t : Nat := 20

/-- Modelled from the spec: the bytes of a base frame in the order of its layout, as
`dwt_writetxdata` copies them. -/
def twr_base_frame_t.bytes (f : twr_base_frame_t) : List Byte :=
  [f.frame_control.1, f.frame_control.2, f.sequence_number, f.pan_id.1, f.pan_id.2,
   f.destination.1, f.destination.2, f.source.1, f.source.2, f.twr_function_code]

/-- Modelled from the spec: the member `sequence_number` read through
`(twr_base_frame_t *)rx_buffer`, at offset 2 of the layout. -/
def rx_sequence_number (rx_buffer : Nat → Byte) : Byte := rx_buffer 2

/-- Modelled from the spec: the member `twr_function_code` read through
`(twr_base_frame_t *)rx_buffer`, at offset 9 of the layout. -/
def rx_twr_function_code (rx_buffer : Nat → Byte) : Byte := rx_buffer 9

/-- Modelled from the spec: the member `poll_resp_round_time` read through
`(twr_final_frame_t *)rx_buffer`, the five bytes from offset 10 of the layout. -/
def rx_poll_resp_round_time (rx_buffer : Nat → Byte) : Fin 5 → Byte :=
  fun j => rx_buffer (10 + j.val)

/-- Modelled from the spec: the member `resp_final_reply_time` read through
`(twr_final_frame_t *)rx_buffer`, the five bytes from offset 15 of the layout. -/
def rx_resp_final_reply_time (rx_buffer : Nat → Byte) : Fin 5 → Byte :=
  fun j => rx_buffer (15 + j.val)

/-- Modelled from the spec: the radio driver is an external collaborator and not among the
sources.  The call `dwt_readrxdata(buffer, length, 0)` replaces the first `length` bytes of
the buffer by the bytes of the received frame. -/
def dwt_readrxdata (buffer frame : Nat → Byte) (length : Nat) : Nat → Byte :=
  fun i => if i < length then frame i else buffer i

/-! ## The tag engine (application_twr_tag.c and application_twr_pdoa_tag.c)

The two tag builds share the text of their main loop; they differ in the constants collected
in `TagBuild` and in the telemetry the full build emits. -/

/-- The type `enum state_t`. -/
inductive state_t
  | TWR_SYNC_STATE
  | TWR_POLL_RESPONSE_STATE
  | TWR_FINAL_STATE
  | TWR_ERROR
deriving DecidableEq, Repr

/-- What distinguishes the two tag builds. -/
structure TagBuild where
  round_tx_delay : Nat
  ranging_timeout : Nat
  telemetry : Bool
  sleep_after_round : Nat
  sleep_after_error : Nat

/-- The build of application_twr_tag.c: `round_tx_delay = 10llu*1000llu*US_TO_DWT_TIME`,
`ranging_timeout = 2000`, `Sleep(500)` after a round and `Sleep(3000)` after an error. -/
def twr_tag : TagBuild :=
  { round_tx_delay := mul_u64 (mul_u64 10 1000) 63898
    ranging_timeout := 2000
    telemetry := false
    sleep_after_round := 500
    sleep_after_error := 3000 }

/-- The build of application_twr_pdoa_tag.c: `round_tx_delay = 100lu*1000llu*US_TO_DWT_TIME`,
`ranging_timeout = 1000`, `Sleep(5)` after a round (`ROTATE` is not defined) and `Sleep(200)`
after an error. -/
def twr_pdoa_tag : TagBuild :=
  { round_tx_delay := mul_u64 (mul_u64 100 1000) 63898
    ranging_timeout := 1000
    telemetry := true
    sleep_after_round := 5
    sleep_after_error := 200 }

/-- The file-scope and `dw_main`-local variables of a tag that live across iterations. -/
structure TagState where
  state : state_t
  tx_done : Nat
  rx_done : Nat
  new_frame_length : Nat
  sync_frame : twr_base_frame_t
  response_frame : twr_base_frame_t
  rx_timestamp_poll : Nat
  tx_timestamp_response : Nat
  rx_timestamp_final : Nat
  next_sequence_number : Byte
  rx_buffer : Nat → Byte
  last_sync_time : Nat
  twr_count : Nat
  current_rotation : Nat

/-- What the hardware answers during one iteration of the main loop: the three readings of
`HAL_GetTick()` (timeout test, timeout branch, Sync branch), the result of `dwt_starttx`, the
value of `dwt_readstsquality`, the received frame, and the receive and transmit timestamps. -/
structure TagEnv where
  tick_check : Nat
  tick_reset : Nat
  tick_sync : Nat
  starttx_ok : Bool
  sts_quality : Int
  rx_frame : Nat → Byte
  rx_timestamp : Fin 5 → Byte
  tx_timestamp : Fin 5 → Byte

/-- What one iteration does to the outside, in order.  The last constructor is not an action:
`undefined_behaviour` marks the point from which the C standard leaves the behaviour of the
program undefined.  An iteration whose output contains it ends there; the variables it returns
are those at that point, and nothing is said of what the program does afterwards. -/
inductive Event
  | stdio_write (text : String)
  | forcetrxoff
  | starttx (tx_data : List Byte) (tx_frame_length : Nat) (delayed_time : Option Nat)
      (accepted : Bool)
  | transmit_rx_diagnostics
  | transmit_cir
  | twr_blob (Treply1 Treply2 Tround1 Tround2 : Nat) (dist_mm : Option Nat)
      (twr_count rotation : Nat)
  | print_dist_mm (dist_mm : Option Nat)
  | print_new_frame (sequence_number : Byte)
  | sleep (ms : Nat)
  | undefined_behaviour

/-- An event is a transmission when it is a `dwt_starttx` call the radio accepted. -/
def Event.is_tx : Event → Bool
  | .starttx _ _ _ accepted => accepted
  | _ => false

/-- Whether an event is the mark of undefined behaviour. -/
def Event.is_undefined : Event → Bool
  | .undefined_behaviour => true
  | _ => false

/-- The interrupt callback `tx_done_cb`. -/
def tx_done_cb (s : TagState) : TagState := { s with tx_done := 1 }

/-- The interrupt callback `rx_ok_cb`, with `cb_data->datalength`. -/
def rx_ok_cb (s : TagState) (datalength : Nat) : TagState :=
  { s with rx_done := 1, new_frame_length := datalength % 2 ^ 16 }

/-- The timeout test at the head of the loop body (pdoa tag lines 172-182, bare tag lines
148-158).  The difference is a `uint32_t`. -/
def tag_timeout_check (B : TagBuild) (env : TagEnv) (s : TagState) : TagState × List Event :=
  if sub_u32 env.tick_check s.last_sync_time > B.ranging_timeout then
    ({ s with
        last_sync_time := env.tick_reset
        state := .TWR_SYNC_STATE
        rx_timestamp_poll := 0
        tx_timestamp_response := 0
        rx_timestamp_final := 0
        tx_done := 0
        rx_done := 0 },
      [.forcetrxoff, .stdio_write "Timeout -> reset\n"])
  else (s, [])

/-- The branch `case TWR_SYNC_STATE`. -/
def tag_sync (env : TagEnv) (s : TagState) : TagState × List Event :=
  let s1 : TagState :=
    { s with
        last_sync_time := env.tick_sync
        sync_frame := { s.sync_frame with sequence_number := s.next_sequence_number }
        next_sequence_number := to_uint8 (s.next_sequence_number.val + 1)
        state := .TWR_POLL_RESPONSE_STATE }
  let tx := Event.starttx s1.sync_frame.bytes (sizeof_twr_base_frame_t + 2) none env.starttx_ok
  if env.starttx_ok then (s1, [tx])
  else ({ s1 with state := .TWR_ERROR },
        [tx, .stdio_write "TX ERR: could not send sync frame"])

/-- The block `if (tx_done == 1)` of `case TWR_POLL_RESPONSE_STATE`. -/
def tag_poll_tx (s : TagState) : TagState × List Event :=
  if s.tx_done = 1 then ({ s with tx_done := 2 }, [.stdio_write "TX: Sync frame\n"])
  else (s, [])

/-- The result of a receive block: it falls through to the rest of the branch, or it ends the
iteration with `continue` after a validation failure, or it reaches a call whose behaviour is
undefined; `s` and `out` are then the variables and the outward actions up to that call, the
mark `undefined_behaviour` last. -/
inductive RxOutcome
  | fall_through (s : TagState) (out : List Event)
  | continue_loop (s : TagState) (out : List Event)
  | undefined (s : TagState) (out : List Event)

/-- The block `if (rx_done == 1) { ... }` of both receiving branches: `expected_length` and
`expected_code` are `sizeof(...)+2` and the function code of the awaited frame, `store` records
the decoded receive timestamp, `wrong_text` and `accept_text` are the lines written for a wrong
function code and on acceptance.

In the bare build a frame that has passed the four checks is accepted: the timestamp is
stored, `next_sequence_number++; rx_done = 2;`.  In the telemetry build the source calls
`transmit_rx_diagnostics(); transmit_cir();` between the two (pdoa tag lines 249-250 and
328-329).  The call of `transmit_cir` asks the accumulator read for `12288+1` bytes into the
local array `cir_buffer[12288]` (lines 523-524, `transmit_cir_read` below), which writes one
byte past the end of the array on the stack: the behaviour of the program is undefined from
that call on.  The outcome is then `undefined`, with the variables and the outward actions up
to the call; the statements `next_sequence_number++; rx_done = 2;` that follow it in the
source are not reached in defined behaviour. -/
def tag_rx_block (B : TagBuild) (env : TagEnv) (expected_length : Nat) (expected_code : Byte)
    (wrong_text accept_text : String) (store : TagState → Nat → TagState) (s : TagState) :
    RxOutcome :=
  if s.rx_done = 1 then
    let s0 : TagState := { s with rx_done := 0 }
    if s0.new_frame_length ≠ expected_length then
      .continue_loop { s0 with state := .TWR_ERROR } [.stdio_write "RX ERR: wrong frame length\n"]
    else if env.sts_quality < 0 then
      .continue_loop { s0 with state := .TWR_ERROR } [.stdio_write "RX ERR: bad STS quality\n"]
    else
      let s1 : TagState :=
        { s0 with rx_buffer := dwt_readrxdata s0.rx_buffer env.rx_frame s0.new_frame_length }
      if rx_twr_function_code s1.rx_buffer ≠ expected_code then
        .continue_loop { s1 with state := .TWR_ERROR } [.stdio_write wrong_text]
      else if rx_sequence_number s1.rx_buffer ≠ s1.next_sequence_number then
        .continue_loop { s1 with state := .TWR_ERROR }
          [.stdio_write "RX ERR: wrong sequence number\n"]
      else
        let s2 := store s1 (decode_40bit_timestamp env.rx_timestamp)
        if B.telemetry then
          .undefined s2
            [.stdio_write accept_text, .print_new_frame s2.next_sequence_number,
             .transmit_rx_diagnostics, .transmit_cir, .undefined_behaviour]
        else
          .fall_through
            { s2 with
                next_sequence_number := to_uint8 (s2.next_sequence_number.val + 1)
                rx_done := 2 }
            [.stdio_write accept_text]
  else .fall_through s []

/-- The receive block of `case TWR_POLL_RESPONSE_STATE` (pdoa tag lines 207-255, bare tag
lines 183-225): a poll frame, function code `0x21`. -/
def tag_poll_rx (B : TagBuild) (env : TagEnv) (s : TagState) : RxOutcome :=
  tag_rx_block B env (sizeof_twr_base_frame_t + 2) 0x21
    "RX ERR: wrong frame (expected poll)\n" "RX: Poll frame\n"
    (fun t ts => { t with rx_timestamp_poll := ts }) s

/-- The receive block of `case TWR_FINAL_STATE` (pdoa tag lines 286-334, bare tag lines
256-298): a final frame, function code `0x23`. -/
def tag_final_rx (B : TagBuild) (env : TagEnv) (s : TagState) : RxOutcome :=
  tag_rx_block B env (sizeof_twr_final_frame_t + 2) 0x23
    "RX ERR: wrong frame (expected final)\n" "RX: Final frame\n"
    (fun t ts => { t with rx_timestamp_final := ts }) s

/-- The value handed to `dwt_setdelayedtrxtime` for the response frame:
`(uint32_t)((rx_timestamp_poll + round_tx_delay) >> 8)`. -/
def tag_response_tx_time (B : TagBuild) (rx_timestamp_poll : Nat) : Nat :=
  (shr_u64 (add_u64 rx_timestamp_poll B.round_tx_delay) 8) % 2 ^ 32

/-- The block `if ((tx_done == 2) && (rx_done == 2))` of `case TWR_POLL_RESPONSE_STATE`:
send the response frame, delayed. -/
def tag_poll_pair (B : TagBuild) (env : TagEnv) (s : TagState) : TagState × List Event :=
  if s.tx_done = 2 ∧ s.rx_done = 2 then
    let s1 : TagState :=
      { s with
          tx_done := 0
          rx_done := 0
          response_frame := { s.response_frame with sequence_number := s.next_sequence_number }
          next_sequence_number := to_uint8 (s.next_sequence_number.val + 1)
          state := .TWR_FINAL_STATE }
    let tx := Event.starttx s1.response_frame.bytes (sizeof_twr_base_frame_t + 2)
      (some (tag_response_tx_time B s1.rx_timestamp_poll)) env.starttx_ok
    if env.starttx_ok then (s1, [tx])
    else ({ s1 with state := .TWR_ERROR },
          [tx, .stdio_write "TX ERR: delayed send time missed\n"])
  else (s, [])

/-- The branch `case TWR_POLL_RESPONSE_STATE`: the three blocks in sequence; a `continue` in
the receive block skips the third, and so does undefined behaviour in it. -/
def tag_poll_response (B : TagBuild) (env : TagEnv) (s : TagState) : TagState × List Event :=
  match tag_poll_rx B env (tag_poll_tx s).1 with
  | .continue_loop s2 out2 => (s2, (tag_poll_tx s).2 ++ out2)
  | .undefined s2 out2 => (s2, (tag_poll_tx s).2 ++ out2)
  | .fall_through s2 out2 =>
    ((tag_poll_pair B env s2).1, (tag_poll_tx s).2 ++ out2 ++ (tag_poll_pair B env s2).2)

/-- The block `if (tx_done == 1)` of `case TWR_FINAL_STATE`. -/
def tag_final_tx (env : TagEnv) (s : TagState) : TagState × List Event :=
  if s.tx_done = 1 then
    ({ s with tx_done := 2, tx_timestamp_response := decode_40bit_timestamp env.tx_timestamp },
      [.stdio_write "TX: Response frame\n"])
  else (s, [])

/-- The four times and the range of a round (the members of `meas_twr_t` the computation
fills). -/
structure twr_result where
  Treply1 : Nat
  Treply2 : Nat
  Tround1 : Nat
  Tround2 : Nat
  dist_mm : Option Nat

/-- The computation of pdoa tag lines 337-351 (bare tag lines 301-315). -/
def tag_range (rx_timestamp_poll tx_timestamp_response rx_timestamp_final : Nat)
    (rx_buffer : Nat → Byte) : twr_result :=
  let Treply1 := sub_u64 tx_timestamp_response rx_timestamp_poll
  let Tround2 := sub_u64 rx_timestamp_final tx_timestamp_response
  let Tround1 := decode_40bit_timestamp (rx_poll_resp_round_time rx_buffer)
  let Treply2 := decode_40bit_timestamp (rx_resp_final_reply_time rx_buffer)
  { Treply1 := Treply1
    Treply2 := Treply2
    Tround1 := Tround1
    Tround2 := Tround2
    dist_mm := range_dist_mm Treply1 Treply2 Tround1 Tround2 }

/-- The block `if ((tx_done == 2) && (rx_done == 2))` of `case TWR_FINAL_STATE`: compute and
report the range, then begin the next exchange. -/
def tag_final_pair (B : TagBuild) (s : TagState) : TagState × List Event :=
  if s.tx_done = 2 ∧ s.rx_done = 2 then
    let r := tag_range s.rx_timestamp_poll s.tx_timestamp_response s.rx_timestamp_final
      s.rx_buffer
    if B.telemetry then
      ({ s with
          twr_count := (s.twr_count + 1) % 2 ^ 16
          tx_done := 0
          rx_done := 0
          state := .TWR_SYNC_STATE },
        [.stdio_write "BLOB / twr / v2 / 40\n",
         .twr_blob r.Treply1 r.Treply2 r.Tround1 r.Tround2 r.dist_mm s.twr_count
            s.current_rotation,
         .stdio_write "\n",
         .print_dist_mm r.dist_mm,
         .sleep B.sleep_after_round])
    else
      ({ s with tx_done := 0, rx_done := 0, state := .TWR_SYNC_STATE },
        [.print_dist_mm r.dist_mm, .sleep B.sleep_after_round])
  else (s, [])

/-- The branch `case TWR_FINAL_STATE`: the three blocks in sequence; a `continue` in the
receive block skips the third, and so does undefined behaviour in it. -/
def tag_final (B : TagBuild) (env : TagEnv) (s : TagState) : TagState × List Event :=
  match tag_final_rx B env (tag_final_tx env s).1 with
  | .continue_loop s2 out2 => (s2, (tag_final_tx env s).2 ++ out2)
  | .undefined s2 out2 => (s2, (tag_final_tx env s).2 ++ out2)
  | .fall_through s2 out2 =>
    ((tag_final_pair B s2).1, (tag_final_tx env s).2 ++ out2 ++ (tag_final_pair B s2).2)

/-- The branch `case TWR_ERROR`. -/
def tag_error (B : TagBuild) (s : TagState) : TagState × List Event :=
  ({ s with state := .TWR_SYNC_STATE },
    [.forcetrxoff, .stdio_write "Ranging error -> reset\n", .sleep B.sleep_after_error])

/-- The statement `switch (state)` of the loop body. -/
def tag_branch (B : TagBuild) (env : TagEnv) (s : TagState) : TagState × List Event :=
  match s.state with
  | .TWR_SYNC_STATE => tag_sync env s
  | .TWR_POLL_RESPONSE_STATE => tag_poll_response B env s
  | .TWR_FINAL_STATE => tag_final B env s
  | .TWR_ERROR => tag_error B s

/-- One iteration of the `while (1)` loop of `dw_main`: the timeout test, then the branch of
the current state.  Interrupt callbacks run between iterations. -/
def tag_iteration (B : TagBuild) (env : TagEnv) (s : TagState) : TagState × List Event :=
  ((tag_branch B env (tag_timeout_check B env s).1).1,
    (tag_timeout_check B env s).2 ++ (tag_branch B env (tag_timeout_check B env s).1).2)

/-- The initial value of `sync_frame` in both tag builds. -/
def tag_sync_frame : twr_base_frame_t :=
  { frame_control := (0x41, 0x88)
    sequence_number := 0
    pan_id := (0x58, 0x58)
    destination := (0x41, 0x41)
    source := (0x54, 0x54)
    twr_function_code := 0x20 }

/-- The initial value of `response_frame` in both tag builds. -/
def tag_response_frame : twr_base_frame_t :=
  { tag_sync_frame with twr_function_code := 0x10 }

/-- The state of a tag when `dw_main` enters its loop; `tick` is the value `HAL_GetTick()`
returned for the initialisation of `last_sync_time`. -/
def tag_initial_state (tick : Nat) : TagState :=
  { state := .TWR_SYNC_STATE
    tx_done := 0
    rx_done := 0
    new_frame_length := 0
    sync_frame := tag_sync_frame
    response_frame := tag_response_frame
    rx_timestamp_poll := 0
    tx_timestamp_response := 0
    rx_timestamp_final := 0
    next_sequence_number := 0
    rx_buffer := fun _ => 0
    last_sync_time := tick
    twr_count := 0
    current_rotation := 0 }

/-! ## application_pdoa.c: decoding of the preamble CIR -/

/-- The constant `CIR_IP_SAMPLES`. -/
def CIR_IP_SAMPLES : Nat := 1016

/-- What one pass of the CIR loop decodes: the loop variable `i` (the printed sample number is
`(i-1)/6`) and the two decoded components. -/
structure cir_line where
  i : Nat
  real : Int
  imag : Int
deriving DecidableEq, Repr

/-- The loop `for (uint16_t i = 1; i <= samples*6; i += 6)` of application_pdoa.c lines
191-198, from the value `i` of the loop variable on.  `cir_buffer` is the whole array;
`&cir_buffer[i]` is its suffix from index `i`.  The result is `none` when a read falls
outside the array, or when `fuel` passes do not reach the end of the loop. -/
def cir_decode_loop (cir_buffer : List Byte) (samples : Nat) : Nat → Nat → Option (List cir_line)
  | 0, _ => none
  | fuel + 1, i =>
    if i ≤ samples * 6 then
      match decode_24bit (cir_buffer.drop i), decode_24bit (cir_buffer.drop (i + 3)) with
      | some real, some imag =>
        (cir_decode_loop cir_buffer samples fuel ((i + 6) % 2 ^ 16)).map
          (fun rest => { i := i, real := real, imag := imag } :: rest)
      | _, _ => none
    else some []

/-- The specification's encoding of one CIR component: the 24-bit two's-complement value,
little-endian. -/
def spec_encode_24bit (v : Int) : List Byte :=
  [to_uint8 (v % 2 ^ 24).toNat, to_uint8 ((v % 2 ^ 24).toNat / 256),
   to_uint8 ((v % 2 ^ 24).toNat / 65536)]

/-- The specification's accumulator data for a sequence of complex samples: six bytes per
sample, real part first. -/
def spec_cir_bytes : List (Int × Int) → List Byte
  | [] => []
  | s :: rest => spec_encode_24bit s.1 ++ spec_encode_24bit s.2 ++ spec_cir_bytes rest

/-- The lines the specification expects from the decoding of a sequence of samples that
starts at index `i` of the buffer. -/
def spec_cir_lines : Nat → List (Int × Int) → List cir_line
  | _, [] => []
  | i, s :: rest => { i := i, real := s.1, imag := s.2 } :: spec_cir_lines (i + 6) rest

/-! ## Specification-side notions used in the statements -/

/-- The little-endian value `b[0] + 256*b[1] + 65536*b[2]` of a three-byte buffer. -/
def le_value_24 (b0 b1 b2 : Byte) : Nat := b0.val + 256 * b1.val + 65536 * b2.val

/-- The difference of two device times modulo `2 ^ 40`, as the specification defines it. -/
def spec_diff_mod_40 (later earlier : Nat) : Nat :=
  (((later : Int) - (earlier : Int)) % 2 ^ 40).toNat

/-- The specification's acceptance condition for a poll frame: reported length
`sizeof(twr_base_frame_t)+2`, STS quality at least 0, function code `0x21`, sequence number
equal to `next_sequence_number`. -/
def spec_poll_valid (env : TagEnv) (s : TagState) : Prop :=
  s.new_frame_length = sizeof_twr_base_frame_t + 2 ∧ 0 ≤ env.sts_quality
    ∧ env.rx_frame 9 = 0x21 ∧ env.rx_frame 2 = s.next_sequence_number

/-- No event of the list is an accepted transmission. -/
def no_frame_transmitted (out : List Event) : Prop := ∀ e ∈ out, e.is_tx = false

/-! ## Concrete inputs used as witnesses -/

/-- The hardware answers of an iteration that receives a poll with `sts_quality() = -5`. -/
def bad_sts_env : TagEnv :=
  { tick_check := 0
    tick_reset := 0
    tick_sync := 0
    starttx_ok := true
    sts_quality := -5
    rx_frame := fun i => if i = 9 then 0x21 else if i = 2 then 1 else 0
    rx_timestamp := fun _ => 0
    tx_timestamp := fun _ => 0 }

/-- The hardware answers of an iteration that receives the same poll with STS quality 3. -/
def good_sts_env : TagEnv := { bad_sts_env with sts_quality := 3 }

/-- A tag waiting for the poll frame, a frame of 12 bytes just announced by the interrupt. -/
def poll_pending_state : TagState :=
  { tag_initial_state 0 with
      state := .TWR_POLL_RESPONSE_STATE
      rx_done := 1
      new_frame_length := 12
      next_sequence_number := 1 }

/-! ## The anchor engine (application_twr_anchor.c) -/

/-- Modelled from the spec: `twr_final_frame_t` is declared in application_config.h, which is
not among the sources.  The layout follows section 3 of the specification and the order of
the initialiser of `final_frame`: the members of the base frame followed by the five-byte
fields `poll_resp_round_time` and `resp_final_reply_time`, without padding. -/
structure twr_final_frame_t where
  base : twr_base_frame_t
  poll_resp_round_time : Fin 5 → Byte
  resp_final_reply_time : Fin 5 → Byte

/-- Modelled from the spec: the bytes of a final frame in the order of its layout, as
`dwt_writetxdata` copies them. -/
def twr_final_frame_t.bytes (f : twr_final_frame_t) : List Byte :=
  f.base.bytes ++ List.ofFn f.poll_resp_round_time ++ List.ofFn f.resp_final_reply_time

/-- The file-scope and `dw_main`-local variables of the anchor that live across iterations. -/
structure AnchorState where
  state : state_t
  tx_done : Nat
  new_frame : Nat
  new_frame_length : Nat
  poll_frame : twr_base_frame_t
  final_frame : twr_final_frame_t
  tx_timestamp_poll : Nat
  rx_timestamp_response : Nat
  tx_timestamp_final : Nat
  next_sequence_number : Byte
  rx_buffer : Nat → Byte

/-- What the hardware answers during one iteration of the anchor's main loop: the result of
`dwt_starttx`, the value of `dwt_readstsquality`, the received frame, and the receive and
transmit timestamps. -/
structure AnchorEnv where
  starttx_ok : Bool
  sts_quality : Int
  rx_frame : Nat → Byte
  rx_timestamp : Fin 5 → Byte
  tx_timestamp : Fin 5 → Byte

/-- What one iteration of the anchor does to the outside, in order. -/
inductive AnchorEvent
  | stdio_write (text : String)
  | starttx (tx_data : List Byte) (tx_frame_length : Nat) (delayed_time : Option Nat)
      (accepted : Bool)
  | sleep (ms : Nat)
  | rxenable

/-- An event of the anchor is a transmission when it is a `dwt_starttx` call the radio
accepted. -/
def AnchorEvent.is_tx : AnchorEvent → Bool
  | .starttx _ _ _ accepted => accepted
  | _ => false

/-- The anchor's interrupt callback `tx_done_cb`. -/
def anchor_tx_done_cb (s : AnchorState) : AnchorState := { s with tx_done := 1 }

/-- The anchor's interrupt callback `rx_ok_cb`, with `cb_data->datalength`. -/
def anchor_rx_ok_cb (s : AnchorState) (datalength : Nat) : AnchorState :=
  { s with new_frame := 1, new_frame_length := datalength % 2 ^ 16 }

/-- The branch `case TWR_SYNC_STATE` of the anchor (lines 144-190): wait for the sync frame,
seed the sequence number from it and send the poll frame. -/
def anchor_sync (env : AnchorEnv) (s : AnchorState) : AnchorState × List AnchorEvent :=
  if s.new_frame ≠ 0 then
    let s0 : AnchorState := { s with new_frame := 0 }
    if s0.new_frame_length ≠ sizeof_twr_base_frame_t + 2 then
      ({ s0 with state := .TWR_ERROR }, [.stdio_write "RX ERR: wrong frame length\n"])
    else if env.sts_quality < 0 then
      ({ s0 with state := .TWR_ERROR }, [.stdio_write "RX ERR: bad STS quality\n"])
    else
      let s1 : AnchorState :=
        { s0 with rx_buffer := dwt_readrxdata s0.rx_buffer env.rx_frame s0.new_frame_length }
      if rx_twr_function_code s1.rx_buffer ≠ 0x20 then
        ({ s1 with state := .TWR_ERROR },
          [.stdio_write "RX ERR: wrong frame (expected sync)\n"])
      else
        -- next_sequence_number = rx_frame_pointer->sequence_number + 1;
        let seeded : Byte := to_uint8 ((rx_sequence_number s1.rx_buffer).val + 1)
        let s2 : AnchorState :=
          { s1 with
              state := .TWR_POLL_RESPONSE_STATE
              poll_frame := { s1.poll_frame with sequence_number := seeded }
              next_sequence_number := to_uint8 (seeded.val + 1) }
        let tx := AnchorEvent.starttx s2.poll_frame.bytes (sizeof_twr_base_frame_t + 2) none
          env.starttx_ok
        if env.starttx_ok then (s2, [.stdio_write "RX: Sync frame\n", tx])
        else ({ s2 with state := .TWR_ERROR },
              [.stdio_write "RX: Sync frame\n", tx,
               .stdio_write "TX ERR: could not send poll frame\n"])
  else (s, [])

/-- The block `if (tx_done == 1)` of the anchor's `case TWR_POLL_RESPONSE_STATE`. -/
def anchor_poll_tx (env : AnchorEnv) (s : AnchorState) : AnchorState × List AnchorEvent :=
  if s.tx_done = 1 then
    ({ s with tx_done := 2, tx_timestamp_poll := decode_40bit_timestamp env.tx_timestamp },
      [.stdio_write "TX: Poll frame\n"])
  else (s, [])

/-- The result of the anchor's receive block: it either falls through to the rest of the
branch or ends the iteration with `continue` after a validation failure. -/
inductive AnchorRxOutcome
  | fall_through (s : AnchorState) (out : List AnchorEvent)
  | continue_loop (s : AnchorState) (out : List AnchorEvent)

/-- The block `if (new_frame == 1) { ... }` of the anchor's `case TWR_POLL_RESPONSE_STATE`
(lines 200-239): a response frame, function code `0x10`. -/
def anchor_response_rx (env : AnchorEnv) (s : AnchorState) : AnchorRxOutcome :=
  if s.new_frame = 1 then
    let s0 : AnchorState := { s with new_frame := 0 }
    if s0.new_frame_length ≠ sizeof_twr_base_frame_t + 2 then
      .continue_loop { s0 with state := .TWR_ERROR } [.stdio_write "RX ERR: wrong frame length\n"]
    else if env.sts_quality < 0 then
      .continue_loop { s0 with state := .TWR_ERROR } [.stdio_write "RX ERR: bad STS quality\n"]
    else
      let s1 : AnchorState :=
        { s0 with rx_buffer := dwt_readrxdata s0.rx_buffer env.rx_frame s0.new_frame_length }
      if rx_twr_function_code s1.rx_buffer ≠ 0x10 then
        .continue_loop { s1 with state := .TWR_ERROR }
          [.stdio_write "RX ERR: wrong frame (expected response)\n"]
      else if rx_sequence_number s1.rx_buffer ≠ s1.next_sequence_number then
        .continue_loop { s1 with state := .TWR_ERROR }
          [.stdio_write "RX ERR: wrong sequence number\n"]
      else
        .fall_through
          { s1 with
              rx_timestamp_response := decode_40bit_timestamp env.rx_timestamp
              next_sequence_number := to_uint8 (s1.next_sequence_number.val + 1)
              new_frame := 2 }
          [.stdio_write "RX: Response frame\n"]
  else .fall_through s []

/-- Modelled from the spec: the prototype of `dwt_setdelayedtrxtime` belongs to the radio
driver, which is not among the sources; the delayed-transmit time it takes is a 32-bit value
(the tag casts its argument to `uint32_t`), so the anchor's 64-bit argument
`tx_timestamp_final >> 8` is converted to `uint32_t`. -/
def anchor_final_tx_time (tx_timestamp_final : Nat) : Nat :=
  (shr_u64 tx_timestamp_final 8) % 2 ^ 32

/-- The block `if ((tx_done == 2) && (new_frame == 2))` of the anchor's
`case TWR_POLL_RESPONSE_STATE` (lines 241-275): embed the two times and send the final frame,
delayed.  The delayed time of the event is the value passed to `dwt_setdelayedtrxtime` just
before the call of `dwt_starttx`, whose mode argument is written
`DWT_START_RX_DELAYED | DWT_RESPONSE_EXPECTED` in the source. -/
def anchor_poll_pair (env : AnchorEnv) (s : AnchorState) : AnchorState × List AnchorEvent :=
  if s.tx_done = 2 ∧ s.new_frame = 2 then
    let times := anchor_final_times s.tx_timestamp_poll s.rx_timestamp_response
    let s1 : AnchorState :=
      { s with
          tx_done := 0
          new_frame := 0
          final_frame :=
            { base := { s.final_frame.base with sequence_number := s.next_sequence_number }
              poll_resp_round_time := embed_time s.final_frame.poll_resp_round_time times.Tround1
              resp_final_reply_time :=
                embed_time s.final_frame.resp_final_reply_time times.Treply2 }
          next_sequence_number := to_uint8 (s.next_sequence_number.val + 1)
          tx_timestamp_final := times.tx_timestamp_final
          state := .TWR_FINAL_STATE }
    let tx := AnchorEvent.starttx s1.final_frame.bytes (sizeof_twr_final_frame_t + 2)
      (some (anchor_final_tx_time s1.tx_timestamp_final)) env.starttx_ok
    if env.starttx_ok then (s1, [tx])
    else ({ s1 with state := .TWR_ERROR },
          [tx, .stdio_write "TX ERR: delayed send time missed"])
  else (s, [])

/-- The anchor's branch `case TWR_POLL_RESPONSE_STATE`: the three blocks in sequence; a
`continue` in the receive block skips the third. -/
def anchor_poll_response (env : AnchorEnv) (s : AnchorState) :
    AnchorState × List AnchorEvent :=
  match anchor_response_rx env (anchor_poll_tx env s).1 with
  | .continue_loop s2 out2 => (s2, (anchor_poll_tx env s).2 ++ out2)
  | .fall_through s2 out2 =>
    ((anchor_poll_pair env s2).1,
      (anchor_poll_tx env s).2 ++ out2 ++ (anchor_poll_pair env s2).2)

/-- The anchor's branch `case TWR_FINAL_STATE`. -/
def anchor_final (s : AnchorState) : AnchorState × List AnchorEvent :=
  if s.tx_done = 1 then
    ({ s with tx_done := 0, state := .TWR_SYNC_STATE }, [.stdio_write "TX: Final frame\n"])
  else (s, [])

/-- The anchor's branch `case TWR_ERROR`. -/
def anchor_error (s : AnchorState) : AnchorState × List AnchorEvent :=
  ({ s with state := .TWR_SYNC_STATE },
    [.stdio_write "Ranging error -> reset\n", .sleep 500, .rxenable])

/-- One iteration of the `while (1)` loop of the anchor's `dw_main`: the branch of the current
state.  Interrupt callbacks run between iterations. -/
def anchor_iteration (env : AnchorEnv) (s : AnchorState) : AnchorState × List AnchorEvent :=
  match s.state with
  | .TWR_SYNC_STATE => anchor_sync env s
  | .TWR_POLL_RESPONSE_STATE => anchor_poll_response env s
  | .TWR_FINAL_STATE => anchor_final s
  | .TWR_ERROR => anchor_error s

/-- The initial value of the anchor's `poll_frame`. -/
def anchor_poll_frame : twr_base_frame_t :=
  { frame_control := (0x41, 0x88)
    sequence_number := 0
    pan_id := (0x58, 0x58)
    destination := (0x54, 0x54)
    source := (0x41, 0x41)
    twr_function_code := 0x21 }

/-- The initial value of the anchor's `final_frame`. -/
def anchor_final_frame : twr_final_frame_t :=
  { base := { anchor_poll_frame with twr_function_code := 0x23 }
    poll_resp_round_time := zero_field
    resp_final_reply_time := zero_field }

/-- The state of the anchor when `dw_main` enters its loop. -/
def anchor_initial_state : AnchorState :=
  { state := .TWR_SYNC_STATE
    tx_done := 0
    new_frame := 0
    new_frame_length := 0
    poll_frame := anchor_poll_frame
    final_frame := anchor_final_frame
    tx_timestamp_poll := 0
    rx_timestamp_response := 0
    tx_timestamp_final := 0
    next_sequence_number := 0
    rx_buffer := fun _ => 0 }

/-! ## Runs of the engines: iterations interleaved with interrupt callbacks -/

/-- One step of a tag's execution: an iteration of the main loop with the answers of the
hardware, or one of the two interrupt callbacks, which run between iterations. -/
inductive TagStep
  | iteration (env : TagEnv)
  | tx_done
  | rx_ok (datalength : Nat)

/-- The effect of one step on the tag's variables, and what it does to the outside. -/
def tag_step (B : TagBuild) (s : TagState) : TagStep → TagState × List Event
  | .iteration env => tag_iteration B env s
  | .tx_done => (tx_done_cb s, [])
  | .rx_ok datalength => (rx_ok_cb s datalength, [])

/-- The variables of the tag after a sequence of steps. -/
def tag_after (B : TagBuild) (s : TagState) (steps : List TagStep) : TagState :=
  steps.foldl (fun t st => (tag_step B t st).1) s

/-- The result of every step of a run, in order. -/
def tag_trace (B : TagBuild) : TagState → List TagStep → List (TagState × List Event)
  | _, [] => []
  | s, st :: rest => tag_step B s st :: tag_trace B (tag_step B s st).1 rest

/-- The four frames of a ranging round. -/
inductive frame_kind
  | sync
  | poll
  | response
  | final
deriving DecidableEq, Repr

/-- What a run shows of the sequence numbers: a frame handed to the radio and transmitted, or
a received frame that passed validation, each with its `seq` byte. -/
inductive SeqObs
  | sent (kind : frame_kind) (seq : Byte)
  | accepted (kind : frame_kind) (seq : Byte)
deriving DecidableEq, Repr

/-- Modelled from the spec: the `seq` byte of a frame written to the transmit buffer, at
offset 2 of the layout. -/
def tx_sequence_number (tx_data : List Byte) : Byte := tx_data.getD 2 0

/-- The sequence-number observation of one event of a tag iteration that received
`env.rx_frame`: an accepted immediate transmission is the sync frame, an accepted delayed
transmission is the response frame, and the lines "RX: Poll frame" and "RX: Final frame" are
written exactly when the received frame has passed validation. -/
def tag_observe (env : TagEnv) : Event → Option SeqObs
  | .starttx tx_data _ none true => some (.sent .sync (tx_sequence_number tx_data))
  | .starttx tx_data _ (some _) true => some (.sent .response (tx_sequence_number tx_data))
  | .stdio_write text =>
    if text = "RX: Poll frame\n" then some (.accepted .poll (rx_sequence_number env.rx_frame))
    else if text = "RX: Final frame\n" then
      some (.accepted .final (rx_sequence_number env.rx_frame))
    else none
  | _ => none

/-- The sequence-number observations of one step. -/
def tag_step_log (B : TagBuild) (s : TagState) : TagStep → List SeqObs
  | .iteration env => (tag_iteration B env s).2.filterMap (tag_observe env)
  | _ => []

/-- The sequence-number observations of a run, in order. -/
def tag_log (B : TagBuild) : TagState → List TagStep → List SeqObs
  | _, [] => []
  | s, st :: rest => tag_step_log B s st ++ tag_log B (tag_step B s st).1 rest

/-- A step that can occur inside a round that is not abandoned: an iteration in which the
round timeout does not fire, a transmit-done interrupt, or a receive interrupt that does not
arrive while an accepted frame still awaits its pairing (the receiver is re-armed only by the
next transmission). -/
def tag_step_admissible (B : TagBuild) (s : TagState) : TagStep → Prop
  | .iteration env => sub_u32 env.tick_check s.last_sync_time ≤ B.ranging_timeout
  | .tx_done => True
  | .rx_ok _ => s.rx_done ≠ 2

/-- The steps that complete a round from a state inside it: every step is admissible, the
Error state is never entered, and the steps end with the first return to the Sync state. -/
def tag_round_rest (B : TagBuild) : TagState → List TagStep → Prop
  | _, [] => False
  | s, st :: rest =>
    tag_step_admissible B s st ∧ (tag_step B s st).1.state ≠ .TWR_ERROR
      ∧ (if (tag_step B s st).1.state = .TWR_SYNC_STATE then rest = []
         else tag_round_rest B (tag_step B s st).1 rest)

/-- Whether a step is admissible can be computed. -/
instance tag_step_admissible_decidable (B : TagBuild) (s : TagState) :
    (st : TagStep) → Decidable (tag_step_admissible B s st)
  | .iteration env =>
    inferInstanceAs (Decidable (sub_u32 env.tick_check s.last_sync_time ≤ B.ranging_timeout))
  | .tx_done => inferInstanceAs (Decidable True)
  | .rx_ok _ => inferInstanceAs (Decidable (s.rx_done ≠ 2))

/-- Whether a list of steps is empty can be computed. -/
def steps_nil_decidable {α : Type} : (l : List α) → Decidable (l = [])
  | [] => isTrue rfl
  | _ :: _ => isFalse (fun h => List.noConfusion h)

/-- Whether a list of steps completes a round can be computed. -/
instance tag_round_rest_decidable (B : TagBuild) :
    (s : TagState) → (steps : List TagStep) → Decidable (tag_round_rest B s steps)
  | _, [] => isFalse (fun h => h)
  | s, st :: rest =>
    have : Decidable (rest = []) := steps_nil_decidable rest
    have : Decidable (tag_round_rest B (tag_step B s st).1 rest) :=
      tag_round_rest_decidable B (tag_step B s st).1 rest
    inferInstanceAs (Decidable (tag_step_admissible B s st
      ∧ (tag_step B s st).1.state ≠ .TWR_ERROR
      ∧ (if (tag_step B s st).1.state = .TWR_SYNC_STATE then rest = []
         else tag_round_rest B (tag_step B s st).1 rest)))

/-- A successful round of the tag: from the Sync state, an iteration that sends the sync
frame, followed by steps that complete the round. -/
def tag_successful_round (B : TagBuild) (s : TagState) : List TagStep → Prop
  | .iteration env :: rest =>
    s.state = .TWR_SYNC_STATE ∧ s.rx_done ≠ 2
      ∧ (tag_iteration B env s).1.state = .TWR_POLL_RESPONSE_STATE
      ∧ tag_round_rest B (tag_iteration B env s).1 rest
  | _ => False

/-- Whether a list of steps is a successful round of the tag can be computed. -/
instance tag_successful_round_decidable (B : TagBuild) (s : TagState) :
    (steps : List TagStep) → Decidable (tag_successful_round B s steps)
  | [] => isFalse (fun h => h)
  | .iteration env :: rest =>
    inferInstanceAs (Decidable (s.state = .TWR_SYNC_STATE ∧ s.rx_done ≠ 2
      ∧ (tag_iteration B env s).1.state = .TWR_POLL_RESPONSE_STATE
      ∧ tag_round_rest B (tag_iteration B env s).1 rest))
  | .tx_done :: _ => isFalse (fun h => h)
  | .rx_ok _ :: _ => isFalse (fun h => h)

/-- One step of the anchor's execution. -/
inductive AnchorStep
  | iteration (env : AnchorEnv)
  | tx_done
  | rx_ok (datalength : Nat)

/-- The effect of one step on the anchor's variables, and what it does to the outside. -/
def anchor_step (s : AnchorState) : AnchorStep → AnchorState × List AnchorEvent
  | .iteration env => anchor_iteration env s
  | .tx_done => (anchor_tx_done_cb s, [])
  | .rx_ok datalength => (anchor_rx_ok_cb s datalength, [])

/-- The variables of the anchor after a sequence of steps. -/
def anchor_after (s : AnchorState) (steps : List AnchorStep) : AnchorState :=
  steps.foldl (fun t st => (anchor_step t st).1) s

/-- The sequence-number observation of one event of an anchor iteration that received
`env.rx_frame`: an accepted immediate transmission is the poll frame, an accepted delayed
transmission is the final frame, and the lines "RX: Sync frame" and "RX: Response frame" are
written exactly when the received frame has passed validation. -/
def anchor_observe (env : AnchorEnv) : AnchorEvent → Option SeqObs
  | .starttx tx_data _ none true => some (.sent .poll (tx_sequence_number tx_data))
  | .starttx tx_data _ (some _) true => some (.sent .final (tx_sequence_number tx_data))
  | .stdio_write text =>
    if text = "RX: Sync frame\n" then some (.accepted .sync (rx_sequence_number env.rx_frame))
    else if text = "RX: Response frame\n" then
      some (.accepted .response (rx_sequence_number env.rx_frame))
    else none
  | _ => none

/-- The sequence-number observations of one step of the anchor. -/
def anchor_step_log (s : AnchorState) : AnchorStep → List SeqObs
  | .iteration env => (anchor_iteration env s).2.filterMap (anchor_observe env)
  | _ => []

/-- The sequence-number observations of a run of the anchor, in order. -/
def anchor_log : AnchorState → List AnchorStep → List SeqObs
  | _, [] => []
  | s, st :: rest => anchor_step_log s st ++ anchor_log (anchor_step s st).1 rest

/-- A step that can occur inside an anchor round: any iteration, a transmit-done interrupt,
or a receive interrupt that does not arrive while an accepted frame still awaits its
pairing. -/
def anchor_step_admissible (s : AnchorState) : AnchorStep → Prop
  | .iteration _ => True
  | .tx_done => True
  | .rx_ok _ => s.new_frame ≠ 2

/-- The steps that complete an anchor round from a state inside it. -/
def anchor_round_rest : AnchorState → List AnchorStep → Prop
  | _, [] => False
  | s, st :: rest =>
    anchor_step_admissible s st ∧ (anchor_step s st).1.state ≠ .TWR_ERROR
      ∧ (if (anchor_step s st).1.state = .TWR_SYNC_STATE then rest = []
         else anchor_round_rest (anchor_step s st).1 rest)

/-- A successful round of the anchor: from the Sync state, an iteration that accepts a sync
frame and sends the poll, followed by steps that complete the round. -/
def anchor_successful_round (s : AnchorState) : List AnchorStep → Prop
  | .iteration env :: rest =>
    s.state = .TWR_SYNC_STATE
      ∧ (anchor_iteration env s).1.state = .TWR_POLL_RESPONSE_STATE
      ∧ anchor_round_rest (anchor_iteration env s).1 rest
  | _ => False

/-- The sequence-number observations still to come in an anchor round, and the value of
`next_sequence_number` at its end, as determined by the state of an anchor inside the round. -/
def anchor_round_remaining (s : AnchorState) : List SeqObs × Byte :=
  let n := s.next_sequence_number
  match s.state with
  | .TWR_POLL_RESPONSE_STATE =>
    if s.new_frame = 2 then ([.sent .final n], to_uint8 (n.val + 1))
    else ([.accepted .response n, .sent .final (to_uint8 (n.val + 1))], to_uint8 (n.val + 2))
  | _ => ([], n)

/-- Whether an anchor step is admissible can be computed. -/
instance anchor_step_admissible_decidable (s : AnchorState) :
    (st : AnchorStep) → Decidable (anchor_step_admissible s st)
  | .iteration _ => inferInstanceAs (Decidable True)
  | .tx_done => inferInstanceAs (Decidable True)
  | .rx_ok _ => inferInstanceAs (Decidable (s.new_frame ≠ 2))

/-- Whether a list of steps completes an anchor round can be computed. -/
instance anchor_round_rest_decidable :
    (s : AnchorState) → (steps : List AnchorStep) → Decidable (anchor_round_rest s steps)
  | _, [] => isFalse (fun h => h)
  | s, st :: rest =>
    have : Decidable (rest = []) := steps_nil_decidable rest
    have : Decidable (anchor_round_rest (anchor_step s st).1 rest) :=
      anchor_round_rest_decidable (anchor_step s st).1 rest
    inferInstanceAs (Decidable (anchor_step_admissible s st
      ∧ (anchor_step s st).1.state ≠ .TWR_ERROR
      ∧ (if (anchor_step s st).1.state = .TWR_SYNC_STATE then rest = []
         else anchor_round_rest (anchor_step s st).1 rest)))

/-- Whether a list of steps is a successful round of the anchor can be computed. -/
instance anchor_successful_round_decidable (s : AnchorState) :
    (steps : List AnchorStep) → Decidable (anchor_successful_round s steps)
  | [] => isFalse (fun h => h)
  | .iteration env :: rest =>
    inferInstanceAs (Decidable (s.state = .TWR_SYNC_STATE
      ∧ (anchor_iteration env s).1.state = .TWR_POLL_RESPONSE_STATE
      ∧ anchor_round_rest (anchor_iteration env s).1 rest))
  | .tx_done :: _ => isFalse (fun h => h)
  | .rx_ok _ :: _ => isFalse (fun h => h)

/-! ## Specification-side notions of the engines and of their runs -/

/-- The observation of the peer: what one node sent the other accepted. -/
def SeqObs.mirror : SeqObs → SeqObs
  | .sent kind seq => .accepted kind seq
  | .accepted kind seq => .sent kind seq

/-- The specification's acceptance condition for a received frame: reported length
`expected_length`, STS quality at least 0, function code `expected_code`, sequence number
equal to `next_sequence_number`. -/
def spec_frame_valid (expected_length : Nat) (expected_code : Byte) (env : TagEnv)
    (s : TagState) : Prop :=
  s.new_frame_length = expected_length ∧ 0 ≤ env.sts_quality
    ∧ rx_twr_function_code env.rx_frame = expected_code
    ∧ rx_sequence_number env.rx_frame = s.next_sequence_number

/-- Whether a frame passes the specification's acceptance condition can be computed. -/
instance spec_frame_valid_decidable (expected_length : Nat) (expected_code : Byte)
    (env : TagEnv) (s : TagState) :
    Decidable (spec_frame_valid expected_length expected_code env s) :=
  inferInstanceAs (Decidable (s.new_frame_length = expected_length ∧ 0 ≤ env.sts_quality
    ∧ rx_twr_function_code env.rx_frame = expected_code
    ∧ rx_sequence_number env.rx_frame = s.next_sequence_number))

/-- The sequence-number observations still to come in a round, and the value of
`next_sequence_number` at its end, as determined by the state of a tag inside the round: in
PollResponse before the poll is accepted, the poll, the response and the final are to come; once
the poll is accepted (receive flag at level 2), the response and the final; in the Final
state, the final or nothing. -/
def tag_round_remaining (s : TagState) : List SeqObs × Byte :=
  let n := s.next_sequence_number
  match s.state with
  | .TWR_POLL_RESPONSE_STATE =>
    if s.rx_done = 2 then
      ([.sent .response n, .accepted .final (to_uint8 (n.val + 1))], to_uint8 (n.val + 2))
    else
      ([.accepted .poll n, .sent .response (to_uint8 (n.val + 1)),
        .accepted .final (to_uint8 (n.val + 2))], to_uint8 (n.val + 3))
  | .TWR_FINAL_STATE =>
    if s.rx_done = 2 then ([], n) else ([.accepted .final n], to_uint8 (n.val + 1))
  | _ => ([], n)

/-- The events of a receive block, whichever way it ends. -/
def RxOutcome.out : RxOutcome → List Event
  | .fall_through _ out => out
  | .continue_loop _ out => out
  | .undefined _ out => out

/-- The behaviour of an iteration with the outward actions `out` is defined throughout: the
mark of undefined behaviour does not occur. -/
def defined_behaviour (out : List Event) : Prop := ∀ e ∈ out, e.is_undefined = false

/-- Whether the behaviour of an iteration is defined throughout can be computed. -/
instance defined_behaviour_decidable (out : List Event) : Decidable (defined_behaviour out) :=
  inferInstanceAs (Decidable (∀ e ∈ out, e.is_undefined = false))

/-- The timeout reset as the specification describes it: the three timestamps and both event
flags are 0 and the state is Sync. -/
def spec_timeout_reset (s : TagState) : TagState :=
  { s with
      state := .TWR_SYNC_STATE
      rx_timestamp_poll := 0
      tx_timestamp_response := 0
      rx_timestamp_final := 0
      tx_done := 0
      rx_done := 0 }

/-- A step in which a tag that has sent its sync frame goes on waiting: an interrupt, or an
iteration in which the round timeout does not fire, that leaves the tag in the PollResponse
state without a frame accepted or sent. -/
def tag_waiting_step (B : TagBuild) (s : TagState) (st : TagStep) : Prop :=
  (match st with
    | .iteration env => sub_u32 env.tick_check s.last_sync_time ≤ B.ranging_timeout
    | _ => True)
    ∧ (tag_step B s st).1.state = .TWR_POLL_RESPONSE_STATE ∧ tag_step_log B s st = []

/-- Whether a step is a waiting step can be computed. -/
instance tag_waiting_step_decidable (B : TagBuild) (s : TagState) :
    (st : TagStep) → Decidable (tag_waiting_step B s st)
  | .iteration env =>
    inferInstanceAs (Decidable (sub_u32 env.tick_check s.last_sync_time ≤ B.ranging_timeout
      ∧ (tag_step B s (.iteration env)).1.state = .TWR_POLL_RESPONSE_STATE
      ∧ tag_step_log B s (.iteration env) = []))
  | .tx_done =>
    inferInstanceAs (Decidable (True
      ∧ (tag_step B s .tx_done).1.state = .TWR_POLL_RESPONSE_STATE
      ∧ tag_step_log B s .tx_done = []))
  | .rx_ok n =>
    inferInstanceAs (Decidable (True
      ∧ (tag_step B s (.rx_ok n)).1.state = .TWR_POLL_RESPONSE_STATE
      ∧ tag_step_log B s (.rx_ok n) = []))

/-- A run in which every step is a waiting step. -/
def tag_waits (B : TagBuild) : TagState → List TagStep → Prop
  | _, [] => True
  | s, st :: rest => tag_waiting_step B s st ∧ tag_waits B (tag_step B s st).1 rest

/-- Whether a run consists of waiting steps can be computed. -/
instance tag_waits_decidable (B : TagBuild) :
    (s : TagState) → (steps : List TagStep) → Decidable (tag_waits B s steps)
  | _, [] => isTrue trivial
  | s, st :: rest =>
    have : Decidable (tag_waits B (tag_step B s st).1 rest) :=
      tag_waits_decidable B (tag_step B s st).1 rest
    inferInstanceAs (Decidable (tag_waiting_step B s st ∧ tag_waits B (tag_step B s st).1 rest))

/-- The specification's acceptance condition for the sync frame on the anchor: reported length
`sizeof(twr_base_frame_t)+2`, STS quality at least 0 and function code `0x20`. -/
def spec_anchor_sync_valid (env : AnchorEnv) (s : AnchorState) : Prop :=
  s.new_frame_length = sizeof_twr_base_frame_t + 2 ∧ 0 ≤ env.sts_quality
    ∧ rx_twr_function_code env.rx_frame = 0x20

/-- The specification's acceptance condition for the response frame on the anchor: reported
length `sizeof(twr_base_frame_t)+2`, STS quality at least 0, function code `0x10`, sequence
number equal to `next_sequence_number`. -/
def spec_anchor_response_valid (env : AnchorEnv) (s : AnchorState) : Prop :=
  s.new_frame_length = sizeof_twr_base_frame_t + 2 ∧ 0 ≤ env.sts_quality
    ∧ rx_twr_function_code env.rx_frame = 0x10
    ∧ rx_sequence_number env.rx_frame = s.next_sequence_number

/-- Whether a sync frame passes the anchor's acceptance condition can be computed. -/
instance spec_anchor_sync_valid_decidable (env : AnchorEnv) (s : AnchorState) :
    Decidable (spec_anchor_sync_valid env s) :=
  inferInstanceAs (Decidable (s.new_frame_length = sizeof_twr_base_frame_t + 2
    ∧ 0 ≤ env.sts_quality ∧ rx_twr_function_code env.rx_frame = 0x20))

/-- Whether a response frame passes the anchor's acceptance condition can be computed. -/
instance spec_anchor_response_valid_decidable (env : AnchorEnv) (s : AnchorState) :
    Decidable (spec_anchor_response_valid env s) :=
  inferInstanceAs (Decidable (s.new_frame_length = sizeof_twr_base_frame_t + 2
    ∧ 0 ≤ env.sts_quality ∧ rx_twr_function_code env.rx_frame = 0x10
    ∧ rx_sequence_number env.rx_frame = s.next_sequence_number))

/-- A received frame with its first two bytes (the frame control) replaced. -/
def with_frame_control (frame : Nat → Byte) (c0 c1 : Byte) : Nat → Byte :=
  fun i => if i = 0 then c0 else if i = 1 then c1 else frame i

/-- No event of the list is a transmission the radio accepted. -/
def anchor_no_frame_transmitted (out : List AnchorEvent) : Prop := ∀ e ∈ out, e.is_tx = false

/-- A sequence of main-loop iterations, one for each list of hardware answers. -/
def tag_iterations (envs : List TagEnv) : List TagStep := envs.map TagStep.iteration

/-- An interleaving of one transmit-done interrupt, one receive interrupt announcing a frame
of `sizeof(twr_base_frame_t)+2` bytes, and main-loop iterations, up to the second interrupt:
the iterations `pre`, the first interrupt (the transmit-done one when `tx_first`), the
iterations `mid`, the second interrupt. -/
def poll_interleaving (tx_first : Bool) (pre mid : List TagEnv) : List TagStep :=
  tag_iterations pre
    ++ (if tx_first then TagStep.tx_done else TagStep.rx_ok (sizeof_twr_base_frame_t + 2))
    :: (tag_iterations mid
    ++ [if tx_first then TagStep.rx_ok (sizeof_twr_base_frame_t + 2) else TagStep.tx_done])

/-- The hardware answers of an iteration describe the received frame `frame` with receive
timestamp `ts` and an acceptable STS quality. -/
def presents_frame (frame : Nat → Byte) (ts : Fin 5 → Byte) (env : TagEnv) : Prop :=
  0 ≤ env.sts_quality ∧ env.rx_frame = frame ∧ env.rx_timestamp = ts

/-- The variables of a tag that has paired the transmit-done event of its sync frame with the
poll `frame` received at `ts` and has handed the response to the radio, which accepted it or
not. -/
def tag_paired_state (s : TagState) (frame : Nat → Byte) (ts : Fin 5 → Byte) (accepted : Bool) :
    TagState :=
  { s with
      tx_done := 0
      rx_done := 0
      new_frame_length := sizeof_twr_base_frame_t + 2
      rx_buffer := dwt_readrxdata s.rx_buffer frame (sizeof_twr_base_frame_t + 2)
      rx_timestamp_poll := decode_40bit_timestamp ts
      response_frame :=
        { s.response_frame with sequence_number := to_uint8 (s.next_sequence_number.val + 1) }
      next_sequence_number := to_uint8 (s.next_sequence_number.val + 2)
      state := if accepted then .TWR_FINAL_STATE else .TWR_ERROR }

/-- The accepted transmissions of the iteration that pairs the two events: the response frame,
once, when the radio accepts it. -/
def paired_transmissions (B : TagBuild) (s : TagState) (ts : Fin 5 → Byte) (accepted : Bool) :
    List Event :=
  if accepted then
    [.starttx
      ({ s.response_frame with
          sequence_number := to_uint8 (s.next_sequence_number.val + 1) }).bytes
      (sizeof_twr_base_frame_t + 2)
      (some (tag_response_tx_time B (decode_40bit_timestamp ts))) true]
  else []

/-- A run inside a round of the tag, for as long as the round lasts: every step is admissible
and is taken from the PollResponse or the Final state (a step that enters the Sync or the Error
state ends the run). -/
def tag_round_run (B : TagBuild) : TagState → List TagStep → Prop
  | _, [] => True
  | s, st :: rest =>
    (s.state = .TWR_POLL_RESPONSE_STATE ∨ s.state = .TWR_FINAL_STATE)
      ∧ tag_step_admissible B s st ∧ tag_round_run B (tag_step B s st).1 rest

/-- A round of the tag, completed or not: from the Sync state with no accepted frame pending,
the iteration that runs the Sync branch, followed by a run inside the round. -/
def tag_round (B : TagBuild) (s : TagState) : List TagStep → Prop
  | .iteration env :: rest =>
    s.state = .TWR_SYNC_STATE ∧ s.rx_done ≠ 2 ∧ tag_round_run B (tag_iteration B env s).1 rest
  | _ => False

/-- A run inside a round of the anchor, for as long as the round lasts. -/
def anchor_round_run : AnchorState → List AnchorStep → Prop
  | _, [] => True
  | s, st :: rest =>
    (s.state = .TWR_POLL_RESPONSE_STATE ∨ s.state = .TWR_FINAL_STATE)
      ∧ anchor_step_admissible s st ∧ anchor_round_run (anchor_step s st).1 rest

/-- A round of the anchor, completed or not: from the Sync state, the iteration that accepts
a sync frame, followed by a run inside the round. -/
def anchor_round (s : AnchorState) : List AnchorStep → Prop
  | .iteration env :: rest =>
    s.state = .TWR_SYNC_STATE ∧ s.new_frame ≠ 0 ∧ spec_anchor_sync_valid env s
      ∧ anchor_round_run (anchor_iteration env s).1 rest
  | _ => False

/-- Whether a run stays inside a round of the tag can be computed. -/
instance tag_round_run_decidable (B : TagBuild) :
    (s : TagState) → (steps : List TagStep) → Decidable (tag_round_run B s steps)
  | _, [] => isTrue trivial
  | s, st :: rest =>
    have : Decidable (tag_round_run B (tag_step B s st).1 rest) :=
      tag_round_run_decidable B (tag_step B s st).1 rest
    inferInstanceAs (Decidable
      ((s.state = .TWR_POLL_RESPONSE_STATE ∨ s.state = .TWR_FINAL_STATE)
        ∧ tag_step_admissible B s st ∧ tag_round_run B (tag_step B s st).1 rest))

/-- Whether a list of steps is a round of the tag can be computed. -/
instance tag_round_decidable (B : TagBuild) (s : TagState) :
    (steps : List TagStep) → Decidable (tag_round B s steps)
  | [] => isFalse (fun h => h)
  | .iteration env :: rest =>
    inferInstanceAs (Decidable (s.state = .TWR_SYNC_STATE ∧ s.rx_done ≠ 2
      ∧ tag_round_run B (tag_iteration B env s).1 rest))
  | .tx_done :: _ => isFalse (fun h => h)
  | .rx_ok _ :: _ => isFalse (fun h => h)

/-- Whether a run stays inside a round of the anchor can be computed. -/
instance anchor_round_run_decidable :
    (s : AnchorState) → (steps : List AnchorStep) → Decidable (anchor_round_run s steps)
  | _, [] => isTrue trivial
  | s, st :: rest =>
    have : Decidable (anchor_round_run (anchor_step s st).1 rest) :=
      anchor_round_run_decidable (anchor_step s st).1 rest
    inferInstanceAs (Decidable
      ((s.state = .TWR_POLL_RESPONSE_STATE ∨ s.state = .TWR_FINAL_STATE)
        ∧ anchor_step_admissible s st ∧ anchor_round_run (anchor_step s st).1 rest))

/-- Whether a list of steps is a round of the anchor can be computed. -/
instance anchor_round_decidable (s : AnchorState) :
    (steps : List AnchorStep) → Decidable (anchor_round s steps)
  | [] => isFalse (fun h => h)
  | .iteration env :: rest =>
    inferInstanceAs (Decidable (s.state = .TWR_SYNC_STATE ∧ s.new_frame ≠ 0
      ∧ spec_anchor_sync_valid env s ∧ anchor_round_run (anchor_iteration env s).1 rest))
  | .tx_done :: _ => isFalse (fun h => h)
  | .rx_ok _ :: _ => isFalse (fun h => h)

/-- A run in which the receive interrupt never arrives while an accepted frame awaits its
pairing; iterations (with or without timeout) and transmit-done interrupts are unrestricted. -/
def tag_run_admissible (B : TagBuild) : TagState → List TagStep → Prop
  | _, [] => True
  | s, st :: rest =>
    (match st with
      | .rx_ok _ => s.rx_done ≠ 2
      | _ => True)
      ∧ tag_run_admissible B (tag_step B s st).1 rest

/-! ## Concrete inputs of the engines, used as witnesses -/

/-- The hardware answers of an iteration in which no timeout fires, the radio accepts a
transmission and the received frame has function code `code` and sequence number `seq`; all
its other bytes, the two frame-control bytes among them, are 0. -/
def round_env (code seq : Byte) : TagEnv :=
  { tick_check := 0
    tick_reset := 0
    tick_sync := 0
    starttx_ok := true
    sts_quality := 0
    rx_frame := fun i => if i = 9 then code else if i = 2 then seq else 0
    rx_timestamp := fun _ => 0
    tx_timestamp := fun _ => 0 }

/-- A complete round of a tag whose counter is at `n`: the sync iteration, both interrupts, the
iteration that accepts the poll and sends the response, both interrupts, and the iteration that
accepts the final and reports the range. -/
def tag_round_steps (n : Byte) : List TagStep :=
  [.iteration (round_env 0 0), .tx_done, .rx_ok 12,
   .iteration (round_env 0x21 (to_uint8 (n.val + 1))), .tx_done, .rx_ok 22,
   .iteration (round_env 0x23 (to_uint8 (n.val + 3)))]

/-- A tag about to start a round with its counter at 254. -/
def tag_state_254 : TagState := { tag_initial_state 0 with next_sequence_number := 254 }

/-- The hardware answers of an anchor iteration in which the radio accepts a transmission and
the received frame has function code `code` and sequence number `seq` (all other bytes 0),
with STS quality 0. -/
def anchor_round_env (code seq : Byte) : AnchorEnv :=
  { starttx_ok := true
    sts_quality := 0
    rx_frame := fun i => if i = 9 then code else if i = 2 then seq else 0
    rx_timestamp := fun _ => 0
    tx_timestamp := fun _ => 0 }

/-- An anchor in the Sync state to which the interrupt has announced a frame of 12 bytes. -/
def anchor_pending_state : AnchorState :=
  { anchor_initial_state with new_frame := 1, new_frame_length := 12, next_sequence_number := 7 }

/-- The steps that complete the round of an anchor that has accepted a sync frame with sequence
number `n` and sent the poll: both interrupts, the iteration that accepts the response and
sends the final, the transmit-done interrupt, and the iteration that returns to the Sync
state. -/
def anchor_round_steps (n : Byte) : List AnchorStep :=
  [.tx_done, .rx_ok 12, .iteration (anchor_round_env 0x10 (to_uint8 (n.val + 2))), .tx_done,
   .iteration (anchor_round_env 0 0)]

/-- A tag in its second round: it waits for the poll, the transmit-done event of its sync frame
is already promoted, a frame of 12 bytes has just been announced, and the three timestamps
still hold the values of the previous round. -/
def stale_poll_state : TagState :=
  { poll_pending_state with
      tx_done := 2
      rx_timestamp_poll := 68719476736
      tx_timestamp_response := 69358456736
      rx_timestamp_final := 69997437162 }

/-- A tag that has sent its sync frame with sequence number 0 and waits for both events. -/
def poll_waiting_state : TagState :=
  { tag_initial_state 0 with state := .TWR_POLL_RESPONSE_STATE, next_sequence_number := 1 }

/-- The hardware answers of an iteration that receives a valid poll with sequence number 1 and
in which the radio refuses the delayed transmission. -/
def refused_env : TagEnv := { round_env 0x21 1 with starttx_ok := false }

/-- The hardware answers of an iteration whose tick reading lies 5000 ms after the start. -/
def timeout_env : TagEnv := { round_env 0 0 with tick_check := 5000 }

/-- The hardware answers of an iteration whose tick readings lie 200 ms after the start. -/
def after_pause_env : TagEnv :=
  { round_env 0 0 with tick_check := 200, tick_reset := 200, tick_sync := 200 }

/-! ## Telemetry of the full tag build (uart_stdio.c, `transmit_rx_diagnostics`, `transmit_cir`)
-/

/-- A call of `stdio_write` (with a C string) or of `stdio_write_binary` (with the object
`data` points to, as its bytes, and the argument `length`). -/
inductive SerialWrite
  | text (data : String)
  | binary (data : List Byte) (length : Nat)

/-- The bytes of a C string whose characters are ASCII. -/
def text_bytes (s : String) : List Byte := s.toList.map (fun c => to_uint8 c.toNat)

/-- The bytes a call hands to `HAL_UART_Transmit` (uart_stdio.c lines 44-59); the length is a
`uint16_t` in both functions.  The result is `none` when `length` bytes are read from an
object that is shorter. -/
def SerialWrite.bytes : SerialWrite → Option (List Byte)
  | .text d => some ((text_bytes d).take ((text_bytes d).length % 2 ^ 16))
  | .binary d n => if n % 2 ^ 16 ≤ d.length then some (d.take (n % 2 ^ 16)) else none

/-- The bytes of a sequence of calls, in order. -/
def serial_bytes : List SerialWrite → Option (List Byte)
  | [] => some []
  | w :: rest =>
    match w.bytes, serial_bytes rest with
    | some a, some b => some (a ++ b)
    | _, _ => none

/-- What the radio and the compiler determine in one call of `transmit_rx_diagnostics`
followed by `transmit_cir`.  The types `meas_time_poa_t` and `meas_cir_analysis_t` are
declared in application_config.h, which is not among the sources; the telemetry uses only
their object representations, whose sizes the `static_assert`s of lines 465 and 490 fix at 44
and 24 bytes.  `poa_time_blob` is the representation of the variable of that name after the
assignments of lines 468-486, `cir_analysis_ip`, `cir_analysis_sts1` and `cir_analysis_sts2`
are those of `cir_analysis_blob` after each of its three fillings, `cir_buffer_before` is the
indeterminate content of the local array `cir_buffer` before the accumulator read, and
`accumulator_dummy`, `accumulator` are the dummy byte and the accumulator bytes (from offset 0)
the radio delivers. -/
structure TelemetryReadings where
  poa_time_blob : Fin 44 → Byte
  cir_analysis_ip : Fin 24 → Byte
  cir_analysis_sts1 : Fin 24 → Byte
  cir_analysis_sts2 : Fin 24 → Byte
  cir_buffer_before : Fin 12288 → Byte
  accumulator_dummy : Byte
  accumulator : Nat → Byte

/-- The function `transmit_rx_diagnostics` (application_twr_pdoa_tag.c lines 461-520), as the
sequence of its serial writes. -/
def transmit_rx_diagnostics (h : TelemetryReadings) : List SerialWrite :=
  [.text "BLOB / toa / v3 / 43\n",
   .binary (List.ofFn h.poa_time_blob) 43,
   .text "\n",
   .text "BLOB / cir analysis ip / v1 / 24\n",
   .binary (List.ofFn h.cir_analysis_ip) 24,
   .text "\nBLOB / cir analysis sts1 / v1 / 24\n",
   .binary (List.ofFn h.cir_analysis_sts1) 24,
   .text "\nBLOB / cir analysis sts2 / v1 / 24\n",
   .binary (List.ofFn h.cir_analysis_sts2) 24,
   .text "\n"]

/-- The result of writing bytes into an array: the content of the array afterwards, and the
bytes that were written past its end, in order. -/
structure ArrayWrite where
  content : List Byte
  past_end : List Byte

/-- Modelled from the spec: `dwt_readaccdata(buffer, length, offset)` belongs to the radio
driver, which is not among the sources.  By sections 3 and 4.3 of the specification
(`read_cir(dst, len, offset)`: "`dst[0]` receives a dummy byte"; "the accumulator buffer is 6
bytes per sample, preceded by one dummy byte supplied by the hardware") it writes `length`
bytes from `buffer[0]` on: the dummy byte, then the accumulator bytes from the offset on.  The
callers in application_cir.c (line 29) and application_pdoa.c (line 35) say the same of their
buffers: `# samples * 6 bytes/sample + 1 dummy (first byte)`.  `buffer` is the array as it is
before the call; `dummy` and `data` are what the radio delivers. -/
def dwt_readaccdata (buffer : List Byte) (length : Nat) (dummy : Byte) (data : Nat → Byte) :
    ArrayWrite :=
  let delivered := (List.range length).map (fun k => if k = 0 then dummy else data (k - 1))
  { content := delivered.take buffer.length ++ buffer.drop length
    past_end := delivered.drop buffer.length }

/-- The first two lines of `transmit_cir` (lines 523-524):
`uint8_t cir_buffer[12288]; dwt_readaccdata(cir_buffer, 12288+1, 0);`. -/
def transmit_cir_read (h : TelemetryReadings) : ArrayWrite :=
  dwt_readaccdata (List.ofFn h.cir_buffer_before) (12288 + 1) h.accumulator_dummy h.accumulator

/-- The serial writes of `transmit_cir` (lines 525-527). -/
def transmit_cir (h : TelemetryReadings) : List SerialWrite :=
  [.text "BLOB / cir / v1 / 12288\n",
   .binary (transmit_cir_read h).content 12288,
   .text "\n"]

/-- The bytes of an unsigned integer member of `width` bytes on the little-endian target. -/
def le_bytes (width value : Nat) : List Byte :=
  (List.range width).map (fun k => to_uint8 (value / 256 ^ k))

/-- Modelled from the spec: `meas_twr_t` is declared in application_config.h, which is not
among the sources.  Section 3 of the specification lists the ranging record as
`(Treply1, Treply2, Tround1, Tround2, dist_mm, twr_count, rotation_deg)`, 40 bytes in total;
the initialiser of line 356 has the same order, and the types of its seven variables (four
`uint64_t`, one `uint32_t`, two `uint16_t`) add up to the size asserted in line 354, so the
record has no padding. -/
def meas_twr_t_bytes (Treply1 Treply2 Tround1 Tround2 dist_mm twr_count rotation : Nat) :
    List Byte :=
  le_bytes 8 Treply1 ++ le_bytes 8 Treply2 ++ le_bytes 8 Tround1 ++ le_bytes 8 Tround2
    ++ le_bytes 4 dist_mm ++ le_bytes 2 twr_count ++ le_bytes 2 rotation

/-- The serial writes of lines 355-358 of `dw_main` (the events `stdio_write`, `twr_blob`,
`stdio_write` at the head of the output of `tag_final_pair`); `dist_mm` is the content of the
variable of that name. -/
def transmit_twr (r : twr_result) (dist_mm twr_count current_rotation : Nat) :
    List SerialWrite :=
  [.text "BLOB / twr / v2 / 40\n",
   .binary (meas_twr_t_bytes r.Treply1 r.Treply2 r.Tround1 r.Tround2 dist_mm twr_count
      current_rotation) 40,
   .text "\n"]

/-! ## The rotator (shared_functions.c and the rotation update of application_twr_pdoa_tag.c)
-/

/-- What `rotate_reciever` does to the outside, in order: a write to the DIR pin or to the
STEP pin (`true` for `GPIO_PIN_SET`, `false` for `GPIO_PIN_RESET`), or a pause. -/
inductive MotorEvent
  | dir_pin (set : Bool)
  | step_pin (set : Bool)
  | sleep (ms : Nat)
deriving DecidableEq, Repr

/-- The loop `for (int i = 0; i < degrees; i++)` of `rotate_reciever`: one pulse of 40 ms high
and 40 ms low per degree. -/
def motor_pulses : Nat → List MotorEvent
  | 0 => []
  | n + 1 => [.step_pin true, .sleep 40, .step_pin false, .sleep 40] ++ motor_pulses n

/-- The function `rotate_reciever` of shared_functions.c, on its `int` argument; `none` where
the negation `-degrees` overflows. -/
def rotate_reciever (degrees : Int) : Option (List MotorEvent) :=
  if degrees = 0 then some []
  else if 0 < degrees then some (.dir_pin false :: motor_pulses degrees.toNat)
  else if degrees = -2 ^ 31 then none
  else some (.dir_pin true :: motor_pulses (-degrees).toNat)

/-- The conversion of an `int` to `uint16_t`. -/
def to_uint16 (x : Int) : Nat := (x % 2 ^ 16).toNat

/-- The variables of `dw_main` that the rotation update reads and writes:
`uint16_t current_rotation`, `int8_t rotation_direction`, `uint8_t full_rotation_count`. -/
structure RotationState where
  current_rotation : Nat
  rotation_direction : Int
  full_rotation_count : Nat
deriving DecidableEq, Repr

/-- The initial values of lines 153-156: `current_rotation = 0`, `rotation_direction = 1`,
`full_rotation_count = 0`. -/
def rotation_initial_state : RotationState :=
  { current_rotation := 0, rotation_direction := 1, full_rotation_count := 0 }

/-- One rotation step in sweep mode (application_twr_pdoa_tag.c lines 377-389, the text
compiled when `ROTATE` is defined and `ROTATION_WRAP` is not): the new variables and the
argument of the call `rotate_reciever(rotation_direction)`. -/
def rotation_sweep_step (s : RotationState) : RotationState × Int :=
  let s1 : RotationState :=
    if s.current_rotation = 0 then
      { s with
          rotation_direction := 1
          current_rotation := to_uint16 ((s.current_rotation : Int) + 1) }
    else if s.current_rotation = 360 then
      { s with
          rotation_direction := -1
          current_rotation := to_uint16 ((s.current_rotation : Int) - 1)
          full_rotation_count := (s.full_rotation_count + 1) % 2 ^ 8 }
    else
      { s with
          current_rotation := to_uint16 ((s.current_rotation : Int) + s.rotation_direction) }
  (s1, s1.rotation_direction)

/-- The variables after `n` rotation steps in sweep mode, from the initial values. -/
def rotation_sweep_after : Nat → RotationState
  | 0 => rotation_initial_state
  | n + 1 => (rotation_sweep_step (rotation_sweep_after n)).1

/-- The degrees commanded by step `n + 1`: the argument it passes to `rotate_reciever`. -/
def rotation_sweep_command (n : Nat) : Int := (rotation_sweep_step (rotation_sweep_after n)).2

/-! ## Specification-side notions of the timing, the telemetry and the rotator -/

/-- The reply interval that a delayed transmission schedules after a frame received at device
time `r`: the device time of the transmission (the 32-bit value `delayed_time` handed to the
radio, with the eight low bits the radio discards set to 0) minus `r`, modulo `2 ^ 40`. -/
def spec_scheduled_interval (delayed_time r : Nat) : Nat :=
  spec_diff_mod_40 (256 * delayed_time) r

/-- Section 4.6 of the specification: a blob on the serial line is the header line
`"BLOB / <kind> / v<N> / <bytes>\n"`, followed by exactly `<bytes>` raw bytes, followed by
`"\n"`. -/
def spec_blob (kind : String) (version : Nat) (payload : List Byte) : List Byte :=
  text_bytes ("BLOB / " ++ kind ++ " / v" ++ toString version ++ " / "
      ++ toString payload.length ++ "\n")
    ++ payload ++ text_bytes "\n"

/-- The signed sum of the degrees commanded by the first `n` steps. -/
def spec_commanded_sum (n : Nat) : Int := ((List.range n).map rotation_sweep_command).sum

/-! ## Further concrete inputs, used as witnesses -/

/-- A tag whose last sync was sent at the last tick before the 32-bit tick counter wraps. -/
def tick_wrap_state : TagState :=
  { poll_waiting_state with last_sync_time := 4294967295 }

/-- An anchor that has promoted both events of the PollResponse state. -/
def anchor_paired_state : AnchorState :=
  { anchor_initial_state with
      state := .TWR_POLL_RESPONSE_STATE
      tx_done := 2
      new_frame := 2
      rx_timestamp_response := 1099511627775 }

/-- Readings in which the radio delivers the dummy byte `0xFF` followed by the accumulator
bytes `0, 1, 2, ...` (modulo 256); everything else is 0. -/
def sample_readings : TelemetryReadings :=
  { poa_time_blob := fun _ => 0
    cir_analysis_ip := fun _ => 0
    cir_analysis_sts1 := fun _ => 0
    cir_analysis_sts2 := fun _ => 0
    cir_buffer_before := fun _ => 0
    accumulator_dummy := 0xFF
    accumulator := fun k => to_uint8 k }

/-! ## Auxiliary lemmas: bits, codec, floating-point rounding, receive blocks -/

theorem xor_two_pow_of_lt (k v : Nat) (h : v < 2 ^ k) : v ^^^ 2 ^ k = 2 ^ k + v := by
  apply Nat.eq_of_testBit_eq
  intro i
  rw [Nat.testBit_xor, Nat.testBit_two_pow]
  rcases Nat.lt_trichotomy i k with hi | hi | hi
  · rw [Nat.testBit_two_pow_add_gt hi]
    have : ¬ k = i := by omega
    simp [this]
  · subst hi
    rw [Nat.testBit_two_pow_add_eq, Nat.testBit_lt_two_pow h]
    simp
  · have h1 : v < 2 ^ i := lt_of_lt_of_le h (Nat.pow_le_pow_right (by decide) (by omega))
    have h2 : 2 ^ k + v < 2 ^ i := by
      have : 2 ^ (k + 1) ≤ 2 ^ i := Nat.pow_le_pow_right (by decide) (by omega)
      rw [Nat.pow_succ] at this
      omega
    rw [Nat.testBit_lt_two_pow h1, Nat.testBit_lt_two_pow h2]
    have : ¬ k = i := by omega
    simp [this]

theorem xor_two_pow_of_ge (k v : Nat) (h1 : 2 ^ k ≤ v) (h2 : v < 2 ^ (k + 1)) :
    v ^^^ 2 ^ k = v - 2 ^ k := by
  have hw : v - 2 ^ k < 2 ^ k := by rw [Nat.pow_succ] at h2; omega
  have e := xor_two_pow_of_lt k (v - 2 ^ k) hw
  have hv : 2 ^ k + (v - 2 ^ k) = v := by omega
  rw [hv] at e
  calc v ^^^ 2 ^ k = ((v - 2 ^ k) ^^^ 2 ^ k) ^^^ 2 ^ k := by rw [e]
    _ = v - 2 ^ k := by rw [Nat.xor_assoc, Nat.xor_self, Nat.xor_zero]

theorem decode_40bit_timestamp_eq (b : Fin 5 → Byte) :
    decode_40bit_timestamp b
        = (b 0).val + (b 1).val * 2 ^ 8 + (b 2).val * 2 ^ 16 + (b 3).val * 2 ^ 24
          + (b 4).val * 2 ^ 32
      ∧ decode_40bit_timestamp b < 2 ^ 40 := by
  have h0 := (b 0).isLt
  have h1 := (b 1).isLt
  have h2 := (b 2).isLt
  have h3 := (b 3).isLt
  have h4 := (b 4).isLt
  simp only [decode_40bit_timestamp, add_u64, shl_u64, Nat.shiftLeft_eq]
  norm_num
  omega

theorem xor_sign_bit (v : Nat) (h : v < 2 ^ 24) :
    v ^^^ 8388608 = if v < 2 ^ 23 then v + 2 ^ 23 else v - 2 ^ 23 := by
  split
  · next hlt =>
    have := xor_two_pow_of_lt 23 v hlt
    norm_num at this ⊢
    omega
  · next hge =>
    have := xor_two_pow_of_ge 23 v (by omega) (by norm_num; omega)
    norm_num at this ⊢
    exact this

theorem to_int32_of_small (V : Nat) (h : V < 2 ^ 24) : to_int32 (V : Nat) = (V : Int) := by
  simp only [to_int32]; omega

theorem to_uint32_of_small (V : Nat) (h : V < 2 ^ 24) : to_uint32 (V : Int) = V := by
  simp only [to_uint32]; omega

theorem sign_mask_value : to_int32 (shl_u32 1 23 : Nat) = 8388608 := by
  norm_num [to_int32, shl_u32, Nat.shiftLeft_eq]

theorem combine_three_bytes (b0 b1 b2 : Byte) :
    add_u32 (add_u32 b0.val (shl_u32 b1.val 8)) (shl_u32 b2.val 16)
      = le_value_24 b0 b1 b2 := by
  have h0 := b0.isLt
  have h1 := b1.isLt
  have h2 := b2.isLt
  simp only [add_u32, shl_u32, Nat.shiftLeft_eq, le_value_24]
  omega

theorem sign_extend_low (V : Nat) (hlt : V < 2 ^ 23) :
    to_int32 (to_int32 ((V + 2 ^ 23 : Nat) : Int) - 8388608) = (V : Int) := by
  simp only [to_int32]
  omega

theorem sign_extend_high (V : Nat) (h : V < 2 ^ 24) (hge : ¬ V < 2 ^ 23) :
    to_int32 (to_int32 ((V - 2 ^ 23 : Nat) : Int) - 8388608) = (V : Int) - 2 ^ 24 := by
  simp only [to_int32]
  omega

theorem sign_extend_xor (V : Nat) (h : V < 2 ^ 24) :
    to_int32 (xor_int32 (to_int32 (V : Nat)) 8388608 - 8388608)
      = if V < 2 ^ 23 then (V : Int) else (V : Int) - 2 ^ 24 := by
  have e3 : to_uint32 (8388608 : Int) = 8388608 := by
    norm_num [to_uint32]
    rfl
  rw [to_int32_of_small V h]
  simp only [xor_int32, to_uint32_of_small V h, e3]
  rw [show Nat.xor V 8388608 = V ^^^ 8388608 from rfl, xor_sign_bit V h]
  by_cases hlt : V < 2 ^ 23
  · rw [if_pos hlt, if_pos hlt]
    exact sign_extend_low V hlt
  · rw [if_neg hlt, if_neg hlt]
    exact sign_extend_high V h hlt


theorem to_uint32_sign_extended (v : Nat) (h : v < 2 ^ 24) :
    to_uint32 (if v < 2 ^ 23 then (v : Int) else (v : Int) - 2 ^ 24)
      = if v < 2 ^ 23 then v else v + 255 * 2 ^ 24 := by
  by_cases hlt : v < 2 ^ 23
  · rw [if_pos hlt, if_pos hlt]
    simp only [to_uint32]
    omega
  · rw [if_neg hlt, if_neg hlt]
    simp only [to_uint32]
    omega

theorem high_bits_of_sign_extended (v i : Nat) (h : v < 2 ^ 24) (h1 : 24 ≤ i) (h2 : i < 32) :
    (if v < 2 ^ 23 then v else v + 255 * 2 ^ 24).testBit i = v.testBit 23 := by
  rw [Nat.testBit_to_div_mod, Nat.testBit_to_div_mod]
  by_cases hlt : v < 2 ^ 23
  · rw [if_pos hlt]
    have e1 : v / 2 ^ i = 0 := by
      apply Nat.div_eq_of_lt
      calc v < 2 ^ 23 := hlt
        _ ≤ 2 ^ i := Nat.pow_le_pow_right (by decide) (by omega)
    have e2 : v / 2 ^ 23 = 0 := Nat.div_eq_of_lt hlt
    rw [e1, e2]
  · rw [if_neg hlt]
    have e2 : v / 2 ^ 23 % 2 = 1 := by omega
    have e1 : (v + 255 * 2 ^ 24) / 2 ^ i % 2 = 1 := by
      interval_cases i <;> omega
    rw [e1, e2]

theorem decode_24bit_value (b0 b1 b2 : Byte) :
    decode_24bit [b0, b1, b2]
      = some (if le_value_24 b0 b1 b2 < 2 ^ 23 then (le_value_24 b0 b1 b2 : Int)
              else (le_value_24 b0 b1 b2 : Int) - 2 ^ 24) := by
  have hV24 : le_value_24 b0 b1 b2 < 2 ^ 24 := by
    have h0 := b0.isLt
    have h1 := b1.isLt
    have h2 := b2.isLt
    simp only [le_value_24]
    omega
  have hc : add_u32 (add_u32 b0.val (shl_u32 b1.val 8)) (shl_u32 b2.val 16)
      = le_value_24 b0 b1 b2 := combine_three_bytes b0 b1 b2
  simp only [decode_24bit, hc, sign_mask_value]
  rw [sign_extend_xor _ hV24]

theorem sign_extended_props (v : Nat) (h : v < 2 ^ 24) (r : Int)
    (hr : r = if v < 2 ^ 23 then (v : Int) else (v : Int) - 2 ^ 24) :
    (-(2 : Int) ^ 31 ≤ r ∧ r < 2 ^ 31)
      ∧ to_uint32 r % 2 ^ 24 = v
      ∧ (∀ i, 24 ≤ i → i < 32 → (to_uint32 r).testBit i = v.testBit 23)
      ∧ (-(2 : Int) ^ 23 ≤ r ∧ r < 2 ^ 23) := by
  subst hr
  refine ⟨?_, ?_, ?_, ?_⟩
  · split <;> omega
  · rw [to_uint32_sign_extended v h]
    split <;> omega
  · intro i h1 h2
    rw [to_uint32_sign_extended v h]
    exact high_bits_of_sign_extended v i h h1 h2
  · split <;> omega

theorem encode_bytes_value (v : Int) :
    le_value_24 (to_uint8 (v % 2 ^ 24).toNat) (to_uint8 ((v % 2 ^ 24).toNat / 256))
        (to_uint8 ((v % 2 ^ 24).toNat / 65536))
      = (v % 2 ^ 24).toNat := by
  have hw : (v % 2 ^ 24).toNat < 2 ^ 24 := by omega
  generalize (v % 2 ^ 24).toNat = w at hw
  simp only [le_value_24, to_uint8]
  omega

/-- Decoding undoes the specification's 24-bit encoding, whatever follows in memory. -/
theorem decode_24bit_encode (v : Int) (h1 : -(2 : Int) ^ 23 ≤ v) (h2 : v < 2 ^ 23)
    (tail : List Byte) : decode_24bit (spec_encode_24bit v ++ tail) = some v := by
  have hd : decode_24bit (spec_encode_24bit v ++ tail)
      = decode_24bit [to_uint8 (v % 2 ^ 24).toNat, to_uint8 ((v % 2 ^ 24).toNat / 256),
          to_uint8 ((v % 2 ^ 24).toNat / 65536)] := rfl
  rw [hd, decode_24bit_value, encode_bytes_value]
  congr 1
  split <;> omega

theorem spec_encode_24bit_length (v : Int) : (spec_encode_24bit v).length = 3 := rfl

theorem spec_cir_bytes_length (samples : List (Int × Int)) :
    (spec_cir_bytes samples).length = 6 * samples.length := by
  induction samples with
  | nil => rfl
  | cons s rest ih =>
    simp only [spec_cir_bytes, List.length_append, spec_encode_24bit_length, ih,
      List.length_cons]
    omega

/-- The loop decodes what the specification's encoding stored, started anywhere in the
buffer, as long as the 16-bit loop variable cannot wrap. -/
theorem cir_decode_loop_spec (count : Nat) (hc : 6 * count + 7 < 2 ^ 16) :
    ∀ (rest : List (Int × Int)) (pre : List Byte) (fuel : Nat),
      (∀ s ∈ rest, (-(2 : Int) ^ 23 ≤ s.1 ∧ s.1 < 2 ^ 23) ∧ (-(2 : Int) ^ 23 ≤ s.2 ∧ s.2 < 2 ^ 23)) →
      pre.length + 6 * rest.length = 1 + 6 * count →
      rest.length < fuel →
      cir_decode_loop (pre ++ spec_cir_bytes rest) count fuel pre.length
        = some (spec_cir_lines pre.length rest) := by
  intro rest
  induction rest with
  | nil =>
    intro pre fuel _ hlen hfuel
    obtain ⟨f, rfl⟩ : ∃ f, fuel = f + 1 := ⟨fuel - 1, by simp at hfuel; omega⟩
    simp only [List.length_nil] at hlen
    unfold cir_decode_loop
    rw [if_neg (by omega)]
    rfl
  | cons s rest ih =>
    intro pre fuel hr hlen hfuel
    simp only [List.length_cons] at hlen hfuel
    obtain ⟨f, rfl⟩ : ∃ f, fuel = f + 1 := ⟨fuel - 1, by omega⟩
    obtain ⟨⟨a1, a2⟩, ⟨b1, b2⟩⟩ := hr s (List.mem_cons_self _ _)
    have hr' : ∀ t ∈ rest, (-(2 : Int) ^ 23 ≤ t.1 ∧ t.1 < 2 ^ 23)
        ∧ (-(2 : Int) ^ 23 ≤ t.2 ∧ t.2 < 2 ^ 23) :=
      fun t ht => hr t (List.mem_cons_of_mem _ ht)
    have d1 : (pre ++ spec_cir_bytes (s :: rest)).drop pre.length
        = spec_encode_24bit s.1 ++ (spec_encode_24bit s.2 ++ spec_cir_bytes rest) := by
      rw [List.drop_left]
      simp only [spec_cir_bytes, List.append_assoc]
    have d2 : (pre ++ spec_cir_bytes (s :: rest)).drop (pre.length + 3)
        = spec_encode_24bit s.2 ++ spec_cir_bytes rest := by
      rw [← List.drop_drop, d1]
      rfl
    have e : pre ++ spec_cir_bytes (s :: rest)
        = (pre ++ (spec_encode_24bit s.1 ++ spec_encode_24bit s.2)) ++ spec_cir_bytes rest := by
      simp only [spec_cir_bytes, List.append_assoc]
    have hl : (pre ++ (spec_encode_24bit s.1 ++ spec_encode_24bit s.2)).length
        = pre.length + 6 := by
      simp only [List.length_append, spec_encode_24bit_length]
    have hi := ih (pre ++ (spec_encode_24bit s.1 ++ spec_encode_24bit s.2)) f hr'
      (by rw [hl]; omega) (by omega)
    rw [hl, ← e] at hi
    unfold cir_decode_loop
    rw [if_pos (by omega), d1, d2, decode_24bit_encode s.1 a1 a2, decode_24bit_encode s.2 b1 b2]
    simp only []
    rw [show (pre.length + 6) % 2 ^ 16 = pre.length + 6 by omega, hi]
    rfl

theorem sub_u64_of_40bit (a b : Nat) (ha : a < 2 ^ 40) (hb : b < 2 ^ 40) :
    sub_u64 a b = spec_diff_mod_40 a b + (if b ≤ a then 0 else 2 ^ 64 - 2 ^ 40) := by
  unfold sub_u64 spec_diff_mod_40
  split <;> omega

theorem spec_cir_lines_length : ∀ (i : Nat) (rest : List (Int × Int)),
    (spec_cir_lines i rest).length = rest.length
  | _, [] => rfl
  | i, _ :: rest => by
    simp only [spec_cir_lines, List.length_cons, spec_cir_lines_length (i + 6) rest]

theorem spec_cir_lines_get : ∀ (rest : List (Int × Int)) (i k : Nat),
    (spec_cir_lines i rest)[k]?
      = (rest[k]?).map (fun s => ({ i := i + 6 * k, real := s.1, imag := s.2 } : cir_line))
  | [], _, _ => by simp [spec_cir_lines]
  | s :: rest, i, 0 => by simp [spec_cir_lines]
  | s :: rest, i, k + 1 => by
    simp only [spec_cir_lines, List.getElem?_cons_succ]
    rw [spec_cir_lines_get rest (i + 6) k]
    have : i + 6 + 6 * k = i + 6 * (k + 1) := by ring
    rw [this]

theorem log2Fuel_spec : ∀ (fuel n : Nat), 1 ≤ n → n ≤ fuel →
    2 ^ log2Fuel fuel n ≤ n ∧ n < 2 ^ (log2Fuel fuel n + 1)
  | 0, n, h1, h2 => by omega
  | fuel + 1, n, h1, h2 => by
    unfold log2Fuel
    by_cases h : n < 2
    · rw [if_pos h]
      constructor <;> norm_num <;> omega
    · rw [if_neg h]
      have ih := log2Fuel_spec fuel (n / 2) (by omega) (by omega)
      generalize log2Fuel fuel (n / 2) = k at ih
      obtain ⟨ih1, ih2⟩ := ih
      rw [Nat.pow_succ] at ih2 ⊢
      rw [Nat.pow_succ]
      constructor <;> omega

theorem ilog2_spec (n : Nat) (h : 1 ≤ n) : 2 ^ ilog2 n ≤ n ∧ n < 2 ^ (ilog2 n + 1) :=
  log2Fuel_spec n n h (le_refl n)

theorem scaleDown_den_pos (x : Frac) (e : Int) (hd : 0 < x.den) : 0 < (scaleDown x e).den := by
  unfold scaleDown
  split
  · exact Nat.mul_pos hd (Nat.pow_pos (by decide))
  · exact hd

theorem scaleDown_num_pos (x : Frac) (e : Int) (hn : 0 < x.num) : 0 < (scaleDown x e).num := by
  unfold scaleDown
  split
  · exact hn
  · exact Nat.mul_pos hn (Nat.pow_pos (by decide))

theorem scaleDown_toRat (x : Frac) (e : Int) (hd : 0 < x.den) :
    (scaleDown x e).toRat = x.toRat / (2 : ℚ) ^ e := by
  have hd' : (x.den : ℚ) ≠ 0 := by exact_mod_cast hd.ne'
  unfold scaleDown Frac.toRat
  split
  · next h =>
    have he : (2 : ℚ) ^ e = ((2 ^ e.toNat : Nat) : ℚ) := by
      conv_lhs => rw [← Int.toNat_of_nonneg h]
      rw [zpow_natCast]
      push_cast
      rfl
    rw [he]
    push_cast
    rw [div_div]
  · next h =>
    have h' : 0 ≤ -e := by omega
    have he : (2 : ℚ) ^ e = (((2 ^ (-e).toNat : Nat) : ℚ))⁻¹ := by
      have : e = -((-e).toNat : Int) := by rw [Int.toNat_of_nonneg h']; ring
      conv_lhs => rw [this]
      rw [zpow_neg, zpow_natCast]
      push_cast
      rfl
    rw [he]
    push_cast
    field_simp

theorem toRat_pos (x : Frac) (hn : 0 < x.num) (hd : 0 < x.den) : 0 < x.toRat := by
  unfold Frac.toRat
  have h1 : (0 : ℚ) < x.num := by exact_mod_cast hn
  have h2 : (0 : ℚ) < x.den := by exact_mod_cast hd
  exact div_pos h1 h2

theorem one_le_toRat_iff (y : Frac) (hd : 0 < y.den) : 1 ≤ y.toRat ↔ y.den ≤ y.num := by
  unfold Frac.toRat
  have h2 : (0 : ℚ) < y.den := by exact_mod_cast hd
  rw [le_div_iff₀ h2, one_mul]
  exact_mod_cast Iff.rfl

theorem floorLog2_spec (x : Frac) (hn : 0 < x.num) (hd : 0 < x.den) :
    (2 : ℚ) ^ floorLog2 x ≤ x.toRat ∧ x.toRat < (2 : ℚ) ^ (floorLog2 x + 1) := by
  obtain ⟨a1, a2⟩ := ilog2_spec x.num hn
  obtain ⟨b1, b2⟩ := ilog2_spec x.den hd
  have hX := toRat_pos x hn hd
  have h2 : (0 : ℚ) < x.den := by exact_mod_cast hd
  have a1' : (2 : ℚ) ^ (ilog2 x.num : Int) ≤ x.num := by
    rw [zpow_natCast]; exact_mod_cast a1
  have a2' : (x.num : ℚ) < (2 : ℚ) ^ ((ilog2 x.num : Int) + 1) := by
    rw [show ((ilog2 x.num : Int) + 1) = ((ilog2 x.num + 1 : Nat) : Int) by push_cast; rfl,
      zpow_natCast]
    exact_mod_cast a2
  have b1' : (2 : ℚ) ^ (ilog2 x.den : Int) ≤ x.den := by
    rw [zpow_natCast]; exact_mod_cast b1
  have b2' : (x.den : ℚ) < (2 : ℚ) ^ ((ilog2 x.den : Int) + 1) := by
    rw [show ((ilog2 x.den : Int) + 1) = ((ilog2 x.den + 1 : Nat) : Int) by push_cast; rfl,
      zpow_natCast]
    exact_mod_cast b2
  have two_pos : ∀ k : Int, (0 : ℚ) < (2 : ℚ) ^ k := fun k => zpow_pos (by norm_num) k
  -- bounds with k = a - b
  have up : x.toRat < (2 : ℚ) ^ ((ilog2 x.num : Int) - (ilog2 x.den : Int) + 1) := by
    have e : (2 : ℚ) ^ ((ilog2 x.num : Int) - (ilog2 x.den : Int) + 1)
        = (2 : ℚ) ^ ((ilog2 x.num : Int) + 1) / (2 : ℚ) ^ (ilog2 x.den : Int) := by
      rw [← zpow_sub₀ (by norm_num : (2 : ℚ) ≠ 0)]
      congr 1; ring
    rw [e]
    unfold Frac.toRat
    rw [div_lt_div_iff₀ h2 (two_pos _)]
    calc (x.num : ℚ) * (2 : ℚ) ^ (ilog2 x.den : Int)
        ≤ x.num * x.den := by gcongr
      _ < (2 : ℚ) ^ ((ilog2 x.num : Int) + 1) * x.den := by gcongr
  have lo : (2 : ℚ) ^ ((ilog2 x.num : Int) - (ilog2 x.den : Int) - 1) ≤ x.toRat := by
    have e : (2 : ℚ) ^ ((ilog2 x.num : Int) - (ilog2 x.den : Int) - 1)
        = (2 : ℚ) ^ (ilog2 x.num : Int) / (2 : ℚ) ^ ((ilog2 x.den : Int) + 1) := by
      rw [← zpow_sub₀ (by norm_num : (2 : ℚ) ≠ 0)]
      congr 1; ring
    rw [e]
    unfold Frac.toRat
    rw [div_le_div_iff₀ (two_pos _) h2]
    calc (2 : ℚ) ^ (ilog2 x.num : Int) * x.den
        ≤ x.num * x.den := by gcongr
      _ ≤ x.num * (2 : ℚ) ^ ((ilog2 x.den : Int) + 1) := by gcongr
  unfold floorLog2
  simp only []
  generalize (ilog2 x.num : Int) - (ilog2 x.den : Int) = k at up lo
  have hs := scaleDown_toRat x k hd
  have hsd := scaleDown_den_pos x k hd
  have hiff := one_le_toRat_iff (scaleDown x k) hsd
  by_cases hc : (scaleDown x k).den ≤ (scaleDown x k).num
  · rw [if_pos hc]
    refine ⟨?_, up⟩
    have := hiff.mpr hc
    rw [hs, le_div_iff₀ (two_pos k), one_mul] at this
    exact this
  · rw [if_neg hc]
    refine ⟨lo, ?_⟩
    have : ¬ 1 ≤ (scaleDown x k).toRat := fun h => hc (hiff.mp h)
    rw [hs, le_div_iff₀ (two_pos k), one_mul, not_le] at this
    rw [show k - 1 + 1 = k by ring]
    exact this

theorem roundHalfEven_bounds (y : Frac) (hd : 0 < y.den) :
    2 * roundHalfEven y * y.den ≤ 2 * y.num + y.den
      ∧ 2 * y.num ≤ 2 * roundHalfEven y * y.den + y.den := by
  have hdm := Nat.div_add_mod y.num y.den
  have hr := Nat.mod_lt y.num hd
  unfold roundHalfEven
  simp only []
  generalize y.num / y.den = q at hdm
  generalize y.num % y.den = r at hdm hr
  generalize y.num = n at hdm
  generalize y.den = d at hdm hr hd
  have e1 : 2 * q * d = 2 * (d * q) := by ring
  have e2 : 2 * (q + 1) * d = 2 * (d * q) + 2 * d := by ring
  generalize d * q = p at hdm e1 e2
  split_ifs <;> (first | rw [e1] | rw [e2]) <;> omega

theorem roundHalfEven_abs (y : Frac) (hd : 0 < y.den) :
    |(roundHalfEven y : ℚ) - y.toRat| ≤ 1 / 2 := by
  obtain ⟨h1, h2⟩ := roundHalfEven_bounds y hd
  have hd' : (0 : ℚ) < y.den := by exact_mod_cast hd
  have h1' : (2 : ℚ) * roundHalfEven y * y.den ≤ 2 * y.num + y.den := by exact_mod_cast h1
  have h2' : (2 : ℚ) * y.num ≤ 2 * roundHalfEven y * y.den + y.den := by exact_mod_cast h2
  unfold Frac.toRat
  have e : (roundHalfEven y : ℚ) - (y.num : ℚ) / y.den
      = ((roundHalfEven y : ℚ) * y.den - y.num) / y.den := by
    field_simp
  rw [e, abs_div, abs_of_pos hd', div_le_iff₀ hd', abs_le]
  constructor <;> linarith

theorem two_zpow_pos (k : Int) : (0 : ℚ) < (2 : ℚ) ^ k := zpow_pos (by norm_num) k

theorem dyadic_den_pos (m : Nat) (e : Int) : 0 < (dyadic m e).den := by
  unfold dyadic
  split
  · exact Nat.one_pos
  · exact Nat.pow_pos (by decide)

theorem dyadic_num_pos (m : Nat) (e : Int) (hm : 0 < m) : 0 < (dyadic m e).num := by
  unfold dyadic
  split
  · exact Nat.mul_pos hm (Nat.pow_pos (by decide))
  · exact hm

theorem dyadic_toRat (m : Nat) (e : Int) : (dyadic m e).toRat = (m : ℚ) * (2 : ℚ) ^ e := by
  unfold dyadic Frac.toRat
  split
  · next h =>
    have he : (2 : ℚ) ^ e = ((2 ^ e.toNat : Nat) : ℚ) := by
      conv_lhs => rw [← Int.toNat_of_nonneg h]
      rw [zpow_natCast]
      push_cast
      rfl
    rw [he]
    push_cast
    rw [div_one]
  · next h =>
    have h' : 0 ≤ -e := by omega
    have he : (2 : ℚ) ^ e = (((2 ^ (-e).toNat : Nat) : ℚ))⁻¹ := by
      have : e = -((-e).toNat : Int) := by rw [Int.toNat_of_nonneg h']; ring
      conv_lhs => rw [this]
      rw [zpow_neg, zpow_natCast]
      push_cast
      rfl
    rw [he]
    push_cast
    rw [div_eq_mul_inv]

theorem floorLog2_le_of_lt (x : Frac) (hn : 0 < x.num) (hd : 0 < x.den) (k : Int)
    (h : x.toRat < (2 : ℚ) ^ (k + 1)) : floorLog2 x ≤ k := by
  have h1 := (floorLog2_spec x hn hd).1
  have h2 := lt_of_le_of_lt h1 h
  rw [zpow_lt_zpow_iff_right₀ (by norm_num : (1 : ℚ) < 2)] at h2
  omega

theorem le_floorLog2_of_le (x : Frac) (hn : 0 < x.num) (hd : 0 < x.den) (k : Int)
    (h : (2 : ℚ) ^ k ≤ x.toRat) : k ≤ floorLog2 x := by
  have h1 := (floorLog2_spec x hn hd).2
  have h2 := lt_of_le_of_lt h h1
  rw [zpow_lt_zpow_iff_right₀ (by norm_num : (1 : ℚ) < 2)] at h2
  omega

/-- Rounding in the normal range: the result is finite, positive, and within half a unit in
the last place, hence within relative error `2 ^ (-prec)`. -/
theorem fp_round_normal (F : FloatFormat) (x : Frac) (hn : 0 < x.num) (hd : 0 < x.den)
    (hp : 1 ≤ F.prec) (hlo : (2 : ℚ) ^ F.emin ≤ x.toRat) (hhi : x.toRat < (2 : ℚ) ^ F.emax) :
    ∃ r, fp_round F x = some r ∧ 0 < r.num ∧ 0 < r.den
      ∧ |r.toRat - x.toRat| ≤ x.toRat / (2 : ℚ) ^ F.prec := by
  obtain ⟨s1, s2⟩ := floorLog2_spec x hn hd
  have hk1 : F.emin ≤ floorLog2 x := le_floorLog2_of_le x hn hd _ hlo
  have hk2 : floorLog2 x < F.emax := by
    have := lt_of_le_of_lt s1 hhi
    rwa [zpow_lt_zpow_iff_right₀ (by norm_num : (1 : ℚ) < 2)] at this
  have hX := toRat_pos x hn hd
  generalize hk : floorLog2 x = k at s1 s2 hk1 hk2
  -- the scaled significand
  have hy := scaleDown_toRat x (k - ((F.prec : Int) - 1)) hd
  have hyd := scaleDown_den_pos x (k - ((F.prec : Int) - 1)) hd
  have hm := roundHalfEven_abs _ hyd
  rw [hy, abs_le] at hm
  obtain ⟨hm1, hm2⟩ := hm
  have hpe : (2 : ℚ) ^ (k - ((F.prec : Int) - 1)) * (2 : ℚ) ^ ((F.prec : Int) - 1) = (2 : ℚ) ^ k := by
    rw [← zpow_add₀ (by norm_num : (2 : ℚ) ≠ 0)]
    congr 1; ring
  have hpe2 : (2 : ℚ) ^ (k - ((F.prec : Int) - 1)) * (2 : ℚ) ^ (F.prec : Int) = (2 : ℚ) ^ (k + 1) := by
    rw [← zpow_add₀ (by norm_num : (2 : ℚ) ≠ 0)]
    congr 1; ring
  have hE := two_zpow_pos (k - ((F.prec : Int) - 1))
  -- Y = X / 2^e lies in [2^(p-1), 2^p)
  have hY1 : (2 : ℚ) ^ ((F.prec : Int) - 1) ≤ x.toRat / (2 : ℚ) ^ (k - ((F.prec : Int) - 1)) := by
    rw [le_div_iff₀ hE, mul_comm, hpe]; exact s1
  have hY2 : x.toRat / (2 : ℚ) ^ (k - ((F.prec : Int) - 1)) < (2 : ℚ) ^ (F.prec : Int) := by
    rw [div_lt_iff₀ hE, mul_comm, hpe2]; exact s2
  have hone : (1 : ℚ) ≤ (2 : ℚ) ^ ((F.prec : Int) - 1) := by
    have : (0 : Int) ≤ (F.prec : Int) - 1 := by omega
    calc (1 : ℚ) = (2 : ℚ) ^ (0 : Int) := by norm_num
      _ ≤ (2 : ℚ) ^ ((F.prec : Int) - 1) := zpow_le_zpow_right₀ (by norm_num) this
  generalize hY : x.toRat / (2 : ℚ) ^ (k - ((F.prec : Int) - 1)) = Y at hm1 hm2 hY1 hY2
  generalize hM : roundHalfEven (scaleDown x (k - ((F.prec : Int) - 1))) = m at hm1 hm2
  have hmpos : 0 < m := by
    have : (0 : ℚ) < m := by linarith
    exact_mod_cast this
  have hmle : (m : ℚ) ≤ (2 : ℚ) ^ (F.prec : Int) := by
    -- m < 2^p + 1/2 and both are integers
    have h1 : (m : ℚ) < (2 : ℚ) ^ (F.prec : Int) + 1 := by linarith
    rw [zpow_natCast] at h1 ⊢
    have h2 : m < 2 ^ F.prec + 1 := by exact_mod_cast h1
    have h3 : m ≤ 2 ^ F.prec := by omega
    exact_mod_cast h3
  have hr := dyadic_toRat m (k - ((F.prec : Int) - 1))
  have hrn := dyadic_num_pos m (k - ((F.prec : Int) - 1)) hmpos
  have hrd := dyadic_den_pos m (k - ((F.prec : Int) - 1))
  have hrle : (dyadic m (k - ((F.prec : Int) - 1))).toRat < (2 : ℚ) ^ (k + 1 + 1) := by
    rw [hr]
    calc (m : ℚ) * (2 : ℚ) ^ (k - ((F.prec : Int) - 1))
        ≤ (2 : ℚ) ^ (F.prec : Int) * (2 : ℚ) ^ (k - ((F.prec : Int) - 1)) := by gcongr
      _ = (2 : ℚ) ^ (k + 1) := by rw [mul_comm, hpe2]
      _ < (2 : ℚ) ^ (k + 1 + 1) := zpow_lt_zpow_right₀ (by norm_num) (by omega)
  have hfl := floorLog2_le_of_lt _ hrn hrd (k + 1) hrle
  refine ⟨dyadic m (k - ((F.prec : Int) - 1)), ?_, hrn, hrd, ?_⟩
  · unfold fp_round
    rw [if_neg (by omega), if_neg (by omega)]
    simp only []
    rw [hk, max_eq_left hk1, hM, if_neg (by omega), if_pos (by omega)]
  · rw [hr]
    have hXY : x.toRat = Y * (2 : ℚ) ^ (k - ((F.prec : Int) - 1)) := by
      rw [← hY]; field_simp
    have e1 : (m : ℚ) * (2 : ℚ) ^ (k - ((F.prec : Int) - 1)) - x.toRat
        = ((m : ℚ) - Y) * (2 : ℚ) ^ (k - ((F.prec : Int) - 1)) := by
      rw [hXY]; ring
    rw [e1, abs_mul, abs_of_pos hE]
    have habs : |(m : ℚ) - Y| ≤ 1 / 2 := abs_le.mpr ⟨hm1, hm2⟩
    have hhalf : (1 / 2 : ℚ) * (2 : ℚ) ^ (k - ((F.prec : Int) - 1)) = (2 : ℚ) ^ k / (2 : ℚ) ^ F.prec := by
      have h2p : (2 : ℚ) ^ F.prec = (2 : ℚ) ^ (F.prec : Int) := (zpow_natCast _ _).symm
      rw [h2p, eq_div_iff (two_zpow_pos _).ne', mul_assoc, hpe2,
        zpow_add_one₀ (by norm_num : (2 : ℚ) ≠ 0)]
      ring
    calc |(m : ℚ) - Y| * (2 : ℚ) ^ (k - ((F.prec : Int) - 1))
        ≤ (1 / 2) * (2 : ℚ) ^ (k - ((F.prec : Int) - 1)) := by gcongr
      _ = (2 : ℚ) ^ k / (2 : ℚ) ^ F.prec := hhalf
      _ ≤ x.toRat / (2 : ℚ) ^ F.prec := by gcongr

theorem chain_upper (u v n d c N D Q T C P : ℚ) (hu0 : 0 < u) (hu1 : u < 1) (hv0 : 0 < v)
    (hn : 0 < n) (hd : 0 < d) (hc : 0 < c) (hQ0 : 0 < Q) (hC0 : 0 < C)
    (hN : N ≤ n * (1 + u)) (hD : d * (1 - u) ≤ D)
    (hQ : Q ≤ N / D * (1 + u)) (hT : T ≤ Q * (1 + v)) (hC : C ≤ c * (1 + u))
    (hP : P ≤ T * C * (1 + u)) :
    P ≤ n / d * c * ((1 + u) ^ 4 * (1 + v) / (1 - u)) := by
  have h1u : 0 < 1 - u := by linarith
  have hND : N / D ≤ n * (1 + u) / (d * (1 - u)) := by
    apply div_le_div₀ (by positivity) hN (by positivity) hD
  calc P ≤ T * C * (1 + u) := hP
    _ ≤ (Q * (1 + v)) * (c * (1 + u)) * (1 + u) := by gcongr
    _ ≤ ((N / D * (1 + u)) * (1 + v)) * (c * (1 + u)) * (1 + u) := by gcongr
    _ ≤ ((n * (1 + u) / (d * (1 - u)) * (1 + u)) * (1 + v)) * (c * (1 + u)) * (1 + u) := by
        gcongr
    _ = n / d * c * ((1 + u) ^ 4 * (1 + v) / (1 - u)) := by
        field_simp
        ring

theorem chain_lower (u v n d c N D Q T C P : ℚ) (hu0 : 0 < u) (hu1 : u < 1) (hv1 : v < 1)
    (hd : 0 < d) (hc : 0 < c) (hN0 : 0 < N) (hD0 : 0 < D) (hT0 : 0 < T)
    (hN : n * (1 - u) ≤ N) (hD : D ≤ d * (1 + u))
    (hQ : N / D * (1 - u) ≤ Q) (hT : Q * (1 - v) ≤ T) (hC : c * (1 - u) ≤ C)
    (hP : T * C * (1 - u) ≤ P) :
    n / d * c * ((1 - u) ^ 4 * (1 - v) / (1 + u)) ≤ P := by
  have h1u : 0 < 1 - u := by linarith
  have h1v : 0 < 1 - v := by linarith
  have hND : n * (1 - u) / (d * (1 + u)) ≤ N / D := by
    apply div_le_div₀ (by positivity) hN (by positivity) hD
  calc n / d * c * ((1 - u) ^ 4 * (1 - v) / (1 + u))
      = ((n * (1 - u) / (d * (1 + u)) * (1 - u)) * (1 - v)) * (c * (1 - u)) * (1 - u) := by
        field_simp
        ring
    _ ≤ ((N / D * (1 - u)) * (1 - v)) * (c * (1 - u)) * (1 - u) := by gcongr
    _ ≤ (Q * (1 - v)) * (c * (1 - u)) * (1 - u) := by gcongr
    _ ≤ T * C * (1 - u) := by gcongr
    _ ≤ P := hP

theorem zpow_neg_le_inv_pow (a b : Nat) (h : b ≤ a) :
    (2 : ℚ) ^ (-(a : Int)) ≤ 1 / 2 ^ b := by
  rw [one_div, ← zpow_natCast, ← zpow_neg]
  exact zpow_le_zpow_right₀ (by norm_num) (by omega)

theorem pow_lt_zpow (a b : Nat) (h : b < a) : (2 : ℚ) ^ b < (2 : ℚ) ^ (a : Int) := by
  rw [← zpow_natCast]
  exact zpow_lt_zpow_right₀ (by norm_num) (by omega)

/-- Rounding to `double` of a value between `2 ^ (-100)` and `2 ^ 100`. -/
theorem fp64_approx (x : Frac) (hn : 0 < x.num) (hd : 0 < x.den)
    (h1 : 1 / 2 ^ 100 ≤ x.toRat) (h2 : x.toRat ≤ 2 ^ 100) :
    ∃ r, fp_round binary64 x = some r ∧ 0 < r.num ∧ 0 < r.den
      ∧ x.toRat * (1 - 1 / 2 ^ 53) ≤ r.toRat ∧ r.toRat ≤ x.toRat * (1 + 1 / 2 ^ 53)
      ∧ x.toRat / 2 ≤ r.toRat ∧ r.toRat ≤ 2 * x.toRat := by
  have hX := toRat_pos x hn hd
  have hlo : (2 : ℚ) ^ binary64.emin ≤ x.toRat :=
    le_trans (zpow_neg_le_inv_pow 1022 100 (by decide)) h1
  have hhi : x.toRat < (2 : ℚ) ^ binary64.emax :=
    lt_of_le_of_lt h2 (pow_lt_zpow 1023 100 (by decide))
  obtain ⟨r, hr, hrn, hrd, habs⟩ := fp_round_normal binary64 x hn hd (by decide) hlo hhi
  rw [abs_le] at habs
  obtain ⟨a1, a2⟩ := habs
  have e : x.toRat / (2 : ℚ) ^ binary64.prec = x.toRat * (1 / 2 ^ 53) := by
    rw [show binary64.prec = 53 from rfl]; ring
  rw [e] at a1 a2
  refine ⟨r, hr, hrn, hrd, by linarith, by linarith, ?_, ?_⟩
  · have : x.toRat * (1 / 2 ^ 53) ≤ x.toRat * (1 / 2) := by gcongr; norm_num
    linarith
  · have : x.toRat * (1 / 2 ^ 53) ≤ x.toRat * 1 := by gcongr; norm_num
    linarith

/-- Rounding to `float` of a value between `2 ^ (-100)` and `2 ^ 100`. -/
theorem fp32_approx (x : Frac) (hn : 0 < x.num) (hd : 0 < x.den)
    (h1 : 1 / 2 ^ 100 ≤ x.toRat) (h2 : x.toRat ≤ 2 ^ 100) :
    ∃ r, fp_round binary32 x = some r ∧ 0 < r.num ∧ 0 < r.den
      ∧ x.toRat * (1 - 1 / 2 ^ 24) ≤ r.toRat ∧ r.toRat ≤ x.toRat * (1 + 1 / 2 ^ 24)
      ∧ x.toRat / 2 ≤ r.toRat ∧ r.toRat ≤ 2 * x.toRat := by
  have hX := toRat_pos x hn hd
  have hlo : (2 : ℚ) ^ binary32.emin ≤ x.toRat :=
    le_trans (zpow_neg_le_inv_pow 126 100 (by decide)) h1
  have hhi : x.toRat < (2 : ℚ) ^ binary32.emax :=
    lt_of_le_of_lt h2 (pow_lt_zpow 127 100 (by decide))
  obtain ⟨r, hr, hrn, hrd, habs⟩ := fp_round_normal binary32 x hn hd (by decide) hlo hhi
  rw [abs_le] at habs
  obtain ⟨a1, a2⟩ := habs
  have e : x.toRat / (2 : ℚ) ^ binary32.prec = x.toRat * (1 / 2 ^ 24) := by
    rw [show binary32.prec = 24 from rfl]; ring
  rw [e] at a1 a2
  refine ⟨r, hr, hrn, hrd, by linarith, by linarith, ?_, ?_⟩
  · have : x.toRat * (1 / 2 ^ 24) ≤ x.toRat * (1 / 2) := by gcongr; norm_num
    linarith
  · have : x.toRat * (1 / 2 ^ 24) ≤ x.toRat * 1 := by gcongr; norm_num
    linarith

theorem toRat_mk (n d : Nat) : (Frac.mk n d).toRat = (n : ℚ) / d := rfl

theorem toRat_quot (a b : Frac) (ha : 0 < a.den) (hb : 0 < b.num) :
    (Frac.mk (a.num * b.den) (a.den * b.num)).toRat = a.toRat / b.toRat := by
  have h1 : (a.den : ℚ) ≠ 0 := by exact_mod_cast ha.ne'
  have h2 : (b.num : ℚ) ≠ 0 := by exact_mod_cast hb.ne'
  unfold Frac.toRat
  push_cast
  by_cases h3 : (b.den : ℚ) = 0
  · simp [h3]
  · field_simp

theorem toRat_prod (a b : Frac) :
    (Frac.mk (a.num * b.num) (a.den * b.den)).toRat = a.toRat * b.toRat := by
  unfold Frac.toRat
  push_cast
  rw [mul_div_mul_comm]

/-- A zero numerator gives the `double` zero. -/
theorem tprop_product_zero (den64 : Nat) (h1 : 0 < den64) (h2 : den64 < 2 ^ 64) :
    tprop_product 0 den64 = some ⟨0, 1⟩ := by
  have hd1 : (1 : ℚ) / 2 ^ 100 ≤ (Frac.mk den64 1).toRat := by
    rw [toRat_mk]
    have : (1 : ℚ) ≤ den64 := by exact_mod_cast h1
    calc (1 : ℚ) / 2 ^ 100 ≤ 1 := by norm_num
      _ ≤ _ := by simpa using this
  have hd2 : (Frac.mk den64 1).toRat ≤ 2 ^ 100 := by
    rw [toRat_mk]
    have : (den64 : ℚ) ≤ 2 ^ 64 := by exact_mod_cast h2.le
    calc ((den64 : ℚ)) / ((1 : Nat) : ℚ) = den64 := by simp
      _ ≤ 2 ^ 64 := this
      _ ≤ 2 ^ 100 := by norm_num
  obtain ⟨D, hD, hDn, hDd, -⟩ := fp64_approx ⟨den64, 1⟩ h1 Nat.one_pos hd1 hd2
  obtain ⟨C, hC, hCn, hCd, -⟩ := fp64_approx ⟨299792458, 1000000⟩ (by decide) (by decide)
    (by rw [toRat_mk]; norm_num) (by rw [toRat_mk]; norm_num)
  have hz : ∀ F : FloatFormat, ∀ d : Nat, 0 < d → fp_round F ⟨0, d⟩ = some ⟨0, 1⟩ := by
    intro F d hd
    unfold fp_round
    rw [if_neg (by simpa using hd.ne'), if_pos rfl]
  unfold tprop_product double_of_u64
  rw [hz _ _ Nat.one_pos, hD]
  simp only [Option.bind_eq_bind, Option.some_bind]
  unfold double_div
  simp only [Nat.zero_mul, Nat.one_mul]
  rw [hz _ _ hDn]
  simp only [Option.some_bind]
  unfold float_of_double
  rw [hz _ _ Nat.one_pos]
  simp only [Option.some_bind]
  unfold double_299_792458
  rw [hC]
  simp only [Option.some_bind]
  unfold double_mul
  simp only [Nat.zero_mul, Nat.one_mul]
  exact hz _ _ hCd

theorem nat_frac_bounds (n : Nat) (h1 : 0 < n) (h2 : n < 2 ^ 64) :
    (Frac.mk n 1).toRat = n ∧ (1 : ℚ) ≤ n ∧ (n : ℚ) ≤ 2 ^ 64 := by
  refine ⟨by rw [toRat_mk]; simp, by exact_mod_cast h1, by exact_mod_cast h2.le⟩

/-- Error bounds of the floating-point product for a positive numerator. -/
theorem tprop_product_approx (num den64 : Nat) (hn1 : 0 < num) (hn2 : num < 2 ^ 64)
    (hd1 : 0 < den64) (hd2 : den64 < 2 ^ 64) :
    ∃ p, tprop_product num den64 = some p ∧ 0 < p.den
      ∧ (num : ℚ) / den64 * (299792458 / 1000000)
          * ((1 - 1 / 2 ^ 53) ^ 4 * (1 - 1 / 2 ^ 24) / (1 + 1 / 2 ^ 53)) ≤ p.toRat
      ∧ p.toRat ≤ (num : ℚ) / den64 * (299792458 / 1000000)
          * ((1 + 1 / 2 ^ 53) ^ 4 * (1 + 1 / 2 ^ 24) / (1 - 1 / 2 ^ 53)) := by
  obtain ⟨en, nlo, nhi⟩ := nat_frac_bounds num hn1 hn2
  obtain ⟨ed, dlo, dhi⟩ := nat_frac_bounds den64 hd1 hd2
  -- (double)subtraction
  obtain ⟨N, hN, hNn, hNd, N1, N2, N3, N4⟩ := fp64_approx ⟨num, 1⟩ hn1 Nat.one_pos
    (by rw [en]; exact le_trans (by norm_num) nlo) (by rw [en]; exact le_trans nhi (by norm_num))
  rw [en] at N1 N2 N3 N4
  -- (double)(denominator << 6)
  obtain ⟨D, hD, hDn, hDd, D1, D2, D3, D4⟩ := fp64_approx ⟨den64, 1⟩ hd1 Nat.one_pos
    (by rw [ed]; exact le_trans (by norm_num) dlo) (by rw [ed]; exact le_trans dhi (by norm_num))
  rw [ed] at D1 D2 D3 D4
  have hNpos := toRat_pos N hNn hNd
  have hDpos := toRat_pos D hDn hDd
  -- the quotient
  have eq := toRat_quot N D hNd hDn
  have q1 : (1 : ℚ) / 2 ^ 66 ≤ N.toRat / D.toRat := by
    have a : (1 : ℚ) / 2 ≤ N.toRat := by linarith
    have b : D.toRat ≤ 2 ^ 65 := by linarith
    calc (1 : ℚ) / 2 ^ 66 = (1 / 2) / 2 ^ 65 := by norm_num
      _ ≤ N.toRat / D.toRat := div_le_div₀ hNpos.le a hDpos b
  have q2 : N.toRat / D.toRat ≤ 2 ^ 66 := by
    have a : N.toRat ≤ 2 ^ 65 := by linarith
    have b : (1 : ℚ) / 2 ≤ D.toRat := by linarith
    calc N.toRat / D.toRat ≤ 2 ^ 65 / (1 / 2) := div_le_div₀ (by norm_num) a (by norm_num) b
      _ = 2 ^ 66 := by norm_num
  obtain ⟨Q, hQ, hQn, hQd, Q1, Q2, Q3, Q4⟩ := fp64_approx ⟨N.num * D.den, N.den * D.num⟩
    (Nat.mul_pos hNn hDd) (Nat.mul_pos hNd hDn)
    (by rw [eq]; exact le_trans (by norm_num) q1) (by rw [eq]; exact le_trans q2 (by norm_num))
  rw [eq] at Q1 Q2 Q3 Q4
  have hQpos := toRat_pos Q hQn hQd
  -- conversion to float
  obtain ⟨T, hT, hTn, hTd, T1, T2, T3, T4⟩ := fp32_approx Q hQn hQd
    (by linarith) (by linarith)
  have hTpos := toRat_pos T hTn hTd
  -- the constant
  obtain ⟨C, hC, hCn, hCd, C1, C2, C3, C4⟩ := fp64_approx ⟨299792458, 1000000⟩ (by decide)
    (by decide) (by rw [toRat_mk]; norm_num) (by rw [toRat_mk]; norm_num)
  have ec : (Frac.mk 299792458 1000000).toRat = 299792458 / 1000000 := by
    rw [toRat_mk]; norm_num
  rw [ec] at C1 C2 C3 C4
  have hCpos := toRat_pos C hCn hCd
  -- the product
  have ep := toRat_prod T C
  have p1 : (1 : ℚ) / 2 ^ 68 ≤ T.toRat * C.toRat := by
    have a : (1 : ℚ) / 2 ^ 68 ≤ T.toRat := by linarith
    have b : (1 : ℚ) ≤ C.toRat := by linarith
    calc (1 : ℚ) / 2 ^ 68 = 1 / 2 ^ 68 * 1 := by norm_num
      _ ≤ T.toRat * C.toRat := mul_le_mul a b (by norm_num) hTpos.le
  have p2 : T.toRat * C.toRat ≤ 2 ^ 78 := by
    have a : T.toRat ≤ 2 ^ 68 := by linarith
    have b : C.toRat ≤ 2 ^ 10 := by linarith
    calc T.toRat * C.toRat ≤ 2 ^ 68 * 2 ^ 10 := by gcongr
      _ = 2 ^ 78 := by norm_num
  obtain ⟨P, hP, hPn, hPd, P1, P2, -⟩ := fp64_approx ⟨T.num * C.num, T.den * C.den⟩
    (Nat.mul_pos hTn hCn) (Nat.mul_pos hTd hCd)
    (by rw [ep]; exact le_trans (by norm_num) p1) (by rw [ep]; exact le_trans p2 (by norm_num))
  rw [ep] at P1 P2
  refine ⟨P, ?_, hPd, ?_, ?_⟩
  · unfold tprop_product double_of_u64
    rw [hN, hD]
    simp only [Option.bind_eq_bind, Option.some_bind]
    unfold double_div
    rw [hQ]
    simp only [Option.some_bind]
    unfold float_of_double
    rw [hT]
    simp only [Option.some_bind]
    unfold double_299_792458
    rw [hC]
    simp only [Option.some_bind]
    unfold double_mul
    exact hP
  · exact chain_lower (1 / 2 ^ 53) (1 / 2 ^ 24) num den64 (299792458 / 1000000)
      N.toRat D.toRat Q.toRat T.toRat C.toRat P.toRat (by norm_num) (by norm_num) (by norm_num)
      (by linarith) (by norm_num) hNpos hDpos hTpos
      N1 D2 Q1 T1 C1 P1
  · exact chain_upper (1 / 2 ^ 53) (1 / 2 ^ 24) num den64 (299792458 / 1000000)
      N.toRat D.toRat Q.toRat T.toRat C.toRat P.toRat (by norm_num) (by norm_num) (by norm_num)
      (by linarith) (by linarith) (by norm_num) hQpos hCpos
      N2 D1 Q2 T2 C2 P2

theorem mul_lt_two_pow_64 (a b : Nat) (ha : a < 2 ^ 32) (hb : b < 2 ^ 32) : a * b < 2 ^ 64 := by
  calc a * b < 2 ^ 32 * 2 ^ 32 := Nat.mul_lt_mul'' ha hb
    _ = 2 ^ 64 := by norm_num

/-- With consistent 32-bit times nothing in the integer part of the range computation wraps. -/
theorem range_integers_no_wrap (Treply1 Treply2 Tround1 Tround2 : Nat)
    (h1 : Treply1 < 2 ^ 32) (h2 : Treply2 < 2 ^ 32) (h3 : Tround1 < 2 ^ 32)
    (h4 : Tround2 < 2 ^ 32) (h : Treply1 * Treply2 ≤ Tround1 * Tround2) :
    mul_u64 Tround1 Tround2 = Tround1 * Tround2
      ∧ mul_u64 Treply1 Treply2 = Treply1 * Treply2
      ∧ range_subtraction Treply1 Treply2 Tround1 Tround2
          = Tround1 * Tround2 - Treply1 * Treply2
      ∧ range_denominator Treply1 Treply2 Tround1 Tround2
          = Tround1 + Tround2 + Treply1 + Treply2
      ∧ shl_u64 (range_denominator Treply1 Treply2 Tround1 Tround2) 6
          = (Tround1 + Tround2 + Treply1 + Treply2) * 64 := by
  have p1 := mul_lt_two_pow_64 Tround1 Tround2 h3 h4
  have p2 := mul_lt_two_pow_64 Treply1 Treply2 h1 h2
  have e1 : mul_u64 Tround1 Tround2 = Tround1 * Tround2 := Nat.mod_eq_of_lt p1
  have e2 : mul_u64 Treply1 Treply2 = Treply1 * Treply2 := Nat.mod_eq_of_lt p2
  have e4 : range_denominator Treply1 Treply2 Tround1 Tround2
      = Tround1 + Tround2 + Treply1 + Treply2 := by
    simp only [range_denominator, add_u64]
    omega
  refine ⟨e1, e2, ?_, e4, ?_⟩
  · simp only [range_subtraction, e1, e2, sub_u64]
    generalize Tround1 * Tround2 = p at *
    generalize Treply1 * Treply2 = q at *
    omega
  · rw [e4]
    simp only [shl_u64, Nat.shiftLeft_eq]
    omega

theorem range_exact_eq_spec (Treply1 Treply2 Tround1 Tround2 : Nat)
    (h1 : Treply1 < 2 ^ 32) (h2 : Treply2 < 2 ^ 32) (h3 : Tround1 < 2 ^ 32)
    (h4 : Tround2 < 2 ^ 32) (h : Treply1 * Treply2 ≤ Tround1 * Tround2) :
    range_exact Treply1 Treply2 Tround1 Tround2
      = spec_range_exact Treply1 Treply2 Tround1 Tround2 := by
  obtain ⟨-, -, e3, -, e5⟩ := range_integers_no_wrap _ _ _ _ h1 h2 h3 h4 h
  unfold range_exact spec_range_exact
  rw [e3, e5, Nat.cast_sub h]
  push_cast
  rfl

theorem range_subtraction_lt (a b c d : Nat) : range_subtraction a b c d < 2 ^ 64 := by
  unfold range_subtraction sub_u64
  exact Nat.mod_lt _ (by norm_num)

theorem shl_u64_lt (x k : Nat) : shl_u64 x k < 2 ^ 64 := by
  unfold shl_u64
  exact Nat.mod_lt _ (by norm_num)

theorem error_factor_upper :
    ((1 : ℚ) + 1 / 2 ^ 53) ^ 4 * (1 + 1 / 2 ^ 24) / (1 - 1 / 2 ^ 53) ≤ 1 + 1 / 2 ^ 23 := by
  norm_num

theorem error_factor_lower :
    (1 : ℚ) - 1 / 2 ^ 23 ≤ (1 - 1 / 2 ^ 53) ^ 4 * (1 - 1 / 2 ^ 24) / (1 + 1 / 2 ^ 53) := by
  norm_num

/-- The computed `double` product is within relative error `2 ^ (-23)` of the exact value
of the quotient times the constant. -/
theorem range_product_close (Treply1 Treply2 Tround1 Tround2 : Nat)
    (hden : shl_u64 (range_denominator Treply1 Treply2 Tround1 Tround2) 6 ≠ 0) :
    ∃ p, range_product Treply1 Treply2 Tround1 Tround2 = some p ∧ 0 < p.den
      ∧ range_exact Treply1 Treply2 Tround1 Tround2 * (1 - 1 / 2 ^ 23) ≤ p.toRat
      ∧ p.toRat ≤ range_exact Treply1 Treply2 Tround1 Tround2 * (1 + 1 / 2 ^ 23) := by
  have hd1 : 0 < shl_u64 (range_denominator Treply1 Treply2 Tround1 Tround2) 6 :=
    Nat.pos_of_ne_zero hden
  have hd2 := shl_u64_lt (range_denominator Treply1 Treply2 Tround1 Tround2) 6
  have hn2 := range_subtraction_lt Treply1 Treply2 Tround1 Tround2
  unfold range_product range_exact
  generalize shl_u64 (range_denominator Treply1 Treply2 Tround1 Tround2) 6 = den64 at *
  generalize range_subtraction Treply1 Treply2 Tround1 Tround2 = num at *
  rcases Nat.eq_zero_or_pos num with hz | hn1
  · subst hz
    refine ⟨⟨0, 1⟩, tprop_product_zero den64 hd1 hd2, Nat.one_pos, ?_, ?_⟩ <;>
      simp [Frac.toRat]
  · obtain ⟨p, hp, hpd, lo, hi⟩ := tprop_product_approx num den64 hn1 hn2 hd1 hd2
    have hV : (0 : ℚ) ≤ (num : ℚ) / den64 * (299792458 / 1000000) := by positivity
    refine ⟨p, hp, hpd, le_trans ?_ lo, le_trans hi ?_⟩
    · exact mul_le_mul_of_nonneg_left error_factor_lower hV
    · exact mul_le_mul_of_nonneg_left error_factor_upper hV

theorem u32_of_double_floor (p : Frac) (hpd : 0 < p.den) :
    u32_of_double p = if ⌊p.toRat⌋₊ < 2 ^ 32 then some ⌊p.toRat⌋₊ else none := by
  have hf : ⌊p.toRat⌋₊ = p.num / p.den := by
    unfold Frac.toRat
    exact Nat.floor_div_eq_div p.num p.den
  rw [hf]
  unfold u32_of_double
  rw [if_neg hpd.ne']

theorem toRat_nonneg (p : Frac) : 0 ≤ p.toRat := by
  unfold Frac.toRat
  positivity

theorem range_exact_nonneg (a b c d : Nat) : 0 ≤ range_exact a b c d := by
  unfold range_exact
  positivity

/-- The conversion of a product that is within relative error `2 ^ (-23)` of an exact value
`V`: in range when `V < 2 ^ 31`, within one of the truncation of `V` when `V < 2 ^ 23`. -/
theorem floor_of_close (P V : ℚ) (hP : 0 ≤ P) (hV : 0 ≤ V) (lo : V * (1 - 1 / 2 ^ 23) ≤ P)
    (hi : P ≤ V * (1 + 1 / 2 ^ 23)) :
    (V < 2 ^ 31 → ⌊P⌋₊ < 2 ^ 32)
      ∧ (V < 2 ^ 23 → ⌊P⌋₊ < 2 ^ 32 ∧ ⌊P⌋₊ ≤ ⌊V⌋₊ + 1 ∧ ⌊V⌋₊ ≤ ⌊P⌋₊ + 1) := by
  constructor
  · intro h
    have e1 : V * (1 / 2 ^ 23) < 2 ^ 31 * (1 / 2 ^ 23) := by gcongr
    have hlt : P < ((2 ^ 32 : Nat) : ℚ) := by
      push_cast
      norm_num at e1 ⊢
      linarith
    exact (Nat.floor_lt hP).mpr hlt
  · intro h
    have e1 : V * (1 / 2 ^ 23) < 1 := by
      calc V * (1 / 2 ^ 23) < 2 ^ 23 * (1 / 2 ^ 23) := by gcongr
        _ = 1 := by norm_num
    have up : P ≤ V + 1 := by linarith
    have dn : V ≤ P + 1 := by linarith
    have hlt : P < ((2 ^ 32 : Nat) : ℚ) := by
      push_cast
      linarith
    refine ⟨(Nat.floor_lt hP).mpr hlt, ?_, ?_⟩
    · rw [← Nat.floor_add_one hV]
      exact Nat.floor_le_floor up
    · rw [← Nat.floor_add_one hP]
      exact Nat.floor_le_floor dn

theorem tag_timeout_check_idle (B : TagBuild) (env : TagEnv) (s : TagState)
    (h : sub_u32 env.tick_check s.last_sync_time ≤ B.ranging_timeout) :
    tag_timeout_check B env s = (s, []) := by
  unfold tag_timeout_check
  rw [if_neg (by omega)]

theorem tag_iteration_no_timeout (B : TagBuild) (env : TagEnv) (s : TagState)
    (h : sub_u32 env.tick_check s.last_sync_time ≤ B.ranging_timeout) :
    tag_iteration B env s = tag_branch B env s := by
  unfold tag_iteration
  rw [tag_timeout_check_idle B env s h]
  simp only [List.nil_append]

theorem tag_poll_tx_fields (s : TagState) :
    (tag_poll_tx s).1.rx_done = s.rx_done
      ∧ (tag_poll_tx s).1.new_frame_length = s.new_frame_length
      ∧ (tag_poll_tx s).1.next_sequence_number = s.next_sequence_number
      ∧ (tag_poll_tx s).1.rx_timestamp_poll = s.rx_timestamp_poll
      ∧ (tag_poll_tx s).1.state = s.state
      ∧ no_frame_transmitted (tag_poll_tx s).2
      ∧ (s.tx_done ≠ 1 → tag_poll_tx s = (s, [])) := by
  unfold tag_poll_tx no_frame_transmitted
  split
  · refine ⟨rfl, rfl, rfl, rfl, rfl, ?_, fun h => absurd ‹_› h⟩
    intro e he
    simp only [List.mem_singleton] at he
    subst he
    rfl
  · refine ⟨rfl, rfl, rfl, rfl, rfl, ?_, fun _ => rfl⟩
    intro e he
    simp at he

/-- The receive block of the poll state accepts a valid frame in a build without telemetry. -/
theorem tag_poll_rx_valid (B : TagBuild) (env : TagEnv) (t : TagState)
    (hB : B.telemetry = false) (hrx : t.rx_done = 1) (hv : spec_poll_valid env t) :
    ∃ s' out, tag_poll_rx B env t = .fall_through s' out ∧ s'.rx_done = 2
      ∧ s'.rx_timestamp_poll = decode_40bit_timestamp env.rx_timestamp
      ∧ s'.next_sequence_number = to_uint8 (t.next_sequence_number.val + 1)
      ∧ s'.state = t.state ∧ s'.tx_done = t.tx_done
      ∧ no_frame_transmitted out := by
  obtain ⟨h1, h2, h3, h4⟩ := hv
  have h9 : (9 : Nat) < sizeof_twr_base_frame_t + 2 := by decide
  have h2' : (2 : Nat) < sizeof_twr_base_frame_t + 2 := by decide
  unfold tag_poll_rx tag_rx_block
  simp only [hrx, if_true, h1, ne_eq, not_true_eq_false, if_false, not_lt.mpr h2,
    rx_twr_function_code, rx_sequence_number, dwt_readrxdata, h9, h2', h3, h4, hB,
    Bool.false_eq_true]
  refine ⟨_, _, rfl, rfl, rfl, rfl, rfl, rfl, ?_⟩
  intro e he
  simp only [List.mem_singleton] at he
  subst he
  rfl

/-- In the telemetry build the receive block of the poll state, given a valid frame, stores
the receive timestamp, writes its lines and reaches the call of `transmit_cir`: the outcome is
undefined, with the sequence number not incremented and the receive flag at 0. -/
theorem tag_poll_rx_valid_telemetry (B : TagBuild) (env : TagEnv) (t : TagState)
    (hB : B.telemetry = true) (hrx : t.rx_done = 1) (hv : spec_poll_valid env t) :
    ∃ s', tag_poll_rx B env t
        = .undefined s'
            [.stdio_write "RX: Poll frame\n", .print_new_frame t.next_sequence_number,
             .transmit_rx_diagnostics, .transmit_cir, .undefined_behaviour]
      ∧ s'.rx_done = 0
      ∧ s'.rx_timestamp_poll = decode_40bit_timestamp env.rx_timestamp
      ∧ s'.next_sequence_number = t.next_sequence_number
      ∧ s'.state = t.state ∧ s'.tx_done = t.tx_done := by
  obtain ⟨h1, h2, h3, h4⟩ := hv
  have h9 : (9 : Nat) < sizeof_twr_base_frame_t + 2 := by decide
  have h2' : (2 : Nat) < sizeof_twr_base_frame_t + 2 := by decide
  unfold tag_poll_rx tag_rx_block
  simp only [hrx, if_true, h1, ne_eq, not_true_eq_false, if_false, not_lt.mpr h2,
    rx_twr_function_code, rx_sequence_number, dwt_readrxdata, h9, h2', h3, h4, hB]
  exact ⟨_, rfl, rfl, rfl, rfl, rfl, rfl⟩

/-- The receive block of the poll state rejects every other frame with `continue`. -/
theorem tag_poll_rx_invalid (B : TagBuild) (env : TagEnv) (t : TagState) (hrx : t.rx_done = 1)
    (hv : ¬ spec_poll_valid env t) :
    ∃ s' out, tag_poll_rx B env t = .continue_loop s' out ∧ s'.state = .TWR_ERROR
      ∧ s'.rx_timestamp_poll = t.rx_timestamp_poll
      ∧ s'.next_sequence_number = t.next_sequence_number
      ∧ no_frame_transmitted out := by
  have h9 : (9 : Nat) < sizeof_twr_base_frame_t + 2 := by decide
  have h2' : (2 : Nat) < sizeof_twr_base_frame_t + 2 := by decide
  have hnt : ∀ txt : String, no_frame_transmitted [Event.stdio_write txt] := by
    intro txt e he
    simp only [List.mem_singleton] at he
    subst he
    rfl
  unfold spec_poll_valid at hv
  unfold tag_poll_rx tag_rx_block
  simp only [hrx, if_true]
  by_cases h1 : t.new_frame_length = sizeof_twr_base_frame_t + 2
  · by_cases h2 : env.sts_quality < 0
    · simp only [h1, ne_eq, not_true_eq_false, if_false, h2, if_true]
      exact ⟨_, _, rfl, rfl, rfl, rfl, hnt _⟩
    · by_cases h3 : env.rx_frame 9 = 0x21
      · have h4 : ¬ env.rx_frame 2 = t.next_sequence_number := by
          intro h4
          exact hv ⟨h1, not_lt.mp h2, h3, h4⟩
        simp only [h1, ne_eq, not_true_eq_false, if_false, h2, rx_twr_function_code,
          rx_sequence_number, dwt_readrxdata, h9, h2', if_true, h3, h4, not_false_eq_true]
        exact ⟨_, _, rfl, rfl, rfl, rfl, hnt _⟩
      · simp only [h1, ne_eq, not_true_eq_false, if_false, h2, rx_twr_function_code,
          dwt_readrxdata, h9, if_true, h3, not_false_eq_true]
        exact ⟨_, _, rfl, rfl, rfl, rfl, hnt _⟩
  · simp only [ne_eq, h1, not_false_eq_true, if_true]
    exact ⟨_, _, rfl, rfl, rfl, rfl, hnt _⟩

theorem tag_range_dist_mm (a b c : Nat) (buf : Nat → Byte) :
    (tag_range a b c buf).dist_mm
      = range_dist_mm (tag_range a b c buf).Treply1 (tag_range a b c buf).Treply2
          (tag_range a b c buf).Tround1 (tag_range a b c buf).Tround2 := by
  unfold tag_range
  simp only []

theorem tag_final_pair_reports (B : TagBuild) (s : TagState) (h1 : s.tx_done = 2)
    (h2 : s.rx_done = 2) :
    Event.print_dist_mm
        (tag_range s.rx_timestamp_poll s.tx_timestamp_response s.rx_timestamp_final
            s.rx_buffer).dist_mm
      ∈ (tag_final_pair B s).2 := by
  unfold tag_final_pair
  rw [if_pos ⟨h1, h2⟩]
  simp only []
  by_cases hB : B.telemetry = true
  · rw [if_pos hB]
    simp only [List.mem_cons, true_or, or_true]
  · rw [if_neg hB]
    simp only [List.mem_cons, true_or, or_true]

theorem sub_u64_self (x : Nat) : sub_u64 x x = 0 := by
  unfold sub_u64
  omega

/-! ## Auxiliary lemmas: runs of the engines, sequence numbers, timeout, interleavings -/

/-- The receive block rejects a frame that fails validation: it ends the iteration in the
Error state with the receive flag at 0 and nothing else changed but the receive buffer. -/
theorem tag_rx_block_invalid (B : TagBuild) (env : TagEnv) (len : Nat) (code : Byte)
    (wrong accept : String) (store : TagState → Nat → TagState) (s : TagState)
    (h9 : 9 < len) (h2 : 2 < len)
    (hrx : s.rx_done = 1) (hv : ¬ spec_frame_valid len code env s) :
    ∃ buf text, tag_rx_block B env len code wrong accept store s
      = .continue_loop { s with rx_done := 0, state := .TWR_ERROR, rx_buffer := buf }
          [.stdio_write text]
      ∧ (text = "RX ERR: wrong frame length\n" ∨ text = "RX ERR: bad STS quality\n"
          ∨ text = wrong ∨ text = "RX ERR: wrong sequence number\n") := by
  unfold spec_frame_valid at hv
  unfold tag_rx_block
  simp only [hrx, if_true]
  by_cases h1 : s.new_frame_length = len
  · by_cases hq : env.sts_quality < 0
    · simp only [h1, ne_eq, not_true_eq_false, if_false, hq, if_true]
      exact ⟨s.rx_buffer, _, rfl, Or.inr (Or.inl rfl)⟩
    · by_cases h3 : env.rx_frame 9 = code
      · have h4 : ¬ env.rx_frame 2 = s.next_sequence_number := by
          intro h4
          exact hv ⟨h1, not_lt.mp hq, h3, h4⟩
        simp only [h1, ne_eq, not_true_eq_false, if_false, hq, rx_twr_function_code,
          rx_sequence_number, dwt_readrxdata, h9, h2, if_true, h3, h4, not_false_eq_true]
        exact ⟨_, _, rfl, Or.inr (Or.inr (Or.inr rfl))⟩
      · simp only [h1, ne_eq, not_true_eq_false, if_false, hq, rx_twr_function_code,
          dwt_readrxdata, h9, if_true, h3, not_false_eq_true]
        exact ⟨_, _, rfl, Or.inr (Or.inr (Or.inl rfl))⟩
  · simp only [ne_eq, h1, not_false_eq_true, if_true]
    exact ⟨s.rx_buffer, _, rfl, Or.inl rfl⟩

/-- The receive block of the poll state accepts a frame that passes validation, in a build
without telemetry. -/
theorem tag_poll_rx_accepts (B : TagBuild) (env : TagEnv) (s : TagState)
    (hB : B.telemetry = false) (hrx : s.rx_done = 1)
    (hv : spec_frame_valid (sizeof_twr_base_frame_t + 2) 0x21 env s) :
    tag_poll_rx B env s
      = .fall_through
          { s with
              rx_done := 2
              rx_buffer := dwt_readrxdata s.rx_buffer env.rx_frame (sizeof_twr_base_frame_t + 2)
              rx_timestamp_poll := decode_40bit_timestamp env.rx_timestamp
              next_sequence_number := to_uint8 (s.next_sequence_number.val + 1) }
          [.stdio_write "RX: Poll frame\n"] := by
  obtain ⟨h1, hq, h3, h4⟩ := hv
  unfold rx_twr_function_code at h3
  unfold rx_sequence_number at h4
  have h9 : (9 : Nat) < sizeof_twr_base_frame_t + 2 := by decide
  have h2 : (2 : Nat) < sizeof_twr_base_frame_t + 2 := by decide
  unfold tag_poll_rx tag_rx_block
  simp only [hrx, if_true, h1, ne_eq, not_true_eq_false, if_false, not_lt.mpr hq,
    rx_twr_function_code, rx_sequence_number, dwt_readrxdata, h9, h2, h3, h4, hB,
    Bool.false_eq_true]

/-- In the telemetry build the receive block of the poll state, given a frame that passes
validation, reaches the call of `transmit_cir` with the timestamp stored, the receive flag at 0
and the sequence number not yet incremented: the outcome is undefined. -/
theorem tag_poll_rx_undefined (B : TagBuild) (env : TagEnv) (s : TagState)
    (hB : B.telemetry = true) (hrx : s.rx_done = 1)
    (hv : spec_frame_valid (sizeof_twr_base_frame_t + 2) 0x21 env s) :
    tag_poll_rx B env s
      = .undefined
          { s with
              rx_done := 0
              rx_buffer := dwt_readrxdata s.rx_buffer env.rx_frame (sizeof_twr_base_frame_t + 2)
              rx_timestamp_poll := decode_40bit_timestamp env.rx_timestamp }
          [.stdio_write "RX: Poll frame\n", .print_new_frame s.next_sequence_number,
           .transmit_rx_diagnostics, .transmit_cir, .undefined_behaviour] := by
  obtain ⟨h1, hq, h3, h4⟩ := hv
  unfold rx_twr_function_code at h3
  unfold rx_sequence_number at h4
  have h9 : (9 : Nat) < sizeof_twr_base_frame_t + 2 := by decide
  have h2 : (2 : Nat) < sizeof_twr_base_frame_t + 2 := by decide
  unfold tag_poll_rx tag_rx_block
  simp only [hrx, if_true, h1, ne_eq, not_true_eq_false, if_false, not_lt.mpr hq,
    rx_twr_function_code, rx_sequence_number, dwt_readrxdata, h9, h2, h3, h4, hB]

/-- The receive block of the final state accepts a frame that passes validation, in a build
without telemetry. -/
theorem tag_final_rx_accepts (B : TagBuild) (env : TagEnv) (s : TagState)
    (hB : B.telemetry = false) (hrx : s.rx_done = 1)
    (hv : spec_frame_valid (sizeof_twr_final_frame_t + 2) 0x23 env s) :
    tag_final_rx B env s
      = .fall_through
          { s with
              rx_done := 2
              rx_buffer := dwt_readrxdata s.rx_buffer env.rx_frame (sizeof_twr_final_frame_t + 2)
              rx_timestamp_final := decode_40bit_timestamp env.rx_timestamp
              next_sequence_number := to_uint8 (s.next_sequence_number.val + 1) }
          [.stdio_write "RX: Final frame\n"] := by
  obtain ⟨h1, hq, h3, h4⟩ := hv
  unfold rx_twr_function_code at h3
  unfold rx_sequence_number at h4
  have h9 : (9 : Nat) < sizeof_twr_final_frame_t + 2 := by decide
  have h2 : (2 : Nat) < sizeof_twr_final_frame_t + 2 := by decide
  unfold tag_final_rx tag_rx_block
  simp only [hrx, if_true, h1, ne_eq, not_true_eq_false, if_false, not_lt.mpr hq,
    rx_twr_function_code, rx_sequence_number, dwt_readrxdata, h9, h2, h3, h4, hB,
    Bool.false_eq_true]

/-- In the telemetry build the receive block of the final state, given a frame that passes
validation, reaches the call of `transmit_cir` with the timestamp stored, the receive flag at 0
and the sequence number not yet incremented: the outcome is undefined. -/
theorem tag_final_rx_undefined (B : TagBuild) (env : TagEnv) (s : TagState)
    (hB : B.telemetry = true) (hrx : s.rx_done = 1)
    (hv : spec_frame_valid (sizeof_twr_final_frame_t + 2) 0x23 env s) :
    tag_final_rx B env s
      = .undefined
          { s with
              rx_done := 0
              rx_buffer := dwt_readrxdata s.rx_buffer env.rx_frame (sizeof_twr_final_frame_t + 2)
              rx_timestamp_final := decode_40bit_timestamp env.rx_timestamp }
          [.stdio_write "RX: Final frame\n", .print_new_frame s.next_sequence_number,
           .transmit_rx_diagnostics, .transmit_cir, .undefined_behaviour] := by
  obtain ⟨h1, hq, h3, h4⟩ := hv
  unfold rx_twr_function_code at h3
  unfold rx_sequence_number at h4
  have h9 : (9 : Nat) < sizeof_twr_final_frame_t + 2 := by decide
  have h2 : (2 : Nat) < sizeof_twr_final_frame_t + 2 := by decide
  unfold tag_final_rx tag_rx_block
  simp only [hrx, if_true, h1, ne_eq, not_true_eq_false, if_false, not_lt.mpr hq,
    rx_twr_function_code, rx_sequence_number, dwt_readrxdata, h9, h2, h3, h4, hB]

theorem to_uint8_add (a j : Nat) : to_uint8 ((to_uint8 a).val + j) = to_uint8 (a + j) := by
  unfold to_uint8
  apply Fin.ext
  simp only []
  omega

theorem tag_round_step_poll (B : TagBuild) (env : TagEnv) (s : TagState)
    (hB : B.telemetry = false)
    (hst : s.state = .TWR_POLL_RESPONSE_STATE)
    (hne : (tag_poll_response B env s).1.state ≠ .TWR_ERROR) :
    ((tag_poll_response B env s).1.state = .TWR_POLL_RESPONSE_STATE
        ∨ (tag_poll_response B env s).1.state = .TWR_FINAL_STATE)
      ∧ (tag_poll_response B env s).2.filterMap (tag_observe env)
          ++ (tag_round_remaining (tag_poll_response B env s).1).1 = (tag_round_remaining s).1
      ∧ (tag_round_remaining (tag_poll_response B env s).1).2 = (tag_round_remaining s).2 := by
  have h9 : (9 : Nat) < sizeof_twr_base_frame_t + 2 := by decide
  have h2' : (2 : Nat) < sizeof_twr_base_frame_t + 2 := by decide
  revert hne
  unfold tag_poll_response tag_poll_tx tag_poll_rx tag_rx_block tag_poll_pair
    tag_round_remaining
  by_cases h1 : s.tx_done = 1 <;> by_cases h2 : s.rx_done = 1
  · by_cases hl : s.new_frame_length = sizeof_twr_base_frame_t + 2 <;>
    by_cases hq : env.sts_quality < 0 <;>
    by_cases hc : env.rx_frame 9 = 0x21 <;>
    by_cases hs : env.rx_frame 2 = s.next_sequence_number <;>
    by_cases hk : env.starttx_ok = true <;>
    simp [h1, h2, hl, hq, hc, hs, hk, hB, hst, rx_twr_function_code, rx_sequence_number,
      dwt_readrxdata, h9, h2', tag_observe, tx_sequence_number, twr_base_frame_t.bytes,
      to_uint8_add, Nat.add_assoc]
  · by_cases h3 : s.rx_done = 2 <;>
    by_cases hk : env.starttx_ok = true <;>
    simp [h1, h2, h3, hk, hst, tag_observe, tx_sequence_number, twr_base_frame_t.bytes,
      to_uint8_add, Nat.add_assoc]
  · by_cases h4 : s.tx_done = 2 <;>
    by_cases hl : s.new_frame_length = sizeof_twr_base_frame_t + 2 <;>
    by_cases hq : env.sts_quality < 0 <;>
    by_cases hc : env.rx_frame 9 = 0x21 <;>
    by_cases hs : env.rx_frame 2 = s.next_sequence_number <;>
    by_cases hk : env.starttx_ok = true <;>
    simp [h1, h2, h4, hl, hq, hc, hs, hk, hB, hst, rx_twr_function_code, rx_sequence_number,
      dwt_readrxdata, h9, h2', tag_observe, tx_sequence_number, twr_base_frame_t.bytes,
      to_uint8_add, Nat.add_assoc]
  · by_cases h3 : s.rx_done = 2 <;>
    by_cases h4 : s.tx_done = 2 <;>
    by_cases hk : env.starttx_ok = true <;>
    simp [h1, h2, h3, h4, hk, hst, tag_observe, tx_sequence_number, twr_base_frame_t.bytes,
      to_uint8_add, Nat.add_assoc]

theorem tag_round_step_final (B : TagBuild) (env : TagEnv) (s : TagState)
    (hB : B.telemetry = false)
    (hst : s.state = .TWR_FINAL_STATE)
    (hne : (tag_final B env s).1.state ≠ .TWR_ERROR) :
    ((tag_final B env s).1.state = .TWR_SYNC_STATE
        ∧ (tag_final B env s).2.filterMap (tag_observe env) = (tag_round_remaining s).1
        ∧ (tag_final B env s).1.next_sequence_number = (tag_round_remaining s).2)
      ∨ ((tag_final B env s).1.state = .TWR_FINAL_STATE
        ∧ (tag_final B env s).2.filterMap (tag_observe env)
            ++ (tag_round_remaining (tag_final B env s).1).1 = (tag_round_remaining s).1
        ∧ (tag_round_remaining (tag_final B env s).1).2 = (tag_round_remaining s).2) := by
  have h9 : (9 : Nat) < sizeof_twr_final_frame_t + 2 := by decide
  have h2' : (2 : Nat) < sizeof_twr_final_frame_t + 2 := by decide
  revert hne
  unfold tag_final tag_final_tx tag_final_rx tag_rx_block tag_final_pair
    tag_round_remaining
  by_cases h1 : s.tx_done = 1 <;> by_cases h2 : s.rx_done = 1
  · by_cases hl : s.new_frame_length = sizeof_twr_final_frame_t + 2 <;>
    by_cases hq : env.sts_quality < 0 <;>
    by_cases hc : env.rx_frame 9 = 0x23 <;>
    by_cases hs : env.rx_frame 2 = s.next_sequence_number <;>
    simp [h1, h2, hl, hq, hc, hs, hB, hst, rx_twr_function_code, rx_sequence_number,
      dwt_readrxdata, h9, h2', tag_observe, to_uint8_add, Nat.add_assoc]
  · by_cases h3 : s.rx_done = 2 <;>
    simp [h1, h2, h3, hB, hst, tag_observe, to_uint8_add, Nat.add_assoc]
  · by_cases h4 : s.tx_done = 2 <;>
    by_cases hl : s.new_frame_length = sizeof_twr_final_frame_t + 2 <;>
    by_cases hq : env.sts_quality < 0 <;>
    by_cases hc : env.rx_frame 9 = 0x23 <;>
    by_cases hs : env.rx_frame 2 = s.next_sequence_number <;>
    simp [h1, h2, h4, hl, hq, hc, hs, hB, hst, rx_twr_function_code, rx_sequence_number,
      dwt_readrxdata, h9, h2', tag_observe, to_uint8_add, Nat.add_assoc]
  · by_cases h3 : s.rx_done = 2 <;>
    by_cases h4 : s.tx_done = 2 <;>
    simp [h1, h2, h3, h4, hB, hst, tag_observe, to_uint8_add, Nat.add_assoc]

theorem tag_branch_poll (B : TagBuild) (env : TagEnv) (s : TagState)
    (h : s.state = .TWR_POLL_RESPONSE_STATE) : tag_branch B env s = tag_poll_response B env s := by
  unfold tag_branch
  rw [h]

theorem tag_branch_final (B : TagBuild) (env : TagEnv) (s : TagState)
    (h : s.state = .TWR_FINAL_STATE) : tag_branch B env s = tag_final B env s := by
  unfold tag_branch
  rw [h]

theorem tag_after_cons (B : TagBuild) (s : TagState) (st : TagStep) (rest : List TagStep) :
    tag_after B s (st :: rest) = tag_after B (tag_step B s st).1 rest := rfl

/-- Inside a round, the observations of the remaining steps and the final value of
`next_sequence_number` are those the state determines. -/
theorem tag_round_rest_log (B : TagBuild) (hB : B.telemetry = false) :
    ∀ (steps : List TagStep) (s : TagState),
      (s.state = .TWR_POLL_RESPONSE_STATE ∨ s.state = .TWR_FINAL_STATE) →
      tag_round_rest B s steps →
      tag_log B s steps = (tag_round_remaining s).1
        ∧ (tag_after B s steps).state = .TWR_SYNC_STATE
        ∧ (tag_after B s steps).next_sequence_number = (tag_round_remaining s).2 := by
  intro steps
  induction steps with
  | nil => intro s _ h; exact absurd h (by simp [tag_round_rest])
  | cons st rest ih =>
    intro s hs h
    obtain ⟨hadm, hne, hrest⟩ := h
    rw [tag_after_cons]
    show tag_step_log B s st ++ tag_log B (tag_step B s st).1 rest = _ ∧ _
    cases st with
    | iteration env =>
      have hit : tag_iteration B env s = tag_branch B env s :=
        tag_iteration_no_timeout B env s hadm
      simp only [tag_step, tag_step_log, hit] at hne hrest ⊢
      rcases hs with hs | hs
      · rw [tag_branch_poll B env s hs] at hne hrest ⊢
        obtain ⟨h1, h2, h3⟩ := tag_round_step_poll B env s hB hs hne
        have hns : (tag_poll_response B env s).1.state ≠ .TWR_SYNC_STATE := by
          rcases h1 with h1 | h1 <;> rw [h1] <;> decide
        rw [if_neg hns] at hrest
        obtain ⟨i1, i2, i3⟩ := ih _ h1 hrest
        exact ⟨by rw [i1, h2], i2, by rw [i3, h3]⟩
      · rw [tag_branch_final B env s hs] at hne hrest ⊢
        rcases tag_round_step_final B env s hB hs hne with ⟨h1, h2, h3⟩ | ⟨h1, h2, h3⟩
        · rw [if_pos h1] at hrest
          subst hrest
          exact ⟨by simp only [tag_log, List.append_nil, h2], h1, h3⟩
        · have hns : (tag_final B env s).1.state ≠ .TWR_SYNC_STATE := by
            rw [h1]; decide
          rw [if_neg hns] at hrest
          obtain ⟨i1, i2, i3⟩ := ih _ (Or.inr h1) hrest
          exact ⟨by rw [i1, h2], i2, by rw [i3, h3]⟩
    | tx_done =>
      have hns : (tag_step B s .tx_done).1.state ≠ .TWR_SYNC_STATE := by
        show s.state ≠ _
        rcases hs with hs | hs <;> rw [hs] <;> decide
      rw [if_neg hns] at hrest
      have hrem : tag_round_remaining (tag_step B s .tx_done).1 = tag_round_remaining s := rfl
      obtain ⟨i1, i2, i3⟩ := ih (tag_step B s .tx_done).1 hs hrest
      rw [hrem] at i1 i3
      exact ⟨i1, i2, i3⟩
    | rx_ok n =>
      have hns : (tag_step B s (.rx_ok n)).1.state ≠ .TWR_SYNC_STATE := by
        show s.state ≠ _
        rcases hs with hs | hs <;> rw [hs] <;> decide
      rw [if_neg hns] at hrest
      have hrem : tag_round_remaining (tag_step B s (.rx_ok n)).1 = tag_round_remaining s := by
        have hadm' : s.rx_done ≠ 2 := hadm
        unfold tag_round_remaining
        simp only [tag_step, rx_ok_cb, hadm', if_false]
        rcases hs with hs | hs <;> simp [hs]
      obtain ⟨i1, i2, i3⟩ := ih (tag_step B s (.rx_ok n)).1 hs hrest
      rw [hrem] at i1 i3
      exact ⟨i1, i2, i3⟩

/-- The iteration that opens a round: the Sync branch sends the sync frame with the current
value of `next_sequence_number` and increments it. -/
theorem tag_round_first (B : TagBuild) (env : TagEnv) (s : TagState)
    (hs : s.state = .TWR_SYNC_STATE) (hrx : s.rx_done ≠ 2)
    (hp : (tag_iteration B env s).1.state = .TWR_POLL_RESPONSE_STATE) :
    (tag_iteration B env s).2.filterMap (tag_observe env) = [.sent .sync s.next_sequence_number]
      ∧ tag_round_remaining (tag_iteration B env s).1
          = ([.accepted .poll (to_uint8 (s.next_sequence_number.val + 1)),
              .sent .response (to_uint8 (s.next_sequence_number.val + 2)),
              .accepted .final (to_uint8 (s.next_sequence_number.val + 3))],
             to_uint8 (s.next_sequence_number.val + 4)) := by
  revert hp
  unfold tag_iteration tag_timeout_check tag_round_remaining
  by_cases ht : sub_u32 env.tick_check s.last_sync_time > B.ranging_timeout <;>
  by_cases hk : env.starttx_ok = true <;>
  simp [ht, hk, hs, hrx, tag_branch, tag_sync, tag_observe, tx_sequence_number,
    twr_base_frame_t.bytes, to_uint8_add, Nat.add_assoc]

/-- The sequence numbers of a successful round of the tag. -/
theorem tag_round_log (B : TagBuild) (s : TagState) (steps : List TagStep)
    (hB : B.telemetry = false) (h : tag_successful_round B s steps) :
    tag_log B s steps
        = [.sent .sync s.next_sequence_number,
           .accepted .poll (to_uint8 (s.next_sequence_number.val + 1)),
           .sent .response (to_uint8 (s.next_sequence_number.val + 2)),
           .accepted .final (to_uint8 (s.next_sequence_number.val + 3))]
      ∧ (tag_after B s steps).state = .TWR_SYNC_STATE
      ∧ (tag_after B s steps).next_sequence_number
          = to_uint8 (s.next_sequence_number.val + 4) := by
  cases steps with
  | nil => exact absurd h (by simp [tag_successful_round])
  | cons st rest =>
    cases st with
    | iteration env =>
      obtain ⟨hs, hrx, hp, hrest⟩ := h
      obtain ⟨f1, f2⟩ := tag_round_first B env s hs hrx hp
      obtain ⟨i1, i2, i3⟩ := tag_round_rest_log B hB rest _ (Or.inl hp) hrest
      rw [tag_after_cons]
      refine ⟨?_, i2, ?_⟩
      · show (tag_iteration B env s).2.filterMap (tag_observe env) ++ tag_log B _ rest = _
        rw [f1]
        show _ ++ tag_log B (tag_iteration B env s).1 rest = _
        rw [i1, f2]
        rfl
      · exact i3.trans (by rw [f2])
    | tx_done => exact absurd h (by simp [tag_successful_round])
    | rx_ok n => exact absurd h (by simp [tag_successful_round])

theorem anchor_round_step_poll (env : AnchorEnv) (s : AnchorState)
    (hst : s.state = .TWR_POLL_RESPONSE_STATE)
    (hne : (anchor_poll_response env s).1.state ≠ .TWR_ERROR) :
    ((anchor_poll_response env s).1.state = .TWR_POLL_RESPONSE_STATE
        ∨ (anchor_poll_response env s).1.state = .TWR_FINAL_STATE)
      ∧ (anchor_poll_response env s).2.filterMap (anchor_observe env)
          ++ (anchor_round_remaining (anchor_poll_response env s).1).1
          = (anchor_round_remaining s).1
      ∧ (anchor_round_remaining (anchor_poll_response env s).1).2
          = (anchor_round_remaining s).2 := by
  have h9 : (9 : Nat) < sizeof_twr_base_frame_t + 2 := by decide
  have h2' : (2 : Nat) < sizeof_twr_base_frame_t + 2 := by decide
  revert hne
  unfold anchor_poll_response anchor_poll_tx anchor_response_rx anchor_poll_pair
    anchor_round_remaining
  by_cases h1 : s.tx_done = 1 <;> by_cases h2 : s.new_frame = 1
  · by_cases hl : s.new_frame_length = sizeof_twr_base_frame_t + 2 <;>
    by_cases hq : env.sts_quality < 0 <;>
    by_cases hc : env.rx_frame 9 = 0x10 <;>
    by_cases hs : env.rx_frame 2 = s.next_sequence_number <;>
    by_cases hk : env.starttx_ok = true <;>
    simp [h1, h2, hl, hq, hc, hs, hk, hst, rx_twr_function_code, rx_sequence_number,
      dwt_readrxdata, h9, h2', anchor_observe, tx_sequence_number, twr_base_frame_t.bytes,
      twr_final_frame_t.bytes, to_uint8_add, Nat.add_assoc]
  · by_cases h3 : s.new_frame = 2 <;>
    by_cases hk : env.starttx_ok = true <;>
    simp [h1, h2, h3, hk, hst, anchor_observe, tx_sequence_number, twr_base_frame_t.bytes,
      twr_final_frame_t.bytes, to_uint8_add, Nat.add_assoc]
  · by_cases h4 : s.tx_done = 2 <;>
    by_cases hl : s.new_frame_length = sizeof_twr_base_frame_t + 2 <;>
    by_cases hq : env.sts_quality < 0 <;>
    by_cases hc : env.rx_frame 9 = 0x10 <;>
    by_cases hs : env.rx_frame 2 = s.next_sequence_number <;>
    by_cases hk : env.starttx_ok = true <;>
    simp [h1, h2, h4, hl, hq, hc, hs, hk, hst, rx_twr_function_code, rx_sequence_number,
      dwt_readrxdata, h9, h2', anchor_observe, tx_sequence_number, twr_base_frame_t.bytes,
      twr_final_frame_t.bytes, to_uint8_add, Nat.add_assoc]
  · by_cases h3 : s.new_frame = 2 <;>
    by_cases h4 : s.tx_done = 2 <;>
    by_cases hk : env.starttx_ok = true <;>
    simp [h1, h2, h3, h4, hk, hst, anchor_observe, tx_sequence_number,
      twr_base_frame_t.bytes, twr_final_frame_t.bytes, to_uint8_add, Nat.add_assoc]

theorem anchor_round_step_final (s : AnchorState) (hst : s.state = .TWR_FINAL_STATE) :
    ((anchor_final s).1.state = .TWR_SYNC_STATE ∨ (anchor_final s).1.state = .TWR_FINAL_STATE)
      ∧ ∀ env, (anchor_final s).2.filterMap (anchor_observe env) = []
      ∧ (anchor_final s).1.next_sequence_number = s.next_sequence_number := by
  unfold anchor_final
  by_cases h1 : s.tx_done = 1 <;> simp [h1, hst, anchor_observe]

theorem anchor_after_cons (s : AnchorState) (st : AnchorStep) (rest : List AnchorStep) :
    anchor_after s (st :: rest) = anchor_after (anchor_step s st).1 rest := rfl

theorem anchor_iteration_poll (env : AnchorEnv) (s : AnchorState)
    (h : s.state = .TWR_POLL_RESPONSE_STATE) :
    anchor_iteration env s = anchor_poll_response env s := by
  unfold anchor_iteration
  rw [h]

theorem anchor_iteration_final (env : AnchorEnv) (s : AnchorState)
    (h : s.state = .TWR_FINAL_STATE) : anchor_iteration env s = anchor_final s := by
  unfold anchor_iteration
  rw [h]

theorem anchor_iteration_sync (env : AnchorEnv) (s : AnchorState)
    (h : s.state = .TWR_SYNC_STATE) : anchor_iteration env s = anchor_sync env s := by
  unfold anchor_iteration
  rw [h]

theorem anchor_iteration_error (env : AnchorEnv) (s : AnchorState)
    (h : s.state = .TWR_ERROR) : anchor_iteration env s = anchor_error s := by
  unfold anchor_iteration
  rw [h]

/-- Inside an anchor round, the observations of the remaining steps and the final value of
`next_sequence_number` are those the state determines. -/
theorem anchor_round_rest_log :
    ∀ (steps : List AnchorStep) (s : AnchorState),
      (s.state = .TWR_POLL_RESPONSE_STATE ∨ s.state = .TWR_FINAL_STATE) →
      anchor_round_rest s steps →
      anchor_log s steps = (anchor_round_remaining s).1
        ∧ (anchor_after s steps).state = .TWR_SYNC_STATE
        ∧ (anchor_after s steps).next_sequence_number = (anchor_round_remaining s).2 := by
  intro steps
  induction steps with
  | nil => intro s _ h; exact absurd h (by simp [anchor_round_rest])
  | cons st rest ih =>
    intro s hs h
    obtain ⟨hadm, hne, hrest⟩ := h
    rw [anchor_after_cons]
    show anchor_step_log s st ++ anchor_log (anchor_step s st).1 rest = _ ∧ _
    cases st with
    | iteration env =>
      simp only [anchor_step, anchor_step_log] at hne hrest ⊢
      rcases hs with hs | hs
      · rw [anchor_iteration_poll env s hs] at hne hrest ⊢
        obtain ⟨h1, h2, h3⟩ := anchor_round_step_poll env s hs hne
        have hns : (anchor_poll_response env s).1.state ≠ .TWR_SYNC_STATE := by
          rcases h1 with h1 | h1 <;> rw [h1] <;> decide
        rw [if_neg hns] at hrest
        obtain ⟨i1, i2, i3⟩ := ih _ h1 hrest
        exact ⟨by rw [i1, h2], i2, by rw [i3, h3]⟩
      · rw [anchor_iteration_final env s hs] at hne hrest ⊢
        obtain ⟨h1, h23⟩ := anchor_round_step_final s hs
        obtain ⟨h2, h3⟩ := h23 env
        have hrem : (anchor_round_remaining s) = ([], s.next_sequence_number) := by
          unfold anchor_round_remaining
          simp [hs]
        rcases h1 with h1 | h1
        · rw [if_pos h1] at hrest
          subst hrest
          exact ⟨by simp only [anchor_log, List.append_nil, h2, hrem], h1, h3.trans (by rw [hrem])⟩
        · have hns : (anchor_final s).1.state ≠ .TWR_SYNC_STATE := by
            rw [h1]; decide
          rw [if_neg hns] at hrest
          obtain ⟨i1, i2, i3⟩ := ih _ (Or.inr h1) hrest
          have hrem' : (anchor_round_remaining (anchor_final s).1)
              = ([], (anchor_final s).1.next_sequence_number) := by
            unfold anchor_round_remaining
            simp [h1]
          rw [hrem'] at i1 i3
          exact ⟨by rw [i1, h2, hrem]; rfl, i2, i3.trans (h3.trans (by rw [hrem]))⟩
    | tx_done =>
      have hns : (anchor_step s .tx_done).1.state ≠ .TWR_SYNC_STATE := by
        show s.state ≠ _
        rcases hs with hs | hs <;> rw [hs] <;> decide
      rw [if_neg hns] at hrest
      have hrem : anchor_round_remaining (anchor_step s .tx_done).1 = anchor_round_remaining s :=
        rfl
      obtain ⟨i1, i2, i3⟩ := ih (anchor_step s .tx_done).1 hs hrest
      rw [hrem] at i1 i3
      exact ⟨i1, i2, i3⟩
    | rx_ok n =>
      have hns : (anchor_step s (.rx_ok n)).1.state ≠ .TWR_SYNC_STATE := by
        show s.state ≠ _
        rcases hs with hs | hs <;> rw [hs] <;> decide
      rw [if_neg hns] at hrest
      have hrem : anchor_round_remaining (anchor_step s (.rx_ok n)).1
          = anchor_round_remaining s := by
        have hadm' : s.new_frame ≠ 2 := hadm
        unfold anchor_round_remaining
        simp only [anchor_step, anchor_rx_ok_cb, hadm', if_false]
        rcases hs with hs | hs <;> simp [hs]
      obtain ⟨i1, i2, i3⟩ := ih (anchor_step s (.rx_ok n)).1 hs hrest
      rw [hrem] at i1 i3
      exact ⟨i1, i2, i3⟩

/-- The iteration that opens an anchor round: the Sync branch accepts the sync frame, seeds
`next_sequence_number` from its `seq` and sends the poll frame with the seeded value. -/
theorem anchor_round_first (env : AnchorEnv) (s : AnchorState)
    (hs : s.state = .TWR_SYNC_STATE)
    (hp : (anchor_iteration env s).1.state = .TWR_POLL_RESPONSE_STATE) :
    (anchor_iteration env s).2.filterMap (anchor_observe env)
        = [.accepted .sync (rx_sequence_number env.rx_frame),
           .sent .poll (to_uint8 ((rx_sequence_number env.rx_frame).val + 1))]
      ∧ anchor_round_remaining (anchor_iteration env s).1
          = ([.accepted .response (to_uint8 ((rx_sequence_number env.rx_frame).val + 2)),
              .sent .final (to_uint8 ((rx_sequence_number env.rx_frame).val + 3))],
             to_uint8 ((rx_sequence_number env.rx_frame).val + 4)) := by
  have h9 : (9 : Nat) < sizeof_twr_base_frame_t + 2 := by decide
  have h2' : (2 : Nat) < sizeof_twr_base_frame_t + 2 := by decide
  revert hp
  rw [anchor_iteration_sync env s hs]
  unfold anchor_sync anchor_round_remaining
  by_cases h1 : s.new_frame = 0 <;>
  by_cases hl : s.new_frame_length = sizeof_twr_base_frame_t + 2 <;>
  by_cases hq : env.sts_quality < 0 <;>
  by_cases hc : env.rx_frame 9 = 0x20 <;>
  by_cases hk : env.starttx_ok = true <;>
  simp [h1, hl, hq, hc, hk, hs, rx_twr_function_code, rx_sequence_number,
    dwt_readrxdata, h9, h2', anchor_observe, tx_sequence_number, twr_base_frame_t.bytes,
    to_uint8_add, Nat.add_assoc]

/-- The sequence numbers of a successful round of the anchor. -/
theorem anchor_round_log (s : AnchorState) (env : AnchorEnv) (rest : List AnchorStep)
    (h : anchor_successful_round s (.iteration env :: rest)) :
    anchor_log s (.iteration env :: rest)
        = [.accepted .sync (rx_sequence_number env.rx_frame),
           .sent .poll (to_uint8 ((rx_sequence_number env.rx_frame).val + 1)),
           .accepted .response (to_uint8 ((rx_sequence_number env.rx_frame).val + 2)),
           .sent .final (to_uint8 ((rx_sequence_number env.rx_frame).val + 3))]
      ∧ (anchor_after s (.iteration env :: rest)).state = .TWR_SYNC_STATE
      ∧ (anchor_after s (.iteration env :: rest)).next_sequence_number
          = to_uint8 ((rx_sequence_number env.rx_frame).val + 4) := by
  obtain ⟨hs, hp, hrest⟩ := h
  obtain ⟨f1, f2⟩ := anchor_round_first env s hs hp
  obtain ⟨i1, i2, i3⟩ := anchor_round_rest_log rest _ (Or.inl hp) hrest
  rw [anchor_after_cons]
  refine ⟨?_, i2, ?_⟩
  · show (anchor_iteration env s).2.filterMap (anchor_observe env) ++ anchor_log _ rest = _
    rw [f1]
    show _ ++ anchor_log (anchor_iteration env s).1 rest = _
    rw [i1, f2]
    rfl
  · exact i3.trans (by rw [f2])

theorem tag_timeout_check_fires (B : TagBuild) (env : TagEnv) (s : TagState)
    (h : sub_u32 env.tick_check s.last_sync_time > B.ranging_timeout) :
    tag_timeout_check B env s
      = ({ spec_timeout_reset s with last_sync_time := env.tick_reset },
         [.forcetrxoff, .stdio_write "Timeout -> reset\n"]) := by
  unfold tag_timeout_check
  rw [if_pos h]
  rfl

theorem tag_iteration_timeout (B : TagBuild) (env : TagEnv) (s : TagState)
    (h : sub_u32 env.tick_check s.last_sync_time > B.ranging_timeout) :
    tag_iteration B env s
      = ((tag_sync env (spec_timeout_reset s)).1,
         [.forcetrxoff, .stdio_write "Timeout -> reset\n"]
           ++ (tag_sync env (spec_timeout_reset s)).2) := by
  unfold tag_iteration
  rw [tag_timeout_check_fires B env s h]
  rfl

theorem tag_rx_block_no_timeout_line (B : TagBuild) (env : TagEnv) (len : Nat) (code : Byte)
    (wrong accept : String) (store : TagState → Nat → TagState) (s : TagState)
    (hw : wrong ≠ "Timeout -> reset\n") (ha : accept ≠ "Timeout -> reset\n") :
    Event.stdio_write "Timeout -> reset\n"
      ∉ (tag_rx_block B env len code wrong accept store s).out := by
  unfold tag_rx_block
  by_cases h1 : s.rx_done = 1 <;>
  by_cases h2 : s.new_frame_length = len <;>
  by_cases h3 : env.sts_quality < 0 <;>
  by_cases h4 : rx_twr_function_code (dwt_readrxdata s.rx_buffer env.rx_frame len) = code <;>
  by_cases h5 : rx_sequence_number (dwt_readrxdata s.rx_buffer env.rx_frame len)
    = s.next_sequence_number <;>
  by_cases hB : B.telemetry = true <;>
  simp [h1, h2, h3, h4, h5, hB, RxOutcome.out, Ne.symm hw, Ne.symm ha]

theorem tag_poll_pair_no_timeout_line (B : TagBuild) (env : TagEnv) (s : TagState) :
    Event.stdio_write "Timeout -> reset\n" ∉ (tag_poll_pair B env s).2 := by
  unfold tag_poll_pair
  split_ifs <;> simp

theorem tag_final_pair_no_timeout_line (B : TagBuild) (s : TagState) :
    Event.stdio_write "Timeout -> reset\n" ∉ (tag_final_pair B s).2 := by
  unfold tag_final_pair
  split_ifs <;> simp

/-- No branch of the switch writes the line of the timeout reset. -/
theorem tag_branch_no_timeout_line (B : TagBuild) (env : TagEnv) (s : TagState) :
    Event.stdio_write "Timeout -> reset\n" ∉ (tag_branch B env s).2 := by
  unfold tag_branch
  cases hs : s.state
  · simp only []
    unfold tag_sync
    split_ifs <;> simp
  · simp only []
    have h1 : Event.stdio_write "Timeout -> reset\n" ∉ (tag_poll_tx s).2 := by
      unfold tag_poll_tx
      split_ifs <;> simp
    have h2 := tag_rx_block_no_timeout_line B env (sizeof_twr_base_frame_t + 2) 0x21
      "RX ERR: wrong frame (expected poll)\n" "RX: Poll frame\n"
      (fun t ts => { t with rx_timestamp_poll := ts }) (tag_poll_tx s).1 (by decide) (by decide)
    unfold tag_poll_response tag_poll_rx
    cases hr : tag_rx_block B env (sizeof_twr_base_frame_t + 2) 0x21
      "RX ERR: wrong frame (expected poll)\n" "RX: Poll frame\n"
      (fun t ts => { t with rx_timestamp_poll := ts }) (tag_poll_tx s).1 with
    | fall_through t out =>
      rw [hr] at h2
      simp only [List.mem_append, not_or]
      exact ⟨⟨h1, h2⟩, tag_poll_pair_no_timeout_line B env t⟩
    | continue_loop t out =>
      rw [hr] at h2
      simp only [List.mem_append, not_or]
      exact ⟨h1, h2⟩
    | undefined t out =>
      rw [hr] at h2
      simp only [List.mem_append, not_or]
      exact ⟨h1, h2⟩
  · simp only []
    have h1 : Event.stdio_write "Timeout -> reset\n" ∉ (tag_final_tx env s).2 := by
      unfold tag_final_tx
      split_ifs <;> simp
    have h2 := tag_rx_block_no_timeout_line B env (sizeof_twr_final_frame_t + 2) 0x23
      "RX ERR: wrong frame (expected final)\n" "RX: Final frame\n"
      (fun t ts => { t with rx_timestamp_final := ts }) (tag_final_tx env s).1
      (by decide) (by decide)
    unfold tag_final tag_final_rx
    cases hr : tag_rx_block B env (sizeof_twr_final_frame_t + 2) 0x23
      "RX ERR: wrong frame (expected final)\n" "RX: Final frame\n"
      (fun t ts => { t with rx_timestamp_final := ts }) (tag_final_tx env s).1 with
    | fall_through t out =>
      rw [hr] at h2
      simp only [List.mem_append, not_or]
      exact ⟨⟨h1, h2⟩, tag_final_pair_no_timeout_line B t⟩
    | continue_loop t out =>
      rw [hr] at h2
      simp only [List.mem_append, not_or]
      exact ⟨h1, h2⟩
    | undefined t out =>
      rw [hr] at h2
      simp only [List.mem_append, not_or]
      exact ⟨h1, h2⟩
  · simp only []
    unfold tag_error
    simp

theorem tag_iteration_timeout_line (B : TagBuild) (env : TagEnv) (s : TagState) :
    Event.stdio_write "Timeout -> reset\n" ∈ (tag_iteration B env s).2
      ↔ sub_u32 env.tick_check s.last_sync_time > B.ranging_timeout := by
  constructor
  · intro h
    by_contra hn
    rw [tag_iteration_no_timeout B env s (not_lt.mp hn)] at h
    exact tag_branch_no_timeout_line B env s h
  · intro h
    rw [tag_iteration_timeout B env s h]
    simp

theorem tag_sync_after_reset (env : TagEnv) (s : TagState) :
    (tag_sync env (spec_timeout_reset s)).1.rx_timestamp_poll = 0
      ∧ (tag_sync env (spec_timeout_reset s)).1.tx_timestamp_response = 0
      ∧ (tag_sync env (spec_timeout_reset s)).1.rx_timestamp_final = 0
      ∧ (tag_sync env (spec_timeout_reset s)).1.tx_done = 0
      ∧ (tag_sync env (spec_timeout_reset s)).1.rx_done = 0
      ∧ (tag_sync env (spec_timeout_reset s)).1.state
          = (if env.starttx_ok then .TWR_POLL_RESPONSE_STATE else .TWR_ERROR)
      ∧ (tag_sync env (spec_timeout_reset s)).1.next_sequence_number
          = to_uint8 (s.next_sequence_number.val + 1)
      ∧ Event.starttx
            ({ s.sync_frame with sequence_number := s.next_sequence_number }).bytes
            (sizeof_twr_base_frame_t + 2) none env.starttx_ok
          ∈ (tag_sync env (spec_timeout_reset s)).2 := by
  unfold tag_sync spec_timeout_reset
  by_cases hk : env.starttx_ok = true <;> simp [hk]

theorem tag_timeout_check_seq (B : TagBuild) (env : TagEnv) (s : TagState) :
    (tag_timeout_check B env s).1.next_sequence_number = s.next_sequence_number := by
  unfold tag_timeout_check
  split <;> rfl

/-- An iteration of the PollResponse branch that stays in that state and shows no sequence
number has neither accepted nor sent a frame: `next_sequence_number` is unchanged. -/
theorem tag_poll_response_quiet (B : TagBuild) (env : TagEnv) (s : TagState)
    (hst : s.state = .TWR_POLL_RESPONSE_STATE)
    (hp : (tag_poll_response B env s).1.state = .TWR_POLL_RESPONSE_STATE)
    (hlog : (tag_poll_response B env s).2.filterMap (tag_observe env) = []) :
    (tag_poll_response B env s).1.next_sequence_number = s.next_sequence_number := by
  have h9 : (9 : Nat) < sizeof_twr_base_frame_t + 2 := by decide
  have h2' : (2 : Nat) < sizeof_twr_base_frame_t + 2 := by decide
  revert hp hlog
  unfold tag_poll_response tag_poll_tx tag_poll_rx tag_rx_block tag_poll_pair
  by_cases h1 : s.tx_done = 1 <;> by_cases h2 : s.rx_done = 1
  · by_cases hl : s.new_frame_length = sizeof_twr_base_frame_t + 2 <;>
    by_cases hq : env.sts_quality < 0 <;>
    by_cases hc : env.rx_frame 9 = 0x21 <;>
    by_cases hs : env.rx_frame 2 = s.next_sequence_number <;>
    by_cases hk : env.starttx_ok = true <;>
    by_cases hB : B.telemetry = true <;>
    simp [h1, h2, hl, hq, hc, hs, hk, hB, hst, rx_twr_function_code, rx_sequence_number,
      dwt_readrxdata, h9, h2', tag_observe, tx_sequence_number, twr_base_frame_t.bytes]
  · by_cases h3 : s.rx_done = 2 <;>
    by_cases hk : env.starttx_ok = true <;>
    simp [h1, h2, h3, hk, hst, tag_observe, tx_sequence_number, twr_base_frame_t.bytes]
  · by_cases h4 : s.tx_done = 2 <;>
    by_cases hl : s.new_frame_length = sizeof_twr_base_frame_t + 2 <;>
    by_cases hq : env.sts_quality < 0 <;>
    by_cases hc : env.rx_frame 9 = 0x21 <;>
    by_cases hs : env.rx_frame 2 = s.next_sequence_number <;>
    by_cases hk : env.starttx_ok = true <;>
    by_cases hB : B.telemetry = true <;>
    simp [h1, h2, h4, hl, hq, hc, hs, hk, hB, hst, rx_twr_function_code, rx_sequence_number,
      dwt_readrxdata, h9, h2', tag_observe, tx_sequence_number, twr_base_frame_t.bytes]
  · by_cases h3 : s.rx_done = 2 <;>
    by_cases h4 : s.tx_done = 2 <;>
    by_cases hk : env.starttx_ok = true <;>
    simp [h1, h2, h3, h4, hk, hst, tag_observe, tx_sequence_number, twr_base_frame_t.bytes]

/-- A waiting step leaves `next_sequence_number` unchanged. -/
theorem tag_waiting_step_seq (B : TagBuild) (s : TagState) (st : TagStep)
    (hs : s.state = .TWR_POLL_RESPONSE_STATE) (h : tag_waiting_step B s st) :
    (tag_step B s st).1.next_sequence_number = s.next_sequence_number := by
  obtain ⟨hadm, hp, hlog⟩ := h
  cases st with
  | iteration env =>
    have hit : tag_iteration B env s = tag_poll_response B env s := by
      rw [tag_iteration_no_timeout B env s hadm, tag_branch_poll B env s hs]
    simp only [tag_step, tag_step_log, hit] at hp hlog ⊢
    exact tag_poll_response_quiet B env s hs hp hlog
  | tx_done => rfl
  | rx_ok n => rfl

theorem tag_waits_seq (B : TagBuild) :
    ∀ (steps : List TagStep) (s : TagState), s.state = .TWR_POLL_RESPONSE_STATE →
      tag_waits B s steps →
      (tag_after B s steps).state = .TWR_POLL_RESPONSE_STATE
        ∧ (tag_after B s steps).next_sequence_number = s.next_sequence_number := by
  intro steps
  induction steps with
  | nil => intro s hs _; exact ⟨hs, rfl⟩
  | cons st rest ih =>
    intro s hs h
    obtain ⟨h1, h2⟩ := h
    rw [tag_after_cons]
    obtain ⟨i1, i2⟩ := ih _ h1.2.1 h2
    exact ⟨i1, i2.trans (tag_waiting_step_seq B s st hs h1)⟩

theorem anchor_no_tx_singleton (text : String) :
    anchor_no_frame_transmitted [AnchorEvent.stdio_write text] := by
  intro e he
  simp only [List.mem_singleton] at he
  subst he
  rfl

/-- The anchor's Sync branch rejects a frame that fails validation. -/
theorem anchor_sync_invalid (env : AnchorEnv) (s : AnchorState) (hnf : s.new_frame ≠ 0)
    (hv : ¬ spec_anchor_sync_valid env s) :
    (anchor_sync env s).1.state = .TWR_ERROR
      ∧ (anchor_sync env s).1.new_frame = 0
      ∧ (anchor_sync env s).1.tx_done = s.tx_done
      ∧ (anchor_sync env s).1.next_sequence_number = s.next_sequence_number
      ∧ (anchor_sync env s).1.tx_timestamp_poll = s.tx_timestamp_poll
      ∧ (anchor_sync env s).1.rx_timestamp_response = s.rx_timestamp_response
      ∧ (anchor_sync env s).1.tx_timestamp_final = s.tx_timestamp_final
      ∧ anchor_no_frame_transmitted (anchor_sync env s).2 := by
  have h9 : (9 : Nat) < sizeof_twr_base_frame_t + 2 := by decide
  revert hv
  unfold spec_anchor_sync_valid anchor_sync
  by_cases hl : s.new_frame_length = sizeof_twr_base_frame_t + 2 <;>
  by_cases hq : env.sts_quality < 0 <;>
  by_cases hc : env.rx_frame 9 = 0x20 <;>
  simp [hnf, hl, hq, hc, rx_twr_function_code, dwt_readrxdata, h9, anchor_no_tx_singleton,
    not_lt.mp, le_of_not_lt]

/-- The anchor's Sync branch accepts a frame that passes validation: it seeds the sequence
number, and sends the poll frame with the seeded value. -/
theorem anchor_sync_valid (env : AnchorEnv) (s : AnchorState) (hnf : s.new_frame ≠ 0)
    (hv : spec_anchor_sync_valid env s) :
    (anchor_sync env s).1.state
        = (if env.starttx_ok then .TWR_POLL_RESPONSE_STATE else .TWR_ERROR)
      ∧ (anchor_sync env s).1.new_frame = 0
      ∧ (anchor_sync env s).1.next_sequence_number
          = to_uint8 ((rx_sequence_number env.rx_frame).val + 2)
      ∧ AnchorEvent.stdio_write "RX: Sync frame\n" ∈ (anchor_sync env s).2
      ∧ AnchorEvent.starttx
          ({ s.poll_frame with
              sequence_number := to_uint8 ((rx_sequence_number env.rx_frame).val + 1) }).bytes
          (sizeof_twr_base_frame_t + 2) none env.starttx_ok ∈ (anchor_sync env s).2 := by
  have h9 : (9 : Nat) < sizeof_twr_base_frame_t + 2 := by decide
  have h2' : (2 : Nat) < sizeof_twr_base_frame_t + 2 := by decide
  obtain ⟨hl, hq, hc⟩ := hv
  unfold rx_twr_function_code at hc
  unfold anchor_sync
  by_cases hk : env.starttx_ok = true <;>
  simp [hnf, hl, not_lt.mpr hq, hc, hk, rx_twr_function_code, rx_sequence_number,
    dwt_readrxdata, h9, h2', to_uint8_add, Nat.add_assoc]

/-- The anchor's receive block of the PollResponse state rejects a frame that fails
validation. -/
theorem anchor_response_rx_invalid (env : AnchorEnv) (s : AnchorState) (hnf : s.new_frame = 1)
    (hv : ¬ spec_anchor_response_valid env s) :
    ∃ buf text, anchor_response_rx env s
      = .continue_loop { s with new_frame := 0, state := .TWR_ERROR, rx_buffer := buf }
          [.stdio_write text] := by
  have h9 : (9 : Nat) < sizeof_twr_base_frame_t + 2 := by decide
  have h2' : (2 : Nat) < sizeof_twr_base_frame_t + 2 := by decide
  unfold spec_anchor_response_valid at hv
  unfold anchor_response_rx
  simp only [hnf, if_true]
  by_cases h1 : s.new_frame_length = sizeof_twr_base_frame_t + 2
  · by_cases hq : env.sts_quality < 0
    · simp only [h1, ne_eq, not_true_eq_false, if_false, hq, if_true]
      exact ⟨s.rx_buffer, _, rfl⟩
    · by_cases h3 : env.rx_frame 9 = 0x10
      · have h4 : ¬ env.rx_frame 2 = s.next_sequence_number := by
          intro h4
          exact hv ⟨h1, not_lt.mp hq, h3, h4⟩
        simp only [h1, ne_eq, not_true_eq_false, if_false, hq, rx_twr_function_code,
          rx_sequence_number, dwt_readrxdata, h9, h2', if_true, h3, h4, not_false_eq_true]
        exact ⟨_, _, rfl⟩
      · simp only [h1, ne_eq, not_true_eq_false, if_false, hq, rx_twr_function_code,
          dwt_readrxdata, h9, if_true, h3, not_false_eq_true]
        exact ⟨_, _, rfl⟩
  · simp only [ne_eq, h1, not_false_eq_true, if_true]
    exact ⟨s.rx_buffer, _, rfl⟩

/-- The anchor's receive block of the PollResponse state accepts a frame that passes
validation. -/
theorem anchor_response_rx_accepts (env : AnchorEnv) (s : AnchorState) (hnf : s.new_frame = 1)
    (hv : spec_anchor_response_valid env s) :
    anchor_response_rx env s
      = .fall_through
          { s with
              new_frame := 2
              rx_buffer := dwt_readrxdata s.rx_buffer env.rx_frame (sizeof_twr_base_frame_t + 2)
              rx_timestamp_response := decode_40bit_timestamp env.rx_timestamp
              next_sequence_number := to_uint8 (s.next_sequence_number.val + 1) }
          [.stdio_write "RX: Response frame\n"] := by
  obtain ⟨h1, hq, h3, h4⟩ := hv
  unfold rx_twr_function_code at h3
  unfold rx_sequence_number at h4
  have h9 : (9 : Nat) < sizeof_twr_base_frame_t + 2 := by decide
  have h2 : (2 : Nat) < sizeof_twr_base_frame_t + 2 := by decide
  unfold anchor_response_rx
  simp only [hnf, if_true, h1, ne_eq, not_true_eq_false, if_false, not_lt.mpr hq,
    rx_twr_function_code, rx_sequence_number, dwt_readrxdata, h9, h2, h3, h4]

/-- A validation failure of the tag followed by the Error iteration: the engine is back in the
Sync state with the receive flag at 0; the transmit flag and the timestamps are not reset. -/
theorem tag_validation_failure (B : TagBuild) (env1 env2 : TagEnv) (s : TagState)
    (hrx : s.rx_done = 1)
    (h : (s.state = .TWR_POLL_RESPONSE_STATE
            ∧ ¬ spec_frame_valid (sizeof_twr_base_frame_t + 2) 0x21 env1 s)
          ∨ (s.state = .TWR_FINAL_STATE
            ∧ ¬ spec_frame_valid (sizeof_twr_final_frame_t + 2) 0x23 env1 s)) :
    (tag_branch B env1 s).1.state = .TWR_ERROR
      ∧ (tag_branch B env1 s).1.last_sync_time = s.last_sync_time
      ∧ no_frame_transmitted (tag_branch B env1 s).2
      ∧ (tag_branch B env2 (tag_branch B env1 s).1).1.state = .TWR_SYNC_STATE
      ∧ (tag_branch B env2 (tag_branch B env1 s).1).1.rx_done = 0
      ∧ (tag_branch B env2 (tag_branch B env1 s).1).1.tx_done
          = (if s.tx_done = 1 then 2 else s.tx_done)
      ∧ (tag_branch B env2 (tag_branch B env1 s).1).1.rx_timestamp_poll = s.rx_timestamp_poll
      ∧ (tag_branch B env2 (tag_branch B env1 s).1).1.tx_timestamp_response
          = (if s.state = .TWR_FINAL_STATE ∧ s.tx_done = 1 then
              decode_40bit_timestamp env1.tx_timestamp
             else s.tx_timestamp_response)
      ∧ (tag_branch B env2 (tag_branch B env1 s).1).1.rx_timestamp_final
          = s.rx_timestamp_final := by
  have hnt : ∀ txt : String, no_frame_transmitted [Event.stdio_write txt] := by
    intro txt e he
    simp only [List.mem_singleton] at he
    subst he
    rfl
  have hnt2 : ∀ a b : String, no_frame_transmitted [Event.stdio_write a, Event.stdio_write b] := by
    intro a b e he
    simp only [List.mem_cons, List.mem_singleton, List.mem_nil_iff, or_false] at he
    rcases he with rfl | rfl <;> rfl
  rcases h with ⟨hs, hv⟩ | ⟨hs, hv⟩
  · have hv' : ¬ spec_frame_valid (sizeof_twr_base_frame_t + 2) 0x21 env1 (tag_poll_tx s).1 := by
      unfold tag_poll_tx
      split <;> exact hv
    have hrx' : (tag_poll_tx s).1.rx_done = 1 := by
      unfold tag_poll_tx
      split <;> exact hrx
    obtain ⟨buf, text, e, -⟩ := tag_rx_block_invalid B env1 (sizeof_twr_base_frame_t + 2) 0x21
      "RX ERR: wrong frame (expected poll)\n" "RX: Poll frame\n"
      (fun t ts => { t with rx_timestamp_poll := ts }) (tag_poll_tx s).1 (by decide) (by decide)
      hrx' hv'
    have hb : tag_branch B env1 s
        = ({ (tag_poll_tx s).1 with rx_done := 0, state := .TWR_ERROR, rx_buffer := buf },
           (tag_poll_tx s).2 ++ [.stdio_write text]) := by
      rw [tag_branch_poll B env1 s hs]
      unfold tag_poll_response tag_poll_rx
      rw [e]
    rw [hb]
    simp only [tag_branch, tag_error, tag_poll_tx]
    by_cases h1 : s.tx_done = 1 <;> simp [h1, hs, hnt, hnt2]
  · have hv' : ¬ spec_frame_valid (sizeof_twr_final_frame_t + 2) 0x23 env1
        (tag_final_tx env1 s).1 := by
      unfold tag_final_tx
      split <;> exact hv
    have hrx' : (tag_final_tx env1 s).1.rx_done = 1 := by
      unfold tag_final_tx
      split <;> exact hrx
    obtain ⟨buf, text, e, -⟩ := tag_rx_block_invalid B env1 (sizeof_twr_final_frame_t + 2) 0x23
      "RX ERR: wrong frame (expected final)\n" "RX: Final frame\n"
      (fun t ts => { t with rx_timestamp_final := ts }) (tag_final_tx env1 s).1 (by decide)
      (by decide) hrx' hv'
    have hb : tag_branch B env1 s
        = ({ (tag_final_tx env1 s).1 with rx_done := 0, state := .TWR_ERROR, rx_buffer := buf },
           (tag_final_tx env1 s).2 ++ [.stdio_write text]) := by
      rw [tag_branch_final B env1 s hs]
      unfold tag_final tag_final_rx
      rw [e]
    rw [hb]
    simp only [tag_branch, tag_error, tag_final_tx]
    by_cases h1 : s.tx_done = 1 <;> simp [h1, hs, hnt, hnt2]

/-- A validation failure of the anchor followed by the Error iteration: the engine is back in
the Sync state with `new_frame` at 0; the transmit flag and the timestamps are not reset. -/
theorem anchor_validation_failure (env1 env2 : AnchorEnv) (s : AnchorState)
    (h : (s.state = .TWR_SYNC_STATE ∧ s.new_frame ≠ 0 ∧ ¬ spec_anchor_sync_valid env1 s)
          ∨ (s.state = .TWR_POLL_RESPONSE_STATE ∧ s.new_frame = 1
            ∧ ¬ spec_anchor_response_valid env1 s)) :
    (anchor_iteration env1 s).1.state = .TWR_ERROR
      ∧ anchor_no_frame_transmitted (anchor_iteration env1 s).2
      ∧ (anchor_iteration env2 (anchor_iteration env1 s).1).1.state = .TWR_SYNC_STATE
      ∧ (anchor_iteration env2 (anchor_iteration env1 s).1).1.new_frame = 0
      ∧ (anchor_iteration env2 (anchor_iteration env1 s).1).1.tx_done
          = (if s.state = .TWR_POLL_RESPONSE_STATE ∧ s.tx_done = 1 then 2 else s.tx_done)
      ∧ (anchor_iteration env2 (anchor_iteration env1 s).1).1.tx_timestamp_poll
          = (if s.state = .TWR_POLL_RESPONSE_STATE ∧ s.tx_done = 1 then
              decode_40bit_timestamp env1.tx_timestamp
             else s.tx_timestamp_poll)
      ∧ (anchor_iteration env2 (anchor_iteration env1 s).1).1.rx_timestamp_response
          = s.rx_timestamp_response
      ∧ (anchor_iteration env2 (anchor_iteration env1 s).1).1.tx_timestamp_final
          = s.tx_timestamp_final := by
  have hnt2 : ∀ a b : String,
      anchor_no_frame_transmitted [AnchorEvent.stdio_write a, AnchorEvent.stdio_write b] := by
    intro a b e he
    simp only [List.mem_cons, List.mem_singleton, List.mem_nil_iff, or_false] at he
    rcases he with rfl | rfl <;> rfl
  rcases h with ⟨hs, hnf, hv⟩ | ⟨hs, hnf, hv⟩
  · obtain ⟨a1, a2, a3, a4, a5, a6, a7, a8⟩ := anchor_sync_invalid env1 s hnf hv
    rw [anchor_iteration_sync env1 s hs]
    rw [anchor_iteration_error env2 _ a1]
    refine ⟨a1, a8, rfl, a2, ?_, ?_, a6, a7⟩
    · rw [if_neg (by rw [hs]; simp)]
      exact a3
    · rw [if_neg (by rw [hs]; simp)]
      exact a5
  · have hv' : ¬ spec_anchor_response_valid env1 (anchor_poll_tx env1 s).1 := by
      unfold anchor_poll_tx
      split <;> exact hv
    have hnf' : (anchor_poll_tx env1 s).1.new_frame = 1 := by
      unfold anchor_poll_tx
      split <;> exact hnf
    obtain ⟨buf, text, e⟩ := anchor_response_rx_invalid env1 (anchor_poll_tx env1 s).1 hnf' hv'
    have hb : anchor_iteration env1 s
        = ({ (anchor_poll_tx env1 s).1 with
              new_frame := 0, state := .TWR_ERROR, rx_buffer := buf },
           (anchor_poll_tx env1 s).2 ++ [.stdio_write text]) := by
      rw [anchor_iteration_poll env1 s hs]
      unfold anchor_poll_response
      rw [e]
    rw [hb]
    simp only [anchor_iteration, anchor_error, anchor_poll_tx]
    by_cases h1 : s.tx_done = 1 <;> simp [h1, hs, anchor_no_tx_singleton, hnt2]

theorem tag_after_append (B : TagBuild) (s : TagState) (l1 l2 : List TagStep) :
    tag_after B s (l1 ++ l2) = tag_after B (tag_after B s l1) l2 := by
  unfold tag_after
  rw [List.foldl_append]

theorem tag_trace_append (B : TagBuild) :
    ∀ (l1 l2 : List TagStep) (s : TagState),
      tag_trace B s (l1 ++ l2) = tag_trace B s l1 ++ tag_trace B (tag_after B s l1) l2 := by
  intro l1
  induction l1 with
  | nil => intro l2 s; rfl
  | cons st rest ih =>
    intro l2 s
    show tag_step B s st :: tag_trace B _ (rest ++ l2) = _
    rw [ih]
    rfl

/-- An iteration in the PollResponse state has nothing to do when no flag is at level 1 and the
flags are not both at level 2. -/
theorem tag_iteration_idle (B : TagBuild) (env : TagEnv) (s : TagState)
    (hs : s.state = .TWR_POLL_RESPONSE_STATE) (h1 : s.tx_done ≠ 1) (h2 : s.rx_done ≠ 1)
    (h3 : ¬ (s.tx_done = 2 ∧ s.rx_done = 2))
    (hnt : sub_u32 env.tick_check s.last_sync_time ≤ B.ranging_timeout) :
    tag_iteration B env s = (s, []) := by
  rw [tag_iteration_no_timeout B env s hnt, tag_branch_poll B env s hs]
  unfold tag_poll_response tag_poll_tx tag_poll_rx tag_rx_block tag_poll_pair
  simp [h1, h2, h3]

/-- A run of idle iterations changes nothing. -/
theorem tag_iterations_idle (B : TagBuild) (s : TagState)
    (hs : s.state = .TWR_POLL_RESPONSE_STATE) (h1 : s.tx_done ≠ 1) (h2 : s.rx_done ≠ 1)
    (h3 : ¬ (s.tx_done = 2 ∧ s.rx_done = 2)) :
    ∀ envs : List TagEnv,
      (∀ env ∈ envs, sub_u32 env.tick_check s.last_sync_time ≤ B.ranging_timeout) →
      tag_after B s (tag_iterations envs) = s
        ∧ ∀ r ∈ tag_trace B s (tag_iterations envs), r = (s, []) := by
  intro envs
  induction envs with
  | nil => intro _; exact ⟨rfl, fun r hr => absurd hr (List.not_mem_nil r)⟩
  | cons env rest ih =>
    intro hnt
    have he := tag_iteration_idle B env s hs h1 h2 h3 (hnt env (List.mem_cons_self _ _))
    have hstep : tag_step B s (.iteration env) = (s, []) := he
    obtain ⟨i1, i2⟩ := ih (fun e h => hnt e (List.mem_cons_of_mem _ h))
    constructor
    · show tag_after B (tag_step B s (.iteration env)).1 (tag_iterations rest) = s
      rw [hstep]
      exact i1
    · intro r hr
      have hr' : r ∈ tag_step B s (.iteration env)
          :: tag_trace B (tag_step B s (.iteration env)).1 (tag_iterations rest) := hr
      rw [hstep] at hr'
      rcases List.mem_cons.mp hr' with h | h
      · exact h
      · exact i2 r h

theorem tag_iteration_pair_fresh (B : TagBuild) (last : TagEnv) (t : TagState)
    (frame : Nat → Byte) (ts : Fin 5 → Byte) (hB : B.telemetry = false)
    (hk : t.tx_done = 1 ∨ t.tx_done = 2)
    (hr : t.rx_done = 1) (hl : t.new_frame_length = sizeof_twr_base_frame_t + 2)
    (hs : t.state = .TWR_POLL_RESPONSE_STATE)
    (hnt : sub_u32 last.tick_check t.last_sync_time ≤ B.ranging_timeout)
    (hcode : rx_twr_function_code frame = 0x21)
    (hseq : rx_sequence_number frame = t.next_sequence_number)
    (hp : presents_frame frame ts last) :
    (tag_iteration B last t).1 = tag_paired_state t frame ts last.starttx_ok
      ∧ (tag_iteration B last t).2.filter Event.is_tx
        = paired_transmissions B t ts last.starttx_ok := by
  have h9 : (9 : Nat) < sizeof_twr_base_frame_t + 2 := by decide
  have h2' : (2 : Nat) < sizeof_twr_base_frame_t + 2 := by decide
  obtain ⟨hq, hf, ht⟩ := hp
  unfold rx_twr_function_code at hcode
  unfold rx_sequence_number at hseq
  rw [tag_iteration_no_timeout B last t hnt, tag_branch_poll B last t hs]
  unfold tag_poll_response tag_poll_tx tag_poll_rx tag_rx_block tag_poll_pair tag_paired_state
    paired_transmissions
  rcases hk with hk | hk <;>
  by_cases hok : last.starttx_ok = true <;>
  simp [hk, hr, hl, hs, hok, hB, not_lt.mpr hq, hf, ht, hcode, hseq, rx_twr_function_code,
    rx_sequence_number, dwt_readrxdata, h9, h2', Event.is_tx, to_uint8_add, Nat.add_assoc]

/-- The iteration that accepts the poll while the transmit-done event is still missing. -/
theorem tag_iteration_accept_only (B : TagBuild) (env : TagEnv) (t : TagState)
    (frame : Nat → Byte) (ts : Fin 5 → Byte) (hB : B.telemetry = false) (hk : t.tx_done = 0)
    (hr : t.rx_done = 1) (hl : t.new_frame_length = sizeof_twr_base_frame_t + 2)
    (hs : t.state = .TWR_POLL_RESPONSE_STATE)
    (hnt : sub_u32 env.tick_check t.last_sync_time ≤ B.ranging_timeout)
    (hcode : rx_twr_function_code frame = 0x21)
    (hseq : rx_sequence_number frame = t.next_sequence_number)
    (hp : presents_frame frame ts env) :
    (tag_iteration B env t).1
        = { t with
              rx_done := 2
              rx_buffer := dwt_readrxdata t.rx_buffer frame (sizeof_twr_base_frame_t + 2)
              rx_timestamp_poll := decode_40bit_timestamp ts
              next_sequence_number := to_uint8 (t.next_sequence_number.val + 1) }
      ∧ no_frame_transmitted (tag_iteration B env t).2 := by
  have h9 : (9 : Nat) < sizeof_twr_base_frame_t + 2 := by decide
  have h2' : (2 : Nat) < sizeof_twr_base_frame_t + 2 := by decide
  obtain ⟨hq, hf, ht⟩ := hp
  unfold rx_twr_function_code at hcode
  unfold rx_sequence_number at hseq
  rw [tag_iteration_no_timeout B env t hnt, tag_branch_poll B env t hs]
  unfold tag_poll_response tag_poll_tx tag_poll_rx tag_rx_block tag_poll_pair
    no_frame_transmitted
  simp [hk, hr, hl, hs, hB, not_lt.mpr hq, hf, ht, hcode, hseq, rx_twr_function_code,
    rx_sequence_number, dwt_readrxdata, h9, h2', Event.is_tx]

/-- The iteration that promotes the transmit flag while no frame has arrived. -/
theorem tag_iteration_promote_only (B : TagBuild) (env : TagEnv) (t : TagState)
    (hk : t.tx_done = 1) (hr : t.rx_done = 0) (hs : t.state = .TWR_POLL_RESPONSE_STATE)
    (hnt : sub_u32 env.tick_check t.last_sync_time ≤ B.ranging_timeout) :
    (tag_iteration B env t).1 = { t with tx_done := 2 }
      ∧ no_frame_transmitted (tag_iteration B env t).2 := by
  rw [tag_iteration_no_timeout B env t hnt, tag_branch_poll B env t hs]
  unfold tag_poll_response tag_poll_tx tag_poll_rx tag_rx_block tag_poll_pair
    no_frame_transmitted
  simp [hk, hr, Event.is_tx]

/-- The iteration that pairs the transmit-done event with a poll accepted earlier. -/
theorem tag_iteration_pair_accepted (B : TagBuild) (last : TagEnv) (t : TagState)
    (hk : t.tx_done = 1) (hr : t.rx_done = 2) (hs : t.state = .TWR_POLL_RESPONSE_STATE)
    (hnt : sub_u32 last.tick_check t.last_sync_time ≤ B.ranging_timeout) :
    (tag_iteration B last t).1
        = { t with
              tx_done := 0
              rx_done := 0
              response_frame := { t.response_frame with sequence_number := t.next_sequence_number }
              next_sequence_number := to_uint8 (t.next_sequence_number.val + 1)
              state := if last.starttx_ok then .TWR_FINAL_STATE else .TWR_ERROR }
      ∧ (tag_iteration B last t).2.filter Event.is_tx
        = (if last.starttx_ok then
            [.starttx ({ t.response_frame with sequence_number := t.next_sequence_number }).bytes
              (sizeof_twr_base_frame_t + 2)
              (some (tag_response_tx_time B t.rx_timestamp_poll)) true]
           else []) := by
  rw [tag_iteration_no_timeout B last t hnt, tag_branch_poll B last t hs]
  unfold tag_poll_response tag_poll_tx tag_poll_rx tag_rx_block tag_poll_pair
  by_cases hok : last.starttx_ok = true <;>
  simp [hk, hr, hs, hok, Event.is_tx]

theorem no_frame_transmitted_nil : no_frame_transmitted [] := by
  intro e he
  exact absurd he (List.not_mem_nil e)

/-- Order independence of the two-level flag protocol in the PollResponse state. -/
theorem tag_poll_interleaving (B : TagBuild) (s : TagState) (frame : Nat → Byte)
    (ts : Fin 5 → Byte) (tx_first : Bool) (pre mid : List TagEnv) (last : TagEnv)
    (hB : B.telemetry = false)
    (hs : s.state = .TWR_POLL_RESPONSE_STATE) (htx : s.tx_done = 0) (hrx : s.rx_done = 0)
    (hnt : ∀ env ∈ pre ++ mid ++ [last],
      sub_u32 env.tick_check s.last_sync_time ≤ B.ranging_timeout)
    (hcode : rx_twr_function_code frame = 0x21)
    (hseq : rx_sequence_number frame = s.next_sequence_number)
    (hpres : ∀ env ∈ (if tx_first then [] else mid) ++ [last], presents_frame frame ts env) :
    (∀ r ∈ tag_trace B s (poll_interleaving tx_first pre mid),
        r.1.state = .TWR_POLL_RESPONSE_STATE ∧ no_frame_transmitted r.2)
      ∧ (tag_iteration B last (tag_after B s (poll_interleaving tx_first pre mid))).1
          = tag_paired_state s frame ts last.starttx_ok
      ∧ (tag_iteration B last
            (tag_after B s (poll_interleaving tx_first pre mid))).2.filter Event.is_tx
          = paired_transmissions B s ts last.starttx_ok := by
  have hnt_pre : ∀ env ∈ pre, sub_u32 env.tick_check s.last_sync_time ≤ B.ranging_timeout :=
    fun env h => hnt env (List.mem_append_left _ (List.mem_append_left _ h))
  have hnt_mid : ∀ env ∈ mid, sub_u32 env.tick_check s.last_sync_time ≤ B.ranging_timeout :=
    fun env h => hnt env (List.mem_append_left _ (List.mem_append_right _ h))
  have hnt_last : sub_u32 last.tick_check s.last_sync_time ≤ B.ranging_timeout :=
    hnt last (List.mem_append_right _ (List.mem_singleton_self _))
  have hp_last : presents_frame frame ts last :=
    hpres last (List.mem_append_right _ (List.mem_singleton_self _))
  obtain ⟨p1, p2⟩ := tag_iterations_idle B s hs (by rw [htx]; decide) (by rw [hrx]; decide)
    (by rw [htx]; rintro ⟨h, -⟩; exact absurd h (by decide)) pre hnt_pre
  have hQs : ∀ r : TagState × List Event, r = (s, []) →
      r.1.state = .TWR_POLL_RESPONSE_STATE ∧ no_frame_transmitted r.2 := by
    rintro r rfl
    exact ⟨hs, no_frame_transmitted_nil⟩
  unfold poll_interleaving
  rw [tag_trace_append, tag_after_append, p1]
  cases tx_first with
  | true =>
    simp only [if_true]
    cases mid with
    | nil =>
      obtain ⟨f1, f2⟩ := tag_iteration_pair_fresh B last
        { s with tx_done := 1, rx_done := 1, new_frame_length := sizeof_twr_base_frame_t + 2 }
        frame ts hB (Or.inl rfl) rfl rfl hs hnt_last hcode hseq hp_last
      refine ⟨?_, f1, f2⟩
      intro r hr
      rcases List.mem_append.mp hr with h | h
      · exact hQs r (p2 r h)
      · simp only [tag_iterations, List.map_nil, List.nil_append, tag_trace, tag_step,
          List.mem_cons, List.mem_singleton, List.mem_nil_iff, or_false] at h
        rcases h with rfl | rfl
        · exact ⟨hs, no_frame_transmitted_nil⟩
        · exact ⟨hs, no_frame_transmitted_nil⟩
    | cons e es =>
      have hnt_e := hnt_mid e (List.mem_cons_self _ _)
      obtain ⟨g1, g2⟩ := tag_iteration_promote_only B e { s with tx_done := 1 } rfl hrx hs hnt_e
      obtain ⟨q1, q2⟩ := tag_iterations_idle B { s with tx_done := 2 } hs
        (by show (2 : Nat) ≠ 1; decide)
        (by show s.rx_done ≠ 1; rw [hrx]; decide)
        (by rintro ⟨-, h⟩; exact absurd (hrx ▸ h : (0 : Nat) = 2) (by decide)) es
        (fun env h => hnt_mid env (List.mem_cons_of_mem _ h))
      obtain ⟨f1, f2⟩ := tag_iteration_pair_fresh B last
        { s with tx_done := 2, rx_done := 1, new_frame_length := sizeof_twr_base_frame_t + 2 }
        frame ts hB (Or.inr rfl) rfl rfl hs hnt_last hcode hseq hp_last
      have hstep : tag_step B (tag_step B s TagStep.tx_done).1 (.iteration e)
          = tag_iteration B e { s with tx_done := 1 } := rfl
      have hafter : tag_after B s (TagStep.tx_done
            :: (tag_iterations (e :: es)
                ++ [TagStep.rx_ok (sizeof_twr_base_frame_t + 2)]))
          = { s with tx_done := 2, rx_done := 1,
                     new_frame_length := sizeof_twr_base_frame_t + 2 } := by
        show tag_after B (tag_iteration B e { s with tx_done := 1 }).1
          (tag_iterations es ++ [TagStep.rx_ok (sizeof_twr_base_frame_t + 2)]) = _
        rw [g1, tag_after_append, q1]
        rfl
      rw [hafter]
      refine ⟨?_, f1, f2⟩
      intro r hr
      rcases List.mem_append.mp hr with h | h
      · exact hQs r (p2 r h)
      · have h' : r ∈ (tag_step B s TagStep.tx_done)
            :: (tag_iteration B e { s with tx_done := 1 })
            :: tag_trace B (tag_iteration B e { s with tx_done := 1 }).1
                (tag_iterations es ++ [TagStep.rx_ok (sizeof_twr_base_frame_t + 2)]) := h
        rw [g1, tag_trace_append, q1] at h'
        rcases List.mem_cons.mp h' with rfl | h'
        · exact ⟨hs, no_frame_transmitted_nil⟩
        · rcases List.mem_cons.mp h' with rfl | h'
          · exact ⟨by rw [g1]; exact hs, g2⟩
          · rcases List.mem_append.mp h' with h' | h'
            · rw [q2 r h']
              exact ⟨hs, no_frame_transmitted_nil⟩
            · simp only [tag_trace, tag_step, List.mem_singleton] at h'
              subst h'
              exact ⟨hs, no_frame_transmitted_nil⟩
  | false =>
    simp only [Bool.false_eq_true, if_false] at hpres ⊢
    cases mid with
    | nil =>
      obtain ⟨f1, f2⟩ := tag_iteration_pair_fresh B last
        { s with tx_done := 1, rx_done := 1, new_frame_length := sizeof_twr_base_frame_t + 2 }
        frame ts hB (Or.inl rfl) rfl rfl hs hnt_last hcode hseq hp_last
      refine ⟨?_, f1, f2⟩
      intro r hr
      rcases List.mem_append.mp hr with h | h
      · exact hQs r (p2 r h)
      · simp only [tag_iterations, List.map_nil, List.nil_append, tag_trace, tag_step,
          List.mem_cons, List.mem_singleton, List.mem_nil_iff, or_false] at h
        rcases h with rfl | rfl
        · exact ⟨hs, no_frame_transmitted_nil⟩
        · exact ⟨hs, no_frame_transmitted_nil⟩
    | cons e es =>
      have hnt_e := hnt_mid e (List.mem_cons_self _ _)
      have hp_e : presents_frame frame ts e :=
        hpres e (List.mem_append_left _ (List.mem_cons_self _ _))
      obtain ⟨g1, g2⟩ := tag_iteration_accept_only B e
        { s with rx_done := 1, new_frame_length := sizeof_twr_base_frame_t + 2 } frame ts
        hB htx rfl rfl hs hnt_e hcode hseq hp_e
      obtain ⟨q1, q2⟩ := tag_iterations_idle B
        { s with
            rx_done := 2
            new_frame_length := sizeof_twr_base_frame_t + 2
            rx_buffer := dwt_readrxdata s.rx_buffer frame (sizeof_twr_base_frame_t + 2)
            rx_timestamp_poll := decode_40bit_timestamp ts
            next_sequence_number := to_uint8 (s.next_sequence_number.val + 1) }
        hs (by show s.tx_done ≠ 1; rw [htx]; decide) (by show (2 : Nat) ≠ 1; decide)
        (by rintro ⟨h, -⟩; exact absurd (htx ▸ h : (0 : Nat) = 2) (by decide)) es
        (fun env h => hnt_mid env (List.mem_cons_of_mem _ h))
      obtain ⟨f1, f2⟩ := tag_iteration_pair_accepted B last
        { s with
            tx_done := 1
            rx_done := 2
            new_frame_length := sizeof_twr_base_frame_t + 2
            rx_buffer := dwt_readrxdata s.rx_buffer frame (sizeof_twr_base_frame_t + 2)
            rx_timestamp_poll := decode_40bit_timestamp ts
            next_sequence_number := to_uint8 (s.next_sequence_number.val + 1) }
        rfl rfl hs hnt_last
      have hafter : tag_after B s (TagStep.rx_ok (sizeof_twr_base_frame_t + 2)
            :: (tag_iterations (e :: es) ++ [TagStep.tx_done]))
          = { s with
                tx_done := 1
                rx_done := 2
                new_frame_length := sizeof_twr_base_frame_t + 2
                rx_buffer := dwt_readrxdata s.rx_buffer frame (sizeof_twr_base_frame_t + 2)
                rx_timestamp_poll := decode_40bit_timestamp ts
                next_sequence_number := to_uint8 (s.next_sequence_number.val + 1) } := by
        show tag_after B (tag_iteration B e
            { s with rx_done := 1, new_frame_length := sizeof_twr_base_frame_t + 2 }).1
          (tag_iterations es ++ [TagStep.tx_done]) = _
        rw [g1, tag_after_append, q1]
        rfl
      rw [hafter]
      refine ⟨?_, ?_, ?_⟩
      · intro r hr
        rcases List.mem_append.mp hr with h | h
        · exact hQs r (p2 r h)
        · have h' : r ∈ (tag_step B s (TagStep.rx_ok (sizeof_twr_base_frame_t + 2)))
              :: (tag_iteration B e
                  { s with rx_done := 1, new_frame_length := sizeof_twr_base_frame_t + 2 })
              :: tag_trace B (tag_iteration B e
                  { s with rx_done := 1, new_frame_length := sizeof_twr_base_frame_t + 2 }).1
                  (tag_iterations es ++ [TagStep.tx_done]) := h
          rw [g1, tag_trace_append, q1] at h'
          rcases List.mem_cons.mp h' with rfl | h'
          · exact ⟨hs, no_frame_transmitted_nil⟩
          · rcases List.mem_cons.mp h' with rfl | h'
            · exact ⟨by rw [g1]; exact hs, g2⟩
            · rcases List.mem_append.mp h' with h' | h'
              · rw [q2 r h']
                exact ⟨hs, no_frame_transmitted_nil⟩
              · simp only [tag_trace, tag_step, List.mem_singleton] at h'
                subst h'
                exact ⟨hs, no_frame_transmitted_nil⟩
      · rw [f1]
        simp [tag_paired_state, to_uint8_add, Nat.add_assoc]
      · rw [f2]
        simp [paired_transmissions]

/-- The value handed to the radio is the top 32 bits of the 40-bit sum. -/
theorem delayed_time_top_bits (r d : Nat) (h : r + d < 2 ^ 64) :
    (shr_u64 (add_u64 r d) 8) % 2 ^ 32 = ((r + d) % 2 ^ 40) / 256 := by
  unfold shr_u64 add_u64
  rw [Nat.shiftRight_eq_div_pow]
  omega

theorem twr_tag_round_tx_delay : twr_tag.round_tx_delay = 638980000 := by decide

theorem twr_pdoa_tag_round_tx_delay : twr_pdoa_tag.round_tx_delay = 6389800000 := by decide

theorem anchor_round_tx_delay_value : anchor_round_tx_delay = 638980000 := by decide

theorem tag_poll_pair_delayed_time (B : TagBuild) (env : TagEnv) (s : TagState)
    (h1 : s.tx_done = 2) (h2 : s.rx_done = 2) :
    Event.starttx
        ({ s.response_frame with sequence_number := s.next_sequence_number }).bytes
        (sizeof_twr_base_frame_t + 2) (some (tag_response_tx_time B s.rx_timestamp_poll))
        env.starttx_ok
      ∈ (tag_poll_pair B env s).2 := by
  unfold tag_poll_pair
  by_cases hk : env.starttx_ok = true <;> simp [h1, h2, hk]

theorem anchor_poll_pair_delayed_time (env : AnchorEnv) (s : AnchorState)
    (h1 : s.tx_done = 2) (h2 : s.new_frame = 2) :
    ∃ data, AnchorEvent.starttx data (sizeof_twr_final_frame_t + 2)
        (some (anchor_final_tx_time
          (anchor_final_times s.tx_timestamp_poll s.rx_timestamp_response).tx_timestamp_final))
        env.starttx_ok
      ∈ (anchor_poll_pair env s).2 := by
  unfold anchor_poll_pair
  by_cases hk : env.starttx_ok = true <;> simp [h1, h2, hk]

theorem byte_add_two (x : Byte) :
    to_uint8 (x.val + 2) ≠ x ∧ (x < to_uint8 (x.val + 2) ↔ x.val ≤ 253) := by
  have hx := x.isLt
  constructor
  · intro h
    have h' := congrArg Fin.val h
    simp only [to_uint8] at h'
    omega
  · rw [Fin.lt_def]
    simp only [to_uint8]
    omega

theorem spec_frame_valid_frame_control (len : Nat) (code : Byte) (env : TagEnv) (s : TagState)
    (c0 c1 : Byte) :
    spec_frame_valid len code
        { env with rx_frame := with_frame_control env.rx_frame c0 c1 } s
      ↔ spec_frame_valid len code env s := by
  unfold spec_frame_valid rx_twr_function_code rx_sequence_number with_frame_control
  simp

theorem spec_anchor_sync_valid_frame_control (env : AnchorEnv) (s : AnchorState)
    (c0 c1 : Byte) :
    spec_anchor_sync_valid { env with rx_frame := with_frame_control env.rx_frame c0 c1 } s
      ↔ spec_anchor_sync_valid env s := by
  unfold spec_anchor_sync_valid rx_twr_function_code with_frame_control
  simp

theorem spec_anchor_response_valid_frame_control (env : AnchorEnv) (s : AnchorState)
    (c0 c1 : Byte) :
    spec_anchor_response_valid { env with rx_frame := with_frame_control env.rx_frame c0 c1 } s
      ↔ spec_anchor_response_valid env s := by
  unfold spec_anchor_response_valid rx_twr_function_code rx_sequence_number with_frame_control
  simp

/-- The iteration that sends the sync frame. -/
theorem tag_sync_iteration_log (B : TagBuild) (env : TagEnv) (s : TagState)
    (hs : s.state = .TWR_SYNC_STATE)
    (hp : (tag_iteration B env s).1.state = .TWR_POLL_RESPONSE_STATE) :
    (tag_iteration B env s).2.filterMap (tag_observe env) = [.sent .sync s.next_sequence_number]
      ∧ (tag_iteration B env s).1.next_sequence_number
          = to_uint8 (s.next_sequence_number.val + 1) := by
  revert hp
  unfold tag_iteration tag_timeout_check
  by_cases ht : sub_u32 env.tick_check s.last_sync_time > B.ranging_timeout <;>
  by_cases hk : env.starttx_ok = true <;>
  simp [ht, hk, hs, tag_branch, tag_sync, tag_observe, tx_sequence_number,
    twr_base_frame_t.bytes]

/-- The iteration in which the round timeout fires. -/
theorem tag_timeout_iteration_log (B : TagBuild) (env : TagEnv) (s : TagState)
    (hT : sub_u32 env.tick_check s.last_sync_time > B.ranging_timeout) :
    (tag_iteration B env s).2.filterMap (tag_observe env)
        = (if env.starttx_ok then [.sent .sync s.next_sequence_number] else [])
      ∧ (tag_iteration B env s).1.next_sequence_number
          = to_uint8 (s.next_sequence_number.val + 1)
      ∧ Event.forcetrxoff ∈ (tag_iteration B env s).2
      ∧ Event.starttx
            ({ s.sync_frame with sequence_number := s.next_sequence_number }).bytes
            (sizeof_twr_base_frame_t + 2) none env.starttx_ok
          ∈ (tag_iteration B env s).2 := by
  rw [tag_iteration_timeout B env s hT]
  unfold tag_sync spec_timeout_reset
  by_cases hk : env.starttx_ok = true <;>
  simp [hk, tag_observe, tx_sequence_number, twr_base_frame_t.bytes]

theorem tag_round_step_poll_error (B : TagBuild) (env : TagEnv) (s : TagState)
    (hst : s.state = .TWR_POLL_RESPONSE_STATE)
    (he : (tag_poll_response B env s).1.state = .TWR_ERROR) :
    (tag_poll_response B env s).2.filterMap (tag_observe env) <+: (tag_round_remaining s).1 := by
  have h9 : (9 : Nat) < sizeof_twr_base_frame_t + 2 := by decide
  have h2' : (2 : Nat) < sizeof_twr_base_frame_t + 2 := by decide
  revert he
  unfold tag_poll_response tag_poll_tx tag_poll_rx tag_rx_block tag_poll_pair
    tag_round_remaining
  by_cases h1 : s.tx_done = 1 <;> by_cases h2 : s.rx_done = 1
  · by_cases hl : s.new_frame_length = sizeof_twr_base_frame_t + 2 <;>
    by_cases hq : env.sts_quality < 0 <;>
    by_cases hc : env.rx_frame 9 = 0x21 <;>
    by_cases hs : env.rx_frame 2 = s.next_sequence_number <;>
    by_cases hk : env.starttx_ok = true <;>
    by_cases hB : B.telemetry = true <;>
    simp [h1, h2, hl, hq, hc, hs, hk, hB, hst, rx_twr_function_code, rx_sequence_number,
      dwt_readrxdata, h9, h2', tag_observe, tx_sequence_number, twr_base_frame_t.bytes,
      to_uint8_add, Nat.add_assoc]
  · by_cases h3 : s.rx_done = 2 <;>
    by_cases hk : env.starttx_ok = true <;>
    simp [h1, h2, h3, hk, hst, tag_observe, tx_sequence_number, twr_base_frame_t.bytes,
      to_uint8_add, Nat.add_assoc]
  · by_cases h4 : s.tx_done = 2 <;>
    by_cases hl : s.new_frame_length = sizeof_twr_base_frame_t + 2 <;>
    by_cases hq : env.sts_quality < 0 <;>
    by_cases hc : env.rx_frame 9 = 0x21 <;>
    by_cases hs : env.rx_frame 2 = s.next_sequence_number <;>
    by_cases hk : env.starttx_ok = true <;>
    by_cases hB : B.telemetry = true <;>
    simp [h1, h2, h4, hl, hq, hc, hs, hk, hB, hst, rx_twr_function_code, rx_sequence_number,
      dwt_readrxdata, h9, h2', tag_observe, tx_sequence_number, twr_base_frame_t.bytes,
      to_uint8_add, Nat.add_assoc]
  · by_cases h3 : s.rx_done = 2 <;>
    by_cases h4 : s.tx_done = 2 <;>
    by_cases hk : env.starttx_ok = true <;>
    simp [h1, h2, h3, h4, hk, hst, tag_observe, tx_sequence_number, twr_base_frame_t.bytes,
      to_uint8_add, Nat.add_assoc]

theorem tag_round_step_final_error (B : TagBuild) (env : TagEnv) (s : TagState)
    (hst : s.state = .TWR_FINAL_STATE)
    (he : (tag_final B env s).1.state = .TWR_ERROR) :
    (tag_final B env s).2.filterMap (tag_observe env) <+: (tag_round_remaining s).1 := by
  have h9 : (9 : Nat) < sizeof_twr_final_frame_t + 2 := by decide
  have h2' : (2 : Nat) < sizeof_twr_final_frame_t + 2 := by decide
  revert he
  unfold tag_final tag_final_tx tag_final_rx tag_rx_block tag_final_pair
    tag_round_remaining
  by_cases h1 : s.tx_done = 1 <;> by_cases h2 : s.rx_done = 1
  · by_cases hl : s.new_frame_length = sizeof_twr_final_frame_t + 2 <;>
    by_cases hq : env.sts_quality < 0 <;>
    by_cases hc : env.rx_frame 9 = 0x23 <;>
    by_cases hs : env.rx_frame 2 = s.next_sequence_number <;>
    by_cases hB : B.telemetry = true <;>
    simp [h1, h2, hl, hq, hc, hs, hB, hst, rx_twr_function_code, rx_sequence_number,
      dwt_readrxdata, h9, h2', tag_observe, to_uint8_add, Nat.add_assoc]
  · by_cases h3 : s.rx_done = 2 <;>
    by_cases hB : B.telemetry = true <;>
    simp [h1, h2, h3, hB, hst, tag_observe, to_uint8_add, Nat.add_assoc]
  · by_cases h4 : s.tx_done = 2 <;>
    by_cases hl : s.new_frame_length = sizeof_twr_final_frame_t + 2 <;>
    by_cases hq : env.sts_quality < 0 <;>
    by_cases hc : env.rx_frame 9 = 0x23 <;>
    by_cases hs : env.rx_frame 2 = s.next_sequence_number <;>
    by_cases hB : B.telemetry = true <;>
    simp [h1, h2, h4, hl, hq, hc, hs, hB, hst, rx_twr_function_code, rx_sequence_number,
      dwt_readrxdata, h9, h2', tag_observe, to_uint8_add, Nat.add_assoc]
  · by_cases h3 : s.rx_done = 2 <;>
    by_cases h4 : s.tx_done = 2 <;>
    by_cases hB : B.telemetry = true <;>
    simp [h1, h2, h3, h4, hB, hst, tag_observe, to_uint8_add, Nat.add_assoc]

theorem tag_round_run_nil_of_left (B : TagBuild) (s : TagState) (steps : List TagStep)
    (h : tag_round_run B s steps)
    (hs : s.state = .TWR_SYNC_STATE ∨ s.state = .TWR_ERROR) : steps = [] := by
  cases steps with
  | nil => rfl
  | cons st rest =>
    obtain ⟨h1, -⟩ := h
    rcases hs with hs | hs <;> rcases h1 with h1 | h1 <;> rw [hs] at h1 <;> cases h1

/-- Inside a round of the tag, completed or not, the observations are an initial part of those
the state determines. -/
theorem tag_round_run_log (B : TagBuild) (hB : B.telemetry = false) :
    ∀ (steps : List TagStep) (s : TagState), tag_round_run B s steps →
      tag_log B s steps <+: (tag_round_remaining s).1 := by
  intro steps
  induction steps with
  | nil => intro s _; exact List.nil_prefix
  | cons st rest ih =>
    intro s h
    obtain ⟨hs, hadm, hrest⟩ := h
    show tag_step_log B s st ++ tag_log B (tag_step B s st).1 rest <+: _
    have key : ∀ s' : TagState, tag_round_remaining s' = tag_round_remaining s →
        s'.state = s.state → tag_round_run B s' rest →
        tag_log B s' rest <+: (tag_round_remaining s).1 := by
      intro s' hr _ hrun
      rw [← hr]
      exact ih s' hrun
    cases st with
    | iteration env =>
      have hit : tag_iteration B env s = tag_branch B env s :=
        tag_iteration_no_timeout B env s hadm
      simp only [tag_step, tag_step_log, hit] at hrest ⊢
      rcases hs with hs | hs
      · rw [tag_branch_poll B env s hs] at hrest ⊢
        by_cases he : (tag_poll_response B env s).1.state = .TWR_ERROR
        · rw [tag_round_run_nil_of_left B _ rest hrest (Or.inr he)]
          simp only [tag_log, List.append_nil]
          exact tag_round_step_poll_error B env s hs he
        · obtain ⟨-, h2, -⟩ := tag_round_step_poll B env s hB hs he
          rw [← h2]
          exact (List.prefix_append_right_inj _).mpr (ih _ hrest)
      · rw [tag_branch_final B env s hs] at hrest ⊢
        by_cases he : (tag_final B env s).1.state = .TWR_ERROR
        · rw [tag_round_run_nil_of_left B _ rest hrest (Or.inr he)]
          simp only [tag_log, List.append_nil]
          exact tag_round_step_final_error B env s hs he
        · rcases tag_round_step_final B env s hB hs he with ⟨h1, h2, -⟩ | ⟨-, h2, -⟩
          · rw [tag_round_run_nil_of_left B _ rest hrest (Or.inl h1)]
            simp only [tag_log, List.append_nil]
            rw [h2]
          · rw [← h2]
            exact (List.prefix_append_right_inj _).mpr (ih _ hrest)
    | tx_done => exact key (tag_step B s .tx_done).1 rfl rfl hrest
    | rx_ok n =>
      have hrem : tag_round_remaining (tag_step B s (.rx_ok n)).1 = tag_round_remaining s := by
        have hadm' : s.rx_done ≠ 2 := hadm
        unfold tag_round_remaining
        simp only [tag_step, rx_ok_cb, hadm', if_false]
        rcases hs with hs | hs <;> simp [hs]
      exact key (tag_step B s (.rx_ok n)).1 hrem rfl hrest

/-- The observations of a round of the tag, completed or not, are an initial part of the four
of a successful round. -/
theorem tag_round_log_prefix (B : TagBuild) (s : TagState) (steps : List TagStep)
    (hB : B.telemetry = false) (h : tag_round B s steps) :
    tag_log B s steps
      <+: [.sent .sync s.next_sequence_number,
           .accepted .poll (to_uint8 (s.next_sequence_number.val + 1)),
           .sent .response (to_uint8 (s.next_sequence_number.val + 2)),
           .accepted .final (to_uint8 (s.next_sequence_number.val + 3))] := by
  cases steps with
  | nil => exact absurd h (by simp [tag_round])
  | cons st rest =>
    cases st with
    | iteration env =>
      obtain ⟨hs, hrx, hrest⟩ := h
      show (tag_iteration B env s).2.filterMap (tag_observe env)
        ++ tag_log B (tag_iteration B env s).1 rest <+: _
      by_cases hp : (tag_iteration B env s).1.state = .TWR_POLL_RESPONSE_STATE
      · obtain ⟨f1, f2⟩ := tag_round_first B env s hs hrx hp
        have i1 := tag_round_run_log B hB rest _ hrest
        rw [f2] at i1
        rw [f1]
        exact (List.prefix_append_right_inj _).mpr i1
      · have he : (tag_iteration B env s).1.state = .TWR_ERROR
            ∧ (tag_iteration B env s).2.filterMap (tag_observe env) = [] := by
          revert hp
          unfold tag_iteration tag_timeout_check
          by_cases ht : sub_u32 env.tick_check s.last_sync_time > B.ranging_timeout <;>
          by_cases hk : env.starttx_ok = true <;>
          simp [ht, hk, hs, tag_branch, tag_sync, tag_observe]
        rw [tag_round_run_nil_of_left B _ rest hrest (Or.inr he.1), he.2]
        exact List.nil_prefix
    | tx_done => exact absurd h (by simp [tag_round])
    | rx_ok n => exact absurd h (by simp [tag_round])

theorem anchor_round_step_poll_error (env : AnchorEnv) (s : AnchorState)
    (hst : s.state = .TWR_POLL_RESPONSE_STATE)
    (he : (anchor_poll_response env s).1.state = .TWR_ERROR) :
    (anchor_poll_response env s).2.filterMap (anchor_observe env)
      <+: (anchor_round_remaining s).1 := by
  have h9 : (9 : Nat) < sizeof_twr_base_frame_t + 2 := by decide
  have h2' : (2 : Nat) < sizeof_twr_base_frame_t + 2 := by decide
  revert he
  unfold anchor_poll_response anchor_poll_tx anchor_response_rx anchor_poll_pair
    anchor_round_remaining
  by_cases h1 : s.tx_done = 1 <;> by_cases h2 : s.new_frame = 1
  · by_cases hl : s.new_frame_length = sizeof_twr_base_frame_t + 2 <;>
    by_cases hq : env.sts_quality < 0 <;>
    by_cases hc : env.rx_frame 9 = 0x10 <;>
    by_cases hs : env.rx_frame 2 = s.next_sequence_number <;>
    by_cases hk : env.starttx_ok = true <;>
    simp [h1, h2, hl, hq, hc, hs, hk, hst, rx_twr_function_code, rx_sequence_number,
      dwt_readrxdata, h9, h2', anchor_observe, tx_sequence_number, twr_base_frame_t.bytes,
      twr_final_frame_t.bytes, to_uint8_add, Nat.add_assoc]
  · by_cases h3 : s.new_frame = 2 <;>
    by_cases hk : env.starttx_ok = true <;>
    simp [h1, h2, h3, hk, hst, anchor_observe, tx_sequence_number, twr_base_frame_t.bytes,
      twr_final_frame_t.bytes, to_uint8_add, Nat.add_assoc]
  · by_cases h4 : s.tx_done = 2 <;>
    by_cases hl : s.new_frame_length = sizeof_twr_base_frame_t + 2 <;>
    by_cases hq : env.sts_quality < 0 <;>
    by_cases hc : env.rx_frame 9 = 0x10 <;>
    by_cases hs : env.rx_frame 2 = s.next_sequence_number <;>
    by_cases hk : env.starttx_ok = true <;>
    simp [h1, h2, h4, hl, hq, hc, hs, hk, hst, rx_twr_function_code, rx_sequence_number,
      dwt_readrxdata, h9, h2', anchor_observe, tx_sequence_number, twr_base_frame_t.bytes,
      twr_final_frame_t.bytes, to_uint8_add, Nat.add_assoc]
  · by_cases h3 : s.new_frame = 2 <;>
    by_cases h4 : s.tx_done = 2 <;>
    by_cases hk : env.starttx_ok = true <;>
    simp [h1, h2, h3, h4, hk, hst, anchor_observe, tx_sequence_number,
      twr_base_frame_t.bytes, twr_final_frame_t.bytes, to_uint8_add, Nat.add_assoc]

theorem anchor_round_run_nil_of_left (s : AnchorState) (steps : List AnchorStep)
    (h : anchor_round_run s steps)
    (hs : s.state = .TWR_SYNC_STATE ∨ s.state = .TWR_ERROR) : steps = [] := by
  cases steps with
  | nil => rfl
  | cons st rest =>
    obtain ⟨h1, -⟩ := h
    rcases hs with hs | hs <;> rcases h1 with h1 | h1 <;> rw [hs] at h1 <;> cases h1

/-- Inside a round of the anchor, completed or not, the observations are an initial part of
those the state determines. -/
theorem anchor_round_run_log :
    ∀ (steps : List AnchorStep) (s : AnchorState), anchor_round_run s steps →
      anchor_log s steps <+: (anchor_round_remaining s).1 := by
  intro steps
  induction steps with
  | nil => intro s _; exact List.nil_prefix
  | cons st rest ih =>
    intro s h
    obtain ⟨hs, hadm, hrest⟩ := h
    show anchor_step_log s st ++ anchor_log (anchor_step s st).1 rest <+: _
    have key : ∀ s' : AnchorState, anchor_round_remaining s' = anchor_round_remaining s →
        anchor_round_run s' rest → anchor_log s' rest <+: (anchor_round_remaining s).1 := by
      intro s' hr hrun
      rw [← hr]
      exact ih s' hrun
    cases st with
    | iteration env =>
      simp only [anchor_step, anchor_step_log] at hrest ⊢
      rcases hs with hs | hs
      · rw [anchor_iteration_poll env s hs] at hrest ⊢
        by_cases he : (anchor_poll_response env s).1.state = .TWR_ERROR
        · rw [anchor_round_run_nil_of_left _ rest hrest (Or.inr he)]
          simp only [anchor_log, List.append_nil]
          exact anchor_round_step_poll_error env s hs he
        · obtain ⟨-, h2, -⟩ := anchor_round_step_poll env s hs he
          rw [← h2]
          exact (List.prefix_append_right_inj _).mpr (ih _ hrest)
      · rw [anchor_iteration_final env s hs]
        obtain ⟨-, h23⟩ := anchor_round_step_final s hs
        rw [(h23 env).1]
        have hrem : (anchor_round_remaining s).1 = [] := by
          unfold anchor_round_remaining
          simp [hs]
        rw [List.nil_append]
        rw [anchor_iteration_final env s hs] at hrest
        have hfin : (anchor_final s).1.state = .TWR_SYNC_STATE
            ∨ anchor_round_remaining (anchor_final s).1 = anchor_round_remaining s := by
          unfold anchor_final
          by_cases h1 : s.tx_done = 1
          · left
            simp [h1]
          · right
            simp [h1]
        rcases hfin with hf | hf
        · rw [anchor_round_run_nil_of_left _ rest hrest (Or.inl hf)]
          exact List.nil_prefix
        · exact key _ hf hrest
    | tx_done => exact key (anchor_step s .tx_done).1 rfl hrest
    | rx_ok n =>
      have hrem : anchor_round_remaining (anchor_step s (.rx_ok n)).1
          = anchor_round_remaining s := by
        have hadm' : s.new_frame ≠ 2 := hadm
        unfold anchor_round_remaining
        simp only [anchor_step, anchor_rx_ok_cb, hadm', if_false]
        rcases hs with hs | hs <;> simp [hs]
      exact key (anchor_step s (.rx_ok n)).1 hrem hrest

/-- The observations of a round of the anchor, completed or not, are an initial part of the
four of a successful round. -/
theorem anchor_round_log_prefix (s : AnchorState) (env : AnchorEnv) (rest : List AnchorStep)
    (h : anchor_round s (.iteration env :: rest)) :
    anchor_log s (.iteration env :: rest)
      <+: [.accepted .sync (rx_sequence_number env.rx_frame),
           .sent .poll (to_uint8 ((rx_sequence_number env.rx_frame).val + 1)),
           .accepted .response (to_uint8 ((rx_sequence_number env.rx_frame).val + 2)),
           .sent .final (to_uint8 ((rx_sequence_number env.rx_frame).val + 3))] := by
  obtain ⟨hs, hnf, hv, hrest⟩ := h
  show (anchor_iteration env s).2.filterMap (anchor_observe env)
    ++ anchor_log (anchor_iteration env s).1 rest <+: _
  by_cases hp : (anchor_iteration env s).1.state = .TWR_POLL_RESPONSE_STATE
  · obtain ⟨f1, f2⟩ := anchor_round_first env s hs hp
    have i1 := anchor_round_run_log rest _ hrest
    rw [f2] at i1
    rw [f1]
    exact (List.prefix_append_right_inj _).mpr i1
  · have h9 : (9 : Nat) < sizeof_twr_base_frame_t + 2 := by decide
    have h2' : (2 : Nat) < sizeof_twr_base_frame_t + 2 := by decide
    obtain ⟨hl, hq, hc⟩ := hv
    unfold rx_twr_function_code at hc
    have he : (anchor_iteration env s).1.state = .TWR_ERROR
        ∧ (anchor_iteration env s).2.filterMap (anchor_observe env)
          = [.accepted .sync (rx_sequence_number env.rx_frame)] := by
      revert hp
      rw [anchor_iteration_sync env s hs]
      unfold anchor_sync
      by_cases hk : env.starttx_ok = true <;>
      simp [hnf, hl, not_lt.mpr hq, hc, hk, rx_twr_function_code, rx_sequence_number,
        dwt_readrxdata, h9, h2', anchor_observe]
    rw [anchor_round_run_nil_of_left _ rest hrest (Or.inr he.1), he.2]
    simp [anchor_log]

theorem tag_iteration_keeps_no_pending (B : TagBuild) (env : TagEnv) (s : TagState)
    (h : s.state = .TWR_SYNC_STATE ∨ s.state = .TWR_ERROR → s.rx_done ≠ 2) :
    (tag_iteration B env s).1.state = .TWR_SYNC_STATE
        ∨ (tag_iteration B env s).1.state = .TWR_ERROR →
      (tag_iteration B env s).1.rx_done ≠ 2 := by
  have h9 : (9 : Nat) < sizeof_twr_base_frame_t + 2 := by decide
  have h2' : (2 : Nat) < sizeof_twr_base_frame_t + 2 := by decide
  have g9 : (9 : Nat) < sizeof_twr_final_frame_t + 2 := by decide
  have g2' : (2 : Nat) < sizeof_twr_final_frame_t + 2 := by decide
  by_cases ht : sub_u32 env.tick_check s.last_sync_time > B.ranging_timeout
  · rw [tag_iteration_timeout B env s ht]
    unfold tag_sync spec_timeout_reset
    by_cases hk : env.starttx_ok = true <;> simp [hk]
  · rw [tag_iteration_no_timeout B env s (not_lt.mp ht)]
    revert h
    unfold tag_branch
    cases hs : s.state
    · simp only []
      unfold tag_sync
      by_cases hk : env.starttx_ok = true <;> simp [hk]
    · simp only []
      unfold tag_poll_response tag_poll_tx tag_poll_rx tag_rx_block tag_poll_pair
      by_cases h1 : s.tx_done = 1 <;> by_cases h2 : s.rx_done = 1
      · by_cases hl : s.new_frame_length = sizeof_twr_base_frame_t + 2 <;>
        by_cases hq : env.sts_quality < 0 <;>
        by_cases hc : env.rx_frame 9 = 0x21 <;>
        by_cases hsq : env.rx_frame 2 = s.next_sequence_number <;>
        by_cases hk : env.starttx_ok = true <;>
        by_cases hB : B.telemetry = true <;>
        simp [h1, h2, hl, hq, hc, hsq, hk, hB, hs, rx_twr_function_code, rx_sequence_number,
          dwt_readrxdata, h9, h2']
      · by_cases h3 : s.rx_done = 2 <;>
        by_cases hk : env.starttx_ok = true <;>
        simp [h1, h2, h3, hk, hs]
      · by_cases h4 : s.tx_done = 2 <;>
        by_cases hl : s.new_frame_length = sizeof_twr_base_frame_t + 2 <;>
        by_cases hq : env.sts_quality < 0 <;>
        by_cases hc : env.rx_frame 9 = 0x21 <;>
        by_cases hsq : env.rx_frame 2 = s.next_sequence_number <;>
        by_cases hk : env.starttx_ok = true <;>
        by_cases hB : B.telemetry = true <;>
        simp [h1, h2, h4, hl, hq, hc, hsq, hk, hB, hs, rx_twr_function_code, rx_sequence_number,
          dwt_readrxdata, h9, h2']
      · by_cases h3 : s.rx_done = 2 <;>
        by_cases h4 : s.tx_done = 2 <;>
        by_cases hk : env.starttx_ok = true <;>
        simp [h1, h2, h3, h4, hk, hs]
    · simp only []
      unfold tag_final tag_final_tx tag_final_rx tag_rx_block tag_final_pair
      by_cases h1 : s.tx_done = 1 <;> by_cases h2 : s.rx_done = 1
      · by_cases hl : s.new_frame_length = sizeof_twr_final_frame_t + 2 <;>
        by_cases hq : env.sts_quality < 0 <;>
        by_cases hc : env.rx_frame 9 = 0x23 <;>
        by_cases hsq : env.rx_frame 2 = s.next_sequence_number <;>
        by_cases hB : B.telemetry = true <;>
        simp [h1, h2, hl, hq, hc, hsq, hB, hs, rx_twr_function_code, rx_sequence_number,
          dwt_readrxdata, g9, g2']
      · by_cases h3 : s.rx_done = 2 <;>
        by_cases hB : B.telemetry = true <;>
        simp [h1, h2, h3, hB, hs]
      · by_cases h4 : s.tx_done = 2 <;>
        by_cases hl : s.new_frame_length = sizeof_twr_final_frame_t + 2 <;>
        by_cases hq : env.sts_quality < 0 <;>
        by_cases hc : env.rx_frame 9 = 0x23 <;>
        by_cases hsq : env.rx_frame 2 = s.next_sequence_number <;>
        by_cases hB : B.telemetry = true <;>
        simp [h1, h2, h4, hl, hq, hc, hsq, hB, hs, rx_twr_function_code, rx_sequence_number,
          dwt_readrxdata, g9, g2']
      · by_cases h3 : s.rx_done = 2 <;>
        by_cases h4 : s.tx_done = 2 <;>
        by_cases hB : B.telemetry = true <;>
        simp [h1, h2, h3, h4, hB, hs]
    · simp only []
      unfold tag_error
      simp

/-- In every run from the initial state in which the receive interrupt does not arrive while an
accepted frame awaits its pairing, the tag is never in the Sync or the Error state with the
receive flag at level 2: every round starts with no accepted frame pending. -/
theorem tag_sync_entry_no_pending (B : TagBuild) :
    ∀ (steps : List TagStep) (s : TagState),
      (s.state = .TWR_SYNC_STATE ∨ s.state = .TWR_ERROR → s.rx_done ≠ 2) →
      tag_run_admissible B s steps →
      ((tag_after B s steps).state = .TWR_SYNC_STATE
          ∨ (tag_after B s steps).state = .TWR_ERROR →
        (tag_after B s steps).rx_done ≠ 2) := by
  intro steps
  induction steps with
  | nil => intro s h _; exact h
  | cons st rest ih =>
    intro s h hadm
    obtain ⟨h1, h2⟩ := hadm
    rw [tag_after_cons]
    apply ih _ _ h2
    cases st with
    | iteration env => exact tag_iteration_keeps_no_pending B env s h
    | tx_done => exact h
    | rx_ok n =>
      intro _
      show (1 : Nat) ≠ 2
      decide

theorem tag_initial_state_no_pending (B : TagBuild) (tick : Nat) (steps : List TagStep)
    (h : tag_run_admissible B (tag_initial_state tick) steps) :
    (tag_after B (tag_initial_state tick) steps).state = .TWR_SYNC_STATE →
      (tag_after B (tag_initial_state tick) steps).rx_done ≠ 2 := by
  intro hs
  exact tag_sync_entry_no_pending B steps (tag_initial_state tick)
    (fun _ => by show (0 : Nat) ≠ 2; decide) h (Or.inl hs)

/-! ## Auxiliary lemmas: reply delay, tick counter, wire layout, telemetry, rotator -/

theorem scheduled_interval_bounds (r d : Nat) (hr : r < 2 ^ 40)
    (h1 : 256 ≤ d) (h2 : d < 2 ^ 40) :
    spec_scheduled_interval ((shr_u64 (add_u64 r d) 8) % 2 ^ 32) r ≤ d
      ∧ d < spec_scheduled_interval ((shr_u64 (add_u64 r d) 8) % 2 ^ 32) r + 256 := by
  unfold spec_scheduled_interval spec_diff_mod_40
  rw [delayed_time_top_bits r d (by omega)]
  omega

theorem sub_u32_wrapped (now last : Nat) (h1 : now < last) (h2 : last < 2 ^ 32) :
    sub_u32 now last = now + 2 ^ 32 - last := by
  unfold sub_u32
  omega

theorem sub_u32_elapsed (now last elapsed : Nat)
    (h : now = (last + elapsed) % 2 ^ 32) : sub_u32 now last = elapsed % 2 ^ 32 := by
  unfold sub_u32
  omega

theorem anchor_reply_time_constant (p r : Nat) :
    (anchor_final_times p r).Treply2 = 638980000
      ∧ (anchor_final_times p r).tx_timestamp_final = (r + 638980000) % 2 ^ 64 := by
  unfold anchor_final_times
  simp only [anchor_round_tx_delay_value]
  unfold sub_u64 add_u64
  omega

theorem range_of_flight_time (a b t : Nat)
    (hmul : (a + 2 * t) * (b + 2 * t) < 2 ^ 64)
    (hden : (a + 2 * t) + (b + 2 * t) + a + b < 2 ^ 64) :
    range_subtraction a b (a + 2 * t) (b + 2 * t)
        = t * ((a + 2 * t) + (b + 2 * t) + a + b)
      ∧ range_denominator a b (a + 2 * t) (b + 2 * t) = (a + 2 * t) + (b + 2 * t) + a + b := by
  have hab : a * b ≤ (a + 2 * t) * (b + 2 * t) :=
    Nat.mul_le_mul (Nat.le_add_right _ _) (Nat.le_add_right _ _)
  have e : (a + 2 * t) * (b + 2 * t) = a * b + t * ((a + 2 * t) + (b + 2 * t) + a + b) := by
    ring
  constructor
  · unfold range_subtraction sub_u64 mul_u64
    generalize (a + 2 * t) * (b + 2 * t) = P at *
    generalize a * b = Q at *
    generalize t * ((a + 2 * t) + (b + 2 * t) + a + b) = R at *
    omega
  · unfold range_denominator add_u64
    omega

theorem anchor_poll_pair_reply_field (env : AnchorEnv) (s : AnchorState)
    (h1 : s.tx_done = 2) (h2 : s.new_frame = 2) :
    (anchor_poll_pair env s).1.final_frame.resp_final_reply_time
        = embed_time s.final_frame.resp_final_reply_time
            (anchor_final_times s.tx_timestamp_poll s.rx_timestamp_response).Treply2
      ∧ (anchor_poll_pair env s).1.final_frame.poll_resp_round_time
        = embed_time s.final_frame.poll_resp_round_time
            (anchor_final_times s.tx_timestamp_poll s.rx_timestamp_response).Tround1
      ∧ (anchor_poll_pair env s).1.tx_timestamp_final
        = (anchor_final_times s.tx_timestamp_poll s.rx_timestamp_response).tx_timestamp_final := by
  unfold anchor_poll_pair
  by_cases hk : env.starttx_ok = true <;> simp [h1, h2, hk]

theorem anchor_poll_pair_frame_env (env env2 : AnchorEnv) (s : AnchorState) :
    (anchor_poll_pair env s).1.final_frame = (anchor_poll_pair env2 s).1.final_frame := by
  unfold anchor_poll_pair
  by_cases h : s.tx_done = 2 ∧ s.new_frame = 2
  · by_cases hk : env.starttx_ok = true <;> by_cases hk2 : env2.starttx_ok = true <;>
      simp [h, hk, hk2]
  · simp [h]

theorem embed_time_bytes (field : Fin 5 → Byte) (x : Nat) (hx : x < 2 ^ 64) :
    embed_time field x 0 = to_uint8 x
      ∧ embed_time field x 1 = to_uint8 (x / 2 ^ 8)
      ∧ embed_time field x 2 = to_uint8 (x / 2 ^ 16)
      ∧ embed_time field x 3 = to_uint8 (x / 2 ^ 32)
      ∧ embed_time field x 4 = field 4 := by
  unfold embed_time set_byte shr_u64
  simp only [Nat.shiftRight_eq_div_pow, Nat.mod_eq_of_lt hx]
  refine ⟨?_, ?_, ?_, ?_, ?_⟩ <;> simp

theorem embed_time_top (field : Fin 5 → Byte) (x : Nat) : embed_time field x 4 = field 4 := by
  unfold embed_time set_byte
  simp

theorem embed_time_ext (f g : Fin 5 → Byte) (x y : Nat) (hx : x < 2 ^ 64) (hy : y < 2 ^ 64)
    (h4 : f 4 = g 4) (hlow : x % 2 ^ 24 = y % 2 ^ 24) (hhigh : x / 2 ^ 32 = y / 2 ^ 32) :
    embed_time f x = embed_time g y := by
  obtain ⟨a0, a1, a2, a3, a4⟩ := embed_time_bytes f x hx
  obtain ⟨b0, b1, b2, b3, b4⟩ := embed_time_bytes g y hy
  have e0 : to_uint8 x = to_uint8 y := by
    apply Fin.ext
    simp only [to_uint8]
    omega
  have e1 : to_uint8 (x / 2 ^ 8) = to_uint8 (y / 2 ^ 8) := by
    apply Fin.ext
    simp only [to_uint8]
    omega
  have e2 : to_uint8 (x / 2 ^ 16) = to_uint8 (y / 2 ^ 16) := by
    apply Fin.ext
    simp only [to_uint8]
    omega
  funext i
  fin_cases i
  · exact a0.trans (e0.trans b0.symm)
  · exact a1.trans (e1.trans b1.symm)
  · exact a2.trans (e2.trans b2.symm)
  · exact a3.trans ((by rw [hhigh] : to_uint8 (x / 2 ^ 32) = to_uint8 (y / 2 ^ 32)).trans
      b3.symm)
  · exact a4.trans (h4.trans b4.symm)

theorem decode_embed_time (field : Fin 5 → Byte) (x : Nat) (hx : x < 2 ^ 64)
    (h4 : field 4 = 0) :
    decode_40bit_timestamp (embed_time field x)
      = x % 2 ^ 24 + (x / 2 ^ 32) % 256 * 2 ^ 24 := by
  obtain ⟨a0, a1, a2, a3, a4⟩ := embed_time_bytes field x hx
  rw [(decode_40bit_timestamp_eq _).1, a0, a1, a2, a3, a4, h4]
  simp only [to_uint8]
  show x % 256 + x / 2 ^ 8 % 256 * 2 ^ 8 + x / 2 ^ 16 % 256 * 2 ^ 16
      + x / 2 ^ 32 % 256 * 2 ^ 24 + 0 * 2 ^ 32 = _
  omega

theorem anchor_sync_final_frame (env : AnchorEnv) (s : AnchorState) :
    (anchor_sync env s).1.final_frame = s.final_frame := by
  unfold anchor_sync
  simp only []
  split_ifs <;> rfl

theorem anchor_poll_tx_final_frame (env : AnchorEnv) (s : AnchorState) :
    (anchor_poll_tx env s).1.final_frame = s.final_frame := by
  unfold anchor_poll_tx
  split <;> rfl

theorem anchor_response_rx_final_frame (env : AnchorEnv) (s : AnchorState) :
    (∀ t out, anchor_response_rx env s = .fall_through t out → t.final_frame = s.final_frame)
      ∧ (∀ t out, anchor_response_rx env s = .continue_loop t out →
          t.final_frame = s.final_frame) := by
  unfold anchor_response_rx
  simp only []
  split_ifs <;> constructor <;> intro t out ht <;> cases ht <;> rfl

theorem anchor_poll_pair_field_tops (env : AnchorEnv) (s : AnchorState) :
    (anchor_poll_pair env s).1.final_frame.poll_resp_round_time 4
        = s.final_frame.poll_resp_round_time 4
      ∧ (anchor_poll_pair env s).1.final_frame.resp_final_reply_time 4
        = s.final_frame.resp_final_reply_time 4 := by
  unfold anchor_poll_pair
  by_cases h : s.tx_done = 2 ∧ s.new_frame = 2 <;> by_cases hk : env.starttx_ok = true <;>
    simp [h, hk, embed_time_top]

theorem anchor_iteration_field_tops (env : AnchorEnv) (s : AnchorState) :
    (anchor_iteration env s).1.final_frame.poll_resp_round_time 4
        = s.final_frame.poll_resp_round_time 4
      ∧ (anchor_iteration env s).1.final_frame.resp_final_reply_time 4
        = s.final_frame.resp_final_reply_time 4 := by
  unfold anchor_iteration
  cases hs : s.state
  · simp only []
    rw [anchor_sync_final_frame]
    exact ⟨rfl, rfl⟩
  · simp only []
    unfold anchor_poll_response
    have htx := anchor_poll_tx_final_frame env s
    obtain ⟨hf, hc⟩ := anchor_response_rx_final_frame env (anchor_poll_tx env s).1
    cases hr : anchor_response_rx env (anchor_poll_tx env s).1 with
    | fall_through t out =>
      simp only []
      obtain ⟨p1, p2⟩ := anchor_poll_pair_field_tops env t
      rw [p1, p2, hf t out hr, htx]
      exact ⟨rfl, rfl⟩
    | continue_loop t out =>
      simp only []
      rw [hc t out hr, htx]
      exact ⟨rfl, rfl⟩
  · simp only []
    unfold anchor_final
    split <;> exact ⟨rfl, rfl⟩
  · exact ⟨rfl, rfl⟩

theorem anchor_after_field_tops (steps : List AnchorStep) (s : AnchorState) :
    (anchor_after s steps).final_frame.poll_resp_round_time 4
        = s.final_frame.poll_resp_round_time 4
      ∧ (anchor_after s steps).final_frame.resp_final_reply_time 4
        = s.final_frame.resp_final_reply_time 4 := by
  induction steps generalizing s with
  | nil => exact ⟨rfl, rfl⟩
  | cons st rest ih =>
    have e : anchor_after s (st :: rest) = anchor_after (anchor_step s st).1 rest := rfl
    rw [e]
    obtain ⟨i1, i2⟩ := ih (anchor_step s st).1
    rw [i1, i2]
    cases st with
    | iteration env => exact anchor_iteration_field_tops env s
    | tx_done => exact ⟨rfl, rfl⟩
    | rx_ok n => exact ⟨rfl, rfl⟩

theorem spec_range_exact_le (Treply1 Treply2 Tround1 Tround2 : Nat)
    (p3 : 0 < Tround1) (h : Treply1 * Treply2 ≤ Tround1 * Tround2) :
    0 ≤ spec_range_exact Treply1 Treply2 Tround1 Tround2
      ∧ spec_range_exact Treply1 Treply2 Tround1 Tround2
          ≤ ((Tround1 : ℚ) + Tround2) / 256 * (299792458 / 1000000) := by
  have hq : ((Treply1 : ℚ) * Treply2) ≤ (Tround1 : ℚ) * Tround2 := by exact_mod_cast h
  have r1 : (0 : ℚ) < Tround1 := by exact_mod_cast p3
  have r2 : (0 : ℚ) ≤ Tround2 := Nat.cast_nonneg _
  have q1 : (0 : ℚ) ≤ Treply1 := Nat.cast_nonneg _
  have q2 : (0 : ℚ) ≤ Treply2 := Nat.cast_nonneg _
  have hD : (0 : ℚ) < ((Tround1 : ℚ) + Tround2 + Treply1 + Treply2) * 64 := by positivity
  unfold spec_range_exact
  generalize (Tround1 : ℚ) = a at *
  generalize (Tround2 : ℚ) = b at *
  generalize (Treply1 : ℚ) = c at *
  generalize (Treply2 : ℚ) = d at *
  have key : (a * b - c * d) / ((a + b + c + d) * 64) ≤ (a + b) / 256 := by
    rw [div_le_iff₀ hD]
    nlinarith [sq_nonneg (a - b), mul_nonneg (add_nonneg r1.le r2) (add_nonneg q1 q2),
      mul_nonneg q1 q2]
  constructor
  · apply mul_nonneg
    · apply div_nonneg
      · linarith
      · exact hD.le
    · norm_num
  · exact mul_le_mul_of_nonneg_right key (by norm_num)

theorem serial_text (t : String) (h : (text_bytes t).length < 2 ^ 16) :
    (SerialWrite.text t).bytes = some (text_bytes t) := by
  show some ((text_bytes t).take ((text_bytes t).length % 2 ^ 16)) = _
  rw [Nat.mod_eq_of_lt h, List.take_length]

theorem serial_binary (d : List Byte) (n : Nat) (hn : n < 2 ^ 16) (hle : n ≤ d.length) :
    (SerialWrite.binary d n).bytes = some (d.take n) := by
  show (if n % 2 ^ 16 ≤ d.length then some (d.take (n % 2 ^ 16)) else none) = _
  rw [Nat.mod_eq_of_lt hn, if_pos hle]

theorem serial_bytes_cons (w : SerialWrite) (rest : List SerialWrite) (a b : List Byte)
    (hw : w.bytes = some a) (hr : serial_bytes rest = some b) :
    serial_bytes (w :: rest) = some (a ++ b) := by
  unfold serial_bytes
  rw [hw, hr]

/-- A header text, `length` bytes of an object and the text `"\n"` form a blob when the header
announces `length`. -/
theorem serial_blob (kind : String) (version : Nat) (header : String) (data : List Byte)
    (n : Nat) (rest : List SerialWrite) (b : List Byte)
    (hh : text_bytes header
      = text_bytes ("BLOB / " ++ kind ++ " / v" ++ toString version ++ " / " ++ toString n
          ++ "\n"))
    (hlen : (text_bytes header).length < 2 ^ 16) (hn : n < 2 ^ 16) (hle : n ≤ data.length)
    (hr : serial_bytes rest = some b) :
    serial_bytes (.text header :: .binary data n :: .text "\n" :: rest)
      = some (spec_blob kind version (data.take n) ++ b) := by
  have e1 := serial_text header hlen
  have e2 := serial_binary data n hn hle
  have e3 : (SerialWrite.text "\n").bytes = some (text_bytes "\n") := by decide
  rw [serial_bytes_cons _ _ _ _ e1
    (serial_bytes_cons _ _ _ _ e2 (serial_bytes_cons _ _ _ _ e3 hr))]
  unfold spec_blob
  rw [List.length_take, Nat.min_eq_left hle, hh]
  simp only [List.append_assoc]

/-- The same as `serial_blob` when the source writes the terminating `"\n"` and the next text
in one call. -/
theorem serial_blob_joined (kind : String) (version : Nat) (header : String)
    (data : List Byte) (n : Nat) (tail next : String) (rest : List SerialWrite) (b : List Byte)
    (hh : text_bytes header
      = text_bytes ("BLOB / " ++ kind ++ " / v" ++ toString version ++ " / " ++ toString n
          ++ "\n"))
    (hlen : (text_bytes header).length < 2 ^ 16) (hn : n < 2 ^ 16) (hle : n ≤ data.length)
    (ht : text_bytes tail = text_bytes "\n" ++ text_bytes next)
    (htl : (text_bytes tail).length < 2 ^ 16) (hnl : (text_bytes next).length < 2 ^ 16)
    (hr : serial_bytes (.text next :: rest) = some b) :
    serial_bytes (.text header :: .binary data n :: .text tail :: rest)
      = some (spec_blob kind version (data.take n) ++ b) := by
  have e1 := serial_text header hlen
  have e2 := serial_binary data n hn hle
  have e3 := serial_text tail htl
  have e4 := serial_text next hnl
  cases hrest : serial_bytes rest with
  | none =>
    simp [serial_bytes, hrest, e4] at hr
  | some c =>
    rw [serial_bytes_cons _ _ _ _ e4 hrest] at hr
    have hb : b = text_bytes next ++ c := (Option.some.inj hr).symm
    rw [serial_bytes_cons _ _ _ _ e1
      (serial_bytes_cons _ _ _ _ e2 (serial_bytes_cons _ _ _ _ e3 hrest)), hb, ht]
    unfold spec_blob
    rw [List.length_take, Nat.min_eq_left hle, hh]
    simp only [List.append_assoc]

theorem le_bytes_length (width value : Nat) : (le_bytes width value).length = width := by
  unfold le_bytes
  simp

theorem meas_twr_t_bytes_length (a b c d e f g : Nat) :
    (meas_twr_t_bytes a b c d e f g).length = 40 := by
  unfold meas_twr_t_bytes
  simp only [List.length_append, le_bytes_length]

theorem transmit_rx_diagnostics_blobs (h : TelemetryReadings) :
    serial_bytes (transmit_rx_diagnostics h)
      = some (spec_blob "toa" 3 ((List.ofFn h.poa_time_blob).take 43)
          ++ (spec_blob "cir analysis ip" 1 (List.ofFn h.cir_analysis_ip)
          ++ (spec_blob "cir analysis sts1" 1 (List.ofFn h.cir_analysis_sts1)
          ++ spec_blob "cir analysis sts2" 1 (List.ofFn h.cir_analysis_sts2)))) := by
  unfold transmit_rx_diagnostics
  have l1 : (List.ofFn h.poa_time_blob).length = 44 := List.length_ofFn _
  have l2 : (List.ofFn h.cir_analysis_ip).length = 24 := List.length_ofFn _
  have l3 : (List.ofFn h.cir_analysis_sts1).length = 24 := List.length_ofFn _
  have l4 : (List.ofFn h.cir_analysis_sts2).length = 24 := List.length_ofFn _
  have t2 : (List.ofFn h.cir_analysis_ip).take 24 = List.ofFn h.cir_analysis_ip :=
    List.take_of_length_le (by rw [l2])
  have t3 : (List.ofFn h.cir_analysis_sts1).take 24 = List.ofFn h.cir_analysis_sts1 :=
    List.take_of_length_le (by rw [l3])
  have t4 : (List.ofFn h.cir_analysis_sts2).take 24 = List.ofFn h.cir_analysis_sts2 :=
    List.take_of_length_le (by rw [l4])
  have b4 := serial_blob "cir analysis sts2" 1 "BLOB / cir analysis sts2 / v1 / 24\n"
    (List.ofFn h.cir_analysis_sts2) 24 [] [] (by decide) (by decide) (by decide)
    (by rw [l4]) rfl
  rw [List.append_nil] at b4
  have b3 := serial_blob_joined "cir analysis sts1" 1 "BLOB / cir analysis sts1 / v1 / 24\n"
    (List.ofFn h.cir_analysis_sts1) 24 "\nBLOB / cir analysis sts2 / v1 / 24\n" _ _ _
    (by decide) (by decide) (by decide) (by rw [l3]) (by decide) (by decide) (by decide) b4
  have b2 := serial_blob_joined "cir analysis ip" 1 "BLOB / cir analysis ip / v1 / 24\n"
    (List.ofFn h.cir_analysis_ip) 24 "\nBLOB / cir analysis sts1 / v1 / 24\n" _ _ _
    (by decide) (by decide) (by decide) (by rw [l2]) (by decide) (by decide) (by decide) b3
  have b1 := serial_blob "toa" 3 "BLOB / toa / v3 / 43\n"
    (List.ofFn h.poa_time_blob) 43 _ _ (by decide) (by decide) (by decide)
    (by rw [l1]; decide) b2
  rw [t2, t3, t4] at b1
  exact b1

theorem dwt_readaccdata_overrun (buffer : List Byte) (dummy : Byte) (data : Nat → Byte) :
    (dwt_readaccdata buffer (buffer.length + 1) dummy data).content
        = (List.range buffer.length).map (fun k => if k = 0 then dummy else data (k - 1))
      ∧ (dwt_readaccdata buffer (buffer.length + 1) dummy data).past_end
        = [if buffer.length = 0 then dummy else data (buffer.length - 1)] := by
  unfold dwt_readaccdata
  simp only [List.range_succ, List.map_append, List.map_cons, List.map_nil]
  have hl : ((List.range buffer.length).map
      (fun k => if k = 0 then dummy else data (k - 1))).length = buffer.length := by
    simp
  constructor
  · rw [List.take_append_of_le_length (by rw [hl]), List.take_of_length_le (by rw [hl]),
      List.drop_eq_nil_of_le (Nat.le_succ _), List.append_nil]
  · rw [List.drop_append_of_le_length (by rw [hl]), List.drop_eq_nil_of_le (by rw [hl]),
      List.nil_append]

theorem dwt_readaccdata_in_bounds (buffer : List Byte) (length : Nat) (dummy : Byte)
    (data : Nat → Byte) (h : length ≤ buffer.length) :
    (dwt_readaccdata buffer length dummy data).past_end = [] := by
  unfold dwt_readaccdata
  exact List.drop_eq_nil_of_le (by simp [h])

theorem transmit_cir_read_eq (h : TelemetryReadings) :
    (transmit_cir_read h).content
        = (List.range 12288).map
            (fun k => if k = 0 then h.accumulator_dummy else h.accumulator (k - 1))
      ∧ (transmit_cir_read h).past_end = [h.accumulator 12287] := by
  have hl : (List.ofFn h.cir_buffer_before).length = 12288 := List.length_ofFn _
  have e := dwt_readaccdata_overrun (List.ofFn h.cir_buffer_before) h.accumulator_dummy
    h.accumulator
  rw [hl] at e
  exact e

theorem transmit_cir_payload (h : TelemetryReadings) :
    (transmit_cir_read h).content.length = 12288
      ∧ (transmit_cir_read h).content[0]? = some h.accumulator_dummy
      ∧ ∀ i, i < 12287 → (transmit_cir_read h).content[i + 1]? = some (h.accumulator i) := by
  rw [(transmit_cir_read_eq h).1]
  refine ⟨by simp, by simp, ?_⟩
  intro i hi
  rw [List.getElem?_map, List.getElem?_range (by omega)]
  simp

theorem transmit_cir_blob (h : TelemetryReadings) :
    serial_bytes (transmit_cir h) = some (spec_blob "cir" 1 (transmit_cir_read h).content) := by
  have hl := (transmit_cir_payload h).1
  have b := serial_blob "cir" 1 "BLOB / cir / v1 / 12288\n" (transmit_cir_read h).content 12288
    [] [] (by decide) (by decide) (by decide) (by rw [hl]) rfl
  rw [List.take_of_length_le (by rw [hl]), List.append_nil] at b
  exact b

theorem transmit_twr_blob (r : twr_result) (dist_mm twr_count current_rotation : Nat) :
    serial_bytes (transmit_twr r dist_mm twr_count current_rotation)
      = some (spec_blob "twr" 2
          (meas_twr_t_bytes r.Treply1 r.Treply2 r.Tround1 r.Tround2 dist_mm twr_count
            current_rotation)) := by
  have hl := meas_twr_t_bytes_length r.Treply1 r.Treply2 r.Tround1 r.Tround2 dist_mm twr_count
    current_rotation
  have b := serial_blob "twr" 2 "BLOB / twr / v2 / 40\n"
    (meas_twr_t_bytes r.Treply1 r.Treply2 r.Tround1 r.Tround2 dist_mm twr_count
      current_rotation) 40
    [] [] (by decide) (by decide) (by decide) (by rw [hl]) rfl
  rw [List.take_of_length_le (by rw [hl]), List.append_nil] at b
  exact b

theorem tag_final_pair_blob_events (s : TagState) (h1 : s.tx_done = 2) (h2 : s.rx_done = 2) :
    (tag_final_pair twr_pdoa_tag s).2.take 3
      = [.stdio_write "BLOB / twr / v2 / 40\n",
         .twr_blob
            (tag_range s.rx_timestamp_poll s.tx_timestamp_response s.rx_timestamp_final
              s.rx_buffer).Treply1
            (tag_range s.rx_timestamp_poll s.tx_timestamp_response s.rx_timestamp_final
              s.rx_buffer).Treply2
            (tag_range s.rx_timestamp_poll s.tx_timestamp_response s.rx_timestamp_final
              s.rx_buffer).Tround1
            (tag_range s.rx_timestamp_poll s.tx_timestamp_response s.rx_timestamp_final
              s.rx_buffer).Tround2
            (tag_range s.rx_timestamp_poll s.tx_timestamp_response s.rx_timestamp_final
              s.rx_buffer).dist_mm
            s.twr_count s.current_rotation,
         .stdio_write "\n"] := by
  unfold tag_final_pair
  simp [h1, h2, twr_pdoa_tag]

theorem rotation_sweep_step_spec (s : RotationState) (hc : s.current_rotation ≤ 360)
    (hd : s.rotation_direction = 1 ∨ s.rotation_direction = -1) :
    (rotation_sweep_step s).1.current_rotation ≤ 360
      ∧ ((rotation_sweep_step s).1.rotation_direction = 1
          ∨ (rotation_sweep_step s).1.rotation_direction = -1)
      ∧ (rotation_sweep_step s).1.rotation_direction
          = (if s.current_rotation = 0 then 1 else if s.current_rotation = 360 then -1
              else s.rotation_direction)
      ∧ (rotation_sweep_step s).2 = (rotation_sweep_step s).1.rotation_direction
      ∧ ((rotation_sweep_step s).1.current_rotation : Int)
          = (s.current_rotation : Int) + (rotation_sweep_step s).2 := by
  unfold rotation_sweep_step to_uint16
  by_cases h0 : s.current_rotation = 0
  · simp [h0]
  · by_cases h1 : s.current_rotation = 360
    · simp [h1]
    · simp only [h0, h1, if_false]
      rcases hd with hd | hd
      · rw [hd]
        simp only [true_or, true_and]
        omega
      · rw [hd]
        simp only [or_true, true_and]
        omega

theorem rotation_sweep_invariant (n : Nat) :
    (rotation_sweep_after n).current_rotation ≤ 360
      ∧ ((rotation_sweep_after n).rotation_direction = 1
          ∨ (rotation_sweep_after n).rotation_direction = -1) := by
  induction n with
  | zero => exact ⟨by decide, Or.inl rfl⟩
  | succ n ih =>
    obtain ⟨a, b, -⟩ := rotation_sweep_step_spec (rotation_sweep_after n) ih.1 ih.2
    exact ⟨a, b⟩

theorem rotation_sweep_sum (n : Nat) :
    ((rotation_sweep_after n).current_rotation : Int) = spec_commanded_sum n := by
  induction n with
  | zero => rfl
  | succ n ih =>
    obtain ⟨hc, hd⟩ := rotation_sweep_invariant n
    obtain ⟨-, -, -, -, e⟩ := rotation_sweep_step_spec (rotation_sweep_after n) hc hd
    unfold spec_commanded_sum at ih ⊢
    rw [List.range_succ, List.map_append, List.sum_append, ← ih]
    simp only [List.map_cons, List.map_nil, List.sum_cons, List.sum_nil, add_zero]
    exact e

theorem rotation_sweep_upward (n : Nat) (h : n ≤ 360) :
    rotation_sweep_after n
      = { current_rotation := n, rotation_direction := 1, full_rotation_count := 0 } := by
  induction n with
  | zero => rfl
  | succ n ih =>
    have e : rotation_sweep_after (n + 1) = (rotation_sweep_step (rotation_sweep_after n)).1 :=
      rfl
    rw [e, ih (by omega)]
    unfold rotation_sweep_step to_uint16
    by_cases h0 : n = 0
    · subst h0
      rfl
    · have h1 : n ≠ 360 := by omega
      simp only [h0, h1, if_false]
      congr 1
      omega

theorem rotation_sweep_turns :
    (rotation_sweep_after 360).current_rotation = 360
      ∧ rotation_sweep_after 361
        = { current_rotation := 359, rotation_direction := -1, full_rotation_count := 1 } := by
  have e : rotation_sweep_after 361 = (rotation_sweep_step (rotation_sweep_after 360)).1 := rfl
  rw [e, rotation_sweep_upward 360 (le_refl _)]
  exact ⟨rfl, by decide⟩

theorem rotate_reciever_one_degree (d : Int) (hd : d = 1 ∨ d = -1) :
    rotate_reciever d
      = some [.dir_pin (decide (d < 0)), .step_pin true, .sleep 40, .step_pin false,
          .sleep 40] := by
  rcases hd with hd | hd <;> subst hd <;> decide

/-- An output that contains the mark of undefined behaviour is not defined throughout. -/
theorem undefined_behaviour_mem (out : List Event) (h : Event.undefined_behaviour ∈ out) :
    ¬ defined_behaviour out := by
  intro hd
  have := hd _ h
  simp [Event.is_undefined] at this

/-- In the telemetry build the branch of the PollResponse state, entered with a frame announced
that passes the four checks, writes its lines, stores the receive timestamp and reaches the call
of `transmit_cir`: its behaviour is undefined from there, the sequence number not incremented
and the receive flag at 0. -/
theorem tag_poll_accept_undefined (B : TagBuild) (env : TagEnv) (s : TagState)
    (hB : B.telemetry = true) (hstate : s.state = .TWR_POLL_RESPONSE_STATE)
    (hrx : s.rx_done = 1) (hv : spec_poll_valid env s) :
    (tag_branch B env s).2
        = (tag_poll_tx s).2
          ++ [.stdio_write "RX: Poll frame\n", .print_new_frame s.next_sequence_number,
              .transmit_rx_diagnostics, .transmit_cir, .undefined_behaviour]
      ∧ ¬ defined_behaviour (tag_branch B env s).2
      ∧ (tag_branch B env s).1.next_sequence_number = s.next_sequence_number
      ∧ (tag_branch B env s).1.rx_done = 0
      ∧ (tag_branch B env s).1.rx_timestamp_poll = decode_40bit_timestamp env.rx_timestamp
      ∧ (tag_branch B env s).1.state = .TWR_POLL_RESPONSE_STATE := by
  obtain ⟨p1, p2, p3, -, p5, -, -⟩ := tag_poll_tx_fields s
  have hv' : spec_poll_valid env (tag_poll_tx s).1 := by
    unfold spec_poll_valid
    rw [p2, p3]
    exact hv
  obtain ⟨s', e, a1, a2, a3, a4, -⟩ :=
    tag_poll_rx_valid_telemetry B env (tag_poll_tx s).1 hB (by rw [p1, hrx]) hv'
  rw [p3] at e
  have hb : tag_branch B env s
      = (s', (tag_poll_tx s).2
          ++ [.stdio_write "RX: Poll frame\n", .print_new_frame s.next_sequence_number,
              .transmit_rx_diagnostics, .transmit_cir, .undefined_behaviour]) := by
    rw [tag_branch_poll B env s hstate]
    unfold tag_poll_response
    rw [e]
  rw [hb]
  refine ⟨rfl, ?_, by rw [a3, p3], a1, a2, by rw [a4, p5, hstate]⟩
  apply undefined_behaviour_mem
  simp

/-- The receive block of a build without telemetry never reaches undefined behaviour. -/
theorem tag_rx_block_defined (B : TagBuild) (env : TagEnv) (len : Nat) (code : Byte)
    (wrong accept : String) (store : TagState → Nat → TagState) (s : TagState)
    (hB : B.telemetry = false) :
    (∀ t out, tag_rx_block B env len code wrong accept store s ≠ .undefined t out)
      ∧ defined_behaviour (tag_rx_block B env len code wrong accept store s).out := by
  unfold tag_rx_block defined_behaviour
  simp only [hB, Bool.false_eq_true, if_false]
  split_ifs <;> simp [RxOutcome.out, Event.is_undefined]

/-- Every iteration of a build without telemetry has defined behaviour. -/
theorem tag_iteration_defined (B : TagBuild) (env : TagEnv) (s : TagState)
    (hB : B.telemetry = false) : defined_behaviour (tag_iteration B env s).2 := by
  have happ : ∀ a b : List Event, defined_behaviour a → defined_behaviour b →
      defined_behaviour (a ++ b) := by
    intro a b ha hb e he
    rcases List.mem_append.mp he with h | h
    · exact ha e h
    · exact hb e h
  have hto : defined_behaviour (tag_timeout_check B env s).2 := by
    unfold tag_timeout_check defined_behaviour
    split_ifs <;> simp [Event.is_undefined]
  have hbr : ∀ t : TagState, defined_behaviour (tag_branch B env t).2 := by
    intro t
    unfold tag_branch
    cases t.state with
    | TWR_SYNC_STATE =>
      show defined_behaviour (tag_sync env t).2
      unfold tag_sync defined_behaviour
      split_ifs <;> simp [Event.is_undefined]
    | TWR_POLL_RESPONSE_STATE =>
      show defined_behaviour (tag_poll_response B env t).2
      have h1 : defined_behaviour (tag_poll_tx t).2 := by
        unfold tag_poll_tx defined_behaviour
        split_ifs <;> simp [Event.is_undefined]
      have h2 := tag_rx_block_defined B env (sizeof_twr_base_frame_t + 2) 0x21
        "RX ERR: wrong frame (expected poll)\n" "RX: Poll frame\n"
        (fun t ts => { t with rx_timestamp_poll := ts }) (tag_poll_tx t).1 hB
      have h3 : ∀ u : TagState, defined_behaviour (tag_poll_pair B env u).2 := by
        intro u
        unfold tag_poll_pair defined_behaviour
        split_ifs <;> simp [Event.is_undefined]
      unfold tag_poll_response tag_poll_rx
      cases hr : tag_rx_block B env (sizeof_twr_base_frame_t + 2) 0x21
        "RX ERR: wrong frame (expected poll)\n" "RX: Poll frame\n"
        (fun t ts => { t with rx_timestamp_poll := ts }) (tag_poll_tx t).1 with
      | fall_through u out =>
        rw [hr] at h2
        exact happ _ _ (happ _ _ h1 h2.2) (h3 u)
      | continue_loop u out =>
        rw [hr] at h2
        exact happ _ _ h1 h2.2
      | undefined u out => exact absurd hr (h2.1 u out)
    | TWR_FINAL_STATE =>
      show defined_behaviour (tag_final B env t).2
      have h1 : defined_behaviour (tag_final_tx env t).2 := by
        unfold tag_final_tx defined_behaviour
        split_ifs <;> simp [Event.is_undefined]
      have h2 := tag_rx_block_defined B env (sizeof_twr_final_frame_t + 2) 0x23
        "RX ERR: wrong frame (expected final)\n" "RX: Final frame\n"
        (fun t ts => { t with rx_timestamp_final := ts }) (tag_final_tx env t).1 hB
      have h3 : ∀ u : TagState, defined_behaviour (tag_final_pair B u).2 := by
        intro u
        unfold tag_final_pair defined_behaviour
        split_ifs <;> simp [Event.is_undefined]
      unfold tag_final tag_final_rx
      cases hr : tag_rx_block B env (sizeof_twr_final_frame_t + 2) 0x23
        "RX ERR: wrong frame (expected final)\n" "RX: Final frame\n"
        (fun t ts => { t with rx_timestamp_final := ts }) (tag_final_tx env t).1 with
      | fall_through u out =>
        rw [hr] at h2
        exact happ _ _ (happ _ _ h1 h2.2) (h3 u)
      | continue_loop u out =>
        rw [hr] at h2
        exact happ _ _ h1 h2.2
      | undefined u out => exact absurd hr (h2.1 u out)
    | TWR_ERROR =>
      show defined_behaviour (tag_error B t).2
      unfold tag_error defined_behaviour
      simp [Event.is_undefined]
  unfold tag_iteration
  exact happ _ _ hto (hbr _)

/-- In either build a frame that passes the four checks of a receive block is not rejected. -/
theorem tag_rx_block_valid_not_rejected (B : TagBuild) (env : TagEnv) (len : Nat) (code : Byte)
    (wrong accept : String) (store : TagState → Nat → TagState) (s : TagState)
    (h9 : 9 < len) (h2 : 2 < len) (hv : spec_frame_valid len code env s) :
    ∀ t out, tag_rx_block B env len code wrong accept store s ≠ .continue_loop t out := by
  obtain ⟨h1, hq, h3, h4⟩ := hv
  unfold rx_twr_function_code at h3
  unfold rx_sequence_number at h4
  intro t out
  unfold tag_rx_block
  by_cases hrx : s.rx_done = 1 <;> by_cases hB : B.telemetry = true <;>
  simp [hrx, h1, not_lt.mpr hq, rx_twr_function_code, rx_sequence_number, dwt_readrxdata, h9,
    h2, h3, h4, hB]

/-! ## The claims -/

/-- C1 (defect of the code): the round trip of the 40-bit codec fails on the anchor's own
reply delay.  The anchor embeds `638980000 = round_tx_delay` (a value below `2 ^ 40`) into the
zero-initialised field of its final frame with the shifts 0, 8, 16, 32; decoding that field
with `decode_40bit_timestamp` gives `1445792`, not `638980000`. -/
theorem C1_round_trip_fails_at_reply_delay :
    anchor_round_tx_delay = 638980000 ∧ 638980000 < 2 ^ 40
      ∧ decode_40bit_timestamp (embed_time zero_field 638980000) = 1445792 := by
  decide

set_option maxRecDepth 100000 in
/-- C2 (as stated, refuted).  For the round `Treply1 = 2`, `Treply2 = 19`, `Tround1 = 48`,
`Tround2 = 212` nothing wraps and the exact value `num / (den * 64) * 299.792458` is
`168.99999...`, with truncation 168, but the code's floating-point evaluation yields
`dist_mm = 169`.  For the round `Treply1 = Treply2 = 2`, `Tround1 = Tround2 = 1` the exact
`num` is negative, the code's unsigned `subtraction` is `2^64 - 3`, and the conversion to
`dist_mm` has no defined value. -/
theorem C2_float_result_differs_from_exact_truncation :
    (range_dist_mm 2 19 48 212 = some 169 ∧ ⌊spec_range_exact 2 19 48 212⌋ = 168)
      ∧ (range_subtraction 2 2 1 1 = 2 ^ 64 - 3 ∧ range_dist_mm 2 2 1 1 = none
          ∧ spec_range_exact 2 2 1 1 < 0) := by
  refine ⟨⟨by decide, ?_⟩, by decide, by decide, ?_⟩
  · rw [Int.floor_eq_iff]
    norm_num [spec_range_exact]
  · norm_num [spec_range_exact]

/-- C2 (amended): in every completed round of either tag build, `dist_mm` is the conversion
to `uint32_t` of the double product `tprop_ns * 299.792458`, where `tprop_ns` is the double
quotient of `num` by `den << 6` rounded to single precision and `num`, `den`, `den << 6` are
64-bit unsigned values.  Whenever `den << 6` is not zero the product `p` is finite and within
relative error `2 ^ (-23)` of the exact value `V = num / (den << 6) * 299.792458`, and
`dist_mm` is the truncation toward zero of `p` when that is below `2 ^ 32` (undefined
otherwise); if `V < 2 ^ 23`, `dist_mm` is defined and differs from the truncation of `V` by at
most one.  For times below `2 ^ 32` with `Tround1*Tround2 ≥ Treply1*Treply2`, `V` is the
specification's `num / (den * 64) * 299.792458`. -/
theorem C2_dist_mm_within_one_of_exact (Treply1 Treply2 Tround1 Tround2 : Nat)
    (hden : shl_u64 (range_denominator Treply1 Treply2 Tround1 Tround2) 6 ≠ 0) :
    (∃ p, range_product Treply1 Treply2 Tround1 Tround2 = some p
        ∧ range_dist_mm Treply1 Treply2 Tround1 Tround2
            = (if ⌊p.toRat⌋₊ < 2 ^ 32 then some ⌊p.toRat⌋₊ else none)
        ∧ range_exact Treply1 Treply2 Tround1 Tround2 * (1 - 1 / 2 ^ 23) ≤ p.toRat
        ∧ p.toRat ≤ range_exact Treply1 Treply2 Tround1 Tround2 * (1 + 1 / 2 ^ 23)
        ∧ (range_exact Treply1 Treply2 Tround1 Tround2 < 2 ^ 23 →
            ⌊p.toRat⌋₊ < 2 ^ 32
              ∧ ⌊p.toRat⌋₊ ≤ ⌊range_exact Treply1 Treply2 Tround1 Tround2⌋₊ + 1
              ∧ ⌊range_exact Treply1 Treply2 Tround1 Tround2⌋₊ ≤ ⌊p.toRat⌋₊ + 1))
      ∧ (Treply1 < 2 ^ 32 → Treply2 < 2 ^ 32 → Tround1 < 2 ^ 32 → Tround2 < 2 ^ 32 →
          Treply1 * Treply2 ≤ Tround1 * Tround2 →
          range_exact Treply1 Treply2 Tround1 Tround2
            = spec_range_exact Treply1 Treply2 Tround1 Tround2)
      ∧ (∀ (B : TagBuild) (s : TagState), s.tx_done = 2 → s.rx_done = 2 →
          Event.print_dist_mm
              (tag_range s.rx_timestamp_poll s.tx_timestamp_response s.rx_timestamp_final
                s.rx_buffer).dist_mm
            ∈ (tag_final_pair B s).2)
      ∧ (∀ (a b c : Nat) (buf : Nat → Byte),
          (tag_range a b c buf).dist_mm
            = range_dist_mm (tag_range a b c buf).Treply1 (tag_range a b c buf).Treply2
                (tag_range a b c buf).Tround1 (tag_range a b c buf).Tround2) := by
  refine ⟨?_, range_exact_eq_spec _ _ _ _, tag_final_pair_reports, tag_range_dist_mm⟩
  obtain ⟨p, hp, hpd, lo, hi⟩ := range_product_close _ _ _ _ hden
  refine ⟨p, hp, ?_, lo, hi,
    (floor_of_close _ _ (toRat_nonneg p) (range_exact_nonneg _ _ _ _) lo hi).2⟩
  unfold range_dist_mm
  rw [hp]
  exact u32_of_double_floor p hpd

/-- Witness of C2 (amended): the round at one metre with 10 ms reply times. -/
theorem C2_dist_mm_within_one_of_exact_witness :
    shl_u64 (range_denominator 638980000 638980000 638980426 638980426) 6 ≠ 0
      ∧ ∃ p, range_product 638980000 638980000 638980426 638980426 = some p
          ∧ range_dist_mm 638980000 638980000 638980426 638980426
              = (if ⌊p.toRat⌋₊ < 2 ^ 32 then some ⌊p.toRat⌋₊ else none) :=
  ⟨by decide,
    match (C2_dist_mm_within_one_of_exact 638980000 638980000 638980426 638980426
        (by decide)).1 with
    | ⟨p, h1, h2, _⟩ => ⟨p, h1, h2⟩⟩

set_option maxRecDepth 100000 in
/-- C3 (as stated, refuted): `Treply1 = Treply2 = 1`, `Tround1 = Tround2 = 2^32 - 1` satisfy
the hypotheses of the claim, yet the double product `tprop_ns * 299.792458` has integral part
`10059365646`, which is not below `2 ^ 32`: its conversion to the `uint32_t` `dist_mm` has no
defined value. -/
theorem C3_extreme_round_dist_mm_undefined :
    ((0 < 1 ∧ 1 < 2 ^ 32) ∧ (0 < 4294967295 ∧ 4294967295 < 2 ^ 32)
        ∧ 1 * 1 ≤ 4294967295 * 4294967295)
      ∧ (range_product 1 1 4294967295 4294967295).map (fun p => p.num / p.den)
          = some 10059365646
      ∧ ¬ (10059365646 < 2 ^ 32)
      ∧ range_dist_mm 1 1 4294967295 4294967295 = none := by
  decide

/-- C3 (amended): for all `Treply1`, `Treply2`, `Tround1`, `Tround2` with `0 < each < 2^32`
and `Tround1*Tround2 ≥ Treply1*Treply2`, neither product overflows 64 bits, the unsigned
subtraction does not wrap, the denominator and the denominator shifted left by 6 are non-zero
and do not overflow 64 bits, and the double product `tprop_ns * 299.792458` is finite and
non-negative; `dist_mm` is its truncation toward zero when that is below `2 ^ 32`, which is
the case whenever the exact value `num / (den * 64) * 299.792458` is below `2 ^ 31`, and has
no defined value otherwise. -/
theorem C3_range_computation_well_defined (Treply1 Treply2 Tround1 Tround2 : Nat)
    (p1 : 0 < Treply1) (p2 : 0 < Treply2) (p3 : 0 < Tround1) (p4 : 0 < Tround2)
    (h1 : Treply1 < 2 ^ 32) (h2 : Treply2 < 2 ^ 32) (h3 : Tround1 < 2 ^ 32)
    (h4 : Tround2 < 2 ^ 32) (h : Treply1 * Treply2 ≤ Tround1 * Tround2) :
    (Tround1 * Tround2 < 2 ^ 64 ∧ mul_u64 Tround1 Tround2 = Tround1 * Tround2)
      ∧ (Treply1 * Treply2 < 2 ^ 64 ∧ mul_u64 Treply1 Treply2 = Treply1 * Treply2)
      ∧ range_subtraction Treply1 Treply2 Tround1 Tround2
          = Tround1 * Tround2 - Treply1 * Treply2
      ∧ (range_denominator Treply1 Treply2 Tround1 Tround2
            = Tround1 + Tround2 + Treply1 + Treply2
          ∧ range_denominator Treply1 Treply2 Tround1 Tround2 ≠ 0
          ∧ Tround1 + Tround2 + Treply1 + Treply2 < 2 ^ 64)
      ∧ (shl_u64 (range_denominator Treply1 Treply2 Tround1 Tround2) 6
            = (Tround1 + Tround2 + Treply1 + Treply2) * 64
          ∧ shl_u64 (range_denominator Treply1 Treply2 Tround1 Tround2) 6 ≠ 0
          ∧ (Tround1 + Tround2 + Treply1 + Treply2) * 64 < 2 ^ 64)
      ∧ ∃ p, range_product Treply1 Treply2 Tround1 Tround2 = some p
          ∧ 0 < p.den ∧ 0 ≤ p.toRat
          ∧ range_dist_mm Treply1 Treply2 Tround1 Tround2
              = (if ⌊p.toRat⌋₊ < 2 ^ 32 then some ⌊p.toRat⌋₊ else none)
          ∧ (spec_range_exact Treply1 Treply2 Tround1 Tround2 < 2 ^ 31 →
              range_dist_mm Treply1 Treply2 Tround1 Tround2 = some ⌊p.toRat⌋₊
                ∧ ⌊p.toRat⌋₊ < 2 ^ 32) := by
  obtain ⟨e1, e2, e3, e4, e5⟩ := range_integers_no_wrap _ _ _ _ h1 h2 h3 h4 h
  have hden : shl_u64 (range_denominator Treply1 Treply2 Tround1 Tround2) 6 ≠ 0 := by
    rw [e5]; omega
  obtain ⟨p, hp, hpd, lo, hi⟩ := range_product_close _ _ _ _ hden
  have hspec := range_exact_eq_spec _ _ _ _ h1 h2 h3 h4 h
  have hdist : range_dist_mm Treply1 Treply2 Tround1 Tround2
      = (if ⌊p.toRat⌋₊ < 2 ^ 32 then some ⌊p.toRat⌋₊ else none) := by
    unfold range_dist_mm
    rw [hp]
    exact u32_of_double_floor p hpd
  refine ⟨⟨mul_lt_two_pow_64 _ _ h3 h4, e1⟩, ⟨mul_lt_two_pow_64 _ _ h1 h2, e2⟩, e3,
    ⟨e4, by rw [e4]; omega, by omega⟩, ⟨e5, hden, by omega⟩,
    p, hp, hpd, toRat_nonneg p, hdist, ?_⟩
  intro hV
  rw [← hspec] at hV
  have hfl := (floor_of_close _ _ (toRat_nonneg p) (range_exact_nonneg _ _ _ _) lo hi).1 hV
  exact ⟨by rw [hdist, if_pos hfl], hfl⟩

/-- Witness of C3 (amended): the round at one metre with 10 ms reply times; its exact value
is below `2 ^ 31`, so `dist_mm` is defined. -/
theorem C3_range_computation_well_defined_witness :
    ((0 < 638980000 ∧ 638980000 < 2 ^ 32) ∧ (0 < 638980426 ∧ 638980426 < 2 ^ 32)
        ∧ 638980000 * 638980000 ≤ 638980426 * 638980426)
      ∧ ∃ n, range_dist_mm 638980000 638980000 638980426 638980426 = some n ∧ n < 2 ^ 32 :=
  ⟨by decide,
    match (C3_range_computation_well_defined 638980000 638980000 638980426 638980426
      (by decide) (by decide) (by decide) (by decide) (by decide) (by decide) (by decide)
      (by decide) (by decide)).2.2.2.2.2 with
    | ⟨p, _, _, _, _, h⟩ =>
      ⟨⌊p.toRat⌋₊, (h (by norm_num [spec_range_exact])).1,
        (h (by norm_num [spec_range_exact])).2⟩⟩

/-- C4: for every three-byte buffer with little-endian value `v`, `decode_24bit` returns a
32-bit signed integer whose low 24 bits equal `v` and whose high 8 bits all equal bit 23 of
`v`; it is `v` when `v < 2^23` and `v - 2^24` otherwise, hence in `[-2^23, 2^23)`. -/
theorem C4_decode_24bit_sign_extension (b0 b1 b2 : Byte) :
    ∃ r : Int, decode_24bit [b0, b1, b2] = some r
      ∧ (-(2 : Int) ^ 31 ≤ r ∧ r < 2 ^ 31)
      ∧ to_uint32 r % 2 ^ 24 = le_value_24 b0 b1 b2
      ∧ (∀ i, 24 ≤ i → i < 32 → (to_uint32 r).testBit i = (le_value_24 b0 b1 b2).testBit 23)
      ∧ r = (if le_value_24 b0 b1 b2 < 2 ^ 23 then (le_value_24 b0 b1 b2 : Int)
              else (le_value_24 b0 b1 b2 : Int) - 2 ^ 24)
      ∧ (-(2 : Int) ^ 23 ≤ r ∧ r < 2 ^ 23) := by
  have hV24 : le_value_24 b0 b1 b2 < 2 ^ 24 := by
    have h0 := b0.isLt
    have h1 := b1.isLt
    have h2 := b2.isLt
    simp only [le_value_24]
    omega
  obtain ⟨p1, p2, p3, p4⟩ := sign_extended_props _ hV24 _ rfl
  exact ⟨_, decode_24bit_value b0 b1 b2, p1, p2, p3, rfl, p4⟩

/-- C5: for every five-byte buffer, `decode_40bit_timestamp` returns the little-endian
combination `b[0] + b[1]*2^8 + b[2]*2^16 + b[3]*2^24 + b[4]*2^32`, which is below `2 ^ 40`. -/
theorem C5_decode_40bit_timestamp_little_endian (b : Fin 5 → Byte) :
    decode_40bit_timestamp b
        = (b 0).val + (b 1).val * 2 ^ 8 + (b 2).val * 2 ^ 16 + (b 3).val * 2 ^ 24
          + (b 4).val * 2 ^ 32
      ∧ decode_40bit_timestamp b < 2 ^ 40 :=
  decode_40bit_timestamp_eq b

/-- C6: CIR round trip.  If the 6097-byte buffer holds one dummy byte followed by 1016 complex
samples, each component in `[-2^23, 2^23)` stored as a 24-bit two's-complement little-endian
value, then the IP decoding loop (given enough fuel to finish) ends after exactly 1016 passes,
every read is inside the buffer and touches only indices 1..6096 (pass `k` reads
`i .. i+5` with `i = 1 + 6k`), and the `k`-th decoded pair is the `k`-th sample. -/
theorem C6_cir_round_trip (samples : List (Int × Int)) (dummy : Byte) (fuel : Nat)
    (hlen : samples.length = 1016)
    (hrange : ∀ s ∈ samples,
      (-(2 : Int) ^ 23 ≤ s.1 ∧ s.1 < 2 ^ 23) ∧ (-(2 : Int) ^ 23 ≤ s.2 ∧ s.2 < 2 ^ 23))
    (hfuel : 1016 < fuel) :
    (dummy :: spec_cir_bytes samples).length = 6097
      ∧ ∃ lines, cir_decode_loop (dummy :: spec_cir_bytes samples) CIR_IP_SAMPLES fuel 1
            = some lines
          ∧ lines.length = 1016
          ∧ (∀ l ∈ lines, 1 ≤ l.i ∧ l.i + 5 ≤ 6096)
          ∧ (∀ k, lines[k]?
              = (samples[k]?).map
                  (fun s => ({ i := 1 + 6 * k, real := s.1, imag := s.2 } : cir_line))) := by
  have hloop := cir_decode_loop_spec CIR_IP_SAMPLES (by decide) samples [dummy] fuel hrange
    (by rw [hlen]; rfl) (by rw [hlen]; exact hfuel)
  refine ⟨by simp [spec_cir_bytes_length, hlen], spec_cir_lines 1 samples, hloop, ?_, ?_, ?_⟩
  · rw [spec_cir_lines_length, hlen]
  · intro l hl
    obtain ⟨k, hk⟩ := List.mem_iff_getElem?.mp hl
    rw [spec_cir_lines_get] at hk
    have hklt : k < samples.length := by
      by_contra hge
      rw [List.getElem?_eq_none (by omega)] at hk
      simp at hk
    rw [List.getElem?_eq_getElem hklt] at hk
    simp only [Option.map_some', Option.some.injEq] at hk
    subst hk
    simp only []
    omega
  · intro k
    exact spec_cir_lines_get samples 1 k

/-- Witness of C6: 1016 copies of the sample `(-1, 5)` after the dummy byte 7. -/
theorem C6_cir_round_trip_witness :
    (List.replicate 1016 ((-1 : Int), (5 : Int))).length = 1016
      ∧ ∃ lines, cir_decode_loop ((7 : Byte) :: spec_cir_bytes (List.replicate 1016 (-1, 5)))
          CIR_IP_SAMPLES 1017 1 = some lines ∧ lines.length = 1016 :=
  have h := C6_cir_round_trip (List.replicate 1016 (-1, 5)) 7 1017
    (List.length_replicate _ _)
    (by
      intro s hs
      rw [List.eq_of_mem_replicate hs]
      norm_num)
    (by decide)
  match h.2 with
  | ⟨lines, h1, h2, _⟩ => ⟨List.length_replicate _ _, lines, h1, h2⟩

/-- C7 (as stated, refuted): with `rx_timestamp_poll = 2^40 - 1` and
`tx_timestamp_response = 0` (the 40-bit counter wrapped in between) the tag's `Treply1` is
`2^64 - 2^40 + 1`, while the difference modulo `2 ^ 40` is `1`. -/
theorem C7_wrapped_difference_is_not_mod_2_40 :
    (tag_range 1099511627775 0 5 (fun _ => 0)).Treply1 = 18446742974197923841
      ∧ spec_diff_mod_40 0 1099511627775 = 1 := by
  decide

/-- C7 (amended): the differences of device times are taken modulo `2 ^ 64`.  For all 40-bit
device times, the tag's `Treply1` and `Tround2` and the anchor's `Tround1` equal the
difference modulo `2 ^ 40` when the later timestamp is not below the earlier one, and exceed
it by `2 ^ 64 - 2 ^ 40` when the 40-bit counter wrapped between the two timestamps. -/
theorem C7_differences_are_mod_2_64 (rx_t_poll tx_t_response rx_t_final tx_t_poll
    rx_t_response : Nat) (rx_buffer : Nat → Byte)
    (h1 : rx_t_poll < 2 ^ 40) (h2 : tx_t_response < 2 ^ 40) (h3 : rx_t_final < 2 ^ 40)
    (h4 : tx_t_poll < 2 ^ 40) (h5 : rx_t_response < 2 ^ 40) :
    (tag_range rx_t_poll tx_t_response rx_t_final rx_buffer).Treply1
        = spec_diff_mod_40 tx_t_response rx_t_poll
          + (if rx_t_poll ≤ tx_t_response then 0 else 2 ^ 64 - 2 ^ 40)
      ∧ (tag_range rx_t_poll tx_t_response rx_t_final rx_buffer).Tround2
        = spec_diff_mod_40 rx_t_final tx_t_response
          + (if tx_t_response ≤ rx_t_final then 0 else 2 ^ 64 - 2 ^ 40)
      ∧ (anchor_final_times tx_t_poll rx_t_response).Tround1
        = spec_diff_mod_40 rx_t_response tx_t_poll
          + (if tx_t_poll ≤ rx_t_response then 0 else 2 ^ 64 - 2 ^ 40) :=
  ⟨sub_u64_of_40bit _ _ h2 h1, sub_u64_of_40bit _ _ h3 h2, sub_u64_of_40bit _ _ h5 h4⟩

/-- Witness of C7 (amended): a round in which the counter wraps before the response is sent. -/
theorem C7_differences_are_mod_2_64_witness :
    (1099511627775 < 2 ^ 40 ∧ 0 < 2 ^ 40 ∧ 5 < 2 ^ 40 ∧ 7 < 2 ^ 40 ∧ 9 < 2 ^ 40)
      ∧ (tag_range 1099511627775 0 5 (fun _ => 0)).Treply1
          = spec_diff_mod_40 0 1099511627775
            + (if 1099511627775 ≤ 0 then 0 else 2 ^ 64 - 2 ^ 40) :=
  ⟨by decide,
    (C7_differences_are_mod_2_64 1099511627775 0 5 7 9 (fun _ => 0)
      (by decide) (by decide) (by decide) (by decide) (by decide)).1⟩

/-- C8: zero-range round.  For every `T` with `0 < T < 2^32`, if all four times equal `T`
the tag computes `num = 0` and `dist_mm = 0`. -/
theorem C8_zero_range_round (T : Nat) (h0 : 0 < T) (h1 : T < 2 ^ 32) :
    range_subtraction T T T T = 0 ∧ range_dist_mm T T T T = some 0 := by
  have hs : range_subtraction T T T T = 0 := by
    unfold range_subtraction
    exact sub_u64_self _
  have hd : shl_u64 (range_denominator T T T T) 6 = T * 256 := by
    simp only [range_denominator, add_u64, shl_u64, Nat.shiftLeft_eq]
    omega
  refine ⟨hs, ?_⟩
  unfold range_dist_mm range_product
  rw [hs, hd, tprop_product_zero (T * 256) (by omega) (by omega)]
  rfl

/-- Witness of C8: the scenario value `T = 10_000 * 63_898`. -/
theorem C8_zero_range_round_witness :
    (0 < 638980000 ∧ 638980000 < 2 ^ 32)
      ∧ range_subtraction 638980000 638980000 638980000 638980000 = 0
      ∧ range_dist_mm 638980000 638980000 638980000 638980000 = some 0 :=
  ⟨by decide, C8_zero_range_round 638980000 (by decide) (by decide)⟩

set_option maxRecDepth 100000 in
/-- C9: happy round at one metre.  With `Treply1 = Treply2 = 10_000*63_898` and
`Tround1 = Tround2 = 10_000*63_898 + 2*213` the tag's `dist_mm` is defined and lies in
`[997, 1003]` (it is 997). -/
theorem C9_happy_round_one_metre :
    ∃ n, range_dist_mm (10000 * 63898) (10000 * 63898) (10000 * 63898 + 2 * 213)
          (10000 * 63898 + 2 * 213) = some n
      ∧ 997 ≤ n ∧ n ≤ 1003 :=
  ⟨997, by decide, by decide, by decide⟩

/-- C10 (defect of the code in the telemetry build): tag poll validation.  The switch is entered
in the PollResponse state with `rx_done = 1`; the four checks are: reported length
`sizeof(twr_base_frame_t)+2`, STS quality at least 0, function code `0x21`, sequence number
equal to `next_sequence_number`.  In the build without telemetry (`application_twr_tag.c`) the
receive block accepts the frame, i.e. falls through with `rx_done = 2`, `rx_timestamp_poll` set
to the decoded receive timestamp and `next_sequence_number` incremented by one, if and only if
the four checks pass; when the transmit flag is not yet set, the branch then ends in
PollResponse with exactly these updates.  In both builds a frame that fails one of the checks
ends the branch (by `continue`) in the Error state, transmits no frame and leaves
`next_sequence_number` and `rx_timestamp_poll` unchanged.  In the telemetry build
(`application_twr_pdoa_tag.c`) a frame that passes the four checks is not accepted in that
sense: the block writes "RX: Poll frame" and the marker line, has stored the timestamp, and
calls `transmit_cir`, whose accumulator read writes past the end of `cir_buffer`; the
behaviour of the program is undefined from that call, which stands before
`next_sequence_number++; rx_done = 2;`.  The branch is the whole iteration unless the round
timeout fires at its head (which puts the engine in the Sync state before the switch), and
every iteration of the build without telemetry has defined behaviour. -/
theorem C10_tag_poll_validation (B : TagBuild) (env : TagEnv) (s : TagState)
    (hstate : s.state = .TWR_POLL_RESPONSE_STATE) (hrx : s.rx_done = 1) :
    (B.telemetry = false →
        (spec_poll_valid env s ↔
          ∃ s' out, tag_poll_rx B env (tag_poll_tx s).1 = .fall_through s' out
            ∧ s'.rx_done = 2
            ∧ s'.rx_timestamp_poll = decode_40bit_timestamp env.rx_timestamp
            ∧ s'.next_sequence_number = to_uint8 (s.next_sequence_number.val + 1)))
      ∧ (¬ spec_poll_valid env s →
          (tag_branch B env s).1.state = .TWR_ERROR
            ∧ no_frame_transmitted (tag_branch B env s).2
            ∧ (tag_branch B env s).1.next_sequence_number = s.next_sequence_number
            ∧ (tag_branch B env s).1.rx_timestamp_poll = s.rx_timestamp_poll)
      ∧ (B.telemetry = false → spec_poll_valid env s → s.tx_done ≠ 1 → s.tx_done ≠ 2 →
          (tag_branch B env s).1.state = .TWR_POLL_RESPONSE_STATE
            ∧ (tag_branch B env s).1.rx_done = 2
            ∧ (tag_branch B env s).1.rx_timestamp_poll
                = decode_40bit_timestamp env.rx_timestamp
            ∧ (tag_branch B env s).1.next_sequence_number
                = to_uint8 (s.next_sequence_number.val + 1)
            ∧ no_frame_transmitted (tag_branch B env s).2)
      ∧ (B.telemetry = true → spec_poll_valid env s →
          (tag_branch B env s).2
              = (tag_poll_tx s).2
                ++ [.stdio_write "RX: Poll frame\n", .print_new_frame s.next_sequence_number,
                    .transmit_rx_diagnostics, .transmit_cir, .undefined_behaviour]
            ∧ ¬ defined_behaviour (tag_branch B env s).2
            ∧ (tag_branch B env s).1.next_sequence_number = s.next_sequence_number
            ∧ (tag_branch B env s).1.rx_done = 0
            ∧ (tag_branch B env s).1.rx_timestamp_poll
                = decode_40bit_timestamp env.rx_timestamp)
      ∧ (sub_u32 env.tick_check s.last_sync_time ≤ B.ranging_timeout →
          tag_iteration B env s = tag_branch B env s)
      ∧ (B.telemetry = false → defined_behaviour (tag_iteration B env s).2) := by
  obtain ⟨p1, p2, p3, p4, p5, p6, p7⟩ := tag_poll_tx_fields s
  have hrx' : (tag_poll_tx s).1.rx_done = 1 := by rw [p1, hrx]
  have hvalid : spec_poll_valid env (tag_poll_tx s).1 ↔ spec_poll_valid env s := by
    unfold spec_poll_valid
    rw [p2, p3]
  have hiter : tag_branch B env s = tag_poll_response B env s := by
    unfold tag_branch
    rw [hstate]
  refine ⟨fun hB => ⟨?_, ?_⟩, ?_, ?_, ?_, tag_iteration_no_timeout B env s,
    tag_iteration_defined B env s⟩
  · intro hv
    obtain ⟨s', out, e, a1, a2, a3, -⟩ :=
      tag_poll_rx_valid B env (tag_poll_tx s).1 hB hrx' (hvalid.mpr hv)
    exact ⟨s', out, e, a1, a2, by rw [a3, p3]⟩
  · rintro ⟨s', out, e, -⟩
    by_contra hv
    obtain ⟨s'', out', e', -⟩ :=
      tag_poll_rx_invalid B env (tag_poll_tx s).1 hrx' (fun h => hv (hvalid.mp h))
    rw [e] at e'
    cases e'
  · intro hv
    obtain ⟨s', out, e, a1, a2, a3, a4⟩ :=
      tag_poll_rx_invalid B env (tag_poll_tx s).1 hrx' (fun h => hv (hvalid.mp h))
    rw [hiter]
    unfold tag_poll_response
    rw [e]
    refine ⟨a1, ?_, by rw [a3, p3], by rw [a2, p4]⟩
    intro ev hev
    rcases List.mem_append.mp hev with h | h
    · exact p6 ev h
    · exact a4 ev h
  · intro hB hv ht1 ht2
    obtain ⟨s', out, e, a1, a2, a3, a4, a5, a6⟩ :=
      tag_poll_rx_valid B env (tag_poll_tx s).1 hB hrx' (hvalid.mpr hv)
    have htx : s'.tx_done = s.tx_done := by rw [a5, p7 ht1]
    have hpair : tag_poll_pair B env s' = (s', []) := by
      unfold tag_poll_pair
      rw [if_neg]
      rintro ⟨h, -⟩
      exact ht2 (htx ▸ h)
    rw [hiter]
    unfold tag_poll_response
    rw [e]
    simp only [hpair, List.append_nil]
    refine ⟨by rw [a4, p5, hstate], a1, a2, by rw [a3, p3], ?_⟩
    intro ev hev
    rcases List.mem_append.mp hev with h | h
    · exact p6 ev h
    · exact a6 ev h
  · intro hB hv
    obtain ⟨u1, u2, u3, u4, u5, -⟩ := tag_poll_accept_undefined B env s hB hstate hrx hv
    exact ⟨u1, u2, u3, u4, u5⟩

/-- Witness of C10: a poll with STS quality -5 takes the telemetry tag to the Error state
without a transmission; the same poll with STS quality 3 is accepted by the tag without
telemetry, and takes the telemetry tag into undefined behaviour with the counter still at 1. -/
theorem C10_tag_poll_validation_witness :
    (poll_pending_state.state = .TWR_POLL_RESPONSE_STATE ∧ poll_pending_state.rx_done = 1)
      ∧ (tag_iteration twr_pdoa_tag bad_sts_env poll_pending_state).1.state = .TWR_ERROR
      ∧ no_frame_transmitted (tag_iteration twr_pdoa_tag bad_sts_env poll_pending_state).2
      ∧ (tag_iteration twr_tag good_sts_env poll_pending_state).1.rx_done = 2
      ∧ (tag_iteration twr_tag good_sts_env poll_pending_state).1.next_sequence_number = 2
      ∧ ¬ defined_behaviour (tag_iteration twr_pdoa_tag good_sts_env poll_pending_state).2
      ∧ (tag_iteration twr_pdoa_tag good_sts_env poll_pending_state).1.next_sequence_number
          = 1 :=
  have h := C10_tag_poll_validation twr_pdoa_tag bad_sts_env poll_pending_state rfl rfl
  have hbad : ¬ spec_poll_valid bad_sts_env poll_pending_state := by
    unfold spec_poll_valid
    rintro ⟨-, h, -⟩
    exact absurd h (by decide)
  have hit := h.2.2.2.2.1 (by decide)
  have g := C10_tag_poll_validation twr_tag good_sts_env poll_pending_state rfl rfl
  have hgood : spec_poll_valid good_sts_env poll_pending_state :=
    ⟨rfl, by decide, rfl, rfl⟩
  have git := g.2.2.2.2.1 (by decide)
  have gacc := g.2.2.1 rfl hgood (by decide) (by decide)
  have u := C10_tag_poll_validation twr_pdoa_tag good_sts_env poll_pending_state rfl rfl
  have uit := u.2.2.2.2.1 (by decide)
  have uund := u.2.2.2.1 rfl hgood
  ⟨⟨rfl, rfl⟩, by rw [hit]; exact (h.2.1 hbad).1, by rw [hit]; exact (h.2.1 hbad).2.1,
    by rw [git]; exact gacc.2.1, by rw [git]; exact gacc.2.2.2.1,
    by rw [uit]; exact uund.2.1, by rw [uit]; exact uund.2.2.1⟩

/-- C11 (as stated, fails): a tag of the telemetry build that waits for the poll in its second
round, with the transmit flag already promoted and the timestamps of the previous round still
stored, receives a poll with STS quality -5.  The iteration ends in the Error state, the next
one is the Error iteration, and the state in which the engine then enters Sync has
`rx_done = 0` but `tx_done = 2` and the three timestamps unchanged, not 0.  In the iteration
after the pause of 200 ms the round timeout does not fire, and the Sync branch sends the next
sync frame with `tx_done` still 2 and the timestamp of the old poll still stored. -/
theorem C11_error_path_keeps_flag_and_timestamps :
    (tag_iteration twr_pdoa_tag bad_sts_env stale_poll_state).1.state = .TWR_ERROR
      ∧ (tag_iteration twr_pdoa_tag bad_sts_env
          (tag_iteration twr_pdoa_tag bad_sts_env stale_poll_state).1).1.state
          = .TWR_SYNC_STATE
      ∧ (tag_iteration twr_pdoa_tag bad_sts_env
          (tag_iteration twr_pdoa_tag bad_sts_env stale_poll_state).1).1.rx_done = 0
      ∧ (tag_iteration twr_pdoa_tag bad_sts_env
          (tag_iteration twr_pdoa_tag bad_sts_env stale_poll_state).1).1.tx_done = 2
      ∧ (tag_iteration twr_pdoa_tag bad_sts_env
          (tag_iteration twr_pdoa_tag bad_sts_env stale_poll_state).1).1.rx_timestamp_poll
          = 68719476736
      ∧ (tag_iteration twr_pdoa_tag bad_sts_env
          (tag_iteration twr_pdoa_tag bad_sts_env stale_poll_state).1).1.tx_timestamp_response
          = 69358456736
      ∧ (tag_iteration twr_pdoa_tag bad_sts_env
          (tag_iteration twr_pdoa_tag bad_sts_env stale_poll_state).1).1.rx_timestamp_final
          = 69997437162
      ∧ sub_u32 after_pause_env.tick_check
          (tag_iteration twr_pdoa_tag bad_sts_env
            (tag_iteration twr_pdoa_tag bad_sts_env stale_poll_state).1).1.last_sync_time
          ≤ twr_pdoa_tag.ranging_timeout
      ∧ (tag_iteration twr_pdoa_tag after_pause_env
          (tag_iteration twr_pdoa_tag bad_sts_env
            (tag_iteration twr_pdoa_tag bad_sts_env stale_poll_state).1).1).1.state
          = .TWR_POLL_RESPONSE_STATE
      ∧ (tag_iteration twr_pdoa_tag after_pause_env
          (tag_iteration twr_pdoa_tag bad_sts_env
            (tag_iteration twr_pdoa_tag bad_sts_env stale_poll_state).1).1).1.tx_done = 2
      ∧ (tag_iteration twr_pdoa_tag after_pause_env
          (tag_iteration twr_pdoa_tag bad_sts_env
            (tag_iteration twr_pdoa_tag bad_sts_env stale_poll_state).1).1).1.rx_timestamp_poll
          = 68719476736 := by
  decide

/-- C11 (amended): after a validation failure in a tag (either build, waiting for the poll or
for the final) or in the anchor (waiting for the sync or for the response), the failing
iteration ends in the Error state without a transmission, and the Error iteration that follows
leads to the Sync state with `rx_done` (`new_frame` on the anchor) equal to 0, while `tx_done`
and the three stored timestamps keep the values they had when the failure was detected (a
transmit-done event found at level 1 by the failing iteration has been promoted to 2 and its
timestamp read): they are not reset.  The two switch branches are the whole iterations when
the round timeout of the tag does not fire at their head. -/
theorem C11_validation_failure_resets_only_rx_flag (B : TagBuild) (env1 env2 : TagEnv)
    (s : TagState) (aenv1 aenv2 : AnchorEnv) (a : AnchorState)
    (hrx : s.rx_done = 1)
    (hfail : (s.state = .TWR_POLL_RESPONSE_STATE
              ∧ ¬ spec_frame_valid (sizeof_twr_base_frame_t + 2) 0x21 env1 s)
            ∨ (s.state = .TWR_FINAL_STATE
              ∧ ¬ spec_frame_valid (sizeof_twr_final_frame_t + 2) 0x23 env1 s))
    (hafail : (a.state = .TWR_SYNC_STATE ∧ a.new_frame ≠ 0 ∧ ¬ spec_anchor_sync_valid aenv1 a)
            ∨ (a.state = .TWR_POLL_RESPONSE_STATE ∧ a.new_frame = 1
              ∧ ¬ spec_anchor_response_valid aenv1 a)) :
    ((tag_branch B env1 s).1.state = .TWR_ERROR
      ∧ no_frame_transmitted (tag_branch B env1 s).2
      ∧ (tag_branch B env2 (tag_branch B env1 s).1).1.state = .TWR_SYNC_STATE
      ∧ (tag_branch B env2 (tag_branch B env1 s).1).1.rx_done = 0
      ∧ (tag_branch B env2 (tag_branch B env1 s).1).1.tx_done
          = (if s.tx_done = 1 then 2 else s.tx_done)
      ∧ (tag_branch B env2 (tag_branch B env1 s).1).1.rx_timestamp_poll = s.rx_timestamp_poll
      ∧ (tag_branch B env2 (tag_branch B env1 s).1).1.tx_timestamp_response
          = (if s.state = .TWR_FINAL_STATE ∧ s.tx_done = 1 then
              decode_40bit_timestamp env1.tx_timestamp
             else s.tx_timestamp_response)
      ∧ (tag_branch B env2 (tag_branch B env1 s).1).1.rx_timestamp_final
          = s.rx_timestamp_final)
      ∧ (sub_u32 env1.tick_check s.last_sync_time ≤ B.ranging_timeout →
          sub_u32 env2.tick_check s.last_sync_time ≤ B.ranging_timeout →
          tag_iteration B env2 (tag_iteration B env1 s).1
            = tag_branch B env2 (tag_branch B env1 s).1)
      ∧ ((anchor_iteration aenv1 a).1.state = .TWR_ERROR
      ∧ anchor_no_frame_transmitted (anchor_iteration aenv1 a).2
      ∧ (anchor_iteration aenv2 (anchor_iteration aenv1 a).1).1.state = .TWR_SYNC_STATE
      ∧ (anchor_iteration aenv2 (anchor_iteration aenv1 a).1).1.new_frame = 0
      ∧ (anchor_iteration aenv2 (anchor_iteration aenv1 a).1).1.tx_done
          = (if a.state = .TWR_POLL_RESPONSE_STATE ∧ a.tx_done = 1 then 2 else a.tx_done)
      ∧ (anchor_iteration aenv2 (anchor_iteration aenv1 a).1).1.tx_timestamp_poll
          = (if a.state = .TWR_POLL_RESPONSE_STATE ∧ a.tx_done = 1 then
              decode_40bit_timestamp aenv1.tx_timestamp
             else a.tx_timestamp_poll)
      ∧ (anchor_iteration aenv2 (anchor_iteration aenv1 a).1).1.rx_timestamp_response
          = a.rx_timestamp_response
      ∧ (anchor_iteration aenv2 (anchor_iteration aenv1 a).1).1.tx_timestamp_final
          = a.tx_timestamp_final) := by
  obtain ⟨t1, hl, t2⟩ := tag_validation_failure B env1 env2 s hrx hfail
  refine ⟨⟨t1, t2⟩, ?_, anchor_validation_failure aenv1 aenv2 a hafail⟩
  intro h1 h2
  rw [tag_iteration_no_timeout B env1 s h1]
  rw [tag_iteration_no_timeout B env2 _ (by rw [hl]; exact h2)]

/-- Witness of C11 (amended): the tag of the counterexample, and an anchor in the Sync state
that receives a frame with function code `0x22`. -/
theorem C11_validation_failure_resets_only_rx_flag_witness :
    (stale_poll_state.rx_done = 1
        ∧ stale_poll_state.state = .TWR_POLL_RESPONSE_STATE
        ∧ ¬ spec_frame_valid (sizeof_twr_base_frame_t + 2) 0x21 bad_sts_env stale_poll_state
        ∧ anchor_pending_state.state = .TWR_SYNC_STATE ∧ anchor_pending_state.new_frame ≠ 0
        ∧ ¬ spec_anchor_sync_valid (anchor_round_env 0x22 3) anchor_pending_state)
      ∧ (tag_branch twr_pdoa_tag bad_sts_env
          (tag_branch twr_pdoa_tag bad_sts_env stale_poll_state).1).1.tx_done = 2
      ∧ (anchor_iteration (anchor_round_env 0x22 3)
          (anchor_iteration (anchor_round_env 0x22 3) anchor_pending_state).1).1.new_frame
          = 0 :=
  have hv : ¬ spec_frame_valid (sizeof_twr_base_frame_t + 2) 0x21 bad_sts_env
      stale_poll_state := by
    rintro ⟨-, h, -⟩
    exact absurd h (by decide)
  have ha : ¬ spec_anchor_sync_valid (anchor_round_env 0x22 3) anchor_pending_state := by
    rintro ⟨-, -, h⟩
    exact absurd h (by decide)
  have h := C11_validation_failure_resets_only_rx_flag twr_pdoa_tag bad_sts_env bad_sts_env
    stale_poll_state (anchor_round_env 0x22 3) (anchor_round_env 0x22 3) anchor_pending_state
    rfl (Or.inl ⟨rfl, hv⟩) (Or.inl ⟨rfl, by decide, ha⟩)
  ⟨⟨rfl, rfl, hv, rfl, by decide, ha⟩, h.1.2.2.2.2.1, h.2.2.2.2.2.1⟩

/-- C12: round timeout on the tag.  The constant `ranging_timeout` is 1000 in the telemetry
build and 2000 in the bare build.  In every state, an iteration of the main loop performs the
timeout reset (it writes the line "Timeout -> reset") if and only if the 32-bit unsigned
difference of the tick reading and `last_sync_time` is strictly greater than
`ranging_timeout`.  When it does, the iteration forces the radio off and is the Sync branch run
on the variables with the three timestamps and both flags at 0 and the state at Sync: the
timestamps and the flags are 0 at its end, the sync frame with the current
`next_sequence_number` is handed to the radio in that same iteration, and the iteration ends in
PollResponse when the radio accepts it (in Error otherwise).  When it does not, the iteration
is the switch branch of the unchanged variables. -/
theorem C12_tag_round_timeout (B : TagBuild) (env : TagEnv) (s : TagState) :
    (twr_pdoa_tag.ranging_timeout = 1000 ∧ twr_tag.ranging_timeout = 2000)
      ∧ (Event.stdio_write "Timeout -> reset\n" ∈ (tag_iteration B env s).2
          ↔ sub_u32 env.tick_check s.last_sync_time > B.ranging_timeout)
      ∧ tag_iteration B env s
          = (if sub_u32 env.tick_check s.last_sync_time > B.ranging_timeout then
              ((tag_sync env (spec_timeout_reset s)).1,
               [.forcetrxoff, .stdio_write "Timeout -> reset\n"]
                 ++ (tag_sync env (spec_timeout_reset s)).2)
             else tag_branch B env s)
      ∧ (tag_sync env (spec_timeout_reset s)).1.rx_timestamp_poll = 0
      ∧ (tag_sync env (spec_timeout_reset s)).1.tx_timestamp_response = 0
      ∧ (tag_sync env (spec_timeout_reset s)).1.rx_timestamp_final = 0
      ∧ (tag_sync env (spec_timeout_reset s)).1.tx_done = 0
      ∧ (tag_sync env (spec_timeout_reset s)).1.rx_done = 0
      ∧ (tag_sync env (spec_timeout_reset s)).1.state
          = (if env.starttx_ok then .TWR_POLL_RESPONSE_STATE else .TWR_ERROR)
      ∧ Event.starttx
            ({ s.sync_frame with sequence_number := s.next_sequence_number }).bytes
            (sizeof_twr_base_frame_t + 2) none env.starttx_ok
          ∈ (tag_sync env (spec_timeout_reset s)).2 := by
  obtain ⟨a1, a2, a3, a4, a5, a6, -, a8⟩ := tag_sync_after_reset env s
  refine ⟨⟨rfl, rfl⟩, tag_iteration_timeout_line B env s, ?_, a1, a2, a3, a4, a5, a6, a8⟩
  by_cases h : sub_u32 env.tick_check s.last_sync_time > B.ranging_timeout
  · rw [if_pos h, tag_iteration_timeout B env s h]
  · rw [if_neg h, tag_iteration_no_timeout B env s (not_lt.mp h)]

/-- C13 (defect of the code in the telemetry build): sequence-number discipline of the tag.  A
successful round is a run that starts in the Sync state, with no accepted frame pending (as in
every Sync state reached from the initial state, `tag_initial_state_no_pending`), with the
iteration that sends the sync frame, and ends with the first return to the Sync state; no round
timeout fires after the first iteration, the Error state is never entered, and the receive
interrupt does not arrive while an accepted frame awaits its pairing (the receiver is re-armed
only by the next transmission).  In every successful round of the build without telemetry
(`application_twr_tag.c`) that starts with `next_sequence_number = n`, the frames sent and
accepted are, in this order and with no other, the sync frame with `seq = n`, the accepted poll
with `seq = n+1`, the response frame with `seq = n+2` and the accepted final with `seq = n+3`
(as 8-bit values), and `next_sequence_number` is `n+4` when the round ends; every iteration of
that build has defined behaviour.  In the telemetry build (`application_twr_pdoa_tag.c`) the
round does not get that far in defined behaviour: the iteration that finds the poll with
`seq = next_sequence_number` announced (no timeout) writes "RX: Poll frame" and calls
`transmit_cir`, whose accumulator read writes past the end of `cir_buffer`, before
`next_sequence_number++; rx_done = 2;`; its behaviour is undefined from that call, with the
counter not yet incremented. -/
theorem C13_tag_sequence_discipline (B : TagBuild) (s : TagState) (steps : List TagStep)
    (env : TagEnv) (t : TagState) :
    (B.telemetry = false → tag_successful_round B s steps →
        tag_log B s steps
            = [.sent .sync s.next_sequence_number,
               .accepted .poll (to_uint8 (s.next_sequence_number.val + 1)),
               .sent .response (to_uint8 (s.next_sequence_number.val + 2)),
               .accepted .final (to_uint8 (s.next_sequence_number.val + 3))]
          ∧ (tag_after B s steps).state = .TWR_SYNC_STATE
          ∧ (tag_after B s steps).next_sequence_number
              = to_uint8 (s.next_sequence_number.val + 4))
      ∧ (B.telemetry = false → defined_behaviour (tag_iteration B env t).2)
      ∧ (B.telemetry = true → t.state = .TWR_POLL_RESPONSE_STATE → t.rx_done = 1 →
          spec_poll_valid env t →
          sub_u32 env.tick_check t.last_sync_time ≤ B.ranging_timeout →
          (tag_iteration B env t).2
              = (tag_poll_tx t).2
                ++ [.stdio_write "RX: Poll frame\n", .print_new_frame t.next_sequence_number,
                    .transmit_rx_diagnostics, .transmit_cir, .undefined_behaviour]
            ∧ ¬ defined_behaviour (tag_iteration B env t).2
            ∧ (tag_iteration B env t).1.next_sequence_number = t.next_sequence_number
            ∧ (tag_iteration B env t).1.rx_done = 0) := by
  refine ⟨fun hB h => tag_round_log B s steps hB h, tag_iteration_defined B env t, ?_⟩
  intro hB hstate hrx hv hnt
  rw [tag_iteration_no_timeout B env t hnt]
  obtain ⟨u1, u2, u3, u4, -⟩ := tag_poll_accept_undefined B env t hB hstate hrx hv
  exact ⟨u1, u2, u3, u4⟩

set_option maxRecDepth 100000 in
/-- Witness of C13: a round of the tag without telemetry that starts with the counter at 254,
so that the sequence numbers wrap: 254, 255, 0, 1, and the counter ends at 2; and the telemetry
tag that has sent its sync frame with `seq = 254` and finds the poll with `seq = 255`
announced: the behaviour of that iteration is undefined, with the counter still at 255. -/
theorem C13_tag_sequence_discipline_witness :
    tag_successful_round twr_tag tag_state_254 (tag_round_steps 254)
      ∧ tag_log twr_tag tag_state_254 (tag_round_steps 254)
          = [.sent .sync 254, .accepted .poll 255, .sent .response 0, .accepted .final 1]
      ∧ (tag_after twr_tag tag_state_254 (tag_round_steps 254)).next_sequence_number = 2
      ∧ tag_log twr_pdoa_tag tag_state_254 [.iteration (round_env 0 0), .tx_done, .rx_ok 12]
          = [.sent .sync 254]
      ∧ ¬ defined_behaviour
          (tag_iteration twr_pdoa_tag (round_env 0x21 255)
            (tag_after twr_pdoa_tag tag_state_254
              [.iteration (round_env 0 0), .tx_done, .rx_ok 12])).2
      ∧ (tag_iteration twr_pdoa_tag (round_env 0x21 255)
            (tag_after twr_pdoa_tag tag_state_254
              [.iteration (round_env 0 0), .tx_done, .rx_ok 12])).1.next_sequence_number
          = 255 :=
  have h : tag_successful_round twr_tag tag_state_254 (tag_round_steps 254) := by decide
  have r := (C13_tag_sequence_discipline twr_tag tag_state_254 (tag_round_steps 254)
    (round_env 0 0) tag_state_254).1 rfl h
  have u := (C13_tag_sequence_discipline twr_pdoa_tag tag_state_254 (tag_round_steps 254)
    (round_env 0x21 255)
    (tag_after twr_pdoa_tag tag_state_254
      [.iteration (round_env 0 0), .tx_done, .rx_ok 12])).2.2 rfl (by decide) (by decide)
    ⟨by decide, by decide, by decide, by decide⟩ (by decide)
  ⟨h, r.1, r.2.2, by decide, u.2.1, u.2.2.1.trans (by decide)⟩

/-- C14 (defect of the code in the telemetry tag; the anchor does as claimed): the anchor's
sequence numbers match the tag's.  A round of the anchor is a run that starts in the Sync state
with the iteration that accepts a sync frame, and lasts until the anchor is back in the Sync
state or in the Error state; the receive interrupt does not arrive while an accepted frame
awaits its pairing.  Let the accepted sync frame carry `seq = n` (any of the 256 values).
Whatever the radio answers, the accepting iteration hands the poll with `seq = n+1` to the
radio and leaves `next_sequence_number` at `n+2` (the counter is seeded with `n+1` and
incremented for the poll).  The observations of every round of the anchor, completed or not,
are an initial part of: the accepted sync with `seq = n`, the poll sent with `n+1`, the
accepted response with `n+2`, the final sent with `n+3`, all as 8-bit values; so a response is
accepted only with `seq = n+2` and a final is sent only with `seq = n+3`.  Those of a
successful round of the anchor are the whole list, and the counter ends at `n+4`.  The list is
exactly what a successful round of a tag without telemetry (`application_twr_tag.c`) whose
sync frame carried `n` shows, with sent and accepted exchanged: that tag expects `n+1` for the
poll, sends the response with `n+2` and expects `n+3` for the final.  The telemetry tag
(`application_twr_pdoa_tag.c`) checks the poll against the same value, but the iteration that
finds the poll with `seq = next_sequence_number` announced calls `transmit_cir`, whose
accumulator read writes past the end of `cir_buffer`, before it increments the counter: its
behaviour is undefined from that call, so the values that tag sends and expects afterwards are
not determined by the source. -/
theorem C14_anchor_sequence_numbers_match (a : AnchorState) (env : AnchorEnv)
    (rest : List AnchorStep) (ha : anchor_round a (.iteration env :: rest)) :
    ((anchor_iteration env a).1.next_sequence_number
          = to_uint8 ((rx_sequence_number env.rx_frame).val + 2)
        ∧ AnchorEvent.starttx
            ({ a.poll_frame with
                sequence_number := to_uint8 ((rx_sequence_number env.rx_frame).val + 1) }).bytes
            (sizeof_twr_base_frame_t + 2) none env.starttx_ok
          ∈ (anchor_iteration env a).2)
      ∧ anchor_log a (.iteration env :: rest)
          <+: [.accepted .sync (rx_sequence_number env.rx_frame),
               .sent .poll (to_uint8 ((rx_sequence_number env.rx_frame).val + 1)),
               .accepted .response (to_uint8 ((rx_sequence_number env.rx_frame).val + 2)),
               .sent .final (to_uint8 ((rx_sequence_number env.rx_frame).val + 3))]
      ∧ (anchor_successful_round a (.iteration env :: rest) →
          anchor_log a (.iteration env :: rest)
              = [.accepted .sync (rx_sequence_number env.rx_frame),
                 .sent .poll (to_uint8 ((rx_sequence_number env.rx_frame).val + 1)),
                 .accepted .response (to_uint8 ((rx_sequence_number env.rx_frame).val + 2)),
                 .sent .final (to_uint8 ((rx_sequence_number env.rx_frame).val + 3))]
            ∧ (anchor_after a (.iteration env :: rest)).next_sequence_number
              = to_uint8 ((rx_sequence_number env.rx_frame).val + 4))
      ∧ (∀ (B : TagBuild) (t : TagState) (tsteps : List TagStep),
          B.telemetry = false →
          tag_successful_round B t tsteps →
          t.next_sequence_number = rx_sequence_number env.rx_frame →
          (tag_log B t tsteps).map SeqObs.mirror
            = [.accepted .sync (rx_sequence_number env.rx_frame),
               .sent .poll (to_uint8 ((rx_sequence_number env.rx_frame).val + 1)),
               .accepted .response (to_uint8 ((rx_sequence_number env.rx_frame).val + 2)),
               .sent .final (to_uint8 ((rx_sequence_number env.rx_frame).val + 3))])
      ∧ (∀ (B : TagBuild) (tenv : TagEnv) (t : TagState),
          B.telemetry = true →
          t.state = .TWR_POLL_RESPONSE_STATE → t.rx_done = 1 →
          spec_poll_valid tenv t →
          sub_u32 tenv.tick_check t.last_sync_time ≤ B.ranging_timeout →
          ¬ defined_behaviour (tag_iteration B tenv t).2
            ∧ (tag_iteration B tenv t).1.next_sequence_number = t.next_sequence_number) := by
  have hp := anchor_round_log_prefix a env rest ha
  obtain ⟨hs, hnf, hv, -⟩ := ha
  obtain ⟨-, -, b3, -, b5⟩ := anchor_sync_valid env a hnf hv
  refine ⟨⟨?_, ?_⟩, hp, ?_, ?_, ?_⟩
  · rw [anchor_iteration_sync env a hs]
    exact b3
  · rw [anchor_iteration_sync env a hs]
    exact b5
  · intro hsucc
    obtain ⟨a1, -, a3⟩ := anchor_round_log a env rest hsucc
    exact ⟨a1, a3⟩
  · intro B t tsteps hB ht hn
    obtain ⟨t1, -, -⟩ := tag_round_log B t tsteps hB ht
    rw [t1, hn]
    rfl
  · intro B tenv t hB hstate hrx hvt hnt
    rw [tag_iteration_no_timeout B tenv t hnt]
    obtain ⟨-, u2, u3, -⟩ := tag_poll_accept_undefined B tenv t hB hstate hrx hvt
    exact ⟨u2, u3⟩

set_option maxRecDepth 100000 in
/-- Witness of C14: the successful round of an anchor that accepts the sync frame with
`seq = 254`, next to the successful round of a tag without telemetry with its counter at 254;
the sequence numbers wrap past 255.  The telemetry tag that has sent the sync frame with
`seq = 254` and finds the anchor's poll with `seq = 255` announced runs into undefined
behaviour. -/
theorem C14_anchor_sequence_numbers_match_witness :
    (anchor_round anchor_pending_state
          (.iteration (anchor_round_env 0x20 254) :: anchor_round_steps 254)
        ∧ anchor_successful_round anchor_pending_state
            (.iteration (anchor_round_env 0x20 254) :: anchor_round_steps 254)
        ∧ tag_successful_round twr_tag tag_state_254 (tag_round_steps 254))
      ∧ anchor_log anchor_pending_state
            (.iteration (anchor_round_env 0x20 254) :: anchor_round_steps 254)
          = [.accepted .sync 254, .sent .poll 255, .accepted .response 0, .sent .final 1]
      ∧ (tag_log twr_tag tag_state_254 (tag_round_steps 254)).map SeqObs.mirror
          = [.accepted .sync 254, .sent .poll 255, .accepted .response 0, .sent .final 1]
      ∧ ¬ defined_behaviour
          (tag_iteration twr_pdoa_tag (round_env 0x21 255)
            (tag_after twr_pdoa_tag tag_state_254
              [.iteration (round_env 0 0), .tx_done, .rx_ok 12])).2 :=
  have ht : tag_successful_round twr_tag tag_state_254 (tag_round_steps 254) := by decide
  have ha : anchor_round anchor_pending_state
      (.iteration (anchor_round_env 0x20 254) :: anchor_round_steps 254) := by decide
  have hs : anchor_successful_round anchor_pending_state
      (.iteration (anchor_round_env 0x20 254) :: anchor_round_steps 254) := by decide
  have r := C14_anchor_sequence_numbers_match anchor_pending_state (anchor_round_env 0x20 254)
    (anchor_round_steps 254) ha
  ⟨⟨ha, hs, ht⟩, (r.2.2.1 hs).1,
    r.2.2.2.1 twr_tag tag_state_254 (tag_round_steps 254) rfl ht rfl,
    (r.2.2.2.2 twr_pdoa_tag (round_env 0x21 255)
      (tag_after twr_pdoa_tag tag_state_254 [.iteration (round_env 0 0), .tx_done, .rx_ok 12])
      rfl (by decide) (by decide) ⟨by decide, by decide, by decide, by decide⟩
      (by decide)).1⟩

set_option maxRecDepth 100000 in
/-- C15 (as stated, fails): in the successful round of the tag without telemetry that starts
with the 8-bit counter at 254, the sync frame carries `seq = 254` and the response frame
carries `seq = 0`, which is not strictly greater; and in the successful round of the anchor
that accepts the sync frame with `seq = 253`, the poll frame carries `seq = 254` and the final
frame carries `seq = 0`. -/
theorem C15_later_seq_wraps_below_earlier_seq :
    tag_successful_round twr_tag tag_state_254 (tag_round_steps 254)
      ∧ tag_log twr_tag tag_state_254 (tag_round_steps 254)
          = [.sent .sync 254, .accepted .poll 255, .sent .response 0, .accepted .final 1]
      ∧ anchor_successful_round anchor_pending_state
          (.iteration (anchor_round_env 0x20 253) :: anchor_round_steps 253)
      ∧ anchor_log anchor_pending_state
            (.iteration (anchor_round_env 0x20 253) :: anchor_round_steps 253)
          = [.accepted .sync 253, .sent .poll 254, .accepted .response 255, .sent .final 0]
      ∧ ¬ ((254 : Byte) < 0) := by
  decide

/-- C15 (amended): within every round, completed or not, and for every initial value of the
8-bit counter, the `seq` values of the two frames a node sends differ, and the later one is the
earlier one plus 2 modulo 256: when a tag without telemetry (`application_twr_tag.c`) has sent
its sync frame with `seq = x` and its response frame with `seq = y` then
`y = (x + 2) mod 256`, and when the anchor has sent its poll frame with `seq = x` and its final
frame with `seq = y` then `y = (x + 2) mod 256`.  The later `seq` is strictly greater than the
earlier one exactly when the earlier one is at most 253. -/
theorem C15_sent_seq_advances_by_two_mod_256 (B : TagBuild) (t : TagState)
    (tsteps : List TagStep) (a : AnchorState) (asteps : List AnchorStep)
    (hB : B.telemetry = false) (ht : tag_round B t tsteps) (ha : anchor_round a asteps) :
    (∀ x y, SeqObs.sent .sync x ∈ tag_log B t tsteps →
        SeqObs.sent .response y ∈ tag_log B t tsteps →
        y = to_uint8 (x.val + 2) ∧ y ≠ x ∧ (x < y ↔ x.val ≤ 253))
      ∧ (∀ x y, SeqObs.sent .poll x ∈ anchor_log a asteps →
        SeqObs.sent .final y ∈ anchor_log a asteps →
        y = to_uint8 (x.val + 2) ∧ y ≠ x ∧ (x < y ↔ x.val ≤ 253)) := by
  constructor
  · intro x y hx hy
    have hp := tag_round_log_prefix B t tsteps hB ht
    have hx' := hp.subset hx
    have hy' := hp.subset hy
    simp only [List.mem_cons, SeqObs.sent.injEq, List.mem_nil_iff, or_false, reduceCtorEq,
      false_and, and_false, false_or, or_false, true_and] at hx' hy'
    subst hx' hy'
    exact ⟨rfl, (byte_add_two _).1, (byte_add_two _).2⟩
  · intro x y hx hy
    cases asteps with
    | nil => exact absurd ha (by simp [anchor_round])
    | cons st rest =>
      cases st with
      | iteration env =>
        have hp := anchor_round_log_prefix a env rest ha
        have hx' := hp.subset hx
        have hy' := hp.subset hy
        simp only [List.mem_cons, SeqObs.sent.injEq, List.mem_nil_iff, or_false, reduceCtorEq,
          false_and, and_false, false_or, or_false, true_and] at hx' hy'
        subst hx' hy'
        rw [← to_uint8_add ((rx_sequence_number env.rx_frame).val + 1) 2]
        exact ⟨rfl, (byte_add_two _).1, (byte_add_two _).2⟩
      | tx_done => exact absurd ha (by simp [anchor_round])
      | rx_ok n => exact absurd ha (by simp [anchor_round])

set_option maxRecDepth 100000 in
/-- Witness of C15 (amended): the rounds of a tag without telemetry with its counter at 254
and of an anchor that accepts the sync frame with `seq = 253`; the tag sends its sync frame
with `seq = 254` and its response frame with `seq = 0`, the anchor its poll frame with
`seq = 254` and its final frame with `seq = 0`. -/
theorem C15_sent_seq_advances_by_two_mod_256_witness :
    (twr_tag.telemetry = false
        ∧ tag_round twr_tag tag_state_254 (tag_round_steps 254)
        ∧ anchor_round anchor_pending_state
            (.iteration (anchor_round_env 0x20 253) :: anchor_round_steps 253)
        ∧ SeqObs.sent .sync 254 ∈ tag_log twr_tag tag_state_254 (tag_round_steps 254)
        ∧ SeqObs.sent .response 0 ∈ tag_log twr_tag tag_state_254 (tag_round_steps 254)
        ∧ SeqObs.sent .poll 254 ∈ anchor_log anchor_pending_state
            (.iteration (anchor_round_env 0x20 253) :: anchor_round_steps 253)
        ∧ SeqObs.sent .final 0 ∈ anchor_log anchor_pending_state
            (.iteration (anchor_round_env 0x20 253) :: anchor_round_steps 253))
      ∧ ((0 : Byte) = to_uint8 ((254 : Byte).val + 2) ∧ (0 : Byte) ≠ 254
          ∧ ((254 : Byte) < 0 ↔ (254 : Byte).val ≤ 253))
      ∧ ((0 : Byte) = to_uint8 ((254 : Byte).val + 2) ∧ (0 : Byte) ≠ 254
          ∧ ((254 : Byte) < 0 ↔ (254 : Byte).val ≤ 253)) :=
  have ht : tag_round twr_tag tag_state_254 (tag_round_steps 254) := by decide
  have ha : anchor_round anchor_pending_state
      (.iteration (anchor_round_env 0x20 253) :: anchor_round_steps 253) := by decide
  have hx : SeqObs.sent .sync 254
      ∈ tag_log twr_tag tag_state_254 (tag_round_steps 254) := by decide
  have hy : SeqObs.sent .response 0
      ∈ tag_log twr_tag tag_state_254 (tag_round_steps 254) := by decide
  have hp : SeqObs.sent .poll 254 ∈ anchor_log anchor_pending_state
      (.iteration (anchor_round_env 0x20 253) :: anchor_round_steps 253) := by decide
  have hf : SeqObs.sent .final 0 ∈ anchor_log anchor_pending_state
      (.iteration (anchor_round_env 0x20 253) :: anchor_round_steps 253) := by decide
  have r := C15_sent_seq_advances_by_two_mod_256 twr_tag tag_state_254 (tag_round_steps 254)
    anchor_pending_state (.iteration (anchor_round_env 0x20 253) :: anchor_round_steps 253)
    rfl ht ha
  ⟨⟨rfl, ht, ha, hx, hy, hp, hf⟩, r.1 254 0 hx hy, r.2 254 0 hp hf⟩

/-- C16 (as stated, fails): a frame whose first two bytes are `0x00 0x00` instead of
`0x41 0x88`, with length, STS quality, function code and sequence number as expected, is not
rejected.  The anchor in the Sync state accepts such a sync frame: the iteration sends the
poll and ends in the PollResponse state.  The tag without telemetry accepts such a poll: the
iteration ends in the PollResponse state with the receive flag at level 2 and the counter
advanced.  The telemetry tag passes such a poll through its four checks as well: the
iteration writes "RX: Poll frame", not an error line. -/
theorem C16_frame_with_wrong_frame_control_is_accepted :
    ((anchor_round_env 0x20 254).rx_frame 0 = 0 ∧ (anchor_round_env 0x20 254).rx_frame 1 = 0
        ∧ spec_anchor_sync_valid (anchor_round_env 0x20 254) anchor_pending_state
        ∧ (anchor_iteration (anchor_round_env 0x20 254) anchor_pending_state).1.state
            = .TWR_POLL_RESPONSE_STATE
        ∧ anchor_log anchor_pending_state [.iteration (anchor_round_env 0x20 254)]
            = [.accepted .sync 254, .sent .poll 255])
      ∧ ((round_env 0x21 1).rx_frame 0 = 0 ∧ (round_env 0x21 1).rx_frame 1 = 0
        ∧ spec_frame_valid (sizeof_twr_base_frame_t + 2) 0x21 (round_env 0x21 1)
            poll_pending_state
        ∧ (tag_iteration twr_tag (round_env 0x21 1) poll_pending_state).1.state
            = .TWR_POLL_RESPONSE_STATE
        ∧ (tag_iteration twr_tag (round_env 0x21 1) poll_pending_state).1.rx_done = 2
        ∧ (tag_iteration twr_tag (round_env 0x21 1) poll_pending_state).1.next_sequence_number
            = 2)
      ∧ (tag_iteration twr_pdoa_tag (round_env 0x21 1) poll_pending_state).2.head?
          = some (.stdio_write "RX: Poll frame\n") := by
  refine ⟨by decide, by decide, rfl⟩

/-- C16 (amended): the first two bytes of a received frame are not examined.  Take any received
frame and replace its first two bytes by arbitrary values `c0`, `c1`.  In each of the four
receiving places (the tag waiting for the poll or for the final, the anchor waiting for the
sync or for the response) the frame ends the iteration in the Error state exactly when its
reported length, STS quality, function code or sequence number is not as expected (the anchor
does not check the sequence number of the sync frame); a frame with these four as expected is
not rejected in either tag build, and it is accepted by the anchor and by the tag without
telemetry (`application_twr_tag.c`); the values `c0`, `c1` play no part. -/
theorem C16_frame_control_is_not_examined (B : TagBuild) (env : TagEnv) (s : TagState)
    (aenv : AnchorEnv) (a : AnchorState) (c0 c1 : Byte)
    (hrx : s.rx_done = 1) (hnew : a.new_frame = 1) :
    (B.telemetry = false → spec_frame_valid (sizeof_twr_base_frame_t + 2) 0x21 env s →
        ∃ s' out, tag_poll_rx B { env with rx_frame := with_frame_control env.rx_frame c0 c1 } s
            = .fall_through s' out
          ∧ s'.rx_done = 2 ∧ s'.state = s.state)
      ∧ (spec_frame_valid (sizeof_twr_base_frame_t + 2) 0x21 env s →
        ∀ s' out, tag_poll_rx B { env with rx_frame := with_frame_control env.rx_frame c0 c1 } s
            ≠ .continue_loop s' out)
      ∧ (¬ spec_frame_valid (sizeof_twr_base_frame_t + 2) 0x21 env s →
        ∃ s' out, tag_poll_rx B { env with rx_frame := with_frame_control env.rx_frame c0 c1 } s
            = .continue_loop s' out
          ∧ s'.state = .TWR_ERROR)
      ∧ (B.telemetry = false → spec_frame_valid (sizeof_twr_final_frame_t + 2) 0x23 env s →
        ∃ s' out, tag_final_rx B { env with rx_frame := with_frame_control env.rx_frame c0 c1 } s
            = .fall_through s' out
          ∧ s'.rx_done = 2 ∧ s'.state = s.state)
      ∧ (spec_frame_valid (sizeof_twr_final_frame_t + 2) 0x23 env s →
        ∀ s' out, tag_final_rx B { env with rx_frame := with_frame_control env.rx_frame c0 c1 } s
            ≠ .continue_loop s' out)
      ∧ (¬ spec_frame_valid (sizeof_twr_final_frame_t + 2) 0x23 env s →
        ∃ s' out, tag_final_rx B { env with rx_frame := with_frame_control env.rx_frame c0 c1 } s
            = .continue_loop s' out
          ∧ s'.state = .TWR_ERROR)
      ∧ (spec_anchor_sync_valid aenv a →
        AnchorEvent.stdio_write "RX: Sync frame\n"
            ∈ (anchor_sync { aenv with rx_frame := with_frame_control aenv.rx_frame c0 c1 } a).2
          ∧ (anchor_sync { aenv with rx_frame := with_frame_control aenv.rx_frame c0 c1 } a).1.state
            = (if aenv.starttx_ok then .TWR_POLL_RESPONSE_STATE else .TWR_ERROR))
      ∧ (¬ spec_anchor_sync_valid aenv a →
        (anchor_sync { aenv with rx_frame := with_frame_control aenv.rx_frame c0 c1 } a).1.state
            = .TWR_ERROR
          ∧ anchor_no_frame_transmitted
            (anchor_sync { aenv with rx_frame := with_frame_control aenv.rx_frame c0 c1 } a).2)
      ∧ (spec_anchor_response_valid aenv a →
        ∃ a' out, anchor_response_rx
              { aenv with rx_frame := with_frame_control aenv.rx_frame c0 c1 } a
            = .fall_through a' out
          ∧ a'.new_frame = 2 ∧ a'.state = a.state)
      ∧ (¬ spec_anchor_response_valid aenv a →
        ∃ a' out, anchor_response_rx
              { aenv with rx_frame := with_frame_control aenv.rx_frame c0 c1 } a
            = .continue_loop a' out
          ∧ a'.state = .TWR_ERROR) := by
  have hnf : a.new_frame ≠ 0 := by rw [hnew]; decide
  refine ⟨?_, ?_, ?_, ?_, ?_, ?_, ?_, ?_, ?_, ?_⟩
  · intro hB hv
    exact ⟨_, _, tag_poll_rx_accepts B _ s hB hrx
      ((spec_frame_valid_frame_control _ _ env s c0 c1).mpr hv), rfl, rfl⟩
  · intro hv
    exact tag_rx_block_valid_not_rejected B
      { env with rx_frame := with_frame_control env.rx_frame c0 c1 }
      (sizeof_twr_base_frame_t + 2) 0x21
      "RX ERR: wrong frame (expected poll)\n" "RX: Poll frame\n"
      (fun t ts => { t with rx_timestamp_poll := ts }) s (by decide) (by decide)
      ((spec_frame_valid_frame_control _ _ env s c0 c1).mpr hv)
  · intro hv
    obtain ⟨buf, text, e, -⟩ := tag_rx_block_invalid B
      { env with rx_frame := with_frame_control env.rx_frame c0 c1 }
      (sizeof_twr_base_frame_t + 2) 0x21
      "RX ERR: wrong frame (expected poll)\n" "RX: Poll frame\n"
      (fun t ts => { t with rx_timestamp_poll := ts }) s (by decide) (by decide) hrx
      (fun h => hv ((spec_frame_valid_frame_control _ _ env s c0 c1).mp h))
    exact ⟨_, _, e, rfl⟩
  · intro hB hv
    exact ⟨_, _, tag_final_rx_accepts B _ s hB hrx
      ((spec_frame_valid_frame_control _ _ env s c0 c1).mpr hv), rfl, rfl⟩
  · intro hv
    exact tag_rx_block_valid_not_rejected B
      { env with rx_frame := with_frame_control env.rx_frame c0 c1 }
      (sizeof_twr_final_frame_t + 2) 0x23
      "RX ERR: wrong frame (expected final)\n" "RX: Final frame\n"
      (fun t ts => { t with rx_timestamp_final := ts }) s (by decide) (by decide)
      ((spec_frame_valid_frame_control _ _ env s c0 c1).mpr hv)
  · intro hv
    obtain ⟨buf, text, e, -⟩ := tag_rx_block_invalid B
      { env with rx_frame := with_frame_control env.rx_frame c0 c1 }
      (sizeof_twr_final_frame_t + 2) 0x23
      "RX ERR: wrong frame (expected final)\n" "RX: Final frame\n"
      (fun t ts => { t with rx_timestamp_final := ts }) s (by decide) (by decide) hrx
      (fun h => hv ((spec_frame_valid_frame_control _ _ env s c0 c1).mp h))
    exact ⟨_, _, e, rfl⟩
  · intro hv
    obtain ⟨b1, -, -, b4, -⟩ := anchor_sync_valid _ a hnf
      ((spec_anchor_sync_valid_frame_control aenv a c0 c1).mpr hv)
    exact ⟨b4, b1⟩
  · intro hv
    obtain ⟨b1, -, -, -, -, -, -, b8⟩ := anchor_sync_invalid
      { aenv with rx_frame := with_frame_control aenv.rx_frame c0 c1 } a hnf
      (fun h => hv ((spec_anchor_sync_valid_frame_control aenv a c0 c1).mp h))
    exact ⟨b1, b8⟩
  · intro hv
    exact ⟨_, _, anchor_response_rx_accepts _ a hnew
      ((spec_anchor_response_valid_frame_control aenv a c0 c1).mpr hv), rfl, rfl⟩
  · intro hv
    obtain ⟨buf, text, e⟩ := anchor_response_rx_invalid
      { aenv with rx_frame := with_frame_control aenv.rx_frame c0 c1 } a hnew
      (fun h => hv ((spec_anchor_response_valid_frame_control aenv a c0 c1).mp h))
    exact ⟨_, _, e, rfl⟩

/-- Witness of C16 (amended): a valid poll presented to the tag without telemetry, and a valid
sync frame presented to the anchor, each with the first two bytes replaced by `0x12 0x34`. -/
theorem C16_frame_control_is_not_examined_witness :
    (poll_pending_state.rx_done = 1 ∧ anchor_pending_state.new_frame = 1
        ∧ twr_tag.telemetry = false
        ∧ spec_frame_valid (sizeof_twr_base_frame_t + 2) 0x21 (round_env 0x21 1)
            poll_pending_state
        ∧ spec_anchor_sync_valid (anchor_round_env 0x20 254) anchor_pending_state)
      ∧ (∃ s' out, tag_poll_rx twr_tag
            { round_env 0x21 1 with
                rx_frame := with_frame_control (round_env 0x21 1).rx_frame 0x12 0x34 }
            poll_pending_state
          = .fall_through s' out
        ∧ s'.rx_done = 2 ∧ s'.state = poll_pending_state.state)
      ∧ (anchor_sync
            { anchor_round_env 0x20 254 with
                rx_frame := with_frame_control (anchor_round_env 0x20 254).rx_frame 0x12 0x34 }
            anchor_pending_state).1.state
          = .TWR_POLL_RESPONSE_STATE :=
  have hv : spec_frame_valid (sizeof_twr_base_frame_t + 2) 0x21 (round_env 0x21 1)
      poll_pending_state := ⟨rfl, by decide, rfl, rfl⟩
  have ha : spec_anchor_sync_valid (anchor_round_env 0x20 254) anchor_pending_state :=
    ⟨rfl, by decide, rfl⟩
  have r := C16_frame_control_is_not_examined twr_tag (round_env 0x21 1) poll_pending_state
    (anchor_round_env 0x20 254) anchor_pending_state 0x12 0x34 rfl rfl
  ⟨⟨rfl, rfl, rfl, hv, ha⟩, r.1 rfl hv, (r.2.2.2.2.2.2.1 ha).2⟩

/-- C17: anchor, wrong function code.  When the anchor is in the Sync state and a frame has been
announced (`new_frame` is not 0) with the reported length `sizeof(twr_base_frame_t)+2`, the STS
quality is at least 0 and the function code of the frame is not `0x20`, the iteration ends in
the Error state, `dwt_starttx` is not called (no poll frame is transmitted),
`next_sequence_number` is unchanged, and the only output is the line
"RX ERR: wrong frame (expected sync)". -/
theorem C17_anchor_wrong_function_code (env : AnchorEnv) (s : AnchorState)
    (hstate : s.state = .TWR_SYNC_STATE) (hnew : s.new_frame ≠ 0)
    (hlen : s.new_frame_length = sizeof_twr_base_frame_t + 2) (hsts : 0 ≤ env.sts_quality)
    (hcode : rx_twr_function_code env.rx_frame ≠ 0x20) :
    (anchor_iteration env s).1.state = .TWR_ERROR
      ∧ (∀ data len delayed ok,
          AnchorEvent.starttx data len delayed ok ∉ (anchor_iteration env s).2)
      ∧ (anchor_iteration env s).1.next_sequence_number = s.next_sequence_number
      ∧ (anchor_iteration env s).2
          = [.stdio_write "RX ERR: wrong frame (expected sync)\n"] := by
  have h9 : (9 : Nat) < sizeof_twr_base_frame_t + 2 := by decide
  unfold rx_twr_function_code at hcode
  rw [anchor_iteration_sync env s hstate]
  unfold anchor_sync
  simp [hnew, hlen, not_lt.mpr hsts, hcode, rx_twr_function_code, dwt_readrxdata, h9]

/-- Witness of C17: a frame with function code `0x22` received by an anchor whose counter is
at 7. -/
theorem C17_anchor_wrong_function_code_witness :
    (anchor_pending_state.state = .TWR_SYNC_STATE ∧ anchor_pending_state.new_frame ≠ 0
        ∧ anchor_pending_state.new_frame_length = sizeof_twr_base_frame_t + 2
        ∧ 0 ≤ (anchor_round_env 0x22 3).sts_quality
        ∧ rx_twr_function_code (anchor_round_env 0x22 3).rx_frame ≠ 0x20)
      ∧ (anchor_iteration (anchor_round_env 0x22 3) anchor_pending_state).1.state = .TWR_ERROR
      ∧ (anchor_iteration (anchor_round_env 0x22 3) anchor_pending_state).1.next_sequence_number
          = 7 :=
  have h := C17_anchor_wrong_function_code (anchor_round_env 0x22 3) anchor_pending_state
    rfl (by decide) rfl (by decide) (by decide)
  ⟨⟨rfl, by decide, rfl, by decide, by decide⟩, h.1, h.2.2.1⟩

set_option maxRecDepth 100000 in
/-- C18 (as stated, fails): a tag without telemetry in the PollResponse state with both flags
at 0 sees the transmit-done interrupt, then the receive interrupt of a valid poll, and no
timeout; in the first iteration after both the radio refuses the delayed transmission
(`dwt_starttx` does not return `DWT_SUCCESS`).  That iteration ends in the Error state, not in
the Final state, and no frame is transmitted.  The pairing block of the telemetry tag has the
same guard: entered with both flags at level 2 and refused by the radio, it ends in the Error
state with nothing transmitted. -/
theorem C18_refused_response_ends_in_error :
    poll_waiting_state.state = .TWR_POLL_RESPONSE_STATE
      ∧ poll_waiting_state.tx_done = 0 ∧ poll_waiting_state.rx_done = 0
      ∧ spec_frame_valid (sizeof_twr_base_frame_t + 2) 0x21 refused_env
          (tag_after twr_tag poll_waiting_state (poll_interleaving true [] []))
      ∧ sub_u32 refused_env.tick_check poll_waiting_state.last_sync_time
          ≤ twr_tag.ranging_timeout
      ∧ (tag_iteration twr_tag refused_env
          (tag_after twr_tag poll_waiting_state (poll_interleaving true [] []))).1.state
          = .TWR_ERROR
      ∧ ((tag_iteration twr_tag refused_env
          (tag_after twr_tag poll_waiting_state
            (poll_interleaving true [] []))).2.filter Event.is_tx).length = 0
      ∧ (tag_poll_pair twr_pdoa_tag refused_env
          { poll_waiting_state with tx_done := 2, rx_done := 2 }).1.state = .TWR_ERROR
      ∧ ((tag_poll_pair twr_pdoa_tag refused_env
          { poll_waiting_state with tx_done := 2, rx_done := 2 }).2.filter
            Event.is_tx).length = 0 := by
  decide

/-- C18 (amended): order independence of the two-level flag protocol.  A tag without telemetry
(`application_twr_tag.c`) is in the PollResponse state with `tx_done = rx_done = 0`.  An
interleaving consists of any iterations `pre`, the first interrupt, any iterations `mid`, the
second interrupt and the iteration `last`; one interrupt is the transmit-done one, the other
announces a frame of `sizeof(twr_base_frame_t)+2` bytes; no timeout fires; the iterations that
run after the receive interrupt are answered with the same poll frame (function code `0x21`,
sequence number `next_sequence_number`, STS quality at least 0) and receive timestamp.  Then no
step before `last` transmits a frame or leaves the PollResponse state.  The iteration `last`
hands the response frame to the radio once; it leaves both flags at 0, and it ends in the
Final state with the response transmitted exactly once when the radio accepts the delayed
transmission, and in the Error state with nothing transmitted when the radio refuses it.  The
resulting variables are those of `tag_paired_state`, which does not depend on which interrupt
came first nor on the number of iterations in between.  In every build the pairing block,
entered with both flags at level 2, resets both flags, hands the response to the radio once,
and ends in the Final state with one transmission when the radio accepts it and in the Error
state with none when it refuses. -/
theorem C18_flag_protocol_order_independent (B : TagBuild) (s : TagState)
    (frame : Nat → Byte) (ts : Fin 5 → Byte) (tx_first : Bool) (pre mid : List TagEnv)
    (last : TagEnv) (hB : B.telemetry = false)
    (hstate : s.state = .TWR_POLL_RESPONSE_STATE) (htx : s.tx_done = 0) (hrx : s.rx_done = 0)
    (hnt : ∀ env ∈ pre ++ mid ++ [last],
      sub_u32 env.tick_check s.last_sync_time ≤ B.ranging_timeout)
    (hcode : rx_twr_function_code frame = 0x21)
    (hseq : rx_sequence_number frame = s.next_sequence_number)
    (hpres : ∀ env ∈ (if tx_first then [] else mid) ++ [last], presents_frame frame ts env) :
    (∀ r ∈ tag_trace B s (poll_interleaving tx_first pre mid),
        r.1.state = .TWR_POLL_RESPONSE_STATE ∧ no_frame_transmitted r.2)
      ∧ (tag_iteration B last (tag_after B s (poll_interleaving tx_first pre mid))).1
          = tag_paired_state s frame ts last.starttx_ok
      ∧ (tag_iteration B last
            (tag_after B s (poll_interleaving tx_first pre mid))).2.filter Event.is_tx
          = paired_transmissions B s ts last.starttx_ok
      ∧ (tag_paired_state s frame ts last.starttx_ok).tx_done = 0
      ∧ (tag_paired_state s frame ts last.starttx_ok).rx_done = 0
      ∧ (tag_paired_state s frame ts last.starttx_ok).state
          = (if last.starttx_ok then .TWR_FINAL_STATE else .TWR_ERROR)
      ∧ (paired_transmissions B s ts last.starttx_ok).length
          = (if last.starttx_ok then 1 else 0)
      ∧ (∀ (build : TagBuild) (env : TagEnv) (t : TagState),
          t.tx_done = 2 → t.rx_done = 2 →
          (tag_poll_pair build env t).1.tx_done = 0
            ∧ (tag_poll_pair build env t).1.rx_done = 0
            ∧ (tag_poll_pair build env t).1.state
                = (if env.starttx_ok then .TWR_FINAL_STATE else .TWR_ERROR)
            ∧ ((tag_poll_pair build env t).2.filter Event.is_tx).length
                = (if env.starttx_ok then 1 else 0)) := by
  obtain ⟨h1, h2, h3⟩ :=
    tag_poll_interleaving B s frame ts tx_first pre mid last hB hstate htx hrx hnt hcode hseq
      hpres
  refine ⟨h1, h2, h3, rfl, rfl, rfl, ?_, ?_⟩
  · unfold paired_transmissions
    split <;> rfl
  · intro build env t ht hr
    unfold tag_poll_pair
    by_cases hok : env.starttx_ok = true <;> simp [ht, hr, hok, Event.is_tx]

/-- Witness of C18 (amended): in a tag without telemetry, the receive interrupt first, an
iteration that accepts the poll, the transmit-done interrupt, and the pairing iteration. -/
theorem C18_flag_protocol_order_independent_witness :
    (twr_tag.telemetry = false
        ∧ poll_waiting_state.state = .TWR_POLL_RESPONSE_STATE
        ∧ poll_waiting_state.tx_done = 0 ∧ poll_waiting_state.rx_done = 0
        ∧ rx_twr_function_code (round_env 0x21 1).rx_frame = 0x21
        ∧ rx_sequence_number (round_env 0x21 1).rx_frame
            = poll_waiting_state.next_sequence_number)
      ∧ (tag_iteration twr_tag (round_env 0x21 1)
          (tag_after twr_tag poll_waiting_state
            (poll_interleaving false [round_env 0 0] [round_env 0x21 1]))).1
          = tag_paired_state poll_waiting_state (round_env 0x21 1).rx_frame (fun _ => 0) true :=
  have hnt : ∀ env ∈ [round_env 0 0] ++ [round_env 0x21 1] ++ [round_env 0x21 1],
      sub_u32 env.tick_check poll_waiting_state.last_sync_time
        ≤ twr_tag.ranging_timeout := by
    intro env h
    simp only [List.cons_append, List.nil_append, List.mem_cons, List.mem_singleton,
      List.mem_nil_iff, or_false] at h
    rcases h with rfl | rfl | rfl <;> decide
  have hpres : ∀ env ∈ (if false = true then [] else [round_env 0x21 1]) ++ [round_env 0x21 1],
      presents_frame (round_env 0x21 1).rx_frame (fun _ => 0) env := by
    intro env h
    simp only [Bool.false_eq_true, if_false, List.cons_append, List.nil_append, List.mem_cons,
      List.mem_singleton, List.mem_nil_iff, or_false, or_self] at h
    subst h
    exact ⟨by decide, rfl, rfl⟩
  ⟨⟨rfl, rfl, rfl, rfl, rfl, rfl⟩,
    (C18_flag_protocol_order_independent twr_tag poll_waiting_state
      (round_env 0x21 1).rx_frame (fun _ => 0) false [round_env 0 0] [round_env 0x21 1]
      (round_env 0x21 1) rfl rfl rfl rfl hnt rfl rfl hpres).2.1⟩

/-- C19: timeout recovery keeps counting.  A tag in the Sync state with
`next_sequence_number = n` sends its sync frame, which carries `seq = n`; it then goes on
waiting in the PollResponse state through any interrupts and iterations in which no timeout
fires and no frame is accepted or sent.  `next_sequence_number` is `n+1` all along.  In the
iteration in which the round timeout fires, the tag forces the radio off and hands a fresh
sync frame to the radio whose `seq` is `n+1` (as an 8-bit value), which is transmitted when
the radio accepts it, and `next_sequence_number` becomes `n+2`.  The timeout reset itself never
changes `next_sequence_number`. -/
theorem C19_timeout_recovery_keeps_counting (B : TagBuild) (s : TagState) (env0 : TagEnv)
    (steps : List TagStep) (envT : TagEnv)
    (hstate : s.state = .TWR_SYNC_STATE)
    (hsent : (tag_iteration B env0 s).1.state = .TWR_POLL_RESPONSE_STATE)
    (hwait : tag_waits B (tag_iteration B env0 s).1 steps)
    (htimeout : sub_u32 envT.tick_check
        (tag_after B (tag_iteration B env0 s).1 steps).last_sync_time > B.ranging_timeout) :
    tag_step_log B s (.iteration env0) = [.sent .sync s.next_sequence_number]
      ∧ (tag_after B (tag_iteration B env0 s).1 steps).next_sequence_number
          = to_uint8 (s.next_sequence_number.val + 1)
      ∧ Event.forcetrxoff
          ∈ (tag_iteration B envT (tag_after B (tag_iteration B env0 s).1 steps)).2
      ∧ Event.starttx
            ({ (tag_after B (tag_iteration B env0 s).1 steps).sync_frame with
                sequence_number := to_uint8 (s.next_sequence_number.val + 1) }).bytes
            (sizeof_twr_base_frame_t + 2) none envT.starttx_ok
          ∈ (tag_iteration B envT (tag_after B (tag_iteration B env0 s).1 steps)).2
      ∧ tx_sequence_number
          ({ (tag_after B (tag_iteration B env0 s).1 steps).sync_frame with
              sequence_number := to_uint8 (s.next_sequence_number.val + 1) }).bytes
          = to_uint8 (s.next_sequence_number.val + 1)
      ∧ tag_step_log B (tag_after B (tag_iteration B env0 s).1 steps) (.iteration envT)
          = (if envT.starttx_ok then [.sent .sync (to_uint8 (s.next_sequence_number.val + 1))]
             else [])
      ∧ (tag_iteration B envT
          (tag_after B (tag_iteration B env0 s).1 steps)).1.next_sequence_number
          = to_uint8 (s.next_sequence_number.val + 2)
      ∧ (∀ (env : TagEnv) (t : TagState),
          (tag_timeout_check B env t).1.next_sequence_number = t.next_sequence_number) := by
  obtain ⟨f1, f2⟩ := tag_sync_iteration_log B env0 s hstate hsent
  obtain ⟨-, w2⟩ := tag_waits_seq B steps _ hsent hwait
  obtain ⟨t1, t2, t3, t4⟩ := tag_timeout_iteration_log B envT _ htimeout
  rw [w2, f2] at t1 t2 t4
  refine ⟨f1, by rw [w2, f2], t3, t4, rfl, t1, ?_, tag_timeout_check_seq B⟩
  rw [t2, to_uint8_add]

set_option maxRecDepth 100000 in
/-- Witness of C19: a tag with its counter at 254 sends the sync frame, sees the transmit-done
event and waits; 5000 ms later the timeout iteration sends a sync frame with `seq = 255`. -/
theorem C19_timeout_recovery_keeps_counting_witness :
    (tag_state_254.state = .TWR_SYNC_STATE
        ∧ (tag_iteration twr_pdoa_tag (round_env 0 0) tag_state_254).1.state
            = .TWR_POLL_RESPONSE_STATE
        ∧ tag_waits twr_pdoa_tag (tag_iteration twr_pdoa_tag (round_env 0 0) tag_state_254).1
            [.tx_done, .iteration (round_env 0 0), .iteration (round_env 0 0)]
        ∧ sub_u32 timeout_env.tick_check
            (tag_after twr_pdoa_tag (tag_iteration twr_pdoa_tag (round_env 0 0) tag_state_254).1
              [.tx_done, .iteration (round_env 0 0), .iteration (round_env 0 0)]).last_sync_time
            > twr_pdoa_tag.ranging_timeout)
      ∧ tag_step_log twr_pdoa_tag
          (tag_after twr_pdoa_tag (tag_iteration twr_pdoa_tag (round_env 0 0) tag_state_254).1
            [.tx_done, .iteration (round_env 0 0), .iteration (round_env 0 0)])
          (.iteration timeout_env)
          = (if timeout_env.starttx_ok then [.sent .sync (to_uint8 ((254 : Byte).val + 1))]
             else []) :=
  have hw : tag_waits twr_pdoa_tag (tag_iteration twr_pdoa_tag (round_env 0 0) tag_state_254).1
      [.tx_done, .iteration (round_env 0 0), .iteration (round_env 0 0)] := by
    decide
  have hT : sub_u32 timeout_env.tick_check
      (tag_after twr_pdoa_tag (tag_iteration twr_pdoa_tag (round_env 0 0) tag_state_254).1
        [.tx_done, .iteration (round_env 0 0), .iteration (round_env 0 0)]).last_sync_time
      > twr_pdoa_tag.ranging_timeout := by
    decide
  ⟨⟨rfl, by decide, hw, hT⟩,
    (C19_timeout_recovery_keeps_counting twr_pdoa_tag tag_state_254 (round_env 0 0)
      [.tx_done, .iteration (round_env 0 0), .iteration (round_env 0 0)] timeout_env rfl
      (by decide) hw hT).2.2.2.2.2.1⟩

/-- C20: delayed-transmit time.  For every 40-bit receive timestamp `r`, the 32-bit value
handed to `dwt_setdelayedtrxtime` is `((r + round_tx_delay) mod 2^40) / 256`, rounded down:
for the response of the bare tag (`round_tx_delay = 638980000`), for the response of the
telemetry tag (`round_tx_delay = 6389800000`) and for the final frame of the anchor
(`round_tx_delay = 638980000`, whatever the transmit timestamp of the poll), also when
`r + round_tx_delay` exceeds `2 ^ 40`.  The pairing block of the tag passes this value with
`rx_timestamp_poll = r` and that of the anchor with `rx_timestamp_response = r`. -/
theorem C20_delayed_tx_time (r : Nat) (hr : r < 2 ^ 40) :
    tag_response_tx_time twr_tag r = ((r + 638980000) % 2 ^ 40) / 256
      ∧ tag_response_tx_time twr_pdoa_tag r = ((r + 6389800000) % 2 ^ 40) / 256
      ∧ (∀ p, anchor_final_tx_time (anchor_final_times p r).tx_timestamp_final
          = ((r + 638980000) % 2 ^ 40) / 256)
      ∧ (∀ (B : TagBuild) (env : TagEnv) (s : TagState), s.tx_done = 2 → s.rx_done = 2 →
          s.rx_timestamp_poll = r →
          Event.starttx
              ({ s.response_frame with sequence_number := s.next_sequence_number }).bytes
              (sizeof_twr_base_frame_t + 2) (some (tag_response_tx_time B r)) env.starttx_ok
            ∈ (tag_poll_pair B env s).2)
      ∧ (∀ (env : AnchorEnv) (s : AnchorState), s.tx_done = 2 → s.new_frame = 2 →
          s.rx_timestamp_response = r →
          ∃ data, AnchorEvent.starttx data (sizeof_twr_final_frame_t + 2)
              (some (((r + 638980000) % 2 ^ 40) / 256)) env.starttx_ok
            ∈ (anchor_poll_pair env s).2) := by
  have ha : ∀ p, anchor_final_tx_time (anchor_final_times p r).tx_timestamp_final
      = ((r + 638980000) % 2 ^ 40) / 256 := by
    intro p
    unfold anchor_final_tx_time anchor_final_times
    simp only [anchor_round_tx_delay_value]
    have := delayed_time_top_bits r 638980000 (by omega)
    unfold shr_u64 at this ⊢
    unfold add_u64 at this ⊢
    rw [Nat.shiftRight_eq_div_pow] at this ⊢
    omega
  refine ⟨?_, ?_, ha, ?_, ?_⟩
  · unfold tag_response_tx_time
    rw [twr_tag_round_tx_delay]
    exact delayed_time_top_bits r 638980000 (by omega)
  · unfold tag_response_tx_time
    rw [twr_pdoa_tag_round_tx_delay]
    exact delayed_time_top_bits r 6389800000 (by omega)
  · intro B env s h1 h2 h3
    rw [← h3]
    exact tag_poll_pair_delayed_time B env s h1 h2
  · intro env s h1 h2 h3
    obtain ⟨data, hd⟩ := anchor_poll_pair_delayed_time env s h1 h2
    rw [h3, ha] at hd
    exact ⟨data, hd⟩

/-- Witness of C20: the receive timestamp `2^40 - 1`, for which the sum wraps. -/
theorem C20_delayed_tx_time_witness :
    (1099511627775 < 2 ^ 40)
      ∧ tag_response_tx_time twr_tag 1099511627775 = 2496015
      ∧ tag_response_tx_time twr_pdoa_tag 1099511627775 = 24960156
      ∧ anchor_final_tx_time (anchor_final_times 5 1099511627775).tx_timestamp_final
          = 2496015 :=
  have h := C20_delayed_tx_time 1099511627775 (by decide)
  ⟨by decide, h.1.trans (by decide), h.2.1.trans (by decide), (h.2.2.1 5).trans (by decide)⟩

/-- C21 (as stated, fails): in the telemetry tag `round_tx_delay` is
`100*1000*63898 = 6389800000`, which is not below `2 ^ 32 = 4294967296`; the reply interval
scheduled for a poll received at device time 0 is `6389799936`, not below `2 ^ 32` either. -/
theorem C21_telemetry_tag_delay_exceeds_32_bits :
    twr_pdoa_tag.round_tx_delay = 100 * 1000 * 63898
      ∧ ¬ (twr_pdoa_tag.round_tx_delay < 2 ^ 32)
      ∧ spec_scheduled_interval (tag_response_tx_time twr_pdoa_tag 0) 0 = 6389799936
      ∧ ¬ (spec_scheduled_interval (tag_response_tx_time twr_pdoa_tag 0) 0 < 2 ^ 32) := by
  decide

/-- C21 (amended): the reply delay `round_tx_delay` is `10*1000*63898 = 638980000`, below
`2 ^ 32`, in the bare tag and in the anchor; in the telemetry tag it is
`100*1000*63898 = 6389800000`, which is at least `2 ^ 32` and below `2 ^ 33`.  For a frame
received at device time `r < 2 ^ 40` the reply interval the engine schedules (delayed
transmit time minus `r`, modulo `2 ^ 40`) is at most `round_tx_delay` and less than 256 units
short of it: below `2 ^ 32` in the bare tag and the anchor, at least `2 ^ 32` in the
telemetry tag. -/
theorem C21_reply_delay_bounds (p r : Nat) (hr : r < 2 ^ 40) :
    (twr_tag.round_tx_delay = 10 * 1000 * 63898 ∧ twr_tag.round_tx_delay < 2 ^ 32)
      ∧ (anchor_round_tx_delay = 10 * 1000 * 63898 ∧ anchor_round_tx_delay < 2 ^ 32)
      ∧ (twr_pdoa_tag.round_tx_delay = 100 * 1000 * 63898
          ∧ 2 ^ 32 ≤ twr_pdoa_tag.round_tx_delay ∧ twr_pdoa_tag.round_tx_delay < 2 ^ 33)
      ∧ (spec_scheduled_interval (tag_response_tx_time twr_tag r) r ≤ 638980000
          ∧ 638980000 < spec_scheduled_interval (tag_response_tx_time twr_tag r) r + 256
          ∧ spec_scheduled_interval (tag_response_tx_time twr_tag r) r < 2 ^ 32)
      ∧ (spec_scheduled_interval
              (anchor_final_tx_time (anchor_final_times p r).tx_timestamp_final) r ≤ 638980000
          ∧ 638980000 < spec_scheduled_interval
              (anchor_final_tx_time (anchor_final_times p r).tx_timestamp_final) r + 256
          ∧ spec_scheduled_interval
              (anchor_final_tx_time (anchor_final_times p r).tx_timestamp_final) r < 2 ^ 32)
      ∧ (spec_scheduled_interval (tag_response_tx_time twr_pdoa_tag r) r ≤ 6389800000
          ∧ 6389800000 < spec_scheduled_interval (tag_response_tx_time twr_pdoa_tag r) r + 256
          ∧ 2 ^ 32 ≤ spec_scheduled_interval (tag_response_tx_time twr_pdoa_tag r) r) := by
  have b1 := scheduled_interval_bounds r 638980000 hr (by norm_num) (by norm_num)
  have b2 := scheduled_interval_bounds r 6389800000 hr (by norm_num) (by norm_num)
  refine ⟨by decide, by decide, by decide, ?_, ?_, ?_⟩
  · unfold tag_response_tx_time
    rw [twr_tag_round_tx_delay]
    omega
  · unfold anchor_final_tx_time anchor_final_times
    simp only [anchor_round_tx_delay_value]
    omega
  · unfold tag_response_tx_time
    rw [twr_pdoa_tag_round_tx_delay]
    omega

/-- Witness of C21 (amended): a poll received at the last device time before the 40-bit
counter wraps. -/
theorem C21_reply_delay_bounds_witness :
    (1099511627775 : Nat) < 2 ^ 40
      ∧ spec_scheduled_interval (tag_response_tx_time twr_tag 1099511627775) 1099511627775
          < 2 ^ 32
      ∧ 2 ^ 32
          ≤ spec_scheduled_interval (tag_response_tx_time twr_pdoa_tag 1099511627775)
              1099511627775 :=
  ⟨by decide,
    (C21_reply_delay_bounds 0 1099511627775 (by decide)).2.2.2.1.2.2,
    (C21_reply_delay_bounds 0 1099511627775 (by decide)).2.2.2.2.2.2.2⟩

/-- C22: blob framing.  For every blob the telemetry tag emits, the serial bytes are the header
line `"BLOB / <kind> / v<N> / <bytes>\n"`, a payload of exactly `<bytes>` raw bytes and the
terminating `"\n"`, as `spec_blob` defines it: `transmit_rx_diagnostics` emits the blobs
`toa v3` (43 bytes), `cir analysis ip v1`, `cir analysis sts1 v1` and `cir analysis sts2 v1`
(24 bytes each) and nothing else, `transmit_cir` emits the blob `cir v1` (12288 bytes), and
the three writes of lines 355-358, the first three outward actions of the block that ends a
round, emit the blob `twr v2` (40 bytes). -/
theorem C22_blob_framing (h : TelemetryReadings) (r : twr_result)
    (dist_mm twr_count current_rotation : Nat) (s : TagState) :
    serial_bytes (transmit_rx_diagnostics h)
        = some (spec_blob "toa" 3 ((List.ofFn h.poa_time_blob).take 43)
            ++ (spec_blob "cir analysis ip" 1 (List.ofFn h.cir_analysis_ip)
            ++ (spec_blob "cir analysis sts1" 1 (List.ofFn h.cir_analysis_sts1)
            ++ spec_blob "cir analysis sts2" 1 (List.ofFn h.cir_analysis_sts2))))
      ∧ ((List.ofFn h.poa_time_blob).take 43).length = 43
      ∧ (List.ofFn h.cir_analysis_ip).length = 24
      ∧ (List.ofFn h.cir_analysis_sts1).length = 24
      ∧ (List.ofFn h.cir_analysis_sts2).length = 24
      ∧ serial_bytes (transmit_cir h) = some (spec_blob "cir" 1 (transmit_cir_read h).content)
      ∧ (transmit_cir_read h).content.length = 12288
      ∧ serial_bytes (transmit_twr r dist_mm twr_count current_rotation)
          = some (spec_blob "twr" 2
              (meas_twr_t_bytes r.Treply1 r.Treply2 r.Tround1 r.Tround2 dist_mm twr_count
                current_rotation))
      ∧ (meas_twr_t_bytes r.Treply1 r.Treply2 r.Tround1 r.Tround2 dist_mm twr_count
            current_rotation).length = 40
      ∧ (tag_final_pair twr_pdoa_tag { s with tx_done := 2, rx_done := 2 }).2.take 3
          = [.stdio_write "BLOB / twr / v2 / 40\n",
             .twr_blob
                (tag_range s.rx_timestamp_poll s.tx_timestamp_response s.rx_timestamp_final
                  s.rx_buffer).Treply1
                (tag_range s.rx_timestamp_poll s.tx_timestamp_response s.rx_timestamp_final
                  s.rx_buffer).Treply2
                (tag_range s.rx_timestamp_poll s.tx_timestamp_response s.rx_timestamp_final
                  s.rx_buffer).Tround1
                (tag_range s.rx_timestamp_poll s.tx_timestamp_response s.rx_timestamp_final
                  s.rx_buffer).Tround2
                (tag_range s.rx_timestamp_poll s.tx_timestamp_response s.rx_timestamp_final
                  s.rx_buffer).dist_mm
                s.twr_count s.current_rotation,
             .stdio_write "\n"] := by
  refine ⟨transmit_rx_diagnostics_blobs h, ?_, List.length_ofFn _, List.length_ofFn _,
    List.length_ofFn _, transmit_cir_blob h, (transmit_cir_payload h).1,
    transmit_twr_blob r dist_mm twr_count current_rotation,
    meas_twr_t_bytes_length _ _ _ _ _ _ _,
    tag_final_pair_blob_events { s with tx_done := 2, rx_done := 2 } rfl rfl⟩
  rw [List.length_take, List.length_ofFn]
  decide

/-- C23 (defect of the code): in `transmit_cir` the destination `cir_buffer` has 12288 bytes
and the accumulator read is asked for `12288+1` bytes, which exceeds it: the read writes one
byte, the last accumulator byte (data byte 12287), past the end of the buffer.  The sibling
reads of application_pdoa.c, into a buffer of `1016*6+1` bytes, stay inside their buffer. -/
theorem C23_accumulator_read_overruns_cir_buffer (h : TelemetryReadings)
    (buffer : Fin (1016 * 6 + 1) → Byte) (dummy : Byte) (data : Nat → Byte) :
    (List.ofFn h.cir_buffer_before).length = 12288
      ∧ ¬ (12288 + 1 ≤ (List.ofFn h.cir_buffer_before).length)
      ∧ (transmit_cir_read h).past_end = [h.accumulator 12287]
      ∧ (transmit_cir_read h).past_end.length = 1
      ∧ (dwt_readaccdata (List.ofFn buffer) (1016 * 6 + 1) dummy data).past_end = []
      ∧ (dwt_readaccdata (List.ofFn buffer) (512 * 6 + 1) dummy data).past_end = [] := by
  have hl : (List.ofFn h.cir_buffer_before).length = 12288 := List.length_ofFn _
  have hb : (List.ofFn buffer).length = 1016 * 6 + 1 := List.length_ofFn _
  refine ⟨hl, by rw [hl]; decide, (transmit_cir_read_eq h).2, ?_,
    dwt_readaccdata_in_bounds _ _ _ _ (by rw [hb]),
    dwt_readaccdata_in_bounds _ _ _ _ (by rw [hb]; decide)⟩
  rw [(transmit_cir_read_eq h).2]
  rfl

/-- C24: the rotator in sweep mode.  Starting from `current_rotation = 0` and
`rotation_direction = 1`, after any number `n` of rotation steps `current_rotation` lies in
`[0, 360]`; the direction after the next step is `+1` when that step is taken at 0, `-1` when
it is taken at 360, and unchanged otherwise; the step passes that direction (`+1` or `-1`) to
`rotate_reciever`, which sets the DIR pin accordingly and gives one pulse, and changes
`current_rotation` by exactly that value; and `current_rotation` equals the signed sum of all
degrees commanded so far.  The sweep reaches 360 after 360 steps and turns there: the next
step leaves `current_rotation = 359` with direction `-1`. -/
theorem C24_rotator_sweep_mode (n : Nat) :
    (rotation_sweep_after 0).current_rotation = 0
      ∧ (rotation_sweep_after 0).rotation_direction = 1
      ∧ (rotation_sweep_after n).current_rotation ≤ 360
      ∧ (rotation_sweep_after (n + 1)).rotation_direction
          = (if (rotation_sweep_after n).current_rotation = 0 then 1
             else if (rotation_sweep_after n).current_rotation = 360 then -1
             else (rotation_sweep_after n).rotation_direction)
      ∧ rotation_sweep_command n = (rotation_sweep_after (n + 1)).rotation_direction
      ∧ (rotation_sweep_command n = 1 ∨ rotation_sweep_command n = -1)
      ∧ rotate_reciever (rotation_sweep_command n)
          = some [.dir_pin (decide (rotation_sweep_command n < 0)), .step_pin true, .sleep 40,
              .step_pin false, .sleep 40]
      ∧ ((rotation_sweep_after (n + 1)).current_rotation : Int)
          = ((rotation_sweep_after n).current_rotation : Int) + rotation_sweep_command n
      ∧ ((rotation_sweep_after n).current_rotation : Int) = spec_commanded_sum n
      ∧ (rotation_sweep_after 360).current_rotation = 360
      ∧ rotation_sweep_after 361
          = { current_rotation := 359, rotation_direction := -1, full_rotation_count := 1 } := by
  obtain ⟨hc, hd⟩ := rotation_sweep_invariant n
  obtain ⟨-, b, c, d, e⟩ := rotation_sweep_step_spec (rotation_sweep_after n) hc hd
  have hcmd : rotation_sweep_command n = 1 ∨ rotation_sweep_command n = -1 := by
    unfold rotation_sweep_command
    rw [d]
    exact b
  exact ⟨rfl, rfl, hc, c, d, hcmd, rotate_reciever_one_degree _ hcmd, e, rotation_sweep_sum n,
    rotation_sweep_turns⟩

/-- C25: the observed wire layout of the embedded times.  For every 64-bit value `x` the bytes
of the field at indices 0, 1, 2, 3 are the low bytes of `x`, `x >> 8`, `x >> 16` and
`x >> 32`, and the byte at index 4 is not written; two values that differ only in bits 24..31
give the same field; a field whose byte 4 is 0 (the template `zero_field` in particular) is
decoded by the tag as `(x mod 2^24) + ((x >> 32) mod 256) * 2^24`.  Through every run of the
anchor from its initial state the byte at index 4 of both time fields of `final_frame` keeps
the template's 0. -/
theorem C25_embedded_time_wire_layout (x : Nat) (field : Fin 5 → Byte)
    (steps : List AnchorStep) (hx : x < 2 ^ 64) :
    (embed_time field x 0 = to_uint8 x
        ∧ embed_time field x 1 = to_uint8 (x / 2 ^ 8)
        ∧ embed_time field x 2 = to_uint8 (x / 2 ^ 16)
        ∧ embed_time field x 3 = to_uint8 (x / 2 ^ 32)
        ∧ embed_time field x 4 = field 4)
      ∧ (∀ y : Nat, y < 2 ^ 64 → y % 2 ^ 24 = x % 2 ^ 24 → y / 2 ^ 32 = x / 2 ^ 32 →
          embed_time field y = embed_time field x)
      ∧ decode_40bit_timestamp (embed_time zero_field x)
          = x % 2 ^ 24 + (x / 2 ^ 32) % 256 * 2 ^ 24
      ∧ (field 4 = 0 →
          decode_40bit_timestamp (embed_time field x)
            = x % 2 ^ 24 + (x / 2 ^ 32) % 256 * 2 ^ 24)
      ∧ (anchor_initial_state.final_frame.poll_resp_round_time = zero_field
          ∧ anchor_initial_state.final_frame.resp_final_reply_time = zero_field)
      ∧ ((anchor_after anchor_initial_state steps).final_frame.poll_resp_round_time 4 = 0
          ∧ (anchor_after anchor_initial_state steps).final_frame.resp_final_reply_time 4
            = 0) := by
  refine ⟨embed_time_bytes field x hx,
    fun y hy h1 h2 => embed_time_ext field field y x hy hx rfl h1 h2,
    decode_embed_time zero_field x hx rfl, decode_embed_time field x hx, ⟨rfl, rfl⟩, ?_⟩
  obtain ⟨a, b⟩ := anchor_after_field_tops steps anchor_initial_state
  rw [a, b]
  exact ⟨rfl, rfl⟩

/-- Witness of C25: the value `2^40 - 1`, all of whose low 40 bits are set, embedded in the
zero field; the tag decodes `2^32 - 1`. -/
theorem C25_embedded_time_wire_layout_witness :
    (1099511627775 : Nat) < 2 ^ 64
      ∧ embed_time zero_field 1099511627775 3 = to_uint8 (1099511627775 / 2 ^ 32)
      ∧ embed_time zero_field 1099511627775 4 = zero_field 4
      ∧ decode_40bit_timestamp (embed_time zero_field 1099511627775)
          = 1099511627775 % 2 ^ 24 + (1099511627775 / 2 ^ 32) % 256 * 2 ^ 24 :=
  ⟨by decide,
    (C25_embedded_time_wire_layout 1099511627775 zero_field [] (by decide)).1.2.2.2.1,
    (C25_embedded_time_wire_layout 1099511627775 zero_field [] (by decide)).1.2.2.2.2,
    (C25_embedded_time_wire_layout 1099511627775 zero_field [] (by decide)).2.2.1⟩

/-- C26: for every value of `rx_timestamp_response` (and of `tx_timestamp_poll`) the `Treply2`
the anchor computes is the constant `round_tx_delay = 638980000`: the planned transmit time is
`rx_timestamp_response + round_tx_delay` modulo `2 ^ 64`, and the wrap-around cancels in the
subtraction.  The block that sends the final frame embeds this value in the reply-time field
and stores the planned time in `tx_timestamp_final`; the frame it builds does not depend on
anything the radio answers in that iteration (`env` against `env2`), the transmit timestamp
among them. -/
theorem C26_anchor_reply_time_is_round_tx_delay (env env2 : AnchorEnv) (s : AnchorState)
    (h1 : s.tx_done = 2) (h2 : s.new_frame = 2) :
    anchor_round_tx_delay = 638980000
      ∧ (∀ p r : Nat, (anchor_final_times p r).Treply2 = 638980000
          ∧ (anchor_final_times p r).tx_timestamp_final = (r + 638980000) % 2 ^ 64)
      ∧ (anchor_poll_pair env s).1.final_frame.resp_final_reply_time
          = embed_time s.final_frame.resp_final_reply_time 638980000
      ∧ (anchor_poll_pair env s).1.tx_timestamp_final
          = (s.rx_timestamp_response + 638980000) % 2 ^ 64
      ∧ (anchor_poll_pair env s).1.final_frame = (anchor_poll_pair env2 s).1.final_frame := by
  obtain ⟨f1, -, f3⟩ := anchor_poll_pair_reply_field env s h1 h2
  have c := anchor_reply_time_constant s.tx_timestamp_poll s.rx_timestamp_response
  refine ⟨anchor_round_tx_delay_value, anchor_reply_time_constant, ?_, ?_,
    anchor_poll_pair_frame_env env env2 s⟩
  · rw [f1, c.1]
  · rw [f3, c.2]

/-- Witness of C26: an anchor whose response arrived at the last device time before the
40-bit counter wraps. -/
theorem C26_anchor_reply_time_is_round_tx_delay_witness :
    (anchor_paired_state.tx_done = 2 ∧ anchor_paired_state.new_frame = 2)
      ∧ (anchor_poll_pair (anchor_round_env 0 0)
            anchor_paired_state).1.final_frame.resp_final_reply_time
          = embed_time anchor_paired_state.final_frame.resp_final_reply_time 638980000
      ∧ (anchor_poll_pair (anchor_round_env 0 0) anchor_paired_state).1.tx_timestamp_final
          = (1099511627775 + 638980000) % 2 ^ 64 :=
  ⟨by decide,
    (C26_anchor_reply_time_is_round_tx_delay (anchor_round_env 0 0) (anchor_round_env 0 0)
      anchor_paired_state (by decide) (by decide)).2.2.1,
    (C26_anchor_reply_time_is_round_tx_delay (anchor_round_env 0 0) (anchor_round_env 0 0)
      anchor_paired_state (by decide) (by decide)).2.2.2.1⟩

/-- C27: the double-sided formula recovers the time of flight exactly.  For all reply times
`Treply1`, `Treply2` and every `t` with `Tround1 = Treply1 + 2t`, `Tround2 = Treply2 + 2t`,
when neither the product `Tround1*Tround2` nor the sum of the four times overflows 64 bits and
the sum is positive, the tag's `subtraction` equals `t` times its `denominator`, the
denominator is the sum of the four times, and the integer quotient is `t`. -/
theorem C27_double_sided_formula_exact (Treply1 Treply2 t : Nat)
    (hmul : (Treply1 + 2 * t) * (Treply2 + 2 * t) < 2 ^ 64)
    (hsum : (Treply1 + 2 * t) + (Treply2 + 2 * t) + Treply1 + Treply2 < 2 ^ 64)
    (hden : 0 < (Treply1 + 2 * t) + (Treply2 + 2 * t) + Treply1 + Treply2) :
    range_subtraction Treply1 Treply2 (Treply1 + 2 * t) (Treply2 + 2 * t)
        = t * range_denominator Treply1 Treply2 (Treply1 + 2 * t) (Treply2 + 2 * t)
      ∧ range_denominator Treply1 Treply2 (Treply1 + 2 * t) (Treply2 + 2 * t)
        = (Treply1 + 2 * t) + (Treply2 + 2 * t) + Treply1 + Treply2
      ∧ range_subtraction Treply1 Treply2 (Treply1 + 2 * t) (Treply2 + 2 * t)
          / range_denominator Treply1 Treply2 (Treply1 + 2 * t) (Treply2 + 2 * t) = t := by
  obtain ⟨e1, e2⟩ := range_of_flight_time Treply1 Treply2 t hmul hsum
  refine ⟨by rw [e1, e2], e2, ?_⟩
  rw [e1, e2]
  exact Nat.mul_div_cancel t hden

/-- Witness of C27: reply times of 10 ms and 100 ms and a flight time of 213 units (one
metre). -/
theorem C27_double_sided_formula_exact_witness :
    range_subtraction 6389800000 638980000 (6389800000 + 2 * 213) (638980000 + 2 * 213)
        / range_denominator 6389800000 638980000 (6389800000 + 2 * 213) (638980000 + 2 * 213)
      = 213 :=
  (C27_double_sided_formula_exact 6389800000 638980000 213 (by norm_num) (by norm_num)
    (by norm_num)).2.2

set_option maxRecDepth 100000 in
/-- C28 (as stated, fails): reply times of 10 ms (`638980000`) and round times of `2^32 - 1`
satisfy the hypotheses of the claim, yet the exact value `num / (den * 64) * 299.792458` is
not below `2 ^ 32`, and the conversion to `dist_mm` has no defined value. -/
theorem C28_long_round_exceeds_32_bits :
    ((0 < 638980000 ∧ 638980000 < 2 ^ 32) ∧ (0 < 4294967295 ∧ 4294967295 < 2 ^ 32)
        ∧ 638980000 * 638980000 ≤ 4294967295 * 4294967295)
      ∧ ¬ (spec_range_exact 638980000 638980000 4294967295 4294967295 < 2 ^ 32)
      ∧ range_dist_mm 638980000 638980000 4294967295 4294967295 = none := by
  refine ⟨by decide, ?_, by decide⟩
  norm_num [spec_range_exact]

/-- C28 (amended): for all `Treply1`, `Treply2`, `Tround1`, `Tround2` with `0 < each < 2^32`
and `Tround1*Tround2 ≥ Treply1*Treply2`, the exact value `num / (den * 64) * 299.792458` is
non-negative and below `2 ^ 34`.  When in addition `Tround1 + Tround2 ≤ 2 ^ 31`, it is below
`2 ^ 32` and the conversion to the unsigned 32-bit `dist_mm` is in range. -/
theorem C28_range_fits_for_short_rounds (Treply1 Treply2 Tround1 Tround2 : Nat)
    (p1 : 0 < Treply1) (p2 : 0 < Treply2) (p3 : 0 < Tround1) (p4 : 0 < Tround2)
    (h1 : Treply1 < 2 ^ 32) (h2 : Treply2 < 2 ^ 32) (h3 : Tround1 < 2 ^ 32)
    (h4 : Tround2 < 2 ^ 32) (h : Treply1 * Treply2 ≤ Tround1 * Tround2) :
    0 ≤ spec_range_exact Treply1 Treply2 Tround1 Tround2
      ∧ spec_range_exact Treply1 Treply2 Tround1 Tround2 < 2 ^ 34
      ∧ (Tround1 + Tround2 ≤ 2 ^ 31 →
          spec_range_exact Treply1 Treply2 Tround1 Tround2 < 2 ^ 32
            ∧ ∃ n, range_dist_mm Treply1 Treply2 Tround1 Tround2 = some n ∧ n < 2 ^ 32) := by
  obtain ⟨lo, hi⟩ := spec_range_exact_le Treply1 Treply2 Tround1 Tround2 p3 h
  have s3 : (Tround1 : ℚ) < 2 ^ 32 := by exact_mod_cast h3
  have s4 : (Tround2 : ℚ) < 2 ^ 32 := by exact_mod_cast h4
  refine ⟨lo, ?_, ?_⟩
  · have : ((Tround1 : ℚ) + Tround2) / 256 * (299792458 / 1000000) < 2 ^ 34 := by
      norm_num
      linarith
    linarith
  · intro hs
    have s5 : (Tround1 : ℚ) + Tround2 ≤ 2 ^ 31 := by exact_mod_cast hs
    have hV : spec_range_exact Treply1 Treply2 Tround1 Tround2 ≤ 2514841697 := by
      have : ((Tround1 : ℚ) + Tround2) / 256 * (299792458 / 1000000) ≤ 2514841697 := by
        norm_num
        linarith
      linarith
    obtain ⟨-, -, -, -, e5⟩ := range_integers_no_wrap _ _ _ _ h1 h2 h3 h4 h
    have hden : shl_u64 (range_denominator Treply1 Treply2 Tround1 Tround2) 6 ≠ 0 := by
      rw [e5]; omega
    obtain ⟨p, hp, hpd, -, hhi⟩ := range_product_close _ _ _ _ hden
    rw [range_exact_eq_spec _ _ _ _ h1 h2 h3 h4 h] at hhi
    have hP : p.toRat < ((2 ^ 32 : Nat) : ℚ) := by
      push_cast
      have : spec_range_exact Treply1 Treply2 Tround1 Tround2 * (1 + 1 / 2 ^ 23)
          ≤ 2514841697 * (1 + 1 / 2 ^ 23) :=
        mul_le_mul_of_nonneg_right hV (by norm_num)
      have : (2514841697 : ℚ) * (1 + 1 / 2 ^ 23) < 2 ^ 32 := by norm_num
      linarith
    have hfl : ⌊p.toRat⌋₊ < 2 ^ 32 := (Nat.floor_lt (toRat_nonneg p)).mpr hP
    refine ⟨by linarith [show (2514841697 : ℚ) < 2 ^ 32 by norm_num], ⌊p.toRat⌋₊, ?_, hfl⟩
    unfold range_dist_mm
    rw [hp]
    show u32_of_double p = _
    rw [u32_of_double_floor p hpd, if_pos hfl]

set_option maxRecDepth 100000 in
/-- Witness of C28 (amended): the round at one metre with 10 ms reply times. -/
theorem C28_range_fits_for_short_rounds_witness :
    ((0 < 638980000 ∧ 638980000 < 2 ^ 32) ∧ (0 < 638980426 ∧ 638980426 < 2 ^ 32)
        ∧ 638980000 * 638980000 ≤ 638980426 * 638980426
        ∧ 638980426 + 638980426 ≤ 2 ^ 31)
      ∧ spec_range_exact 638980000 638980000 638980426 638980426 < 2 ^ 32
      ∧ ∃ n, range_dist_mm 638980000 638980000 638980426 638980426 = some n ∧ n < 2 ^ 32 :=
  ⟨by decide,
    (C28_range_fits_for_short_rounds 638980000 638980000 638980426 638980426
      (by decide) (by decide) (by decide) (by decide) (by decide) (by decide) (by decide)
      (by decide) (by decide)).2.2 (by decide)⟩

/-- C29 (defect of the code): the payload of the `cir` blob is the content of `cir_buffer`
after a read of `12288+1` bytes into its 12288 bytes.  Payload byte 0 is the dummy byte, and
payload byte `i + 1` is accumulator data byte `i` for `i` in `0..12286`: payload byte `i`
equals byte `i` of what the read delivered, not byte `i + 1`.  The last data byte (12287) is
not in the payload; it is the byte written past the end of the buffer.  With the dummy byte
`0xFF` and data bytes `0, 1, 2, ...` payload byte 0 is `0xFF` and payload byte 1 is `0`, where
delivered byte 1 is `0` and delivered byte 2 is `1`. -/
theorem C29_cir_payload_starts_with_dummy_byte (h : TelemetryReadings) :
    serial_bytes (transmit_cir h) = some (spec_blob "cir" 1 (transmit_cir_read h).content)
      ∧ (transmit_cir_read h).content.length = 12288
      ∧ (transmit_cir_read h).content[0]? = some h.accumulator_dummy
      ∧ (∀ i : Fin 12287, (transmit_cir_read h).content[i.val + 1]? = some (h.accumulator i.val))
      ∧ (transmit_cir_read h).past_end = [h.accumulator 12287]
      ∧ ((transmit_cir_read sample_readings).content[0]? = some 0xFF
          ∧ (transmit_cir_read sample_readings).content[1]? = some 0
          ∧ sample_readings.accumulator 0 = 0 ∧ sample_readings.accumulator 1 = 1) := by
  obtain ⟨a, b, c⟩ := transmit_cir_payload h
  obtain ⟨-, b0, c0⟩ := transmit_cir_payload sample_readings
  exact ⟨transmit_cir_blob h, a, b, fun i => c i.val i.isLt, (transmit_cir_read_eq h).2,
    b0, c0 0 (by decide), rfl, rfl⟩

/-- C30 (as stated, fails): the tag sent its sync at tick `4294967295` and the next iteration
reads tick `0`: the tick counter has overflowed (`now < last_sync_time`).  The difference the
timeout check computes is 1, not above `ranging_timeout`, and no reset is performed in either
build: the line `Timeout -> reset` is not written, `last_sync_time` is unchanged and the tag
stays in the PollResponse state. -/
theorem C30_tick_wrap_without_timeout :
    (round_env 0 0).tick_check < tick_wrap_state.last_sync_time
      ∧ tick_wrap_state.last_sync_time < 2 ^ 32
      ∧ sub_u32 (round_env 0 0).tick_check tick_wrap_state.last_sync_time = 1
      ∧ Event.stdio_write "Timeout -> reset\n"
          ∉ (tag_iteration twr_pdoa_tag (round_env 0 0) tick_wrap_state).2
      ∧ Event.stdio_write "Timeout -> reset\n"
          ∉ (tag_iteration twr_tag (round_env 0 0) tick_wrap_state).2
      ∧ (tag_iteration twr_pdoa_tag (round_env 0 0) tick_wrap_state).1.last_sync_time
          = 4294967295
      ∧ (tag_iteration twr_pdoa_tag (round_env 0 0) tick_wrap_state).1.state
          = .TWR_POLL_RESPONSE_STATE := by
  refine ⟨by decide, by decide, by decide, ?_, ?_, by decide, by decide⟩
  · exact (tag_iteration_timeout_line _ _ _).not.mpr (by decide)
  · exact (tag_iteration_timeout_line _ _ _).not.mpr (by decide)

/-- C30 (amended): for every pair of 32-bit tick values with `now < last_sync_time` (the tick
counter has overflowed since the sync) the subtraction of the timeout check wraps to
`now + 2^32 - last_sync_time`, which is the number of ticks elapsed since `last_sync_time`
modulo `2 ^ 32`; the timeout reset is performed exactly when that value exceeds
`ranging_timeout`, as without an overflow, and otherwise the iteration is the branch of the
current state. -/
theorem C30_tick_wrap_timeout_iff (B : TagBuild) (env : TagEnv) (s : TagState)
    (hlast : s.last_sync_time < 2 ^ 32) (hwrap : env.tick_check < s.last_sync_time) :
    sub_u32 env.tick_check s.last_sync_time = env.tick_check + 2 ^ 32 - s.last_sync_time
      ∧ (∀ elapsed : Nat, env.tick_check = (s.last_sync_time + elapsed) % 2 ^ 32 →
          sub_u32 env.tick_check s.last_sync_time = elapsed % 2 ^ 32)
      ∧ (Event.stdio_write "Timeout -> reset\n" ∈ (tag_iteration B env s).2
          ↔ env.tick_check + 2 ^ 32 - s.last_sync_time > B.ranging_timeout)
      ∧ (env.tick_check + 2 ^ 32 - s.last_sync_time > B.ranging_timeout →
          tag_timeout_check B env s
            = ({ spec_timeout_reset s with last_sync_time := env.tick_reset },
               [.forcetrxoff, .stdio_write "Timeout -> reset\n"]))
      ∧ (env.tick_check + 2 ^ 32 - s.last_sync_time ≤ B.ranging_timeout →
          tag_timeout_check B env s = (s, [])
            ∧ tag_iteration B env s = tag_branch B env s) := by
  have e := sub_u32_wrapped env.tick_check s.last_sync_time hwrap hlast
  refine ⟨e, fun elapsed h => sub_u32_elapsed _ _ _ h, ?_, ?_, ?_⟩
  · rw [← e]
    exact tag_iteration_timeout_line B env s
  · intro h
    rw [← e] at h
    exact tag_timeout_check_fires B env s h
  · intro h
    rw [← e] at h
    exact ⟨tag_timeout_check_idle B env s h, tag_iteration_no_timeout B env s h⟩

/-- Witness of C30 (amended): the sync was sent at tick `4294967295` and the iteration reads
tick `5000`; the difference is `5001` and the reset is performed. -/
theorem C30_tick_wrap_timeout_iff_witness :
    (tick_wrap_state.last_sync_time < 2 ^ 32
        ∧ timeout_env.tick_check < tick_wrap_state.last_sync_time)
      ∧ sub_u32 timeout_env.tick_check tick_wrap_state.last_sync_time = 5001
      ∧ Event.stdio_write "Timeout -> reset\n"
          ∈ (tag_iteration twr_pdoa_tag timeout_env tick_wrap_state).2 :=
  ⟨by decide,
    (C30_tick_wrap_timeout_iff twr_pdoa_tag timeout_env tick_wrap_state (by decide)
      (by decide)).1,
    (C30_tick_wrap_timeout_iff twr_pdoa_tag timeout_env tick_wrap_state (by decide)
      (by decide)).2.2.1.mpr (by decide)⟩

end UWB
